import Mathlib

/-!
# Empire object engine (`object.c`): model and verified properties

A shallow embedding of `src/csrc/object.c` together with the globals of
`src/globals.c`.  Pointers into the `object[]` pool are indices
(`Option Nat`, `none` being `NULL`); arrays are total functions; every C
statement that writes memory becomes a functional update, performed in the
order of the source.  Loops that follow list links carry an explicit fuel
argument and report `Fault.out_of_fuel` when it is exhausted; `ASSERT` and
`ABORT` report `Fault.assert_failed`.

The header `extern.h` (constants, tables, the `LINK`/`UNLINK`/`MAP`/`LIST`
macros, the record types) is not part of the sources at hand.  Its constants
and tables are collected in the parameter `Env`; its macros are modelled
below and marked as such.
-/


namespace Empire

/-! ## Data model -/

/-- A pointer to a record of a pool: an index, or `none` for `NULL`. -/
abbrev Ptr := Option Nat

/-- Why a run of the model stopped without a result. -/
inductive Fault where
  | assert_failed
  | out_of_fuel
deriving DecidableEq, Repr

/-- The pair of links of one intrusive doubly linked list. -/
structure link_t where
  next : Ptr
  prev : Ptr
deriving DecidableEq, Repr

/-- The three link fields of a piece record. -/
inductive LinkSel where
  | piece_link
  | loc_link
  | cargo_link
deriving DecidableEq, Repr

/-- Static attributes of a kind of piece (one entry of `piece_attr[]`). -/
structure piece_attr_t where
  sname : Char
  terrain : List Char
  build_time : Int
  strength : Int
  max_hits : Int
  speed : Int
  capacity : Int
  range : Int

/-- A piece record (one entry of `object[]`). -/
structure piece_info_t where
  piece_link : link_t
  loc_link : link_t
  cargo_link : link_t
  owner : Int
  type : Int
  loc : Int
  func : Int
  hits : Int
  moved : Int
  ship : Ptr
  cargo : Ptr
  count : Int
  range : Int

/-- A city record (one entry of `city[]`). -/
structure city_info_t where
  loc : Int
  owner : Int
  func : Int → Int
  work : Int
  prod : Int

/-- A cell of the real map. -/
structure real_map_t where
  contents : Char
  on_board : Bool
  cityp : Ptr
  objp : Ptr

/-- A cell of a player's view map. -/
structure view_map_t where
  contents : Char
  seen : Int

/-- The constants and tables that `object.c` takes from its header and from
the data tables, none of which is among the sources: they are parameters of
the model. -/
structure Env where
  piece_attr : Int → piece_attr_t
  dir_offset : Int → Int
  NUM_OBJECTS : Int
  LIST_SIZE : Nat
  MAP_SIZE : Int
  ARMY : Int
  FIGHTER : Int
  TRANSPORT : Int
  CARRIER : Int
  SATELLITE : Int
  UNOWNED : Int
  USER : Int
  COMP : Int
  NOFUNC : Int
  NOPIECE : Int
  MOVE_NE : Int
  MOVE_NW : Int
  MOVE_SE : Int
  MOVE_SW : Int
  MOVE_DIR : Int → Int
  MAP_CITY : Char

/-- The object pool as a total function on indices. -/
abbrev Heap := Nat → piece_info_t

/-- The global state of `globals.c` that `object.c` reads and writes. -/
structure World where
  map : Int → real_map_t
  comp_map : Int → view_map_t
  user_map : Int → view_map_t
  city : Nat → city_info_t
  free_list : Ptr
  user_obj : Int → Ptr
  comp_obj : Int → Ptr
  object : Heap
  date : Int

/-- Which of the two owner tables (`user_obj`, `comp_obj`) a `list` pointer
designates. -/
inductive ListSel where
  | user
  | comp
deriving DecidableEq, Repr

/-- Which of the two view maps a `vmap` pointer designates. -/
inductive VMapSel where
  | user
  | comp
deriving DecidableEq, Repr

/-- Array store `a[i] = v`. -/
def upd {α β : Type} [DecidableEq α] (a : α → β) (i : α) (v : β) : α → β :=
  fun j => if j = i then v else a j

/-! ## Link access and the list macros -/

/-- Read the link field selected by `k`. -/
def getL (k : LinkSel) (p : piece_info_t) : link_t :=
  match k with
  | .piece_link => p.piece_link
  | .loc_link => p.loc_link
  | .cargo_link => p.cargo_link

/-- Write the link field selected by `k`. -/
def setL (k : LinkSel) (p : piece_info_t) (l : link_t) : piece_info_t :=
  match k with
  | .piece_link => { p with piece_link := l }
  | .loc_link => { p with loc_link := l }
  | .cargo_link => { p with cargo_link := l }

/-- Store `x->list.next = v`. -/
def setNext (k : LinkSel) (o : Heap) (x : Nat) (v : Ptr) : Heap :=
  upd o x (setL k (o x) { getL k (o x) with next := v })

/-- Store `x->list.prev = v`. -/
def setPrev (k : LinkSel) (o : Heap) (x : Nat) (v : Ptr) : Heap :=
  upd o x (setL k (o x) { getL k (o x) with prev := v })

/-- The guarded store `if (p) p->list.next = v`. -/
def setNextAt (k : LinkSel) (o : Heap) (p : Ptr) (v : Ptr) : Heap :=
  match p with
  | some x => setNext k o x v
  | none => o

/-- The guarded store `if (p) p->list.prev = v`. -/
def setPrevAt (k : LinkSel) (o : Heap) (p : Ptr) (v : Ptr) : Heap :=
  match p with
  | some x => setPrev k o x v
  | none => o

/-- Modelled from the spec: the `LINK(head, obj, list)` macro of the absent
header, which splices `obj` in at the front of the intrusive doubly linked
list starting at `head`: `obj->list.prev = NULL; obj->list.next = head;
if (head) head->list.prev = obj; head = obj`.  This is its effect on the
pool, given the value of `head`; it returns the new pool and the new value of
`head`. -/
def LINK_heap (k : LinkSel) (o : Heap) (head : Ptr) (obj : Nat) : Heap × Ptr :=
  let o1 := setPrev k o obj none
  let o2 := setNext k o1 obj head
  let o3 := setPrevAt k o2 head (some obj)
  (o3, some obj)

/-- Modelled from the spec: the `UNLINK(head, obj, list)` macro of the absent
header, which splices `obj` out of the intrusive doubly linked list starting
at `head`: `if (obj->list.next) obj->list.next->list.prev = obj->list.prev;
if (obj->list.prev) obj->list.prev->list.next = obj->list.next; else head =
obj->list.next; obj->list.next = NULL; obj->list.prev = NULL`.  This is its
effect on the pool, given the value of `head`; it returns the new pool and
the new value of `head`. -/
def UNLINK_heap (k : LinkSel) (o : Heap) (head : Ptr) (obj : Nat) : Heap × Ptr :=
  let o1 := setPrevAt k o (getL k (o obj)).next (getL k (o obj)).prev
  let head1 := if (getL k (o1 obj)).prev = none then (getL k (o1 obj)).next else head
  let o2 := setNextAt k o1 (getL k (o1 obj)).prev (getL k (o1 obj)).next
  let o3 := setNext k o2 obj none
  let o4 := setPrev k o3 obj none
  (o4, head1)

/-- Modelled from the spec: the `LIST(owner)` macro of the absent header,
`owner == USER ? user_obj : comp_obj`. -/
def LIST (E : Env) (owner : Int) : ListSel :=
  if owner = E.USER then .user else .comp

/-- Modelled from the spec: the `MAP(owner)` macro of the absent header,
`owner == USER ? user_map : comp_map`. -/
def MAP (E : Env) (owner : Int) : VMapSel :=
  if owner = E.USER then .user else .comp

/-- The lists threaded through `piece_link`: the free list and the lists
`user_obj[t]`, `comp_obj[t]`. -/
inductive PIdx where
  | free
  | user (t : Int)
  | comp (t : Int)
deriving DecidableEq

/-- The list `list[t]`. -/
def pidx (list : ListSel) (t : Int) : PIdx :=
  match list with
  | .user => .user t
  | .comp => .comp t

/-- The head of a `piece_link` list. -/
def pieceHead (w : World) : PIdx → Ptr
  | .free => w.free_list
  | .user t => w.user_obj t
  | .comp t => w.comp_obj t

/-- The head of the location list of a cell, `map[c].objp`. -/
def cellHead (w : World) (c : Int) : Ptr := (w.map c).objp

/-- The head of the cargo list of a record, `x->cargo`. -/
def cargoHead (w : World) (x : Nat) : Ptr := (w.object x).cargo

/-- The places that hold the head of a list: `free_list`, `user_obj[t]`,
`comp_obj[t]`; `map[c].objp`; `x->cargo`. -/
inductive HeadRef where
  | piece (i : PIdx)
  | objp (c : Int)
  | cargo (x : Nat)

/-- Read a list head. -/
def getHead (w : World) : HeadRef → Ptr
  | .piece i => pieceHead w i
  | .objp c => cellHead w c
  | .cargo x => cargoHead w x

/-- Store a list head. -/
def setHead (w : World) (r : HeadRef) (v : Ptr) : World :=
  match r with
  | .piece .free => { w with free_list := v }
  | .piece (.user t) => { w with user_obj := upd w.user_obj t v }
  | .piece (.comp t) => { w with comp_obj := upd w.comp_obj t v }
  | .objp c => { w with map := upd w.map c { w.map c with objp := v } }
  | .cargo x => { w with object := upd w.object x { w.object x with cargo := v } }

/-- Modelled from the spec: the macro call `LINK(head, obj, list)` of the
absent header, `head` being the place `r`. -/
def LINK (w : World) (r : HeadRef) (obj : Nat) (list : LinkSel) : World :=
  setHead { w with object := (LINK_heap list w.object (getHead w r) obj).1 } r
    (LINK_heap list w.object (getHead w r) obj).2

/-- Modelled from the spec: the macro call `UNLINK(head, obj, list)` of the
absent header, `head` being the place `r`. -/
def UNLINK (w : World) (r : HeadRef) (obj : Nat) (list : LinkSel) : World :=
  setHead { w with object := (UNLINK_heap list w.object (getHead w r) obj).1 } r
    (UNLINK_heap list w.object (getHead w r) obj).2

/-- Store a whole record, `object[x] = p`. -/
def setPiece (w : World) (x : Nat) (p : piece_info_t) : World :=
  { w with object := upd w.object x p }

/-- Read `vmap[loc]`. -/
def getView (w : World) (v : VMapSel) (loc : Int) : view_map_t :=
  match v with
  | .user => w.user_map loc
  | .comp => w.comp_map loc

/-- Store `vmap[loc] = c`. -/
def setView (w : World) (v : VMapSel) (loc : Int) (c : view_map_t) : World :=
  match v with
  | .user => { w with user_map := upd w.user_map loc c }
  | .comp => { w with comp_map := upd w.comp_map loc c }

/-! ## `object.c` -/

/-- Function `find_city`: the city of a cell. -/
def find_city (w : World) (loc : Int) : Ptr := (w.map loc).cityp

/-- Function `obj_moves`: `(speed * hits + max_hits - 1) / max_hits` in C integer
arithmetic (division truncates toward zero). -/
def obj_moves (E : Env) (obj : piece_info_t) : Int :=
  Int.tdiv ((E.piece_attr obj.type).speed * obj.hits + (E.piece_attr obj.type).max_hits - 1)
    (E.piece_attr obj.type).max_hits

/-- Function `obj_capacity`: `(capacity * hits + max_hits - 1) / max_hits` in C integer
arithmetic (division truncates toward zero). -/
def obj_capacity (E : Env) (obj : piece_info_t) : Int :=
  Int.tdiv ((E.piece_attr obj.type).capacity * obj.hits + (E.piece_attr obj.type).max_hits - 1)
    (E.piece_attr obj.type).max_hits

/-- Function `find_obj`: the first piece of kind `type` in the location list of
`loc`. -/
def find_obj_loop (o : Heap) (type : Int) : Nat → Ptr → Except Fault Ptr
  | _, none => .ok none
  | 0, some _ => .error .out_of_fuel
  | fuel + 1, some p =>
    if (o p).type = type then .ok (some p)
    else find_obj_loop o type fuel (o p).loc_link.next

/-- Function `find_obj(type, loc)`. -/
def find_obj (fuel : Nat) (w : World) (type : Int) (loc : Int) : Except Fault Ptr :=
  find_obj_loop w.object type fuel (w.map loc).objp

/-- The loop of `find_nfull`: the first piece `p` on the chain with
`p->type == type` and `obj_capacity(p) > p->count`. -/
def find_nfull_loop (E : Env) (o : Heap) (type : Int) : Nat → Ptr → Except Fault Ptr
  | _, none => .ok none
  | 0, some _ => .error .out_of_fuel
  | fuel + 1, some p =>
    if (o p).type = type ∧ obj_capacity E (o p) > (o p).count then .ok (some p)
    else find_nfull_loop E o type fuel (o p).loc_link.next

/-- Function `find_nfull(type, loc)`: a non-full piece of the given kind at `loc`. -/
def find_nfull (E : Env) (fuel : Nat) (w : World) (type : Int) (loc : Int) :
    Except Fault Ptr :=
  find_nfull_loop E w.object type fuel (w.map loc).objp

/-- The loop of `find_transport` over the directions `i, i+1, ...` (`n` of
them). -/
def find_transport_loop (E : Env) (fuel : Nat) (w : World) (owner : Int) (loc : Int) :
    Nat → Int → Except Fault Int
  | 0, _ => .ok loc
  | n + 1, i =>
    match find_nfull E fuel w E.TRANSPORT (loc + E.dir_offset i) with
    | .error e => .error e
    | .ok (some t) =>
      if (w.object t).owner = owner then .ok (loc + E.dir_offset i)
      else find_transport_loop E fuel w owner loc n (i + 1)
    | .ok none => find_transport_loop E fuel w owner loc n (i + 1)

/-- Function `find_transport(owner, loc)`. -/
def find_transport (E : Env) (fuel : Nat) (w : World) (owner : Int) (loc : Int) :
    Except Fault Int :=
  find_transport_loop E fuel w owner loc 8 0

/-- The loop of `find_obj_at_loc`: `best` is replaced by a later piece of
strictly higher kind unless that piece is a satellite. -/
def find_obj_at_loc_loop (E : Env) (o : Heap) : Nat → Ptr → Nat → Except Fault Ptr
  | _, none, best => .ok (some best)
  | 0, some _, _ => .error .out_of_fuel
  | fuel + 1, some p, best =>
    find_obj_at_loc_loop E o fuel (o p).loc_link.next
      (if (o p).type > (o best).type ∧ (o p).type ≠ E.SATELLITE then p else best)

/-- Function `find_obj_at_loc(loc)`. -/
def find_obj_at_loc (E : Env) (fuel : Nat) (w : World) (loc : Int) : Except Fault Ptr :=
  match (w.map loc).objp with
  | none => .ok none
  | some best => find_obj_at_loc_loop E w.object fuel (w.object best).loc_link.next best

/-- Function `disembark(obj)`: if `obj` is on a ship, take it off the ship's cargo
list. -/
def disembark (w : World) (obj : Nat) : World :=
  match (w.object obj).ship with
  | none => w
  | some s =>
    let w1 := UNLINK w (.cargo s) obj .cargo_link
    let w2 := setPiece w1 s { w1.object s with count := (w1.object s).count - 1 }
    setPiece w2 obj { w2.object obj with ship := none }

/-- Function `embark(ship, obj)`: put `obj` on the cargo list of `ship`. -/
def embark (w : World) (ship : Nat) (obj : Nat) : World :=
  let w1 := setPiece w obj { w.object obj with ship := some ship }
  let w2 := LINK w1 (.cargo ship) obj .cargo_link
  setPiece w2 ship { w2.object ship with count := (w2.object ship).count + 1 }

/-- Function `kill_one(list, obj)`: unlink `obj` from its owner-type list and its
location list, take it off its ship, put it on the free list and mark it
dead. -/
def kill_one (E : Env) (w : World) (list : ListSel) (obj : Nat) : World :=
  let w1 := UNLINK w (.piece (pidx list (w.object obj).type)) obj .piece_link
  let w2 := UNLINK w1 (.objp (w1.object obj).loc) obj .loc_link
  let w3 := disembark w2 obj
  let w4 := LINK w3 (.piece .free) obj .piece_link
  let w5 := setPiece w4 obj { w4.object obj with hits := 0 }
  setPiece w5 obj { w5.object obj with moved := (E.piece_attr (w5.object obj).type).speed }

/-- The loop `while (obj->cargo != NULL) kill_one(list, obj->cargo)`. -/
def kill_cargo_loop (E : Env) (list : ListSel) (obj : Nat) : Nat → World → Except Fault World
  | fuel, w =>
    match (w.object obj).cargo with
    | none => .ok w
    | some c =>
      match fuel with
      | 0 => .error .out_of_fuel
      | fuel1 + 1 => kill_cargo_loop E list obj fuel1 (kill_one E w list c)

/-- The character table `city_char[] = {MAP_CITY, 'O', 'X'}`, indexed by the
owner of a city. -/
def city_char (E : Env) (i : Int) : Char :=
  if i = 0 then E.MAP_CITY else if i = 1 then 'O' else if i = 2 then 'X' else default

/-- The C library function `tolower` on the display characters. -/
def tolower (c : Char) : Char := c.toLower

/-- Function `update(vmap, loc)`: stamp the cell with the date and show the city, the
preferred piece there, or the terrain.  The display call at the end writes
nothing of this state. -/
def update (E : Env) (fuel : Nat) (w : World) (vmap : VMapSel) (loc : Int) :
    Except Fault World :=
  let w1 := setView w vmap loc { getView w vmap loc with seen := w.date }
  match (w1.map loc).cityp with
  | some c =>
    .ok (setView w1 vmap loc
      { getView w1 vmap loc with contents := city_char E (w1.city c).owner })
  | none =>
    match find_obj_at_loc E fuel w1 loc with
    | .error e => .error e
    | .ok none =>
      .ok (setView w1 vmap loc { getView w1 vmap loc with contents := (w1.map loc).contents })
    | .ok (some p) =>
      if (w1.object p).owner = E.USER then
        .ok (setView w1 vmap loc
          { getView w1 vmap loc with contents := (E.piece_attr (w1.object p).type).sname })
      else
        .ok (setView w1 vmap loc
          { getView w1 vmap loc with
            contents := tolower (E.piece_attr (w1.object p).type).sname })

/-- The loop of `scan` over the directions `i, i+1, ...` (`n` of them). -/
def scan_loop (E : Env) (fuel : Nat) (vmap : VMapSel) (loc : Int) :
    Nat → Int → World → Except Fault World
  | 0, _, w => .ok w
  | n + 1, i, w =>
    match update E fuel w vmap (loc + E.dir_offset i) with
    | .error e => .error e
    | .ok w1 => scan_loop E fuel vmap loc n (i + 1) w1

/-- Function `scan(vmap, loc)`: update the eight neighbours of `loc`, then `loc`. -/
def scan (E : Env) (fuel : Nat) (w : World) (vmap : VMapSel) (loc : Int) :
    Except Fault World :=
  if (w.map loc).on_board = false then .error .assert_failed
  else
    match scan_loop E fuel vmap loc 8 0 w with
    | .error e => .error e
    | .ok w1 => update E fuel w1 vmap loc

/-- The loop of `scan_sat` over the directions `i, i+1, ...` (`n` of them). -/
def scan_sat_loop (E : Env) (fuel : Nat) (vmap : VMapSel) (loc : Int) :
    Nat → Int → World → Except Fault World
  | 0, _, w => .ok w
  | n + 1, i, w =>
    if 0 ≤ loc + 2 * E.dir_offset i ∧ loc + 2 * E.dir_offset i < E.MAP_SIZE ∧
        (w.map (loc + 2 * E.dir_offset i)).on_board = true then
      match scan E fuel w vmap (loc + 2 * E.dir_offset i) with
      | .error e => .error e
      | .ok w1 => scan_sat_loop E fuel vmap loc n (i + 1) w1
    else scan_sat_loop E fuel vmap loc n (i + 1) w

/-- Function `scan_sat(vmap, loc)`: scan at twice the distance, then at `loc`. -/
def scan_sat (E : Env) (fuel : Nat) (w : World) (vmap : VMapSel) (loc : Int) :
    Except Fault World :=
  if (w.map loc).on_board = false then .error .assert_failed
  else
    match scan_sat_loop E fuel vmap loc 8 0 w with
    | .error e => .error e
    | .ok w1 => scan E fuel w1 vmap loc

/-- Function `kill_obj(obj, loc)`: kill the cargo of `obj`, then `obj`, then scan
around `loc` on the owner's view map. -/
def kill_obj (E : Env) (fuel : Nat) (w : World) (obj : Nat) (loc : Int) :
    Except Fault World :=
  let vmap := MAP E (w.object obj).owner
  let list := LIST E (w.object obj).owner
  match kill_cargo_loop E list obj fuel w with
  | .error e => .error e
  | .ok w1 => scan E fuel (kill_one E w1 list obj) vmap loc

/-- The part of the body of the loop of `kill_city` that changes the side of
a piece: move it from its owner's list to the other side's list of the same
kind and clear its function. -/
def change_owner (E : Env) (w : World) (p : Nat) : World :=
  let w1 := UNLINK w (.piece (pidx (LIST E (w.object p).owner) (w.object p).type)) p .piece_link
  let w2 := setPiece w1 p
    { w1.object p with owner := if (w1.object p).owner = E.USER then E.COMP else E.USER }
  let w3 := LINK w2 (.piece (pidx (LIST E (w2.object p).owner) (w2.object p).type)) p .piece_link
  setPiece w3 p { w3.object p with func := E.NOFUNC }

/-- The loop of `kill_city` over the location list of the city, starting at
`p`; the successor `next_p` is read before the body runs. -/
def kill_city_loop (E : Env) (cityp : Nat) : Nat → Ptr → World → Except Fault World
  | _, none, w => .ok w
  | 0, some _, _ => .error .out_of_fuel
  | fuel + 1, some p, w =>
    let next_p := (w.object p).loc_link.next
    if (w.object p).type = E.ARMY then
      match kill_obj E (fuel + 1) w p (w.city cityp).loc with
      | .error e => .error e
      | .ok w1 => kill_city_loop E cityp fuel next_p w1
    else if (w.object p).type ≠ E.SATELLITE then
      if (w.object p).type = E.TRANSPORT then
        match kill_cargo_loop E (LIST E (w.object p).owner) p (fuel + 1) w with
        | .error e => .error e
        | .ok w1 => kill_city_loop E cityp fuel next_p (change_owner E w1 p)
      else kill_city_loop E cityp fuel next_p (change_owner E w p)
    else kill_city_loop E cityp fuel next_p w

/-- Function `kill_city(cityp)`: kill the armies at the city, hand the other
hardware (satellites apart) to the other side, and make the city
unowned. -/
def kill_city (E : Env) (fuel : Nat) (w : World) (cityp : Nat) : Except Fault World :=
  match kill_city_loop E cityp fuel (w.map (w.city cityp).loc).objp w with
  | .error e => .error e
  | .ok w1 =>
    if (w1.city cityp).owner ≠ E.UNOWNED then
      let vmap := MAP E (w1.city cityp).owner
      let c1 := { w1.city cityp with owner := E.UNOWNED }
      let c2 := { c1 with work := 0 }
      let c3 := { c2 with prod := E.NOPIECE }
      let c4 := { c3 with
        func := fun i => if 0 ≤ i ∧ i < E.NUM_OBJECTS then E.NOFUNC else c3.func i }
      let w2 := { w1 with city := upd w1.city cityp c4 }
      scan E fuel w2 vmap (w2.city cityp).loc
    else .ok w1

/-- The table `sat_dir[4] = {MOVE_NW, MOVE_SW, MOVE_NE, MOVE_SE}`. -/
def sat_dir (E : Env) (i : Nat) : Int :=
  match i with
  | 0 => E.MOVE_NW
  | 1 => E.MOVE_SW
  | 2 => E.MOVE_NE
  | _ => E.MOVE_SE

/-- Modelled from the spec: the conversion of a `long` to a `short`, which
the assignment `new_piece->range = piece_attr[...].range` of `produce`
performs.  The header is absent; the field `range` of a piece record is
taken to be the 16-bit `short` of the original record type and the entry of
the table `piece_attr[]` a `long`.  The value is kept modulo `2^16`, in
`-32768 .. 32767`. -/
def to_short (x : Int) : Int := (x + 32768) % 65536 - 32768

/-- Function `produce(cityp)`: take a record off the free list and make it a new piece
of the city's product.  The value `r` stands for the result of `irand(4)`.  The
range of the kind is narrowed to the 16-bit field `range` of the record. -/
def produce (E : Env) (w : World) (cityp : Nat) (r : Nat) : Except Fault World :=
  let list := LIST E (w.city cityp).owner
  let c0 := { w.city cityp with
    work := (w.city cityp).work - (E.piece_attr (w.city cityp).prod).build_time }
  let w0 := { w with city := upd w.city cityp c0 }
  match w0.free_list with
  | none => .error .assert_failed
  | some new_piece =>
    let cty := w0.city cityp
    let w1 := UNLINK w0 (.piece .free) new_piece .piece_link
    let w2 := LINK w1 (.piece (pidx list cty.prod)) new_piece .piece_link
    let w3 := LINK w2 (.objp cty.loc) new_piece .loc_link
    let p3 := w3.object new_piece
    let p4 : piece_info_t :=
      { p3 with
        cargo_link := { next := none, prev := none }
        loc := cty.loc
        func := E.NOFUNC
        hits := (E.piece_attr cty.prod).max_hits
        owner := cty.owner
        type := cty.prod
        moved := 0
        cargo := none
        ship := none
        count := 0
        range := to_short (E.piece_attr cty.prod).range }
    let p5 : piece_info_t :=
      if p4.type = E.SATELLITE then { p4 with func := sat_dir E r } else p4
    .ok (setPiece w3 new_piece p5)

/-- The loop of `move_obj` over the cargo of the moved piece: each occupant
gets the new location and is moved from the old cell's list to the new
one's. -/
def move_cargo_loop (old_loc new_loc : Int) : Nat → Ptr → World → Except Fault World
  | _, none, w => .ok w
  | 0, some _, _ => .error .out_of_fuel
  | fuel + 1, some p, w =>
    let w1 := setPiece w p { w.object p with loc := new_loc }
    let w2 := UNLINK w1 (.objp old_loc) p .loc_link
    let w3 := LINK w2 (.objp new_loc) p .loc_link
    move_cargo_loop old_loc new_loc fuel (w3.object p).cargo_link.next w3

/-- The `switch` of `move_obj`: a fighter outside a city boards a non-full
carrier at its cell, an army boards a non-full transport at its cell. -/
def board_new_ship (E : Env) (fuel : Nat) (w : World) (obj : Nat) : Except Fault World :=
  if (w.object obj).type = E.FIGHTER then
    if (w.map (w.object obj).loc).cityp = none then
      match find_nfull E fuel w E.CARRIER (w.object obj).loc with
      | .error e => .error e
      | .ok (some p) => .ok (embark w p obj)
      | .ok none => .ok w
    else .ok w
  else if (w.object obj).type = E.ARMY then
    match find_nfull E fuel w E.TRANSPORT (w.object obj).loc with
    | .error e => .error e
    | .ok (some p) => .ok (embark w p obj)
    | .ok none => .ok w
  else .ok w

/-- Function `move_obj(obj, new_loc)`. -/
def move_obj (E : Env) (fuel : Nat) (w : World) (obj : Nat) (new_loc : Int) :
    Except Fault World :=
  if (w.object obj).hits = 0 then .error .assert_failed
  else
    let vmap := MAP E (w.object obj).owner
    let old_loc := (w.object obj).loc
    let w1 := setPiece w obj { w.object obj with moved := (w.object obj).moved + 1 }
    let w2 := setPiece w1 obj { w1.object obj with loc := new_loc }
    let w3 := setPiece w2 obj { w2.object obj with range := (w2.object obj).range - 1 }
    let w4 := disembark w3 obj
    let w5 := UNLINK w4 (.objp old_loc) obj .loc_link
    let w6 := LINK w5 (.objp new_loc) obj .loc_link
    match move_cargo_loop old_loc new_loc fuel (w6.object obj).cargo w6 with
    | .error e => .error e
    | .ok w7 =>
      match board_new_ship E fuel w7 obj with
      | .error e => .error e
      | .ok w8 =>
        if (w8.object obj).type = E.SATELLITE then
          match scan_sat E fuel w8 vmap (w8.object obj).loc with
          | .error e => .error e
          | .ok w9 => scan E fuel w9 vmap (w9.object obj).loc
        else scan E fuel w8 vmap (w8.object obj).loc

/-- Function `bounce(loc, dir1, dir2, dir3)`: the first of `dir1`, `dir2` whose
neighbour is on the board, else `dir3`. -/
def bounce (E : Env) (w : World) (loc dir1 dir2 dir3 : Int) : Int :=
  if (w.map (loc + E.dir_offset (E.MOVE_DIR dir1))).on_board = true then dir1
  else if (w.map (loc + E.dir_offset (E.MOVE_DIR dir2))).on_board = true then dir2
  else dir3

/-- The heading a satellite at `loc` with heading `func` takes in
`move_sat1`; `none` is the `ABORT` of the `switch`. -/
def sat_heading (E : Env) (w : World) (loc func : Int) : Option Int :=
  if (w.map (loc + E.dir_offset (E.MOVE_DIR func))).on_board = false then
    if func = E.MOVE_NE then some (bounce E w loc E.MOVE_NW E.MOVE_SE E.MOVE_SW)
    else if func = E.MOVE_NW then some (bounce E w loc E.MOVE_NE E.MOVE_SW E.MOVE_SE)
    else if func = E.MOVE_SE then some (bounce E w loc E.MOVE_SW E.MOVE_NE E.MOVE_NW)
    else if func = E.MOVE_SW then some (bounce E w loc E.MOVE_SE E.MOVE_NW E.MOVE_NE)
    else none
  else some func

/-- Function `move_sat1(obj)`: move a satellite one square, bouncing off the edge. -/
def move_sat1 (E : Env) (fuel : Nat) (w : World) (obj : Nat) : Except Fault World :=
  match sat_heading E w (w.object obj).loc (w.object obj).func with
  | none => .error .assert_failed
  | some f =>
    let w1 := setPiece w obj { w.object obj with func := f }
    move_obj E fuel w1 obj ((w1.object obj).loc + E.dir_offset (E.MOVE_DIR f))

/-- The loop of `move_sat`; the messages about a crashed satellite write
nothing of this state. -/
def move_sat_loop (E : Env) (obj : Nat) : Nat → World → Except Fault World
  | fuel, w =>
    if (w.object obj).moved < obj_moves E (w.object obj) then
      match fuel with
      | 0 => .error .out_of_fuel
      | fuel1 + 1 =>
        match move_sat1 E (fuel1 + 1) w obj with
        | .error e => .error e
        | .ok w1 =>
          if (w1.object obj).range = 0 then
            match kill_obj E (fuel1 + 1) w1 obj (w1.object obj).loc with
            | .error e => .error e
            | .ok w2 => move_sat_loop E obj fuel1 w2
          else move_sat_loop E obj fuel1 w1
    else .ok w

/-- Function `move_sat(obj)`: move a satellite all of its squares. -/
def move_sat (E : Env) (fuel : Nat) (w : World) (obj : Nat) : Except Fault World :=
  move_sat_loop E obj fuel (setPiece w obj { w.object obj with moved := 0 })

/-- The C library test `strchr(s, c) != NULL`: `c` occurs in the string, its
terminating NUL included. -/
def strchr (s : List Char) (c : Char) : Bool :=
  decide (c ∈ s) || decide (c = Char.ofNat 0)

/-- The test `map[loc].cityp && map[loc].cityp->owner == owner`. -/
def city_owned_by (w : World) (loc : Int) (owner : Int) : Bool :=
  match (w.map loc).cityp with
  | some c => decide ((w.city c).owner = owner)
  | none => false

/-- Function `good_loc(obj, loc)`. -/
def good_loc (E : Env) (fuel : Nat) (w : World) (obj : Nat) (loc : Int) : Except Fault Bool :=
  if (w.map loc).on_board = false then .ok false
  else
    let vmap := MAP E (w.object obj).owner
    if strchr (E.piece_attr (w.object obj).type).terrain (getView w vmap loc).contents = true then
      .ok true
    else if (w.object obj).type = E.ARMY then
      match find_nfull E fuel w E.TRANSPORT loc with
      | .error e => .error e
      | .ok none => .ok false
      | .ok (some p) => .ok (decide ((w.object p).owner = (w.object obj).owner))
    else if city_owned_by w loc (w.object obj).owner = true then .ok true
    else if (w.object obj).type = E.FIGHTER then
      match find_nfull E fuel w E.CARRIER loc with
      | .error e => .error e
      | .ok none => .ok false
      | .ok (some p) => .ok (decide ((w.object p).owner = (w.object obj).owner))
    else .ok false

/-! ## Lists as seen from the code, and well-formed states -/

/-- The fields of a record other than its three links and the head of its
cargo list. -/
def body (p : piece_info_t) : Int × Int × Int × Int × Int × Int × Ptr × Int × Int :=
  (p.owner, p.type, p.loc, p.func, p.hits, p.moved, p.ship, p.count, p.range)


/-- The node reached from `p` after following `n` `next` links of kind
`k`. -/
def walk (o : Heap) (k : LinkSel) : Nat → Ptr → Ptr
  | 0, p => p
  | _ + 1, none => none
  | n + 1, some x => walk o k n (getL k (o x)).next

/-- Record `x` is a member of the list of kind `k` that starts at `head`: a
traversal from `head` along `next` reaches it. -/
def InList (o : Heap) (k : LinkSel) (head : Ptr) (x : Nat) : Prop :=
  ∃ n, walk o k n head = some x

/-- The chain of kind `k` from `h` is exactly the list `l` and ends in
`NULL`, and the `prev` links run back along it, `pv` being the `prev` of the
first node. -/
def Seg (o : Heap) (k : LinkSel) : Ptr → Ptr → List Nat → Prop
  | _, h, [] => h = none
  | pv, h, a :: t =>
    h = some a ∧ (getL k (o a)).prev = pv ∧ Seg o k (some a) (getL k (o a)).next t

/-- Decision procedure for `Seg`. -/
instance Seg.instDecidable (o : Heap) (k : LinkSel) :
    ∀ (pv h : Ptr) (l : List Nat), Decidable (Seg o k pv h l)
  | _, h, [] => inferInstanceAs (Decidable (h = none))
  | pv, h, a :: t =>
    have := Seg.instDecidable o k (some a) (getL k (o a)).next t
    inferInstanceAs (Decidable (h = some a ∧ (getL k (o a)).prev = pv ∧
      Seg o k (some a) (getL k (o a)).next t))

/-- A well-formed doubly linked list: the chain from `head` is `l`, without
repetition. -/
def DLL (o : Heap) (k : LinkSel) (head : Ptr) (l : List Nat) : Prop :=
  Seg o k none head l ∧ l.Nodup

/-- The links of kind `k` after `UNLINK` of `a`, in terms of the links
before. -/
def UnlinkedFrom (o o2 : Heap) (k : LinkSel) (a : Nat) : Prop :=
  ∀ x, getL k (o2 x) =
    if x = a then ⟨none, none⟩
    else ⟨if (getL k (o a)).prev = some x then (getL k (o a)).next else (getL k (o x)).next,
          if (getL k (o a)).next = some x then (getL k (o a)).prev else (getL k (o x)).prev⟩

/-- The links of kind `k` after `LINK` of `a` in front of `h`, in terms of
the links before. -/
def LinkedTo (o o2 : Heap) (k : LinkSel) (h : Ptr) (a : Nat) : Prop :=
  ∀ x, getL k (o2 x) =
    if x = a then ⟨h, if h = some a then some a else none⟩
    else ⟨(getL k (o x)).next, if h = some x then some a else (getL k (o x)).prev⟩

/-- A family of well-formed lists of one kind of link that share no record,
all of whose records lie in the pool of `n` records. -/
structure Fam {ι : Type} (n : Nat) (o : Heap) (k : LinkSel) (H : ι → Ptr)
    (F : ι → List Nat) : Prop where
  seg : ∀ i, Seg o k none (H i) (F i)
  nodup : ∀ i, (F i).Nodup
  disj : ∀ i j x, x ∈ F i → x ∈ F j → i = j
  bound : ∀ i x, x ∈ F i → x < n

/-- The two states differ in the view maps at most. -/
def SameButViews (w w2 : World) : Prop :=
  w2.map = w.map ∧ w2.city = w.city ∧ w2.free_list = w.free_list ∧
    w2.user_obj = w.user_obj ∧ w2.comp_obj = w.comp_obj ∧ w2.object = w.object ∧
    w2.date = w.date

/-- Every location list is a chain that ends within `fuel` steps. -/
def Scannable (fuel : Nat) (w : World) : Prop :=
  ∀ c, ∃ l, Seg w.object .loc_link none (cellHead w c) l ∧ l.length ≤ fuel

/-- The contents of every list of a state, as mathematical lists. -/
structure Shape where
  piece : PIdx → List Nat
  cell : Int → List Nat
  cargo : Nat → List Nat

/-- The three families of lists of a state are well formed, with
contents `s`. -/
structure Str (n : Nat) (w : World) (s : Shape) : Prop where
  pieces : Fam n w.object .piece_link (pieceHead w) s.piece
  cells : Fam n w.object .loc_link (cellHead w) s.cell
  cargos : Fam n w.object .cargo_link (cargoHead w) s.cargo

/-- The list contents after record `obj` has been killed: it is gone from
every list and heads the free list. -/
def killShape (s : Shape) (obj : Nat) : Shape where
  piece := fun i =>
    match i with
    | .free => obj :: s.piece .free
    | .user t => (s.piece (.user t)).erase obj
    | .comp t => (s.piece (.comp t)).erase obj
  cell := fun c => (s.cell c).erase obj
  cargo := fun x => (s.cargo x).erase obj

/-- From `w` to `w2` the records in `D` have died and nothing else has
changed in the hit points, owners, kinds and locations of the records or in
the board. -/
def KillFrame (w w2 : World) (D : List Nat) : Prop :=
  (∀ x, (w2.object x).hits = if x ∈ D then 0 else (w.object x).hits) ∧
  (∀ x, (w2.object x).owner = (w.object x).owner) ∧
  (∀ x, (w2.object x).type = (w.object x).type) ∧
  (∀ x, (w2.object x).loc = (w.object x).loc) ∧
  (∀ c, (w2.map c).on_board = (w.map c).on_board) ∧
  (∀ c, (w2.map c).cityp = (w.map c).cityp)

/-- What the steps of `move_obj` after the relinking of the moved piece
leave alone: hit points, owners, kinds and counters of the records, the
`piece_link` lists, and the board. -/
def MoveFrame (w w1 : World) : Prop :=
  (∀ x, (w1.object x).hits = (w.object x).hits) ∧
  (∀ x, (w1.object x).owner = (w.object x).owner) ∧
  (∀ x, (w1.object x).type = (w.object x).type) ∧
  (∀ x, (w1.object x).moved = (w.object x).moved) ∧
  (∀ x, (w1.object x).range = (w.object x).range) ∧
  (∀ x, getL .piece_link (w1.object x) = getL .piece_link (w.object x)) ∧
  pieceHead w1 = pieceHead w ∧
  (∀ c, (w1.map c).on_board = (w.map c).on_board) ∧
  (∀ c, (w1.map c).cityp = (w.map c).cityp)

/-- What the steps of `move_obj` other than leaving and boarding a ship
leave alone: the cargo lists and the `ship`, `count` and `func` of the
records. -/
def RideFrame (w w1 : World) : Prop :=
  (∀ x, getL .cargo_link (w1.object x) = getL .cargo_link (w.object x)) ∧
  (∀ x, (w1.object x).cargo = (w.object x).cargo) ∧
  (∀ x, (w1.object x).ship = (w.object x).ship) ∧
  (∀ x, (w1.object x).count = (w.object x).count) ∧
  (∀ x, (w1.object x).func = (w.object x).func)

/-- The cell and the heading of a satellite after `k` steps of `move_sat1`
from cell `loc` with heading `func` on the board of `w`; `none` if a step
runs into the `ABORT` of the `switch`. -/
def sat_track (E : Env) (w : World) : Nat → Int → Int → Option (Int × Int)
  | 0, loc, func => some (loc, func)
  | k + 1, loc, func =>
    match sat_heading E w loc func with
    | none => none
    | some h => sat_track E w k (loc + E.dir_offset (E.MOVE_DIR h)) h

/-- The first statements of `move_obj`, up to the loop over the cargo: the
counters and the location of `obj` are updated, `obj` leaves its ship and
goes from the list of `old_loc` to the list of `new_loc`. -/
def move_obj_head (w : World) (obj : Nat) (old_loc new_loc : Int) : World :=
  let w1 := setPiece w obj { w.object obj with moved := (w.object obj).moved + 1 }
  let w2 := setPiece w1 obj { w1.object obj with loc := new_loc }
  let w3 := setPiece w2 obj { w2.object obj with range := (w2.object obj).range - 1 }
  let w4 := disembark w3 obj
  let w5 := UNLINK w4 (.objp old_loc) obj .loc_link
  LINK w5 (.objp new_loc) obj .loc_link

/-- The last statements of `move_obj`: the two scans. -/
def move_obj_scan (E : Env) (fuel : Nat) (w8 : World) (vmap : VMapSel) (obj : Nat) :
    Except Fault World :=
  if (w8.object obj).type = E.SATELLITE then
    match scan_sat E fuel w8 vmap (w8.object obj).loc with
    | .error e => .error e
    | .ok w9 => scan E fuel w9 vmap (w9.object obj).loc
  else scan E fuel w8 vmap (w8.object obj).loc

/-- The state `produce` starts from once the work of the city has been
charged. -/
def produce_charged (E : Env) (w : World) (cityp : Nat) : World :=
  { w with city := upd w.city cityp (
      { w.city cityp with
        work := (w.city cityp).work - (E.piece_attr (w.city cityp).prod).build_time }) }

/-- The three list operations of `produce` on the record `x0` taken from the
free list. -/
def produce_links (E : Env) (w : World) (cityp : Nat) (x0 : Nat) : World :=
  LINK (LINK (UNLINK (produce_charged E w cityp) (.piece .free) x0 .piece_link)
    (.piece (pidx (LIST E (w.city cityp).owner) ((produce_charged E w cityp).city cityp).prod))
      x0 .piece_link)
    (.objp ((produce_charged E w cityp).city cityp).loc) x0 .loc_link

/-- The record `produce` writes for the new piece of city record `cty`, `p3`
being the record as the list operations left it. -/
def produce_record (E : Env) (cty : city_info_t) (r : Nat) (p3 : piece_info_t) :
    piece_info_t :=
  let p4 : piece_info_t :=
    { p3 with
      cargo_link := { next := none, prev := none }
      loc := cty.loc
      func := E.NOFUNC
      hits := (E.piece_attr cty.prod).max_hits
      owner := cty.owner
      type := cty.prod
      moved := 0
      cargo := none
      ship := none
      count := 0
      range := to_short (E.piece_attr cty.prod).range }
  if p4.type = E.SATELLITE then { p4 with func := sat_dir E r } else p4

/-- The list contents after `produce` has made record `x0` a piece with list
index `i` at cell `c`. -/
def produceShape (s : Shape) (x0 : Nat) (i : PIdx) (c : Int) : Shape where
  piece := upd (upd s.piece .free ((s.piece .free).erase x0)) i
    (x0 :: upd s.piece .free ((s.piece .free).erase x0) i)
  cell := upd s.cell c (x0 :: s.cell c)
  cargo := s.cargo

/-- Well-formed state with list contents `s`: every list is a well-formed
doubly linked list; a record of the pool is on the free list iff it is dead
(`hits = 0`), on `user_obj[t]` or `comp_obj[t]` iff it is a live piece of
that side and kind, on the location list of `c` iff it is a live piece with
`loc = c`, on the cargo list of `x` iff it is a live piece with `ship = x`;
an embarked piece rides a live piece of its own side at its own cell and
carries nothing itself; `count` is the length of the cargo list. -/
structure Rep (E : Env) (w : World) (s : Shape) : Prop where
  piece_seg : ∀ i, Seg w.object .piece_link none (pieceHead w i) (s.piece i)
  piece_nodup : ∀ i, (s.piece i).Nodup
  cell_seg : ∀ c, Seg w.object .loc_link none (cellHead w c) (s.cell c)
  cell_nodup : ∀ c, (s.cell c).Nodup
  cargo_seg : ∀ x, Seg w.object .cargo_link none (cargoHead w x) (s.cargo x)
  cargo_nodup : ∀ x, (s.cargo x).Nodup
  free_mem : ∀ x, x ∈ s.piece .free ↔ x < E.LIST_SIZE ∧ (w.object x).hits = 0
  user_mem : ∀ t x, x ∈ s.piece (.user t) ↔
    x < E.LIST_SIZE ∧ 0 < (w.object x).hits ∧ (w.object x).owner = E.USER ∧ (w.object x).type = t
  comp_mem : ∀ t x, x ∈ s.piece (.comp t) ↔
    x < E.LIST_SIZE ∧ 0 < (w.object x).hits ∧ (w.object x).owner ≠ E.USER ∧ (w.object x).type = t
  cell_mem : ∀ c x, x ∈ s.cell c ↔
    x < E.LIST_SIZE ∧ 0 < (w.object x).hits ∧ (w.object x).loc = c
  cargo_mem : ∀ x y, y ∈ s.cargo x ↔
    y < E.LIST_SIZE ∧ 0 < (w.object y).hits ∧ (w.object y).ship = some x
  hits_nonneg : ∀ x, x < E.LIST_SIZE → 0 ≤ (w.object x).hits
  ship_ok : ∀ y x, y < E.LIST_SIZE → 0 < (w.object y).hits → (w.object y).ship = some x →
    x < E.LIST_SIZE ∧ 0 < (w.object x).hits ∧ (w.object x).loc = (w.object y).loc ∧
      (w.object x).owner = (w.object y).owner ∧ (w.object y).cargo = none
  count_ok : ∀ x, x < E.LIST_SIZE → 0 < (w.object x).hits →
    (w.object x).count = ((s.cargo x).length : Int)

/-- Well-formed state with list contents `s`, whatever the owners of cargo:
all of `Rep`, except that an embarked piece need not have the owner of the
piece it rides.  Every list is a well-formed doubly linked list; a record of
the pool is on the free list iff it is dead, on `user_obj[t]` or
`comp_obj[t]` iff it is a live piece of that side and kind, on the location
list of `c` iff it is a live piece with `loc = c`, on the cargo list of `x`
iff it is a live piece with `ship = x`; an embarked piece rides a live piece
at its own cell and carries nothing itself; `count` is the length of the
cargo list. -/
structure Wf (E : Env) (w : World) (s : Shape) : Prop where
  piece_seg : ∀ i, Seg w.object .piece_link none (pieceHead w i) (s.piece i)
  piece_nodup : ∀ i, (s.piece i).Nodup
  cell_seg : ∀ c, Seg w.object .loc_link none (cellHead w c) (s.cell c)
  cell_nodup : ∀ c, (s.cell c).Nodup
  cargo_seg : ∀ x, Seg w.object .cargo_link none (cargoHead w x) (s.cargo x)
  cargo_nodup : ∀ x, (s.cargo x).Nodup
  free_mem : ∀ x, x ∈ s.piece .free ↔ x < E.LIST_SIZE ∧ (w.object x).hits = 0
  user_mem : ∀ t x, x ∈ s.piece (.user t) ↔
    x < E.LIST_SIZE ∧ 0 < (w.object x).hits ∧ (w.object x).owner = E.USER ∧ (w.object x).type = t
  comp_mem : ∀ t x, x ∈ s.piece (.comp t) ↔
    x < E.LIST_SIZE ∧ 0 < (w.object x).hits ∧ (w.object x).owner ≠ E.USER ∧ (w.object x).type = t
  cell_mem : ∀ c x, x ∈ s.cell c ↔
    x < E.LIST_SIZE ∧ 0 < (w.object x).hits ∧ (w.object x).loc = c
  cargo_mem : ∀ x y, y ∈ s.cargo x ↔
    y < E.LIST_SIZE ∧ 0 < (w.object y).hits ∧ (w.object y).ship = some x
  hits_nonneg : ∀ x, x < E.LIST_SIZE → 0 ≤ (w.object x).hits
  ship_ok : ∀ y x, y < E.LIST_SIZE → 0 < (w.object y).hits → (w.object y).ship = some x →
    x < E.LIST_SIZE ∧ 0 < (w.object x).hits ∧ (w.object x).loc = (w.object y).loc ∧
      (w.object y).cargo = none
  count_ok : ∀ x, x < E.LIST_SIZE → 0 < (w.object x).hits →
    (w.object x).count = ((s.cargo x).length : Int)

/-- What `move_obj` of record `obj` to cell `B` makes of a state `w` with
list contents `s`: the state `w9` with list contents `s9`, where `b` is the
ship that `obj` has boarded on arrival, if any.  The piece and its cargo are
at `B`; the piece has left its former ship; `moved` and `range` of the piece
have changed by one; a boarded ship had room and is a carrier found by a
fighter outside a city or a transport found by an army. -/
structure Moved (E : Env) (w : World) (s : Shape) (obj : Nat) (B : Int) (w9 : World)
    (s9 : Shape) (b : Option Nat) : Prop where
  str : Str E.LIST_SIZE w9 s9
  piece_eq : s9.piece = s.piece
  cell_mem : ∀ c x, x ∈ s9.cell c ↔
    if x = obj ∨ x ∈ s.cargo obj then c = B else x ∈ s.cell c
  cargo_eq : ∀ x, s9.cargo x =
    if b = some x then obj :: (s.cargo x).erase obj else (s.cargo x).erase obj
  loc : ∀ x, (w9.object x).loc =
    if x = obj ∨ x ∈ s.cargo obj then B else (w.object x).loc
  hits : ∀ x, (w9.object x).hits = (w.object x).hits
  owner : ∀ x, (w9.object x).owner = (w.object x).owner
  type : ∀ x, (w9.object x).type = (w.object x).type
  func : ∀ x, (w9.object x).func = (w.object x).func
  moved : ∀ x, (w9.object x).moved =
    if x = obj then (w.object x).moved + 1 else (w.object x).moved
  range : ∀ x, (w9.object x).range =
    if x = obj then (w.object x).range - 1 else (w.object x).range
  ship : ∀ x, (w9.object x).ship = if x = obj then b else (w.object x).ship
  count : ∀ x, (w9.object x).count =
    (if (w.object obj).ship = some x then (w.object x).count - 1 else (w.object x).count) +
      (if b = some x then 1 else 0)
  on_board : ∀ c, (w9.map c).on_board = (w.map c).on_board
  cityp : ∀ c, (w9.map c).cityp = (w.map c).cityp
  boarded : ∀ t, b = some t → t ∈ s9.cell B ∧
    obj_capacity E (w.object t) >
      (if (w.object obj).ship = some t then (w.object t).count - 1 else (w.object t).count) ∧
    (((w.object obj).type = E.FIGHTER ∧ (w.map B).cityp = none ∧
        (w.object t).type = E.CARRIER) ∨
      ((w.object obj).type ≠ E.FIGHTER ∧ (w.object obj).type = E.ARMY ∧
        (w.object t).type = E.TRANSPORT))
  ashore : b = none → (w.object obj).type ≠ E.FIGHTER → (w.object obj).type = E.ARMY →
    ∀ t, t ∈ s9.cell B → ¬ ((w.object t).type = E.TRANSPORT ∧
      obj_capacity E (w.object t) >
        (if (w.object obj).ship = some t then (w.object t).count - 1
          else (w.object t).count))
  other : (w.object obj).type ≠ E.FIGHTER → (w.object obj).type ≠ E.ARMY → b = none

/-- The location-index invariant: the location list of every cell is a
well-formed list holding exactly the live pieces of the pool whose `loc` is
that cell, each once. -/
def LocInv (E : Env) (w : World) : Prop :=
  ∃ f : Int → List Nat,
    (∀ c, DLL w.object .loc_link (cellHead w c) (f c)) ∧
    ∀ c x, x ∈ f c ↔ x < E.LIST_SIZE ∧ 0 < (w.object x).hits ∧ (w.object x).loc = c

/-- Pool conservation: the free list and the owner-type lists are
well-formed lists, and every record of the pool is on exactly one of
them. -/
def PoolInv (E : Env) (w : World) : Prop :=
  ∃ g : PIdx → List Nat,
    (∀ i, DLL w.object .piece_link (pieceHead w i) (g i)) ∧
    (∀ i x, x ∈ g i → x < E.LIST_SIZE) ∧
    ∀ x, x < E.LIST_SIZE → ∃ i, x ∈ g i ∧ ∀ j, x ∈ g j → j = i

/-! ## A concrete configuration

The kinds, owners and movement codes of the game on its 100 x 60 map, with a
pool of four records; it serves to run the model on explicit states. -/

/-- The attribute table of the nine kinds of the game. -/
def gameAttr (t : Int) : piece_attr_t :=
  if t = 0 then ⟨'A', ['+'], 5, 1, 1, 1, 0, 10000000⟩
  else if t = 1 then ⟨'F', ['.', '+'], 10, 1, 1, 8, 0, 32⟩
  else if t = 2 then ⟨'P', ['.'], 15, 1, 1, 4, 0, 10000000⟩
  else if t = 3 then ⟨'D', ['.'], 20, 1, 3, 2, 0, 10000000⟩
  else if t = 4 then ⟨'S', ['.'], 20, 3, 2, 2, 0, 10000000⟩
  else if t = 5 then ⟨'T', ['.'], 30, 1, 1, 2, 6, 10000000⟩
  else if t = 6 then ⟨'C', ['.'], 30, 1, 8, 2, 8, 10000000⟩
  else if t = 7 then ⟨'B', ['.'], 40, 2, 10, 2, 0, 10000000⟩
  else ⟨'Z', ['.', '+'], 50, 0, 1, 10, 0, 500⟩

/-- The eight direction offsets on a map 100 cells wide, north first,
clockwise. -/
def gameDirOffset (i : Int) : Int :=
  if i = 0 then -100 else if i = 1 then -99 else if i = 2 then 1
  else if i = 3 then 101 else if i = 4 then 100 else if i = 5 then 99
  else if i = 6 then -1 else -101

/-- The concrete configuration. -/
def gameEnv : Env where
  piece_attr := gameAttr
  dir_offset := gameDirOffset
  NUM_OBJECTS := 9
  LIST_SIZE := 4
  MAP_SIZE := 6000
  ARMY := 0
  FIGHTER := 1
  TRANSPORT := 5
  CARRIER := 6
  SATELLITE := 8
  UNOWNED := 0
  USER := 1
  COMP := 2
  NOFUNC := -1
  NOPIECE := 255
  MOVE_NE := -13
  MOVE_NW := -19
  MOVE_SE := -15
  MOVE_SW := -17
  MOVE_DIR := fun a => -a + -12
  MAP_CITY := '*'

/-- A link pair with both pointers `NULL`. -/
def nolink : link_t := ⟨none, none⟩

/-- A record on the free list: dead, linked by `piece_link` only. -/
def freeRec (next prev : Ptr) : piece_info_t :=
  ⟨⟨next, prev⟩, nolink, nolink, 0, 0, 0, 0, 0, 0, none, none, 0, 0⟩

/-- A sea map whose border cells are off the board, with one city, number
0, at cell `c`. -/
def seaMap (c : Int) (objp : Ptr) (i : Int) : real_map_t :=
  if i = c then ⟨'*', true, some 0, objp⟩
  else ⟨'.', decide (100 ≤ i ∧ i < 5900 ∧ 0 < i % 100 ∧ i % 100 < 99), none, none⟩

/-- A view map on which nothing has been seen. -/
def blankView (_ : Int) : view_map_t := ⟨' ', 0⟩

/-- A city record at cell 101. -/
def portCity (owner : Int) (_ : Nat) : city_info_t :=
  ⟨101, owner, fun _ => -1, 0, 0⟩

/-- A port of the user at cell 101 holding a transport (record 0) with one
army aboard (record 1); the transport precedes its cargo in the location
list.  Records 2 and 3 are free. -/
def portWorld : World where
  map := seaMap 101 (some 0)
  comp_map := blankView
  user_map := blankView
  city := portCity 1
  free_list := some 2
  user_obj := fun t => if t = 5 then some 0 else if t = 0 then some 1 else none
  comp_obj := fun _ => none
  object := fun i =>
    if i = 0 then ⟨nolink, ⟨some 1, none⟩, nolink, 1, 5, 101, -1, 1, 0, none, some 1, 1, 100⟩
    else if i = 1 then ⟨nolink, ⟨none, some 0⟩, nolink, 1, 0, 101, -1, 1, 0, some 0, none, 0, 100⟩
    else if i = 2 then freeRec (some 3) none
    else freeRec none (some 2)
  date := 7

/-- The list contents of `portWorld`. -/
def portShape : Shape where
  piece := fun i =>
    match i with
    | .free => [2, 3]
    | .user t => if t = 5 then [0] else if t = 0 then [1] else []
    | .comp _ => []
  cell := fun c => if c = 101 then [0, 1] else []
  cargo := fun x => if x = 0 then [1] else []

/-- The state `portWorld` with the city at work on fighters (kind 1), whose
range in the table is 32. -/
def airfieldWorld : World :=
  { portWorld with city := fun _ => ⟨101, 1, fun _ => -1, 0, 1⟩ }

/-- A state with pieces of both sides at one sea cell: at cell 102 a
transport of the computer (record 0) followed by a transport of the user
(record 1), both empty; an army of the user (record 2) in the user's city at
cell 101; a satellite of the user (record 3) at cell 203.  The user has seen
the own city. -/
def mixedWorld : World where
  map := fun i =>
    if i = 101 then ⟨'*', true, some 0, some 2⟩
    else if i = 102 then ⟨'.', true, none, some 0⟩
    else if i = 203 then ⟨'.', true, none, some 3⟩
    else ⟨'.', decide (100 ≤ i ∧ i < 5900 ∧ 0 < i % 100 ∧ i % 100 < 99), none, none⟩
  comp_map := blankView
  user_map := fun i => if i = 101 then ⟨'O', 7⟩ else ⟨' ', 0⟩
  city := portCity 1
  free_list := none
  user_obj := fun t =>
    if t = 5 then some 1 else if t = 0 then some 2 else if t = 8 then some 3 else none
  comp_obj := fun t => if t = 5 then some 0 else none
  object := fun i =>
    if i = 0 then ⟨nolink, ⟨some 1, none⟩, nolink, 2, 5, 102, -1, 1, 0, none, none, 0, 100⟩
    else if i = 1 then ⟨nolink, ⟨none, some 0⟩, nolink, 1, 5, 102, -1, 1, 0, none, none, 0, 100⟩
    else if i = 2 then ⟨nolink, nolink, nolink, 1, 0, 101, -1, 1, 0, none, none, 0, 100⟩
    else ⟨nolink, nolink, nolink, 1, 8, 203, -13, 1, 0, none, none, 0, 500⟩
  date := 7

/-- The list contents of `mixedWorld`. -/
def mixedShape : Shape where
  piece := fun i =>
    match i with
    | .free => []
    | .user t => if t = 5 then [1] else if t = 0 then [2] else if t = 8 then [3] else []
    | .comp t => if t = 5 then [0] else []
  cell := fun c => if c = 101 then [2] else if c = 102 then [0, 1] else if c = 203 then [3] else []
  cargo := fun _ => []

/-- A port of the user at cell 101 holding a transport (record 0) with one
army aboard (record 1) and a second army standing in the city (record 2);
the location list is transport, army aboard, army ashore.  Record 3 is
free. -/
def harbourWorld : World where
  map := seaMap 101 (some 0)
  comp_map := blankView
  user_map := blankView
  city := portCity 1
  free_list := some 3
  user_obj := fun t => if t = 5 then some 0 else if t = 0 then some 1 else none
  comp_obj := fun _ => none
  object := fun i =>
    if i = 0 then ⟨nolink, ⟨some 1, none⟩, nolink, 1, 5, 101, -1, 1, 0, none, some 1, 1, 100⟩
    else if i = 1 then
      ⟨⟨some 2, none⟩, ⟨some 2, some 0⟩, nolink, 1, 0, 101, -1, 1, 0, some 0, none, 0, 100⟩
    else if i = 2 then
      ⟨⟨none, some 1⟩, ⟨none, some 1⟩, nolink, 1, 0, 101, -1, 1, 0, none, none, 0, 100⟩
    else freeRec none none
  date := 7

/-- The list contents of `harbourWorld`. -/
def harbourShape : Shape where
  piece := fun i =>
    match i with
    | .free => [3]
    | .user t => if t = 5 then [0] else if t = 0 then [1, 2] else []
    | .comp _ => []
  cell := fun c => if c = 101 then [0, 1, 2] else []
  cargo := fun x => if x = 0 then [1] else []

/-- The attribute table of the game with the capacity of the transport
lowered to 1. -/
def ferryAttr (t : Int) : piece_attr_t :=
  if t = 5 then ⟨'T', ['.'], 30, 1, 1, 2, 1, 10000000⟩ else gameAttr t

/-- The concrete configuration with transports that hold one army. -/
def ferryEnv : Env := { gameEnv with piece_attr := ferryAttr }

/-- An empty transport of the user at the sea cell 102 (record 0), an army
of the user in the user's city at cell 101 (record 1) and another at cell
103 (record 2).  Record 3 is free. -/
def ferryWorld : World where
  map := fun i =>
    if i = 101 then ⟨'*', true, some 0, some 1⟩
    else if i = 102 then ⟨'.', true, none, some 0⟩
    else if i = 103 then ⟨'+', true, none, some 2⟩
    else ⟨'.', decide (100 ≤ i ∧ i < 5900 ∧ 0 < i % 100 ∧ i % 100 < 99), none, none⟩
  comp_map := blankView
  user_map := blankView
  city := portCity 1
  free_list := some 3
  user_obj := fun t => if t = 5 then some 0 else if t = 0 then some 1 else none
  comp_obj := fun _ => none
  object := fun i =>
    if i = 0 then ⟨nolink, nolink, nolink, 1, 5, 102, -1, 1, 0, none, none, 0, 100⟩
    else if i = 1 then ⟨⟨some 2, none⟩, nolink, nolink, 1, 0, 101, -1, 1, 0, none, none, 0, 100⟩
    else if i = 2 then ⟨⟨none, some 1⟩, nolink, nolink, 1, 0, 103, -1, 1, 0, none, none, 0, 100⟩
    else freeRec none none
  date := 7

/-- The list contents of `ferryWorld`. -/
def ferryShape : Shape where
  piece := fun i =>
    match i with
    | .free => [3]
    | .user t => if t = 5 then [0] else if t = 0 then [1, 2] else []
    | .comp _ => []
  cell := fun c => if c = 101 then [1] else if c = 102 then [0] else if c = 103 then [2] else []
  cargo := fun _ => []

/-- A fighter with all its hit points. -/
def fullFighter : piece_info_t :=
  ⟨nolink, nolink, nolink, 1, 1, 102, -1, 1, 0, none, none, 0, 32⟩

/-- A destroyer that has lost one of its three hit points. -/
def hitDestroyer : piece_info_t :=
  ⟨nolink, nolink, nolink, 1, 3, 102, -1, 2, 0, none, none, 0, 100⟩

/-- A carrier that has one of its eight hit points left. -/
def hitCarrier : piece_info_t :=
  ⟨nolink, nolink, nolink, 1, 6, 102, -1, 1, 0, none, none, 0, 100⟩

/-! # Theorems -/

set_option maxRecDepth 100000


/-! ## Array stores and link fields -/

@[simp] theorem upd_same {α β : Type} [DecidableEq α] (a : α → β) (i : α) (v : β) :
    upd a i v i = v := by
  simp [upd]

theorem upd_ne {α β : Type} [DecidableEq α] (a : α → β) (i j : α) (v : β) (h : j ≠ i) :
    upd a i v j = a j := by
  simp [upd, h]

theorem upd_apply {α β : Type} [DecidableEq α] (a : α → β) (i j : α) (v : β) :
    upd a i v j = if j = i then v else a j := rfl

@[simp] theorem getL_setL_same (k : LinkSel) (p : piece_info_t) (l : link_t) :
    getL k (setL k p l) = l := by
  cases k <;> rfl

theorem getL_setL_ne (k k2 : LinkSel) (p : piece_info_t) (l : link_t) (h : k2 ≠ k) :
    getL k2 (setL k p l) = getL k2 p := by
  cases k <;> cases k2 <;> first | rfl | exact absurd rfl h

@[simp] theorem body_setL (k : LinkSel) (p : piece_info_t) (l : link_t) :
    body (setL k p l) = body p := by
  cases k <;> rfl

theorem body_setNext (k : LinkSel) (o : Heap) (y : Nat) (v : Ptr) (x : Nat) :
    body (setNext k o y v x) = body (o x) := by
  unfold setNext
  rw [upd_apply]
  split_ifs with h
  · subst h; simp
  · rfl

theorem body_setPrev (k : LinkSel) (o : Heap) (y : Nat) (v : Ptr) (x : Nat) :
    body (setPrev k o y v x) = body (o x) := by
  unfold setPrev
  rw [upd_apply]
  split_ifs with h
  · subst h; simp
  · rfl

theorem getL_setNext_ne (k k2 : LinkSel) (o : Heap) (y : Nat) (v : Ptr) (x : Nat) (h : k2 ≠ k) :
    getL k2 (setNext k o y v x) = getL k2 (o x) := by
  unfold setNext
  rw [upd_apply]
  split_ifs with hx
  · subst hx; exact getL_setL_ne k k2 _ _ h
  · rfl

theorem getL_setPrev_ne (k k2 : LinkSel) (o : Heap) (y : Nat) (v : Ptr) (x : Nat) (h : k2 ≠ k) :
    getL k2 (setPrev k o y v x) = getL k2 (o x) := by
  unfold setPrev
  rw [upd_apply]
  split_ifs with hx
  · subst hx; exact getL_setL_ne k k2 _ _ h
  · rfl

theorem getL_setNext (k : LinkSel) (o : Heap) (y : Nat) (v : Ptr) (x : Nat) :
    getL k (setNext k o y v x) =
      if x = y then { getL k (o y) with next := v } else getL k (o x) := by
  unfold setNext
  rw [upd_apply]
  split_ifs with hx
  · simp
  · rfl

theorem getL_setPrev (k : LinkSel) (o : Heap) (y : Nat) (v : Ptr) (x : Nat) :
    getL k (setPrev k o y v x) =
      if x = y then { getL k (o y) with prev := v } else getL k (o x) := by
  unfold setPrev
  rw [upd_apply]
  split_ifs with hx
  · simp
  · rfl

theorem body_setNextAt (k : LinkSel) (o : Heap) (p : Ptr) (v : Ptr) (x : Nat) :
    body (setNextAt k o p v x) = body (o x) := by
  cases p <;> simp [setNextAt, body_setNext]

theorem body_setPrevAt (k : LinkSel) (o : Heap) (p : Ptr) (v : Ptr) (x : Nat) :
    body (setPrevAt k o p v x) = body (o x) := by
  cases p <;> simp [setPrevAt, body_setPrev]

theorem getL_setNextAt_ne (k k2 : LinkSel) (o : Heap) (p : Ptr) (v : Ptr) (x : Nat)
    (h : k2 ≠ k) : getL k2 (setNextAt k o p v x) = getL k2 (o x) := by
  cases p <;> simp [setNextAt, getL_setNext_ne _ _ _ _ _ _ h]

theorem getL_setPrevAt_ne (k k2 : LinkSel) (o : Heap) (p : Ptr) (v : Ptr) (x : Nat)
    (h : k2 ≠ k) : getL k2 (setPrevAt k o p v x) = getL k2 (o x) := by
  cases p <;> simp [setPrevAt, getL_setPrev_ne _ _ _ _ _ _ h]

theorem getL_setNextAt (k : LinkSel) (o : Heap) (p : Ptr) (v : Ptr) (x : Nat) :
    getL k (setNextAt k o p v x) =
      if p = some x then { getL k (o x) with next := v } else getL k (o x) := by
  cases p with
  | none => simp [setNextAt]
  | some y =>
    simp only [setNextAt, getL_setNext, Option.some.injEq]
    by_cases h : x = y
    · subst h; simp
    · have h2 : ¬ y = x := fun e => h e.symm
      simp [h, h2]

theorem getL_setPrevAt (k : LinkSel) (o : Heap) (p : Ptr) (v : Ptr) (x : Nat) :
    getL k (setPrevAt k o p v x) =
      if p = some x then { getL k (o x) with prev := v } else getL k (o x) := by
  cases p with
  | none => simp [setPrevAt]
  | some y =>
    simp only [setPrevAt, getL_setPrev, Option.some.injEq]
    by_cases h : x = y
    · subst h; simp
    · have h2 : ¬ y = x := fun e => h e.symm
      simp [h, h2]

@[simp] theorem cargo_setL (k : LinkSel) (p : piece_info_t) (l : link_t) :
    (setL k p l).cargo = p.cargo := by
  cases k <;> rfl

theorem cargo_setNext (k : LinkSel) (o : Heap) (y : Nat) (v : Ptr) (x : Nat) :
    (setNext k o y v x).cargo = (o x).cargo := by
  unfold setNext
  rw [upd_apply]
  split_ifs with h
  · subst h; simp
  · rfl

theorem cargo_setPrev (k : LinkSel) (o : Heap) (y : Nat) (v : Ptr) (x : Nat) :
    (setPrev k o y v x).cargo = (o x).cargo := by
  unfold setPrev
  rw [upd_apply]
  split_ifs with h
  · subst h; simp
  · rfl

theorem cargo_setNextAt (k : LinkSel) (o : Heap) (p : Ptr) (v : Ptr) (x : Nat) :
    (setNextAt k o p v x).cargo = (o x).cargo := by
  cases p <;> simp [setNextAt, cargo_setNext]

theorem cargo_setPrevAt (k : LinkSel) (o : Heap) (p : Ptr) (v : Ptr) (x : Nat) :
    (setPrevAt k o p v x).cargo = (o x).cargo := by
  cases p <;> simp [setPrevAt, cargo_setPrev]

/-! ## What `UNLINK` and `LINK` write -/

theorem cargo_UNLINK (k : LinkSel) (o : Heap) (h : Ptr) (a x : Nat) :
    ((UNLINK_heap k o h a).1 x).cargo = (o x).cargo := by
  simp only [UNLINK_heap, cargo_setPrev, cargo_setNext, cargo_setNextAt, cargo_setPrevAt]

theorem cargo_LINK (k : LinkSel) (o : Heap) (h : Ptr) (a x : Nat) :
    ((LINK_heap k o h a).1 x).cargo = (o x).cargo := by
  simp only [LINK_heap, cargo_setPrev, cargo_setNext, cargo_setNextAt, cargo_setPrevAt]


theorem body_UNLINK (k : LinkSel) (o : Heap) (h : Ptr) (a x : Nat) :
    body ((UNLINK_heap k o h a).1 x) = body (o x) := by
  simp only [UNLINK_heap, body_setPrev, body_setNext, body_setNextAt, body_setPrevAt]

theorem getL_UNLINK_ne (k k2 : LinkSel) (o : Heap) (h : Ptr) (a x : Nat) (hk : k2 ≠ k) :
    getL k2 ((UNLINK_heap k o h a).1 x) = getL k2 (o x) := by
  simp only [UNLINK_heap, getL_setPrev_ne _ _ _ _ _ _ hk, getL_setNext_ne _ _ _ _ _ _ hk,
    getL_setPrevAt_ne _ _ _ _ _ _ hk, getL_setNextAt_ne _ _ _ _ _ _ hk]

theorem getL_UNLINK (k : LinkSel) (o : Heap) (h : Ptr) (a x : Nat) :
    getL k ((UNLINK_heap k o h a).1 x) =
      if x = a then ⟨none, none⟩
      else ⟨if (getL k (o a)).prev = some x then (getL k (o a)).next else (getL k (o x)).next,
            if (getL k (o a)).next = some x then (getL k (o a)).prev else (getL k (o x)).prev⟩ := by
  simp only [UNLINK_heap, getL_setPrev, getL_setNext, getL_setPrevAt, getL_setNextAt]
  by_cases hxa : x = a
  · subst hxa; simp
  · simp only [hxa, if_false]
    split_ifs <;> simp_all

theorem UNLINK_head (k : LinkSel) (o : Heap) (h : Ptr) (a : Nat) :
    (UNLINK_heap k o h a).2 =
      if (getL k (o a)).prev = none then (getL k (o a)).next else h := by
  simp only [UNLINK_heap, getL_setPrev, getL_setNext, getL_setPrevAt, getL_setNextAt]
  split_ifs <;> simp_all

theorem body_LINK (k : LinkSel) (o : Heap) (h : Ptr) (a x : Nat) :
    body ((LINK_heap k o h a).1 x) = body (o x) := by
  simp only [LINK_heap, body_setPrev, body_setNext, body_setNextAt, body_setPrevAt]

theorem getL_LINK_ne (k k2 : LinkSel) (o : Heap) (h : Ptr) (a x : Nat) (hk : k2 ≠ k) :
    getL k2 ((LINK_heap k o h a).1 x) = getL k2 (o x) := by
  simp only [LINK_heap, getL_setPrev_ne _ _ _ _ _ _ hk, getL_setNext_ne _ _ _ _ _ _ hk,
    getL_setPrevAt_ne _ _ _ _ _ _ hk, getL_setNextAt_ne _ _ _ _ _ _ hk]

theorem getL_LINK (k : LinkSel) (o : Heap) (h : Ptr) (a x : Nat) :
    getL k ((LINK_heap k o h a).1 x) =
      if x = a then ⟨h, if h = some a then some a else none⟩
      else ⟨(getL k (o x)).next, if h = some x then some a else (getL k (o x)).prev⟩ := by
  simp only [LINK_heap, getL_setPrev, getL_setNext, getL_setPrevAt, getL_setNextAt]
  by_cases hxa : x = a
  · subst hxa; split_ifs <;> simp_all
  · simp only [hxa, if_false]
    split_ifs <;> simp_all

@[simp] theorem LINK_head (k : LinkSel) (o : Heap) (h : Ptr) (a : Nat) :
    (LINK_heap k o h a).2 = some a := rfl

/-! ## Chains -/

theorem Seg_congr (o o2 : Heap) (k : LinkSel) :
    ∀ (l : List Nat) (pv h : Ptr), (∀ x, x ∈ l → getL k (o2 x) = getL k (o x)) →
      Seg o k pv h l → Seg o2 k pv h l := by
  intro l
  induction l with
  | nil => intro pv h _ hs; exact hs
  | cons a t ih =>
    intro pv h hx hs
    obtain ⟨h1, h2, h3⟩ := hs
    have ha := hx a (List.mem_cons_self a t)
    refine ⟨h1, ?_, ?_⟩
    · rw [ha]; exact h2
    · rw [ha]
      exact ih _ _ (fun x hxt => hx x (List.mem_cons_of_mem a hxt)) h3

theorem Seg_next_mem (o : Heap) (k : LinkSel) (a n : Nat) :
    ∀ (l : List Nat) (pv h : Ptr), Seg o k pv h l → l.Nodup → a ∈ l →
      (getL k (o a)).next = some n → n ∈ l ∧ n ≠ a := by
  intro l
  induction l with
  | nil => intro pv h _ _ ha; exact absurd ha (List.not_mem_nil a)
  | cons b t ih =>
    intro pv h hs hnd ha hn
    obtain ⟨_, _, h3⟩ := hs
    have hbt : b ∉ t := (List.nodup_cons.mp hnd).1
    have hndt : t.Nodup := (List.nodup_cons.mp hnd).2
    rcases List.mem_cons.mp ha with hab | hat
    · subst hab
      rw [hn] at h3
      cases t with
      | nil => exact absurd h3 (by simp [Seg])
      | cons c t2 =>
        obtain ⟨h4, _, _⟩ := h3
        have hc : n = c := Option.some.inj h4
        subst hc
        refine ⟨by simp, ?_⟩
        intro e
        apply hbt
        rw [← e]; simp
    · obtain ⟨h5, h6⟩ := ih _ _ h3 hndt hat hn
      exact ⟨List.mem_cons_of_mem b h5, h6⟩

theorem Seg_prev_mem (o : Heap) (k : LinkSel) (a : Nat) :
    ∀ (l : List Nat) (pv h : Ptr), Seg o k pv h l → l.Nodup → a ∈ l →
      (getL k (o a)).prev = pv ∨ ∃ p, p ∈ l ∧ p ≠ a ∧ (getL k (o a)).prev = some p := by
  intro l
  induction l with
  | nil => intro pv h _ _ ha; exact absurd ha (List.not_mem_nil a)
  | cons b t ih =>
    intro pv h hs hnd ha
    obtain ⟨_, h2, h3⟩ := hs
    have hbt : b ∉ t := (List.nodup_cons.mp hnd).1
    have hndt : t.Nodup := (List.nodup_cons.mp hnd).2
    rcases List.mem_cons.mp ha with hab | hat
    · subst hab; exact Or.inl h2
    · right
      rcases ih _ _ h3 hndt hat with h4 | ⟨p, hp, hpa, h4⟩
      · refine ⟨b, by simp, ?_, h4⟩
        intro e; exact hbt (e ▸ hat)
      · exact ⟨p, List.mem_cons_of_mem b hp, hpa, h4⟩

theorem Seg_head_mem (o : Heap) (k : LinkSel) (pv h : Ptr) (l : List Nat) (x : Nat)
    (hs : Seg o k pv h l) (hx : h = some x) : x ∈ l := by
  cases l with
  | nil => rw [hx] at hs; exact absurd hs (by simp [Seg])
  | cons a t =>
    obtain ⟨h1, _, _⟩ := hs
    rw [hx] at h1
    rw [Option.some.inj h1]; simp

theorem Seg_head_iff (o : Heap) (k : LinkSel) (a x : Nat) (h : Ptr) (t : List Nat)
    (hs : Seg o k (some x) h t) (hnd : t.Nodup) (ha : a ∈ t) (hx : x ∉ t) :
    (getL k (o a)).prev = some x ↔ h = some a := by
  cases t with
  | nil => exact absurd ha (List.not_mem_nil a)
  | cons b t2 =>
    obtain ⟨h1, h2, h3⟩ := hs
    have hbt : b ∉ t2 := (List.nodup_cons.mp hnd).1
    have hndt : t2.Nodup := (List.nodup_cons.mp hnd).2
    rcases List.mem_cons.mp ha with hab | hat
    · subst hab
      exact ⟨fun _ => h1, fun _ => h2⟩
    · have hab : a ≠ b := fun e => hbt (e ▸ hat)
      constructor
      · intro hp
        exfalso
        rcases Seg_prev_mem o k a t2 _ _ h3 hndt hat with h4 | ⟨p, hp2, _, h4⟩
        · rw [hp] at h4
          have : x = b := Option.some.inj h4
          exact hx (this ▸ List.mem_cons_self b t2)
        · rw [hp] at h4
          have : x = p := Option.some.inj h4
          exact hx (this ▸ List.mem_cons_of_mem b hp2)
      · intro hh
        rw [h1] at hh
        exact absurd (Option.some.inj hh).symm hab

theorem Seg_unlink_tail (o o2 : Heap) (k : LinkSel) (a : Nat) (hL : UnlinkedFrom o o2 k a)
    (pv : Ptr) (t : List Nat) (hs : Seg o k (some a) (getL k (o a)).next t)
    (hp : (getL k (o a)).prev = pv) (hat : a ∉ t) (hnd : t.Nodup)
    (hpv : ∀ q, pv = some q → q ∉ t) :
    Seg o2 k pv (getL k (o a)).next t := by
  cases t with
  | nil => exact hs
  | cons b t2 =>
    obtain ⟨h1, _, h3⟩ := hs
    have hbt : b ∉ t2 := (List.nodup_cons.mp hnd).1
    have hba : b ≠ a := fun e => hat (e ▸ List.mem_cons_self b t2)
    have hb := hL b
    simp only [hba, if_false, h1, if_true, hp] at hb
    have hpb : ¬ pv = some b := fun e => hpv b e (List.mem_cons_self b t2)
    simp only [hpb, if_false] at hb
    refine ⟨h1, ?_, ?_⟩
    · rw [hb]
    · rw [hb]
      refine Seg_congr o o2 k t2 _ _ ?_ h3
      intro y hy
      have hya : y ≠ a := fun e => hat (e ▸ List.mem_cons_of_mem b hy)
      have hyb : y ≠ b := fun e => hbt (e ▸ hy)
      have hy2 := hL y
      simp only [hya, if_false, hp, h1] at hy2
      have e1 : ¬ pv = some y := fun e => hpv y e (List.mem_cons_of_mem b hy)
      have e2 : ¬ some b = some y := fun e => hyb (Option.some.inj e).symm
      simp only [e1, e2, if_false] at hy2
      exact hy2

theorem Seg_unlink (o o2 : Heap) (k : LinkSel) (a : Nat) (hL : UnlinkedFrom o o2 k a) :
    ∀ (l : List Nat) (pv h : Ptr), Seg o k pv h l → l.Nodup → a ∈ l →
      (∀ q, pv = some q → q ∉ l) →
      Seg o2 k pv (if h = some a then (getL k (o a)).next else h) (l.erase a) := by
  intro l
  induction l with
  | nil => intro pv h _ _ ha; exact absurd ha (List.not_mem_nil a)
  | cons x t ih =>
    intro pv h hs hnd ha hpv
    have hxt : x ∉ t := (List.nodup_cons.mp hnd).1
    have hndt : t.Nodup := (List.nodup_cons.mp hnd).2
    obtain ⟨h1, h2, h3⟩ := hs
    by_cases hxa : x = a
    · subst hxa
      rw [List.erase_cons_head, if_pos h1]
      exact Seg_unlink_tail o o2 k x hL pv t h3 h2 hxt hndt
        (fun q hq hqt => hpv q hq (List.mem_cons_of_mem x hqt))
    · have hat : a ∈ t := by
        rcases List.mem_cons.mp ha with e | e
        · exact absurd e.symm hxa
        · exact e
      have hne : ¬ h = some a := by
        rw [h1]; intro e; exact hxa (Option.some.inj e)
      rw [if_neg hne, List.erase_cons_tail (by simpa using hxa)]
      have hx2 := hL x
      simp only [hxa, if_false] at hx2
      have hN : ¬ (getL k (o a)).next = some x := by
        intro e
        exact hxt (Seg_next_mem o k a x t _ _ h3 hndt hat e).1
      simp only [hN, if_false] at hx2
      have hiff := Seg_head_iff o k a x _ t h3 hndt hat hxt
      have ih2 := ih (some x) (getL k (o x)).next h3 hndt hat
        (fun q hq => by rw [← Option.some.inj hq]; exact hxt)
      refine ⟨h1, ?_, ?_⟩
      · rw [hx2]; exact h2
      · rw [hx2]
        by_cases hP : (getL k (o a)).prev = some x
        · simp only [hP, if_true]
          rw [if_pos (hiff.mp hP)] at ih2
          exact ih2
        · simp only [hP, if_false]
          rw [if_neg (fun e => hP (hiff.mpr e))] at ih2
          exact ih2

theorem Seg_unlink_frame (o o2 : Heap) (k : LinkSel) (a : Nat) (hL : UnlinkedFrom o o2 k a)
    (l : List Nat) (pv h : Ptr) (hs : Seg o k pv h l) (ha : a ∉ l)
    (hn : ∀ n, (getL k (o a)).next = some n → n ∉ l)
    (hp : ∀ p, (getL k (o a)).prev = some p → p ∉ l) :
    Seg o2 k pv h l := by
  refine Seg_congr o o2 k l _ _ ?_ hs
  intro y hy
  have hya : y ≠ a := fun e => ha (e ▸ hy)
  have hy2 := hL y
  simp only [hya, if_false] at hy2
  have e1 : ¬ (getL k (o a)).prev = some y := fun e => hp y e hy
  have e2 : ¬ (getL k (o a)).next = some y := fun e => hn y e hy
  simp only [e1, e2, if_false] at hy2
  exact hy2

theorem Seg_link (o o2 : Heap) (k : LinkSel) (a : Nat) (h : Ptr) (hL : LinkedTo o o2 k h a)
    (l : List Nat) (hs : Seg o k none h l) (ha : a ∉ l) (hnd : l.Nodup) :
    Seg o2 k none (some a) (a :: l) := by
  have hha : ¬ h = some a := fun e => ha (Seg_head_mem o k none h l a hs e)
  have h1 := hL a
  simp only [if_true, hha, if_false] at h1
  refine ⟨rfl, by rw [h1], ?_⟩
  rw [h1]
  cases l with
  | nil => exact hs
  | cons b t =>
    obtain ⟨h2, _, h4⟩ := hs
    have hbt : b ∉ t := (List.nodup_cons.mp hnd).1
    have hba : b ≠ a := fun e => ha (e ▸ List.mem_cons_self b t)
    have hb := hL b
    simp only [hba, if_false, h2, if_true] at hb
    refine ⟨h2, by rw [hb], ?_⟩
    rw [hb]
    refine Seg_congr o o2 k t _ _ ?_ h4
    intro y hy
    have hya : y ≠ a := fun e => ha (e ▸ List.mem_cons_of_mem b hy)
    have hyb : y ≠ b := fun e => hbt (e ▸ hy)
    have hy2 := hL y
    have e2 : ¬ h = some y := by
      rw [h2]; intro e; exact hyb (Option.some.inj e).symm
    simp only [hya, if_false, e2] at hy2
    exact hy2

theorem Seg_link_frame (o o2 : Heap) (k : LinkSel) (a : Nat) (h : Ptr)
    (hL : LinkedTo o o2 k h a) (l : List Nat) (pv h2 : Ptr) (hs : Seg o k pv h2 l)
    (ha : a ∉ l) (hh : ∀ b, h = some b → b ∉ l) :
    Seg o2 k pv h2 l := by
  refine Seg_congr o o2 k l _ _ ?_ hs
  intro y hy
  have hya : y ≠ a := fun e => ha (e ▸ hy)
  have hy2 := hL y
  have e2 : ¬ h = some y := fun e => hh y e hy
  simp only [hya, if_false, e2] at hy2
  exact hy2

/-! ## Membership as the code sees it -/

theorem walk_none (o : Heap) (k : LinkSel) (n : Nat) : walk o k n none = none := by
  cases n <;> rfl

theorem walk_Seg (o : Heap) (k : LinkSel) :
    ∀ (l : List Nat) (pv h : Ptr) (n : Nat), Seg o k pv h l → walk o k n h = l.get? n := by
  intro l
  induction l with
  | nil =>
    intro pv h n hs
    have : h = none := hs
    subst this
    rw [walk_none]; rfl
  | cons a t ih =>
    intro pv h n hs
    obtain ⟨h1, _, h3⟩ := hs
    subst h1
    cases n with
    | zero => rfl
    | succ m => exact ih _ _ m h3

theorem InList_iff_mem (o : Heap) (k : LinkSel) (pv h : Ptr) (l : List Nat) (x : Nat)
    (hs : Seg o k pv h l) : InList o k h x ↔ x ∈ l := by
  unfold InList
  constructor
  · rintro ⟨n, hn⟩
    rw [walk_Seg o k l pv h n hs] at hn
    exact List.get?_mem hn
  · intro hx
    obtain ⟨n, hn⟩ := List.mem_iff_get?.mp hx
    exact ⟨n, by rw [walk_Seg o k l pv h n hs]; exact hn⟩

theorem Seg_length_le (n : Nat) (l : List Nat) (hnd : l.Nodup) (hb : ∀ x, x ∈ l → x < n) :
    l.length ≤ n := by
  have hsub : l ⊆ List.range n := fun x hx => List.mem_range.mpr (hb x hx)
  have := (List.subperm_of_subset hnd hsub).length_le
  simpa using this

theorem UNLINK_UnlinkedFrom (k : LinkSel) (o : Heap) (h : Ptr) (a : Nat) :
    UnlinkedFrom o (UNLINK_heap k o h a).1 k a :=
  fun x => getL_UNLINK k o h a x

theorem LINK_LinkedTo (k : LinkSel) (o : Heap) (h : Ptr) (a : Nat) :
    LinkedTo o (LINK_heap k o h a).1 k h a :=
  fun x => getL_LINK k o h a x

theorem Seg_head_iff_none (o : Heap) (k : LinkSel) (a : Nat) (h : Ptr) (l : List Nat)
    (hs : Seg o k none h l) (hnd : l.Nodup) (ha : a ∈ l) :
    (getL k (o a)).prev = none ↔ h = some a := by
  cases l with
  | nil => exact absurd ha (List.not_mem_nil a)
  | cons b t =>
    obtain ⟨h1, h2, h3⟩ := hs
    have hbt : b ∉ t := (List.nodup_cons.mp hnd).1
    have hndt : t.Nodup := (List.nodup_cons.mp hnd).2
    rcases List.mem_cons.mp ha with hab | hat
    · subst hab
      exact ⟨fun _ => h1, fun _ => h2⟩
    · have hab : a ≠ b := fun e => hbt (e ▸ hat)
      constructor
      · intro hp
        exfalso
        rcases Seg_prev_mem o k a t _ _ h3 hndt hat with h4 | ⟨p, _, _, h4⟩
        · rw [hp] at h4; exact absurd h4 (by simp)
        · rw [hp] at h4; exact absurd h4 (by simp)
      · intro hh
        rw [h1] at hh
        exact absurd (Option.some.inj hh).symm hab

/-! ## Families of lists -/

theorem Fam_congr {ι : Type} (n : Nat) (o o2 : Heap) (k : LinkSel) (H H2 : ι → Ptr)
    (F : ι → List Nat) (hF : Fam n o k H F) (hL : ∀ x, getL k (o2 x) = getL k (o x))
    (hH : ∀ i, H2 i = H i) : Fam n o2 k H2 F where
  seg := fun i => by
    rw [hH i]
    exact Seg_congr o o2 k (F i) _ _ (fun x _ => hL x) (hF.seg i)
  nodup := hF.nodup
  disj := hF.disj
  bound := hF.bound

theorem Fam_unlink {ι : Type} [DecidableEq ι] (n : Nat) (o : Heap) (k : LinkSel)
    (H : ι → Ptr) (F : ι → List Nat) (hF : Fam n o k H F) (i : ι) (a : Nat) (ha : a ∈ F i) :
    Fam n (UNLINK_heap k o (H i) a).1 k (upd H i (UNLINK_heap k o (H i) a).2)
      (upd F i ((F i).erase a)) where
  seg := fun j => by
    by_cases hj : j = i
    · subst hj
      rw [upd_same, upd_same, UNLINK_head]
      have h1 := Seg_unlink o _ k a (UNLINK_UnlinkedFrom k o (H j) a) (F j) none (H j)
        (hF.seg j) (hF.nodup j) ha (fun q hq => absurd hq (by simp))
      have hiff := Seg_head_iff_none o k a (H j) (F j) (hF.seg j) (hF.nodup j) ha
      by_cases hp : (getL k (o a)).prev = none
      · rw [if_pos hp]; rw [if_pos (hiff.mp hp)] at h1; exact h1
      · rw [if_neg hp]; rw [if_neg (fun e => hp (hiff.mpr e))] at h1; exact h1
    · rw [upd_ne _ _ _ _ hj, upd_ne _ _ _ _ hj]
      refine Seg_unlink_frame o _ k a (UNLINK_UnlinkedFrom k o (H i) a) (F j) none (H j)
        (hF.seg j) ?_ ?_ ?_
      · intro h; exact hj (hF.disj j i a h ha)
      · intro m hm h
        have := (Seg_next_mem o k a m (F i) _ _ (hF.seg i) (hF.nodup i) ha hm).1
        exact hj (hF.disj j i m h this)
      · intro p hp h
        rcases Seg_prev_mem o k a (F i) _ _ (hF.seg i) (hF.nodup i) ha with h4 | ⟨q, hq, _, h4⟩
        · rw [hp] at h4; exact absurd h4 (by simp)
        · rw [hp] at h4
          have : p = q := Option.some.inj h4
          subst this
          exact hj (hF.disj j i p h hq)
  nodup := fun j => by
    by_cases hj : j = i
    · subst hj; rw [upd_same]; exact (hF.nodup j).erase a
    · rw [upd_ne _ _ _ _ hj]; exact hF.nodup j
  disj := fun j1 j2 x h1 h2 => by
    have e1 : x ∈ F j1 := by
      by_cases hj : j1 = i
      · subst hj; rw [upd_same] at h1; exact List.mem_of_mem_erase h1
      · rw [upd_ne _ _ _ _ hj] at h1; exact h1
    have e2 : x ∈ F j2 := by
      by_cases hj : j2 = i
      · subst hj; rw [upd_same] at h2; exact List.mem_of_mem_erase h2
      · rw [upd_ne _ _ _ _ hj] at h2; exact h2
    exact hF.disj j1 j2 x e1 e2
  bound := fun j x h1 => by
    by_cases hj : j = i
    · subst hj; rw [upd_same] at h1; exact hF.bound j x (List.mem_of_mem_erase h1)
    · rw [upd_ne _ _ _ _ hj] at h1; exact hF.bound j x h1

theorem Fam_link {ι : Type} [DecidableEq ι] (n : Nat) (o : Heap) (k : LinkSel)
    (H : ι → Ptr) (F : ι → List Nat) (hF : Fam n o k H F) (i : ι) (a : Nat)
    (ha : ∀ j, a ∉ F j) (han : a < n) :
    Fam n (LINK_heap k o (H i) a).1 k (upd H i (LINK_heap k o (H i) a).2) (upd F i (a :: F i)) where
  seg := fun j => by
    by_cases hj : j = i
    · subst hj
      rw [upd_same, upd_same, LINK_head]
      exact Seg_link o _ k a (H j) (LINK_LinkedTo k o (H j) a) (F j) (hF.seg j) (ha j)
        (hF.nodup j)
    · rw [upd_ne _ _ _ _ hj, upd_ne _ _ _ _ hj]
      refine Seg_link_frame o _ k a (H i) (LINK_LinkedTo k o (H i) a) (F j) none (H j)
        (hF.seg j) (ha j) ?_
      intro b hb h
      exact hj (hF.disj j i b h (Seg_head_mem o k none (H i) (F i) b (hF.seg i) hb))
  nodup := fun j => by
    by_cases hj : j = i
    · subst hj; rw [upd_same]; exact List.nodup_cons.mpr ⟨ha j, hF.nodup j⟩
    · rw [upd_ne _ _ _ _ hj]; exact hF.nodup j
  disj := fun j1 j2 x h1 h2 => by
    by_cases hxa : x = a
    · subst hxa
      have e1 : j1 = i := by
        by_contra hj
        rw [upd_ne _ _ _ _ hj] at h1; exact ha j1 h1
      have e2 : j2 = i := by
        by_contra hj
        rw [upd_ne _ _ _ _ hj] at h2; exact ha j2 h2
      rw [e1, e2]
    · have e1 : x ∈ F j1 := by
        by_cases hj : j1 = i
        · subst hj; rw [upd_same] at h1
          rcases List.mem_cons.mp h1 with e | e
          · exact absurd e hxa
          · exact e
        · rw [upd_ne _ _ _ _ hj] at h1; exact h1
      have e2 : x ∈ F j2 := by
        by_cases hj : j2 = i
        · subst hj; rw [upd_same] at h2
          rcases List.mem_cons.mp h2 with e | e
          · exact absurd e hxa
          · exact e
        · rw [upd_ne _ _ _ _ hj] at h2; exact h2
      exact hF.disj j1 j2 x e1 e2
  bound := fun j x h1 => by
    by_cases hj : j = i
    · subst hj; rw [upd_same] at h1
      rcases List.mem_cons.mp h1 with e | e
      · rw [e]; exact han
      · exact hF.bound j x e
    · rw [upd_ne _ _ _ _ hj] at h1; exact hF.bound j x h1

theorem Fam_length_le {ι : Type} (n : Nat) (o : Heap) (k : LinkSel) (H : ι → Ptr)
    (F : ι → List Nat) (hF : Fam n o k H F) (i : ι) : (F i).length ≤ n :=
  Seg_length_le n (F i) (hF.nodup i) (hF.bound i)

/-! ## Scanning writes the view maps only -/

theorem SameButViews.refl (w : World) : SameButViews w w :=
  ⟨rfl, rfl, rfl, rfl, rfl, rfl, rfl⟩

theorem SameButViews.trans {w1 w2 w3 : World} (h12 : SameButViews w1 w2)
    (h23 : SameButViews w2 w3) : SameButViews w1 w3 := by
  obtain ⟨a1, a2, a3, a4, a5, a6, a7⟩ := h12
  obtain ⟨b1, b2, b3, b4, b5, b6, b7⟩ := h23
  exact ⟨b1.trans a1, b2.trans a2, b3.trans a3, b4.trans a4, b5.trans a5, b6.trans a6,
    b7.trans a7⟩

theorem SameButViews_setView (w : World) (v : VMapSel) (loc : Int) (c : view_map_t) :
    SameButViews w (setView w v loc c) := by
  cases v <;> exact ⟨rfl, rfl, rfl, rfl, rfl, rfl, rfl⟩

theorem Scannable_of_same {fuel : Nat} {w w2 : World} (h : SameButViews w w2)
    (hs : Scannable fuel w) : Scannable fuel w2 := by
  intro c
  obtain ⟨l, h1, h2⟩ := hs c
  refine ⟨l, ?_, h2⟩
  unfold cellHead
  rw [h.1, h.2.2.2.2.2.1]
  exact h1

theorem find_obj_at_loc_loop_ok (E : Env) (o : Heap) :
    ∀ (l : List Nat) (pv p : Ptr) (fuel best : Nat), Seg o .loc_link pv p l →
      l.length ≤ fuel → ∃ r, find_obj_at_loc_loop E o fuel p best = .ok (some r) := by
  intro l
  induction l with
  | nil =>
    intro pv p fuel best hs _
    have : p = none := hs
    subst this
    exact ⟨best, by cases fuel <;> rfl⟩
  | cons a t ih =>
    intro pv p fuel best hs hlen
    obtain ⟨h1, _, h3⟩ := hs
    subst h1
    cases fuel with
    | zero => simp at hlen
    | succ f =>
      have hlen2 : t.length ≤ f := by simpa using hlen
      obtain ⟨r, hr⟩ := ih (some a) (getL .loc_link (o a)).next f
        (if (o a).type > (o best).type ∧ (o a).type ≠ E.SATELLITE then a else best) h3 hlen2
      exact ⟨r, hr⟩

theorem find_obj_at_loc_ok (E : Env) (fuel : Nat) (w : World) (hs : Scannable fuel w)
    (loc : Int) : ∃ r, find_obj_at_loc E fuel w loc = .ok r := by
  obtain ⟨l, h1, h2⟩ := hs loc
  unfold find_obj_at_loc
  cases l with
  | nil =>
    have : (w.map loc).objp = none := h1
    rw [this]
    exact ⟨none, rfl⟩
  | cons a t =>
    obtain ⟨h3, _, h5⟩ := h1
    have : (w.map loc).objp = some a := h3
    rw [this]
    have hlen : t.length ≤ fuel := by
      have : t.length + 1 ≤ fuel := by simpa using h2
      omega
    obtain ⟨r, hr⟩ := find_obj_at_loc_loop_ok E w.object t (some a) _ fuel a h5 hlen
    exact ⟨some r, hr⟩

theorem update_ok (E : Env) (fuel : Nat) (w : World) (v : VMapSel) (loc : Int)
    (hs : Scannable fuel w) : ∃ w2, update E fuel w v loc = .ok w2 ∧ SameButViews w w2 := by
  have hv1 := SameButViews_setView w v loc { getView w v loc with seen := w.date }
  have hs1 := Scannable_of_same hv1 hs
  unfold update
  dsimp only
  split
  · exact ⟨_, rfl, hv1.trans (SameButViews_setView _ _ _ _)⟩
  · obtain ⟨r, hr⟩ := find_obj_at_loc_ok E fuel _ hs1 loc
    rw [hr]
    cases r with
    | none => exact ⟨_, rfl, hv1.trans (SameButViews_setView _ _ _ _)⟩
    | some p =>
      dsimp only
      split
      · exact ⟨_, rfl, hv1.trans (SameButViews_setView _ _ _ _)⟩
      · exact ⟨_, rfl, hv1.trans (SameButViews_setView _ _ _ _)⟩

theorem scan_loop_ok (E : Env) (fuel : Nat) (v : VMapSel) (loc : Int) :
    ∀ (n : Nat) (i : Int) (w : World), Scannable fuel w →
      ∃ w2, scan_loop E fuel v loc n i w = .ok w2 ∧ SameButViews w w2 := by
  intro n
  induction n with
  | zero => intro i w _; exact ⟨w, rfl, SameButViews.refl w⟩
  | succ m ih =>
    intro i w hs
    obtain ⟨w1, h1, h2⟩ := update_ok E fuel w v (loc + E.dir_offset i) hs
    obtain ⟨w2, h3, h4⟩ := ih (i + 1) w1 (Scannable_of_same h2 hs)
    refine ⟨w2, ?_, h2.trans h4⟩
    simp only [scan_loop, h1]
    exact h3

theorem scan_ok (E : Env) (fuel : Nat) (w : World) (v : VMapSel) (loc : Int)
    (hs : Scannable fuel w) (hb : (w.map loc).on_board = true) :
    ∃ w2, scan E fuel w v loc = .ok w2 ∧ SameButViews w w2 := by
  obtain ⟨w1, h1, h2⟩ := scan_loop_ok E fuel v loc 8 0 w hs
  obtain ⟨w2, h3, h4⟩ := update_ok E fuel w1 v loc (Scannable_of_same h2 hs)
  refine ⟨w2, ?_, h2.trans h4⟩
  unfold scan
  rw [if_neg (by simp [hb]), h1]
  exact h3

theorem scan_sat_loop_ok (E : Env) (fuel : Nat) (v : VMapSel) (loc : Int) :
    ∀ (n : Nat) (i : Int) (w : World), Scannable fuel w →
      ∃ w2, scan_sat_loop E fuel v loc n i w = .ok w2 ∧ SameButViews w w2 := by
  intro n
  induction n with
  | zero => intro i w _; exact ⟨w, rfl, SameButViews.refl w⟩
  | succ m ih =>
    intro i w hs
    unfold scan_sat_loop
    split_ifs with hc
    · obtain ⟨w1, h1, h2⟩ := scan_ok E fuel w v (loc + 2 * E.dir_offset i) hs hc.2.2
      obtain ⟨w2, h3, h4⟩ := ih (i + 1) w1 (Scannable_of_same h2 hs)
      refine ⟨w2, ?_, h2.trans h4⟩
      rw [h1]
      exact h3
    · exact ih (i + 1) w hs

theorem scan_sat_ok (E : Env) (fuel : Nat) (w : World) (v : VMapSel) (loc : Int)
    (hs : Scannable fuel w) (hb : (w.map loc).on_board = true) :
    ∃ w2, scan_sat E fuel w v loc = .ok w2 ∧ SameButViews w w2 := by
  obtain ⟨w1, h1, h2⟩ := scan_sat_loop_ok E fuel v loc 8 0 w hs
  have hb1 : (w1.map loc).on_board = true := by rw [h2.1]; exact hb
  obtain ⟨w2, h3, h4⟩ := scan_ok E fuel w1 v loc (Scannable_of_same h2 hs) hb1
  refine ⟨w2, ?_, h2.trans h4⟩
  unfold scan_sat
  rw [if_neg (by simp [hb]), h1]
  exact h3

/-! ## The fields of a record other than its links -/

theorem body_owner {p q : piece_info_t} (h : body p = body q) : p.owner = q.owner :=
  congrArg (fun b => b.1) h

theorem body_type {p q : piece_info_t} (h : body p = body q) : p.type = q.type :=
  congrArg (fun b => b.2.1) h

theorem body_loc {p q : piece_info_t} (h : body p = body q) : p.loc = q.loc :=
  congrArg (fun b => b.2.2.1) h

theorem body_func {p q : piece_info_t} (h : body p = body q) : p.func = q.func :=
  congrArg (fun b => b.2.2.2.1) h

theorem body_hits {p q : piece_info_t} (h : body p = body q) : p.hits = q.hits :=
  congrArg (fun b => b.2.2.2.2.1) h

theorem body_moved {p q : piece_info_t} (h : body p = body q) : p.moved = q.moved :=
  congrArg (fun b => b.2.2.2.2.2.1) h

theorem body_ship {p q : piece_info_t} (h : body p = body q) : p.ship = q.ship :=
  congrArg (fun b => b.2.2.2.2.2.2.1) h

theorem body_count {p q : piece_info_t} (h : body p = body q) : p.count = q.count :=
  congrArg (fun b => b.2.2.2.2.2.2.2.1) h

theorem body_range {p q : piece_info_t} (h : body p = body q) : p.range = q.range :=
  congrArg (fun b => b.2.2.2.2.2.2.2.2) h

/-! ## The macro calls on a state -/

theorem UNLINK_object_piece (w : World) (i : PIdx) (a : Nat) (k : LinkSel) :
    (UNLINK w (.piece i) a k).object = (UNLINK_heap k w.object (pieceHead w i) a).1 := by
  cases i <;> rfl

theorem LINK_object_piece (w : World) (i : PIdx) (a : Nat) (k : LinkSel) :
    (LINK w (.piece i) a k).object = (LINK_heap k w.object (pieceHead w i) a).1 := by
  cases i <;> rfl

theorem UNLINK_map_piece (w : World) (i : PIdx) (a : Nat) (k : LinkSel) :
    (UNLINK w (.piece i) a k).map = w.map := by
  cases i <;> rfl

theorem LINK_map_piece (w : World) (i : PIdx) (a : Nat) (k : LinkSel) :
    (LINK w (.piece i) a k).map = w.map := by
  cases i <;> rfl

theorem pieceHead_setHead (w : World) (i : PIdx) (v : Ptr) :
    pieceHead (setHead w (.piece i) v) = upd (pieceHead w) i v := by
  funext j
  cases i <;> cases j <;> simp [setHead, pieceHead, upd_apply]

theorem pieceHead_UNLINK_piece (w : World) (i : PIdx) (a : Nat) (k : LinkSel) :
    pieceHead (UNLINK w (.piece i) a k) =
      upd (pieceHead w) i (UNLINK_heap k w.object (pieceHead w i) a).2 := by
  unfold UNLINK
  rw [pieceHead_setHead]
  rfl

theorem pieceHead_LINK_piece (w : World) (i : PIdx) (a : Nat) (k : LinkSel) :
    pieceHead (LINK w (.piece i) a k) = upd (pieceHead w) i (some a) := by
  unfold LINK
  rw [pieceHead_setHead]
  rfl

theorem cellHead_piece (w : World) (i : PIdx) (v : Ptr) (o : Heap) :
    cellHead (setHead { w with object := o } (.piece i) v) = cellHead w := by
  cases i <;> rfl

theorem cargoHead_eq (w w2 : World) (h : ∀ x, (w2.object x).cargo = (w.object x).cargo) :
    cargoHead w2 = cargoHead w := by
  funext x; exact h x

theorem Str_UNLINK_piece (n : Nat) (w : World) (s : Shape) (i : PIdx) (a : Nat)
    (hS : Str n w s) (ha : a ∈ s.piece i) :
    Str n (UNLINK w (.piece i) a .piece_link)
      { s with piece := upd s.piece i ((s.piece i).erase a) } where
  pieces := by
    rw [UNLINK_object_piece, pieceHead_UNLINK_piece]
    exact Fam_unlink n w.object .piece_link (pieceHead w) s.piece hS.pieces i a ha
  cells := by
    refine Fam_congr n w.object _ .loc_link (cellHead w) _ s.cell hS.cells ?_ ?_
    · intro x
      rw [UNLINK_object_piece]
      exact getL_UNLINK_ne _ _ _ _ _ _ (by decide)
    · intro c
      unfold cellHead
      rw [UNLINK_map_piece]
  cargos := by
    refine Fam_congr n w.object _ .cargo_link (cargoHead w) _ s.cargo hS.cargos ?_ ?_
    · intro x
      rw [UNLINK_object_piece]
      exact getL_UNLINK_ne _ _ _ _ _ _ (by decide)
    · intro x
      unfold cargoHead
      rw [UNLINK_object_piece]
      exact cargo_UNLINK _ _ _ _ _

theorem Str_LINK_piece (n : Nat) (w : World) (s : Shape) (i : PIdx) (a : Nat)
    (hS : Str n w s) (ha : ∀ j, a ∉ s.piece j) (han : a < n) :
    Str n (LINK w (.piece i) a .piece_link)
      { s with piece := upd s.piece i (a :: s.piece i) } where
  pieces := by
    rw [LINK_object_piece, pieceHead_LINK_piece]
    exact Fam_link n w.object .piece_link (pieceHead w) s.piece hS.pieces i a ha han
  cells := by
    refine Fam_congr n w.object _ .loc_link (cellHead w) _ s.cell hS.cells ?_ ?_
    · intro x
      rw [LINK_object_piece]
      exact getL_LINK_ne _ _ _ _ _ _ (by decide)
    · intro c
      unfold cellHead
      rw [LINK_map_piece]
  cargos := by
    refine Fam_congr n w.object _ .cargo_link (cargoHead w) _ s.cargo hS.cargos ?_ ?_
    · intro x
      rw [LINK_object_piece]
      exact getL_LINK_ne _ _ _ _ _ _ (by decide)
    · intro x
      unfold cargoHead
      rw [LINK_object_piece]
      exact cargo_LINK _ _ _ _ _

theorem UNLINK_object_objp (w : World) (c : Int) (a : Nat) (k : LinkSel) :
    (UNLINK w (.objp c) a k).object = (UNLINK_heap k w.object (cellHead w c) a).1 := rfl

theorem LINK_object_objp (w : World) (c : Int) (a : Nat) (k : LinkSel) :
    (LINK w (.objp c) a k).object = (LINK_heap k w.object (cellHead w c) a).1 := rfl

theorem cellHead_UNLINK_objp (w : World) (c : Int) (a : Nat) (k : LinkSel) :
    cellHead (UNLINK w (.objp c) a k) =
      upd (cellHead w) c (UNLINK_heap k w.object (cellHead w c) a).2 := by
  funext d
  simp only [UNLINK, setHead, cellHead, getHead, upd_apply]
  split_ifs <;> rfl

theorem cellHead_LINK_objp (w : World) (c : Int) (a : Nat) (k : LinkSel) :
    cellHead (LINK w (.objp c) a k) = upd (cellHead w) c (some a) := by
  funext d
  simp only [LINK, setHead, cellHead, getHead, upd_apply]
  split_ifs <;> rfl

theorem pieceHead_UNLINK_objp (w : World) (c : Int) (a : Nat) (k : LinkSel) :
    pieceHead (UNLINK w (.objp c) a k) = pieceHead w := by
  funext j; cases j <;> rfl

theorem pieceHead_LINK_objp (w : World) (c : Int) (a : Nat) (k : LinkSel) :
    pieceHead (LINK w (.objp c) a k) = pieceHead w := by
  funext j; cases j <;> rfl

theorem Str_UNLINK_objp (n : Nat) (w : World) (s : Shape) (c : Int) (a : Nat)
    (hS : Str n w s) (ha : a ∈ s.cell c) :
    Str n (UNLINK w (.objp c) a .loc_link)
      { s with cell := upd s.cell c ((s.cell c).erase a) } where
  pieces := by
    refine Fam_congr n w.object _ .piece_link (pieceHead w) _ s.piece hS.pieces ?_ ?_
    · intro x
      rw [UNLINK_object_objp]
      exact getL_UNLINK_ne _ _ _ _ _ _ (by decide)
    · intro j
      rw [pieceHead_UNLINK_objp]
  cells := by
    rw [UNLINK_object_objp, cellHead_UNLINK_objp]
    exact Fam_unlink n w.object .loc_link (cellHead w) s.cell hS.cells c a ha
  cargos := by
    refine Fam_congr n w.object _ .cargo_link (cargoHead w) _ s.cargo hS.cargos ?_ ?_
    · intro x
      rw [UNLINK_object_objp]
      exact getL_UNLINK_ne _ _ _ _ _ _ (by decide)
    · intro x
      unfold cargoHead
      rw [UNLINK_object_objp]
      exact cargo_UNLINK _ _ _ _ _

theorem Str_LINK_objp (n : Nat) (w : World) (s : Shape) (c : Int) (a : Nat)
    (hS : Str n w s) (ha : ∀ j, a ∉ s.cell j) (han : a < n) :
    Str n (LINK w (.objp c) a .loc_link)
      { s with cell := upd s.cell c (a :: s.cell c) } where
  pieces := by
    refine Fam_congr n w.object _ .piece_link (pieceHead w) _ s.piece hS.pieces ?_ ?_
    · intro x
      rw [LINK_object_objp]
      exact getL_LINK_ne _ _ _ _ _ _ (by decide)
    · intro j
      rw [pieceHead_LINK_objp]
  cells := by
    rw [LINK_object_objp, cellHead_LINK_objp]
    exact Fam_link n w.object .loc_link (cellHead w) s.cell hS.cells c a ha han
  cargos := by
    refine Fam_congr n w.object _ .cargo_link (cargoHead w) _ s.cargo hS.cargos ?_ ?_
    · intro x
      rw [LINK_object_objp]
      exact getL_LINK_ne _ _ _ _ _ _ (by decide)
    · intro x
      unfold cargoHead
      rw [LINK_object_objp]
      exact cargo_LINK _ _ _ _ _

/-! The cargo head lives in the pool itself. -/

theorem UNLINK_object_cargo (w : World) (y : Nat) (a : Nat) (k : LinkSel) (x : Nat) :
    (UNLINK w (.cargo y) a k).object x =
      if x = y then
        { (UNLINK_heap k w.object (cargoHead w y) a).1 y with
          cargo := (UNLINK_heap k w.object (cargoHead w y) a).2 }
      else (UNLINK_heap k w.object (cargoHead w y) a).1 x := by
  simp only [UNLINK, setHead, getHead, upd_apply]

theorem LINK_object_cargo (w : World) (y : Nat) (a : Nat) (k : LinkSel) (x : Nat) :
    (LINK w (.cargo y) a k).object x =
      if x = y then
        { (LINK_heap k w.object (cargoHead w y) a).1 y with cargo := some a }
      else (LINK_heap k w.object (cargoHead w y) a).1 x := by
  simp only [LINK, setHead, getHead, upd_apply]
  rfl

theorem getL_UNLINK_cargo (w : World) (y : Nat) (a : Nat) (k k2 : LinkSel) (x : Nat) :
    getL k2 ((UNLINK w (.cargo y) a k).object x) =
      getL k2 ((UNLINK_heap k w.object (cargoHead w y) a).1 x) := by
  rw [UNLINK_object_cargo]
  split_ifs with h
  · subst h; cases k2 <;> rfl
  · rfl

theorem getL_LINK_cargo (w : World) (y : Nat) (a : Nat) (k k2 : LinkSel) (x : Nat) :
    getL k2 ((LINK w (.cargo y) a k).object x) =
      getL k2 ((LINK_heap k w.object (cargoHead w y) a).1 x) := by
  rw [LINK_object_cargo]
  split_ifs with h
  · subst h; cases k2 <;> rfl
  · rfl

theorem cargoHead_UNLINK_cargo (w : World) (y : Nat) (a : Nat) (k : LinkSel) :
    cargoHead (UNLINK w (.cargo y) a k) =
      upd (cargoHead w) y (UNLINK_heap k w.object (cargoHead w y) a).2 := by
  funext x
  unfold cargoHead
  rw [UNLINK_object_cargo, upd_apply]
  split_ifs with h
  · rfl
  · exact cargo_UNLINK _ _ _ _ _

theorem cargoHead_LINK_cargo (w : World) (y : Nat) (a : Nat) (k : LinkSel) :
    cargoHead (LINK w (.cargo y) a k) = upd (cargoHead w) y (some a) := by
  funext x
  unfold cargoHead
  rw [LINK_object_cargo, upd_apply]
  split_ifs with h
  · rfl
  · exact cargo_LINK _ _ _ _ _

theorem pieceHead_UNLINK_cargo (w : World) (y : Nat) (a : Nat) (k : LinkSel) :
    pieceHead (UNLINK w (.cargo y) a k) = pieceHead w := by
  funext j; cases j <;> rfl

theorem pieceHead_LINK_cargo (w : World) (y : Nat) (a : Nat) (k : LinkSel) :
    pieceHead (LINK w (.cargo y) a k) = pieceHead w := by
  funext j; cases j <;> rfl

theorem cellHead_UNLINK_cargo (w : World) (y : Nat) (a : Nat) (k : LinkSel) :
    cellHead (UNLINK w (.cargo y) a k) = cellHead w := rfl

theorem cellHead_LINK_cargo (w : World) (y : Nat) (a : Nat) (k : LinkSel) :
    cellHead (LINK w (.cargo y) a k) = cellHead w := rfl

theorem Fam_of_getL {ι : Type} (n : Nat) (o o2 : Heap) (k : LinkSel) (H : ι → Ptr)
    (F : ι → List Nat) (hF : Fam n o k H F) (hL : ∀ x, getL k (o2 x) = getL k (o x)) :
    Fam n o2 k H F :=
  Fam_congr n o o2 k H H F hF hL (fun _ => rfl)

theorem Str_UNLINK_cargo (n : Nat) (w : World) (s : Shape) (y : Nat) (a : Nat)
    (hS : Str n w s) (ha : a ∈ s.cargo y) :
    Str n (UNLINK w (.cargo y) a .cargo_link)
      { s with cargo := upd s.cargo y ((s.cargo y).erase a) } where
  pieces := by
    refine Fam_congr n w.object _ .piece_link (pieceHead w) _ s.piece hS.pieces ?_ ?_
    · intro x
      rw [getL_UNLINK_cargo]
      exact getL_UNLINK_ne _ _ _ _ _ _ (by decide)
    · intro j
      rw [pieceHead_UNLINK_cargo]
  cells := by
    refine Fam_congr n w.object _ .loc_link (cellHead w) _ s.cell hS.cells ?_ ?_
    · intro x
      rw [getL_UNLINK_cargo]
      exact getL_UNLINK_ne _ _ _ _ _ _ (by decide)
    · intro c
      rw [cellHead_UNLINK_cargo]
  cargos := by
    rw [cargoHead_UNLINK_cargo]
    refine Fam_of_getL n _ _ .cargo_link _ _
      (Fam_unlink n w.object .cargo_link (cargoHead w) s.cargo hS.cargos y a ha) ?_
    intro x
    rw [getL_UNLINK_cargo]

theorem Str_LINK_cargo (n : Nat) (w : World) (s : Shape) (y : Nat) (a : Nat)
    (hS : Str n w s) (ha : ∀ j, a ∉ s.cargo j) (han : a < n) :
    Str n (LINK w (.cargo y) a .cargo_link)
      { s with cargo := upd s.cargo y (a :: s.cargo y) } where
  pieces := by
    refine Fam_congr n w.object _ .piece_link (pieceHead w) _ s.piece hS.pieces ?_ ?_
    · intro x
      rw [getL_LINK_cargo]
      exact getL_LINK_ne _ _ _ _ _ _ (by decide)
    · intro j
      rw [pieceHead_LINK_cargo]
  cells := by
    refine Fam_congr n w.object _ .loc_link (cellHead w) _ s.cell hS.cells ?_ ?_
    · intro x
      rw [getL_LINK_cargo]
      exact getL_LINK_ne _ _ _ _ _ _ (by decide)
    · intro c
      rw [cellHead_LINK_cargo]
  cargos := by
    rw [cargoHead_LINK_cargo]
    refine Fam_of_getL n _ _ .cargo_link _ _
      (Fam_link n w.object .cargo_link (cargoHead w) s.cargo hS.cargos y a ha han) ?_
    intro x
    rw [getL_LINK_cargo]

theorem Str_setPiece (n : Nat) (w : World) (s : Shape) (x : Nat) (p : piece_info_t)
    (hS : Str n w s) (hL : ∀ k, getL k p = getL k (w.object x))
    (hc : p.cargo = (w.object x).cargo) : Str n (setPiece w x p) s where
  pieces := by
    refine Fam_congr n w.object _ .piece_link (pieceHead w) _ s.piece hS.pieces ?_ ?_
    · intro y
      simp only [setPiece, upd_apply]
      split_ifs with h
      · subst h; exact hL _
      · rfl
    · intro j; cases j <;> rfl
  cells := by
    refine Fam_congr n w.object _ .loc_link (cellHead w) _ s.cell hS.cells ?_ ?_
    · intro y
      simp only [setPiece, upd_apply]
      split_ifs with h
      · subst h; exact hL _
      · rfl
    · intro c; rfl
  cargos := by
    refine Fam_congr n w.object _ .cargo_link (cargoHead w) _ s.cargo hS.cargos ?_ ?_
    · intro y
      simp only [setPiece, upd_apply]
      split_ifs with h
      · subst h; exact hL _
      · rfl
    · intro y
      simp only [setPiece, cargoHead, upd_apply]
      split_ifs with h
      · subst h; exact hc
      · rfl

/-! The macro calls leave the fields of `body` alone, wherever the head is. -/

theorem body_UNLINK_w (w : World) (r : HeadRef) (a : Nat) (k : LinkSel) (x : Nat) :
    body ((UNLINK w r a k).object x) = body (w.object x) := by
  cases r with
  | piece i => rw [UNLINK_object_piece]; exact body_UNLINK _ _ _ _ _
  | objp c => rw [UNLINK_object_objp]; exact body_UNLINK _ _ _ _ _
  | cargo y =>
    rw [UNLINK_object_cargo]
    split_ifs with h
    · subst h; exact body_UNLINK k w.object _ a x
    · exact body_UNLINK _ _ _ _ _

theorem body_LINK_w (w : World) (r : HeadRef) (a : Nat) (k : LinkSel) (x : Nat) :
    body ((LINK w r a k).object x) = body (w.object x) := by
  cases r with
  | piece i => rw [LINK_object_piece]; exact body_LINK _ _ _ _ _
  | objp c => rw [LINK_object_objp]; exact body_LINK _ _ _ _ _
  | cargo y =>
    rw [LINK_object_cargo]
    split_ifs with h
    · subst h; exact body_LINK k w.object _ a x
    · exact body_LINK _ _ _ _ _

theorem cargo_UNLINK_piece (w : World) (i : PIdx) (a : Nat) (k : LinkSel) (x : Nat) :
    ((UNLINK w (.piece i) a k).object x).cargo = (w.object x).cargo := by
  rw [UNLINK_object_piece]; exact cargo_UNLINK _ _ _ _ _

theorem cargo_LINK_piece (w : World) (i : PIdx) (a : Nat) (k : LinkSel) (x : Nat) :
    ((LINK w (.piece i) a k).object x).cargo = (w.object x).cargo := by
  rw [LINK_object_piece]; exact cargo_LINK _ _ _ _ _

theorem cargo_UNLINK_objp (w : World) (c : Int) (a : Nat) (k : LinkSel) (x : Nat) :
    ((UNLINK w (.objp c) a k).object x).cargo = (w.object x).cargo := by
  rw [UNLINK_object_objp]; exact cargo_UNLINK _ _ _ _ _

theorem cargo_LINK_objp (w : World) (c : Int) (a : Nat) (k : LinkSel) (x : Nat) :
    ((LINK w (.objp c) a k).object x).cargo = (w.object x).cargo := by
  rw [LINK_object_objp]; exact cargo_LINK _ _ _ _ _

/-! ## Field-level effect of the primitives -/

theorem setPiece_object (w : World) (x : Nat) (p : piece_info_t) (y : Nat) :
    (setPiece w x p).object y = if y = x then p else w.object y := rfl

@[simp] theorem setPiece_map (w : World) (x : Nat) (p : piece_info_t) :
    (setPiece w x p).map = w.map := rfl

theorem setPiece_field {α : Type} (f : piece_info_t → α) (w : World) (x : Nat)
    (p : piece_info_t) (y : Nat) (h : f p = f (w.object x)) :
    f ((setPiece w x p).object y) = f (w.object y) := by
  rw [setPiece_object]
  split_ifs with e
  · subst e; exact h
  · rfl

theorem UNLINK_map_cargo (w : World) (y : Nat) (a : Nat) (k : LinkSel) :
    (UNLINK w (.cargo y) a k).map = w.map := rfl

theorem LINK_map_cargo (w : World) (y : Nat) (a : Nat) (k : LinkSel) :
    (LINK w (.cargo y) a k).map = w.map := rfl

theorem UNLINK_map_objp (w : World) (c : Int) (a : Nat) (k : LinkSel) (d : Int) :
    (UNLINK w (.objp c) a k).map d =
      if d = c then { w.map c with objp := (UNLINK_heap k w.object (cellHead w c) a).2 }
      else w.map d := rfl

theorem LINK_map_objp (w : World) (c : Int) (a : Nat) (k : LinkSel) (d : Int) :
    (LINK w (.objp c) a k).map d =
      if d = c then { w.map c with objp := some a } else w.map d := rfl

theorem UNLINK_on_board (w : World) (r : HeadRef) (a : Nat) (k : LinkSel) (d : Int) :
    ((UNLINK w r a k).map d).on_board = (w.map d).on_board := by
  cases r with
  | piece i => rw [UNLINK_map_piece]
  | objp c => rw [UNLINK_map_objp]; split_ifs with h <;> simp [h]
  | cargo y => rfl

theorem LINK_on_board (w : World) (r : HeadRef) (a : Nat) (k : LinkSel) (d : Int) :
    ((LINK w r a k).map d).on_board = (w.map d).on_board := by
  cases r with
  | piece i => rw [LINK_map_piece]
  | objp c => rw [LINK_map_objp]; split_ifs with h <;> simp [h]
  | cargo y => rfl

theorem UNLINK_cityp (w : World) (r : HeadRef) (a : Nat) (k : LinkSel) (d : Int) :
    ((UNLINK w r a k).map d).cityp = (w.map d).cityp := by
  cases r with
  | piece i => rw [UNLINK_map_piece]
  | objp c => rw [UNLINK_map_objp]; split_ifs with h <;> simp [h]
  | cargo y => rfl

theorem LINK_cityp (w : World) (r : HeadRef) (a : Nat) (k : LinkSel) (d : Int) :
    ((LINK w r a k).map d).cityp = (w.map d).cityp := by
  cases r with
  | piece i => rw [LINK_map_piece]
  | objp c => rw [LINK_map_objp]; split_ifs with h <;> simp [h]
  | cargo y => rfl

theorem UNLINK_owner (w : World) (r : HeadRef) (a : Nat) (k : LinkSel) (x : Nat) :
    ((UNLINK w r a k).object x).owner = (w.object x).owner :=
  body_owner (body_UNLINK_w w r a k x)

theorem LINK_owner (w : World) (r : HeadRef) (a : Nat) (k : LinkSel) (x : Nat) :
    ((LINK w r a k).object x).owner = (w.object x).owner :=
  body_owner (body_LINK_w w r a k x)

theorem disembark_owner (w : World) (obj x : Nat) :
    ((disembark w obj).object x).owner = (w.object x).owner := by
  unfold disembark
  split
  · rfl
  · refine (setPiece_field (fun p => p.owner) _ _ _ x ?_).trans ?_
    · rfl
    refine (setPiece_field (fun p => p.owner) _ _ _ x ?_).trans ?_
    · rfl
    exact UNLINK_owner _ _ _ _ x

theorem embark_owner (w : World) (sh obj x : Nat) :
    ((embark w sh obj).object x).owner = (w.object x).owner := by
  unfold embark
  refine (setPiece_field (fun p => p.owner) _ _ _ x ?_).trans ?_
  · rfl
  refine (LINK_owner _ _ _ _ x).trans ?_
  refine setPiece_field (fun p => p.owner) _ _ _ x ?_
  rfl

theorem UNLINK_type (w : World) (r : HeadRef) (a : Nat) (k : LinkSel) (x : Nat) :
    ((UNLINK w r a k).object x).type = (w.object x).type :=
  body_type (body_UNLINK_w w r a k x)

theorem LINK_type (w : World) (r : HeadRef) (a : Nat) (k : LinkSel) (x : Nat) :
    ((LINK w r a k).object x).type = (w.object x).type :=
  body_type (body_LINK_w w r a k x)

theorem disembark_type (w : World) (obj x : Nat) :
    ((disembark w obj).object x).type = (w.object x).type := by
  unfold disembark
  split
  · rfl
  · refine (setPiece_field (fun p => p.type) _ _ _ x ?_).trans ?_
    · rfl
    refine (setPiece_field (fun p => p.type) _ _ _ x ?_).trans ?_
    · rfl
    exact UNLINK_type _ _ _ _ x

theorem embark_type (w : World) (sh obj x : Nat) :
    ((embark w sh obj).object x).type = (w.object x).type := by
  unfold embark
  refine (setPiece_field (fun p => p.type) _ _ _ x ?_).trans ?_
  · rfl
  refine (LINK_type _ _ _ _ x).trans ?_
  refine setPiece_field (fun p => p.type) _ _ _ x ?_
  rfl

theorem UNLINK_loc (w : World) (r : HeadRef) (a : Nat) (k : LinkSel) (x : Nat) :
    ((UNLINK w r a k).object x).loc = (w.object x).loc :=
  body_loc (body_UNLINK_w w r a k x)

theorem LINK_loc (w : World) (r : HeadRef) (a : Nat) (k : LinkSel) (x : Nat) :
    ((LINK w r a k).object x).loc = (w.object x).loc :=
  body_loc (body_LINK_w w r a k x)

theorem disembark_loc (w : World) (obj x : Nat) :
    ((disembark w obj).object x).loc = (w.object x).loc := by
  unfold disembark
  split
  · rfl
  · refine (setPiece_field (fun p => p.loc) _ _ _ x ?_).trans ?_
    · rfl
    refine (setPiece_field (fun p => p.loc) _ _ _ x ?_).trans ?_
    · rfl
    exact UNLINK_loc _ _ _ _ x

theorem embark_loc (w : World) (sh obj x : Nat) :
    ((embark w sh obj).object x).loc = (w.object x).loc := by
  unfold embark
  refine (setPiece_field (fun p => p.loc) _ _ _ x ?_).trans ?_
  · rfl
  refine (LINK_loc _ _ _ _ x).trans ?_
  refine setPiece_field (fun p => p.loc) _ _ _ x ?_
  rfl

theorem UNLINK_func (w : World) (r : HeadRef) (a : Nat) (k : LinkSel) (x : Nat) :
    ((UNLINK w r a k).object x).func = (w.object x).func :=
  body_func (body_UNLINK_w w r a k x)

theorem LINK_func (w : World) (r : HeadRef) (a : Nat) (k : LinkSel) (x : Nat) :
    ((LINK w r a k).object x).func = (w.object x).func :=
  body_func (body_LINK_w w r a k x)

theorem disembark_func (w : World) (obj x : Nat) :
    ((disembark w obj).object x).func = (w.object x).func := by
  unfold disembark
  split
  · rfl
  · refine (setPiece_field (fun p => p.func) _ _ _ x ?_).trans ?_
    · rfl
    refine (setPiece_field (fun p => p.func) _ _ _ x ?_).trans ?_
    · rfl
    exact UNLINK_func _ _ _ _ x

theorem embark_func (w : World) (sh obj x : Nat) :
    ((embark w sh obj).object x).func = (w.object x).func := by
  unfold embark
  refine (setPiece_field (fun p => p.func) _ _ _ x ?_).trans ?_
  · rfl
  refine (LINK_func _ _ _ _ x).trans ?_
  refine setPiece_field (fun p => p.func) _ _ _ x ?_
  rfl

theorem UNLINK_hits (w : World) (r : HeadRef) (a : Nat) (k : LinkSel) (x : Nat) :
    ((UNLINK w r a k).object x).hits = (w.object x).hits :=
  body_hits (body_UNLINK_w w r a k x)

theorem LINK_hits (w : World) (r : HeadRef) (a : Nat) (k : LinkSel) (x : Nat) :
    ((LINK w r a k).object x).hits = (w.object x).hits :=
  body_hits (body_LINK_w w r a k x)

theorem disembark_hits (w : World) (obj x : Nat) :
    ((disembark w obj).object x).hits = (w.object x).hits := by
  unfold disembark
  split
  · rfl
  · refine (setPiece_field (fun p => p.hits) _ _ _ x ?_).trans ?_
    · rfl
    refine (setPiece_field (fun p => p.hits) _ _ _ x ?_).trans ?_
    · rfl
    exact UNLINK_hits _ _ _ _ x

theorem embark_hits (w : World) (sh obj x : Nat) :
    ((embark w sh obj).object x).hits = (w.object x).hits := by
  unfold embark
  refine (setPiece_field (fun p => p.hits) _ _ _ x ?_).trans ?_
  · rfl
  refine (LINK_hits _ _ _ _ x).trans ?_
  refine setPiece_field (fun p => p.hits) _ _ _ x ?_
  rfl

theorem UNLINK_moved (w : World) (r : HeadRef) (a : Nat) (k : LinkSel) (x : Nat) :
    ((UNLINK w r a k).object x).moved = (w.object x).moved :=
  body_moved (body_UNLINK_w w r a k x)

theorem LINK_moved (w : World) (r : HeadRef) (a : Nat) (k : LinkSel) (x : Nat) :
    ((LINK w r a k).object x).moved = (w.object x).moved :=
  body_moved (body_LINK_w w r a k x)

theorem disembark_moved (w : World) (obj x : Nat) :
    ((disembark w obj).object x).moved = (w.object x).moved := by
  unfold disembark
  split
  · rfl
  · refine (setPiece_field (fun p => p.moved) _ _ _ x ?_).trans ?_
    · rfl
    refine (setPiece_field (fun p => p.moved) _ _ _ x ?_).trans ?_
    · rfl
    exact UNLINK_moved _ _ _ _ x

theorem embark_moved (w : World) (sh obj x : Nat) :
    ((embark w sh obj).object x).moved = (w.object x).moved := by
  unfold embark
  refine (setPiece_field (fun p => p.moved) _ _ _ x ?_).trans ?_
  · rfl
  refine (LINK_moved _ _ _ _ x).trans ?_
  refine setPiece_field (fun p => p.moved) _ _ _ x ?_
  rfl

theorem UNLINK_range (w : World) (r : HeadRef) (a : Nat) (k : LinkSel) (x : Nat) :
    ((UNLINK w r a k).object x).range = (w.object x).range :=
  body_range (body_UNLINK_w w r a k x)

theorem LINK_range (w : World) (r : HeadRef) (a : Nat) (k : LinkSel) (x : Nat) :
    ((LINK w r a k).object x).range = (w.object x).range :=
  body_range (body_LINK_w w r a k x)

theorem disembark_range (w : World) (obj x : Nat) :
    ((disembark w obj).object x).range = (w.object x).range := by
  unfold disembark
  split
  · rfl
  · refine (setPiece_field (fun p => p.range) _ _ _ x ?_).trans ?_
    · rfl
    refine (setPiece_field (fun p => p.range) _ _ _ x ?_).trans ?_
    · rfl
    exact UNLINK_range _ _ _ _ x

theorem embark_range (w : World) (sh obj x : Nat) :
    ((embark w sh obj).object x).range = (w.object x).range := by
  unfold embark
  refine (setPiece_field (fun p => p.range) _ _ _ x ?_).trans ?_
  · rfl
  refine (LINK_range _ _ _ _ x).trans ?_
  refine setPiece_field (fun p => p.range) _ _ _ x ?_
  rfl

theorem UNLINK_ship (w : World) (r : HeadRef) (a : Nat) (k : LinkSel) (x : Nat) :
    ((UNLINK w r a k).object x).ship = (w.object x).ship :=
  body_ship (body_UNLINK_w w r a k x)

theorem LINK_ship (w : World) (r : HeadRef) (a : Nat) (k : LinkSel) (x : Nat) :
    ((LINK w r a k).object x).ship = (w.object x).ship :=
  body_ship (body_LINK_w w r a k x)

theorem UNLINK_count (w : World) (r : HeadRef) (a : Nat) (k : LinkSel) (x : Nat) :
    ((UNLINK w r a k).object x).count = (w.object x).count :=
  body_count (body_UNLINK_w w r a k x)

theorem LINK_count (w : World) (r : HeadRef) (a : Nat) (k : LinkSel) (x : Nat) :
    ((LINK w r a k).object x).count = (w.object x).count :=
  body_count (body_LINK_w w r a k x)

theorem disembark_ship (w : World) (obj x : Nat) :
    ((disembark w obj).object x).ship = if x = obj then none else (w.object x).ship := by
  unfold disembark
  split
  · split_ifs with h
    · subst h; assumption
    · rfl
  · rw [setPiece_object]
    split_ifs with h
    · rfl
    · refine (setPiece_field (fun p => p.ship) _ _ _ x ?_).trans ?_
      · rfl
      exact UNLINK_ship _ _ _ _ x

theorem disembark_map (w : World) (obj : Nat) : (disembark w obj).map = w.map := by
  unfold disembark
  split <;> rfl

theorem embark_map (w : World) (sh obj : Nat) : (embark w sh obj).map = w.map := rfl

theorem disembark_pieceHead (w : World) (obj : Nat) :
    pieceHead (disembark w obj) = pieceHead w := by
  unfold disembark
  split
  · rfl
  · funext j; cases j <;> rfl

theorem Seg_nil_of_none (o : Heap) (k : LinkSel) (pv : Ptr) (l : List Nat)
    (h : Seg o k pv none l) : l = [] := by
  cases l with
  | nil => rfl
  | cons a t => exact absurd h.1 (by simp)

theorem Rep.toStr {E : Env} {w : World} {s : Shape} (h : Rep E w s) :
    Str E.LIST_SIZE w s where
  pieces :=
    { seg := h.piece_seg
      nodup := h.piece_nodup
      disj := by
        intro i j x hi hj
        cases i with
        | free =>
          have h1 := (h.free_mem x).mp hi
          cases j with
          | free => rfl
          | user t => have h2 := (h.user_mem t x).mp hj; omega
          | comp t => have h2 := (h.comp_mem t x).mp hj; omega
        | user t =>
          have h1 := (h.user_mem t x).mp hi
          cases j with
          | free => have h2 := (h.free_mem x).mp hj; omega
          | user t2 =>
            have h2 := (h.user_mem t2 x).mp hj
            rw [← h1.2.2.2, ← h2.2.2.2]
          | comp t2 =>
            have h2 := (h.comp_mem t2 x).mp hj
            exact absurd h1.2.2.1 h2.2.2.1
        | comp t =>
          have h1 := (h.comp_mem t x).mp hi
          cases j with
          | free => have h2 := (h.free_mem x).mp hj; omega
          | user t2 =>
            have h2 := (h.user_mem t2 x).mp hj
            exact absurd h2.2.2.1 h1.2.2.1
          | comp t2 =>
            have h2 := (h.comp_mem t2 x).mp hj
            rw [← h1.2.2.2, ← h2.2.2.2]
      bound := by
        intro i x hi
        cases i with
        | free => exact ((h.free_mem x).mp hi).1
        | user t => exact ((h.user_mem t x).mp hi).1
        | comp t => exact ((h.comp_mem t x).mp hi).1 }
  cells :=
    { seg := h.cell_seg
      nodup := h.cell_nodup
      disj := by
        intro i j x hi hj
        rw [← ((h.cell_mem i x).mp hi).2.2, ← ((h.cell_mem j x).mp hj).2.2]
      bound := fun i x hi => ((h.cell_mem i x).mp hi).1 }
  cargos :=
    { seg := h.cargo_seg
      nodup := h.cargo_nodup
      disj := by
        intro i j x hi hj
        have h1 := ((h.cargo_mem i x).mp hi).2.2
        have h2 := ((h.cargo_mem j x).mp hj).2.2
        rw [h1] at h2
        exact Option.some.inj h2
      bound := fun i x hi => ((h.cargo_mem i x).mp hi).1 }

theorem Str.scannable {n : Nat} {w : World} {s : Shape} (h : Str n w s) (fuel : Nat)
    (hf : n ≤ fuel) : Scannable fuel w := by
  intro c
  exact ⟨s.cell c, h.cells.seg c,
    le_trans (Fam_length_le n _ _ _ _ h.cells c) hf⟩

theorem Str_shape_eq {n : Nat} {w : World} {s s2 : Shape} (h : Str n w s)
    (h1 : s2.piece = s.piece) (h2 : s2.cell = s.cell) (h3 : s2.cargo = s.cargo) :
    Str n w s2 := by
  cases s; cases s2
  simp only at h1 h2 h3
  subst h1; subst h2; subst h3
  exact h

theorem Str_disembark (n : Nat) (w : World) (s : Shape) (obj : Nat) (hS : Str n w s)
    (hmem : ∀ x, obj ∈ s.cargo x ↔ (w.object obj).ship = some x) :
    Str n (disembark w obj) { s with cargo := fun x => (s.cargo x).erase obj } := by
  unfold disembark
  split
  · rename_i hsh
    refine Str_shape_eq hS rfl rfl ?_
    funext x
    apply List.erase_of_not_mem
    intro hx
    have := (hmem x).mp hx
    rw [hsh] at this
    exact absurd this (by simp)
  · rename_i sh hsh
    have h1 := Str_UNLINK_cargo n w s sh obj hS ((hmem sh).mpr hsh)
    have h2 := Str_setPiece n _ _ sh
      { (UNLINK w (.cargo sh) obj .cargo_link).object sh with
        count := ((UNLINK w (.cargo sh) obj .cargo_link).object sh).count - 1 } h1
      (fun k => by cases k <;> rfl) rfl
    have h3 := Str_setPiece n _ _ obj
      { (setPiece (UNLINK w (.cargo sh) obj .cargo_link) sh
          { (UNLINK w (.cargo sh) obj .cargo_link).object sh with
            count := ((UNLINK w (.cargo sh) obj .cargo_link).object sh).count - 1 }).object obj
        with ship := none } h2
      (fun k => by cases k <;> rfl) rfl
    refine Str_shape_eq h3 rfl rfl ?_
    funext x
    show (s.cargo x).erase obj = upd s.cargo sh ((s.cargo sh).erase obj) x
    rw [upd_apply]
    split_ifs with hx
    · subst hx; rfl
    · apply List.erase_of_not_mem
      intro hm
      have := (hmem x).mp hm
      rw [hsh] at this
      exact hx (Option.some.inj this).symm

/-! ## `kill_one` -/

theorem kill_one_owner (E : Env) (w : World) (list : ListSel) (obj x : Nat) :
    ((kill_one E w list obj).object x).owner = (w.object x).owner := by
  unfold kill_one
  refine (setPiece_field (fun p => p.owner) _ _ _ x ?_).trans ?_
  · rfl
  refine (setPiece_field (fun p => p.owner) _ _ _ x ?_).trans ?_
  · rfl
  refine (LINK_owner _ _ _ _ x).trans ?_
  refine (disembark_owner _ _ x).trans ?_
  refine (UNLINK_owner _ _ _ _ x).trans ?_
  exact UNLINK_owner _ _ _ _ x

theorem kill_one_type (E : Env) (w : World) (list : ListSel) (obj x : Nat) :
    ((kill_one E w list obj).object x).type = (w.object x).type := by
  unfold kill_one
  refine (setPiece_field (fun p => p.type) _ _ _ x ?_).trans ?_
  · rfl
  refine (setPiece_field (fun p => p.type) _ _ _ x ?_).trans ?_
  · rfl
  refine (LINK_type _ _ _ _ x).trans ?_
  refine (disembark_type _ _ x).trans ?_
  refine (UNLINK_type _ _ _ _ x).trans ?_
  exact UNLINK_type _ _ _ _ x

theorem kill_one_loc (E : Env) (w : World) (list : ListSel) (obj x : Nat) :
    ((kill_one E w list obj).object x).loc = (w.object x).loc := by
  unfold kill_one
  refine (setPiece_field (fun p => p.loc) _ _ _ x ?_).trans ?_
  · rfl
  refine (setPiece_field (fun p => p.loc) _ _ _ x ?_).trans ?_
  · rfl
  refine (LINK_loc _ _ _ _ x).trans ?_
  refine (disembark_loc _ _ x).trans ?_
  refine (UNLINK_loc _ _ _ _ x).trans ?_
  exact UNLINK_loc _ _ _ _ x

theorem kill_one_func (E : Env) (w : World) (list : ListSel) (obj x : Nat) :
    ((kill_one E w list obj).object x).func = (w.object x).func := by
  unfold kill_one
  refine (setPiece_field (fun p => p.func) _ _ _ x ?_).trans ?_
  · rfl
  refine (setPiece_field (fun p => p.func) _ _ _ x ?_).trans ?_
  · rfl
  refine (LINK_func _ _ _ _ x).trans ?_
  refine (disembark_func _ _ x).trans ?_
  refine (UNLINK_func _ _ _ _ x).trans ?_
  exact UNLINK_func _ _ _ _ x

theorem kill_one_range (E : Env) (w : World) (list : ListSel) (obj x : Nat) :
    ((kill_one E w list obj).object x).range = (w.object x).range := by
  unfold kill_one
  refine (setPiece_field (fun p => p.range) _ _ _ x ?_).trans ?_
  · rfl
  refine (setPiece_field (fun p => p.range) _ _ _ x ?_).trans ?_
  · rfl
  refine (LINK_range _ _ _ _ x).trans ?_
  refine (disembark_range _ _ x).trans ?_
  refine (UNLINK_range _ _ _ _ x).trans ?_
  exact UNLINK_range _ _ _ _ x

theorem kill_one_hits (E : Env) (w : World) (list : ListSel) (obj x : Nat) :
    ((kill_one E w list obj).object x).hits = if x = obj then 0 else (w.object x).hits := by
  unfold kill_one
  refine (setPiece_field (fun p => p.hits) _ _ _ x ?_).trans ?_
  · rfl
  rw [setPiece_object]
  split_ifs with h
  · rfl
  · refine (LINK_hits _ _ _ _ x).trans ?_
    refine (disembark_hits _ _ x).trans ?_
    refine (UNLINK_hits _ _ _ _ x).trans ?_
    exact UNLINK_hits _ _ _ _ x

theorem kill_one_ship (E : Env) (w : World) (list : ListSel) (obj x : Nat) :
    ((kill_one E w list obj).object x).ship = if x = obj then none else (w.object x).ship := by
  unfold kill_one
  refine (setPiece_field (fun p => p.ship) _ _ _ x ?_).trans ?_
  · rfl
  refine (setPiece_field (fun p => p.ship) _ _ _ x ?_).trans ?_
  · rfl
  refine (LINK_ship _ _ _ _ x).trans ?_
  rw [disembark_ship]
  split_ifs with h
  · rfl
  · refine (UNLINK_ship _ _ _ _ x).trans ?_
    exact UNLINK_ship _ _ _ _ x

theorem disembark_count (w : World) (obj x : Nat) :
    ((disembark w obj).object x).count =
      if (w.object obj).ship = some x then (w.object x).count - 1 else (w.object x).count := by
  unfold disembark
  split
  · rename_i h; rw [h]; simp
  · rename_i sh h
    rw [h]
    refine (setPiece_field (fun p => p.count) _ _ _ x ?_).trans ?_
    · rfl
    rw [setPiece_object]
    by_cases hx : x = sh
    · subst hx
      rw [if_pos rfl, if_pos rfl]
      show ((UNLINK w (.cargo x) obj .cargo_link).object x).count - 1 = _
      rw [UNLINK_count]
    · rw [if_neg hx, if_neg (fun e => hx (Option.some.inj e).symm)]
      exact UNLINK_count _ _ _ _ x

theorem kill_one_count (E : Env) (w : World) (list : ListSel) (obj x : Nat) :
    ((kill_one E w list obj).object x).count =
      if (w.object obj).ship = some x then (w.object x).count - 1 else (w.object x).count := by
  unfold kill_one
  refine (setPiece_field (fun p => p.count) _ _ _ x ?_).trans ?_
  · rfl
  refine (setPiece_field (fun p => p.count) _ _ _ x ?_).trans ?_
  · rfl
  refine (LINK_count _ _ _ _ x).trans ?_
  rw [disembark_count, UNLINK_ship, UNLINK_ship, UNLINK_count, UNLINK_count]

theorem kill_one_on_board (E : Env) (w : World) (list : ListSel) (obj : Nat) (c : Int) :
    ((kill_one E w list obj).map c).on_board = (w.map c).on_board := by
  unfold kill_one
  simp only [setPiece_map]
  rw [LINK_on_board, disembark_map, UNLINK_on_board, UNLINK_on_board]

theorem kill_one_cityp (E : Env) (w : World) (list : ListSel) (obj : Nat) (c : Int) :
    ((kill_one E w list obj).map c).cityp = (w.map c).cityp := by
  unfold kill_one
  simp only [setPiece_map]
  rw [LINK_cityp, disembark_map, UNLINK_cityp, UNLINK_cityp]

theorem Str_kill_one (E : Env) (n : Nat) (w : World) (s : Shape) (list : ListSel) (obj : Nat)
    (hS : Str n w s) (hn : obj < n) (hnf : list = .user ∨ list = .comp)
    (hp : obj ∈ s.piece (pidx list (w.object obj).type))
    (hc : obj ∈ s.cell (w.object obj).loc)
    (hmem : ∀ x, obj ∈ s.cargo x ↔ (w.object obj).ship = some x) :
    Str n (kill_one E w list obj) (killShape s obj) := by
  have h1 := Str_UNLINK_piece n w s _ obj hS hp
  have h2 := Str_UNLINK_objp n _ _ (w.object obj).loc obj h1 hc
  rw [← UNLINK_loc w (.piece (pidx list (w.object obj).type)) obj .piece_link obj] at h2
  have h3 := Str_disembark n _ _ obj h2 (by
    intro x
    rw [UNLINK_ship, UNLINK_ship]
    exact hmem x)
  have hfree : pidx list (w.object obj).type ≠ PIdx.free := by
    cases list <;> simp [pidx]
  have h4 := Str_LINK_piece n _ _ .free obj h3 (by
    intro j hj
    change obj ∈ upd s.piece _ _ j at hj
    rw [upd_apply] at hj
    split_ifs at hj with e
    · exact List.Nodup.not_mem_erase (hS.pieces.nodup _) hj
    · exact e (hS.pieces.disj _ _ obj hj hp)) hn
  have h5 := Str_setPiece n _ _ obj
    { (LINK (disembark (UNLINK (UNLINK w (.piece (pidx list (w.object obj).type)) obj
        .piece_link) (.objp ((UNLINK w (.piece (pidx list (w.object obj).type)) obj
        .piece_link).object obj).loc) obj .loc_link) obj) (.piece .free) obj
        .piece_link).object obj with hits := 0 } h4
    (fun k => by cases k <;> rfl) rfl
  have h6 := Str_setPiece n _ _ obj
    { (setPiece (LINK (disembark (UNLINK (UNLINK w (.piece (pidx list (w.object obj).type))
        obj .piece_link) (.objp ((UNLINK w (.piece (pidx list (w.object obj).type)) obj
        .piece_link).object obj).loc) obj .loc_link) obj) (.piece .free) obj .piece_link) obj
        { (LINK (disembark (UNLINK (UNLINK w (.piece (pidx list (w.object obj).type)) obj
        .piece_link) (.objp ((UNLINK w (.piece (pidx list (w.object obj).type)) obj
        .piece_link).object obj).loc) obj .loc_link) obj) (.piece .free) obj
        .piece_link).object obj with hits := 0 }).object obj with
      moved := (E.piece_attr ((setPiece (LINK (disembark (UNLINK (UNLINK w (.piece (pidx list
        (w.object obj).type)) obj .piece_link) (.objp ((UNLINK w (.piece (pidx list
        (w.object obj).type)) obj .piece_link).object obj).loc) obj .loc_link) obj)
        (.piece .free) obj .piece_link) obj
        { (LINK (disembark (UNLINK (UNLINK w (.piece (pidx list (w.object obj).type)) obj
        .piece_link) (.objp ((UNLINK w (.piece (pidx list (w.object obj).type)) obj
        .piece_link).object obj).loc) obj .loc_link) obj) (.piece .free) obj
        .piece_link).object obj with hits := 0 }).object obj).type).speed } h5
    (fun k => by cases k <;> rfl) rfl
  refine Str_shape_eq h6 ?_ ?_ rfl
  · funext j
    show (killShape s obj).piece j = upd (upd s.piece _ _) PIdx.free _ j
    rw [upd_apply]
    split_ifs with e
    · subst e
      show obj :: s.piece .free = obj :: upd s.piece _ _ PIdx.free
      rw [upd_ne _ _ _ _ (fun e => hfree e.symm)]
    · rw [upd_apply]
      split_ifs with e2
      · subst e2
        cases list <;> rfl
      · have : obj ∉ s.piece j := fun hj => e2 (hS.pieces.disj _ _ obj hj hp)
        cases j with
        | free => exact absurd rfl e
        | user t => exact List.erase_of_not_mem this
        | comp t => exact List.erase_of_not_mem this
  · funext c
    show (s.cell c).erase obj = upd s.cell _ _ c
    rw [upd_apply]
    split_ifs with e
    · subst e; rfl
    · apply List.erase_of_not_mem
      intro hj
      rw [UNLINK_loc] at e
      exact e (hS.cells.disj _ _ obj hj hc)

theorem Rep.cargo_nil {E : Env} {w : World} {s : Shape} (hR : Rep E w s) (x : Nat)
    (h : (w.object x).cargo = none) : s.cargo x = [] := by
  have := hR.cargo_seg x
  unfold cargoHead at this
  rw [h] at this
  exact Seg_nil_of_none _ _ _ _ this

theorem Rep.mem_own_list {E : Env} {w : World} {s : Shape} (hR : Rep E w s) (obj : Nat)
    (hobj : obj < E.LIST_SIZE) (hlive : 0 < (w.object obj).hits) :
    obj ∈ s.piece (pidx (LIST E (w.object obj).owner) (w.object obj).type) := by
  unfold LIST
  split_ifs with h
  · exact (hR.user_mem _ obj).mpr ⟨hobj, hlive, h, rfl⟩
  · exact (hR.comp_mem _ obj).mpr ⟨hobj, hlive, h, rfl⟩

theorem Rep_kill_one (E : Env) (w : World) (s : Shape) (list : ListSel) (obj : Nat)
    (hR : Rep E w s) (hobj : obj < E.LIST_SIZE) (hlive : 0 < (w.object obj).hits)
    (hcargo : (w.object obj).cargo = none) (hlist : list = LIST E (w.object obj).owner) :
    Rep E (kill_one E w list obj) (killShape s obj) := by
  have hS := hR.toStr
  have hmem : ∀ x, obj ∈ s.cargo x ↔ (w.object obj).ship = some x := by
    intro x
    rw [hR.cargo_mem x obj]
    exact ⟨fun h => h.2.2, fun h => ⟨hobj, hlive, h⟩⟩
  have hS2 : Str E.LIST_SIZE (kill_one E w list obj) (killShape s obj) := by
    refine Str_kill_one E _ w s list obj hS hobj ?_ ?_ ?_ hmem
    · cases list
      · exact Or.inl rfl
      · exact Or.inr rfl
    · rw [hlist]; exact hR.mem_own_list obj hobj hlive
    · exact (hR.cell_mem _ obj).mpr ⟨hobj, hlive, rfl⟩
  have hnil : s.cargo obj = [] := hR.cargo_nil obj hcargo
  have herase : ∀ (l : List Nat), l.Nodup → ∀ x, x ∈ l.erase obj ↔ x ≠ obj ∧ x ∈ l :=
    fun l hl x => hl.mem_erase_iff
  refine
    { piece_seg := hS2.pieces.seg
      piece_nodup := hS2.pieces.nodup
      cell_seg := hS2.cells.seg
      cell_nodup := hS2.cells.nodup
      cargo_seg := hS2.cargos.seg
      cargo_nodup := hS2.cargos.nodup
      free_mem := ?_
      user_mem := ?_
      comp_mem := ?_
      cell_mem := ?_
      cargo_mem := ?_
      hits_nonneg := ?_
      ship_ok := ?_
      count_ok := ?_ }
  · intro x
    show x ∈ obj :: s.piece .free ↔ _
    rw [kill_one_hits, List.mem_cons, hR.free_mem x]
    by_cases hx : x = obj
    · subst hx; simp [hobj]
    · simp [hx]
  · intro t x
    show x ∈ (s.piece (.user t)).erase obj ↔ _
    rw [herase _ (hR.piece_nodup _), kill_one_hits, kill_one_owner, kill_one_type,
      hR.user_mem t x]
    by_cases hx : x = obj
    · subst hx; simp
    · simp [hx]
  · intro t x
    show x ∈ (s.piece (.comp t)).erase obj ↔ _
    rw [herase _ (hR.piece_nodup _), kill_one_hits, kill_one_owner, kill_one_type,
      hR.comp_mem t x]
    by_cases hx : x = obj
    · subst hx; simp
    · simp [hx]
  · intro c x
    show x ∈ (s.cell c).erase obj ↔ _
    rw [herase _ (hR.cell_nodup _), kill_one_hits, kill_one_loc, hR.cell_mem c x]
    by_cases hx : x = obj
    · subst hx; simp
    · simp [hx]
  · intro x y
    show y ∈ (s.cargo x).erase obj ↔ _
    rw [herase _ (hR.cargo_nodup _), kill_one_hits, kill_one_ship, hR.cargo_mem x y]
    by_cases hy : y = obj
    · subst hy; simp
    · simp [hy]
  · intro x hx
    rw [kill_one_hits]
    split_ifs
    · exact le_refl 0
    · exact hR.hits_nonneg x hx
  · intro y x hy hly hsh
    rw [kill_one_hits] at hly
    have hyo : y ≠ obj := by
      intro e; rw [if_pos e] at hly; exact absurd hly (lt_irrefl 0)
    rw [if_neg hyo] at hly
    rw [kill_one_ship, if_neg hyo] at hsh
    obtain ⟨h1, h2, h3, h4, h5⟩ := hR.ship_ok y x hy hly hsh
    have hxo : x ≠ obj := by
      intro e
      have : y ∈ s.cargo x := (hR.cargo_mem x y).mpr ⟨hy, hly, hsh⟩
      rw [e, hnil] at this
      exact absurd this (List.not_mem_nil y)
    refine ⟨h1, ?_, ?_, ?_, ?_⟩
    · rw [kill_one_hits, if_neg hxo]; exact h2
    · rw [kill_one_loc, kill_one_loc]; exact h3
    · rw [kill_one_owner, kill_one_owner]; exact h4
    · have hseg := hS2.cargos.seg y
      have hy0 : s.cargo y = [] := hR.cargo_nil y h5
      have : (killShape s obj).cargo y = [] := by
        show (s.cargo y).erase obj = []
        rw [hy0]; rfl
      rw [this] at hseg
      exact hseg
  · intro x hx hlx
    rw [kill_one_hits] at hlx
    have hxo : x ≠ obj := by
      intro e; rw [if_pos e] at hlx; exact absurd hlx (lt_irrefl 0)
    rw [if_neg hxo] at hlx
    rw [kill_one_count]
    show _ = (((s.cargo x).erase obj).length : Int)
    have hc := hR.count_ok x hx hlx
    split_ifs with hsh
    · have hin : obj ∈ s.cargo x := (hmem x).mpr hsh
      rw [List.length_erase_of_mem hin, hc]
      have : 0 < (s.cargo x).length := List.length_pos_of_mem hin
      omega
    · have hin : obj ∉ s.cargo x := fun h => hsh ((hmem x).mp h)
      rw [List.erase_of_not_mem hin, hc]

/-! ## `kill_obj` -/

theorem Rep_of_same {E : Env} {w w2 : World} {s : Shape} (h : SameButViews w w2)
    (hR : Rep E w s) : Rep E w2 s := by
  obtain ⟨h1, _, h3, h4, h5, h6, _⟩ := h
  have hp : pieceHead w2 = pieceHead w := by
    funext i
    cases i with
    | free => exact h3
    | user t => show w2.user_obj t = w.user_obj t; rw [h4]
    | comp t => show w2.comp_obj t = w.comp_obj t; rw [h5]
  have hc : cellHead w2 = cellHead w := by
    funext c; unfold cellHead; rw [h1]
  have hg : cargoHead w2 = cargoHead w := by
    funext c; unfold cargoHead; rw [h6]
  exact
    { piece_seg := by rw [h6, hp]; exact hR.piece_seg
      piece_nodup := hR.piece_nodup
      cell_seg := by rw [h6, hc]; exact hR.cell_seg
      cell_nodup := hR.cell_nodup
      cargo_seg := by rw [h6, hg]; exact hR.cargo_seg
      cargo_nodup := hR.cargo_nodup
      free_mem := by rw [h6]; exact hR.free_mem
      user_mem := by rw [h6]; exact hR.user_mem
      comp_mem := by rw [h6]; exact hR.comp_mem
      cell_mem := by rw [h6]; exact hR.cell_mem
      cargo_mem := by rw [h6]; exact hR.cargo_mem
      hits_nonneg := by rw [h6]; exact hR.hits_nonneg
      ship_ok := by rw [h6]; exact hR.ship_ok
      count_ok := by rw [h6]; exact hR.count_ok }

theorem KillFrame_kill_one (E : Env) (w : World) (list : ListSel) (obj : Nat) :
    KillFrame w (kill_one E w list obj) [obj] := by
  refine ⟨?_, kill_one_owner E w list obj, kill_one_type E w list obj,
    kill_one_loc E w list obj, kill_one_on_board E w list obj, kill_one_cityp E w list obj⟩
  intro x
  rw [kill_one_hits]
  simp

theorem KillFrame_trans {w w1 w2 : World} {D1 D2 : List Nat} (h1 : KillFrame w w1 D1)
    (h2 : KillFrame w1 w2 D2) : KillFrame w w2 (D1 ++ D2) := by
  obtain ⟨a1, a2, a3, a4, a5, a6⟩ := h1
  obtain ⟨b1, b2, b3, b4, b5, b6⟩ := h2
  refine ⟨?_, fun x => (b2 x).trans (a2 x), fun x => (b3 x).trans (a3 x),
    fun x => (b4 x).trans (a4 x), fun c => (b5 c).trans (a5 c), fun c => (b6 c).trans (a6 c)⟩
  intro x
  rw [b1, a1]
  by_cases hx1 : x ∈ D1 <;> by_cases hx2 : x ∈ D2 <;> simp [hx1, hx2]

theorem KillFrame_of_same {w w1 w2 : World} {D : List Nat} (h1 : KillFrame w w1 D)
    (h2 : SameButViews w1 w2) : KillFrame w w2 D := by
  obtain ⟨a1, a2, a3, a4, a5, a6⟩ := h1
  obtain ⟨b1, _, _, _, _, b6, _⟩ := h2
  unfold KillFrame
  rw [b1, b6]
  exact ⟨a1, a2, a3, a4, a5, a6⟩

theorem kill_cargo_loop_ok (E : Env) (list : ListSel) (obj : Nat) :
    ∀ (l : List Nat) (fuel : Nat) (w : World) (s : Shape), Rep E w s → s.cargo obj = l →
      obj < E.LIST_SIZE → 0 < (w.object obj).hits → list = LIST E (w.object obj).owner →
      l.length ≤ fuel →
      ∃ w1 s1, kill_cargo_loop E list obj fuel w = .ok w1 ∧ Rep E w1 s1 ∧
        (w1.object obj).cargo = none ∧ KillFrame w w1 l := by
  intro l
  induction l with
  | nil =>
    intro fuel w s hR hl hobj hlive hlist hlen
    have hseg := hR.cargo_seg obj
    rw [hl] at hseg
    have hc : (w.object obj).cargo = none := hseg
    refine ⟨w, s, ?_, hR, hc, ?_⟩
    · unfold kill_cargo_loop
      rw [hc]
    · exact ⟨fun x => by simp, fun _ => rfl, fun _ => rfl, fun _ => rfl, fun _ => rfl,
        fun _ => rfl⟩
  | cons c t ih =>
    intro fuel w s hR hl hobj hlive hlist hlen
    have hseg := hR.cargo_seg obj
    rw [hl] at hseg
    have hc : (w.object obj).cargo = some c := hseg.1
    have hcm : c ∈ s.cargo obj := by rw [hl]; exact List.mem_cons_self c t
    obtain ⟨hc1, hc2, hc3⟩ := (hR.cargo_mem obj c).mp hcm
    obtain ⟨_, _, _, hown, hcc⟩ := hR.ship_ok c obj hc1 hc2 hc3
    have hne : obj ≠ c := by
      intro e
      rw [← e] at hcc
      rw [hcc] at hc
      exact absurd hc (by simp)
    cases fuel with
    | zero => simp at hlen
    | succ f =>
      have hR1 := Rep_kill_one E w s list c hR hc1 hc2 hcc (by rw [hlist, hown])
      have hl1 : (killShape s c).cargo obj = t := by
        show (s.cargo obj).erase c = t
        rw [hl]; simp
      have hlive1 : 0 < ((kill_one E w list c).object obj).hits := by
        rw [kill_one_hits, if_neg hne]; exact hlive
      have hlist1 : list = LIST E ((kill_one E w list c).object obj).owner := by
        rw [kill_one_owner]; exact hlist
      obtain ⟨w1, s1, h1, h2, h3, h4⟩ := ih f _ _ hR1 hl1 hobj hlive1 hlist1
        (by simpa using hlen)
      refine ⟨w1, s1, ?_, h2, h3, ?_⟩
      · unfold kill_cargo_loop
        rw [hc]
        exact h1
      · exact KillFrame_trans (KillFrame_kill_one E w list c) h4

theorem kill_obj_ok (E : Env) (fuel : Nat) (w : World) (s : Shape) (obj : Nat) (loc : Int)
    (hR : Rep E w s) (hobj : obj < E.LIST_SIZE) (hlive : 0 < (w.object obj).hits)
    (hb : (w.map loc).on_board = true) (hf : E.LIST_SIZE ≤ fuel) :
    ∃ w2 s2, kill_obj E fuel w obj loc = .ok w2 ∧ Rep E w2 s2 ∧
      KillFrame w w2 (s.cargo obj ++ [obj]) := by
  have hlen : (s.cargo obj).length ≤ fuel :=
    le_trans (Fam_length_le _ _ _ _ _ hR.toStr.cargos obj) hf
  obtain ⟨w1, s1, h1, h2, h3, h4⟩ :=
    kill_cargo_loop_ok E (LIST E (w.object obj).owner) obj (s.cargo obj) fuel w s hR rfl hobj
      hlive rfl hlen
  have hno : obj ∉ s.cargo obj := by
    intro hm
    obtain ⟨q1, q2, q3⟩ := (hR.cargo_mem obj obj).mp hm
    have := (hR.ship_ok obj obj q1 q2 q3).2.2.2.2
    have hnil := hR.cargo_nil obj this
    rw [hnil] at hm
    exact absurd hm (List.not_mem_nil obj)
  have hlive1 : 0 < (w1.object obj).hits := by
    rw [h4.1, if_neg hno]; exact hlive
  have hR2 := Rep_kill_one E w1 s1 (LIST E (w.object obj).owner) obj h2 hobj hlive1 h3
    (by rw [h4.2.1])
  have hk2 := KillFrame_trans h4 (KillFrame_kill_one E w1 (LIST E (w.object obj).owner) obj)
  have hb2 : ((kill_one E w1 (LIST E (w.object obj).owner) obj).map loc).on_board = true := by
    rw [hk2.2.2.2.2.1]; exact hb
  obtain ⟨w3, h5, h6⟩ := scan_ok E fuel _ (MAP E (w.object obj).owner) loc
    (hR2.toStr.scannable fuel hf) hb2
  refine ⟨w3, killShape s1 obj, ?_, Rep_of_same h6 hR2, KillFrame_of_same hk2 h6⟩
  unfold kill_obj
  simp only [h1]
  exact h5

/-! ## Location lists under the steps of `move_obj` -/

theorem getL_setPiece (w : World) (x : Nat) (p : piece_info_t) (k : LinkSel) (y : Nat)
    (h : getL k p = getL k (w.object x)) :
    getL k ((setPiece w x p).object y) = getL k (w.object y) :=
  setPiece_field (fun q => getL k q) w x p y h

theorem getL_UNLINK_w_ne (w : World) (r : HeadRef) (a : Nat) (k k2 : LinkSel) (x : Nat)
    (hk : k2 ≠ k) : getL k2 ((UNLINK w r a k).object x) = getL k2 (w.object x) := by
  cases r with
  | piece i => rw [UNLINK_object_piece]; exact getL_UNLINK_ne _ _ _ _ _ _ hk
  | objp c => rw [UNLINK_object_objp]; exact getL_UNLINK_ne _ _ _ _ _ _ hk
  | cargo y => rw [getL_UNLINK_cargo]; exact getL_UNLINK_ne _ _ _ _ _ _ hk

theorem getL_LINK_w_ne (w : World) (r : HeadRef) (a : Nat) (k k2 : LinkSel) (x : Nat)
    (hk : k2 ≠ k) : getL k2 ((LINK w r a k).object x) = getL k2 (w.object x) := by
  cases r with
  | piece i => rw [LINK_object_piece]; exact getL_LINK_ne _ _ _ _ _ _ hk
  | objp c => rw [LINK_object_objp]; exact getL_LINK_ne _ _ _ _ _ _ hk
  | cargo y => rw [getL_LINK_cargo]; exact getL_LINK_ne _ _ _ _ _ _ hk

theorem Cells_UNLINK (n : Nat) (w : World) (f : Int → List Nat) (c : Int) (a : Nat)
    (hF : Fam n w.object .loc_link (cellHead w) f) (ha : a ∈ f c) :
    Fam n (UNLINK w (.objp c) a .loc_link).object .loc_link
      (cellHead (UNLINK w (.objp c) a .loc_link)) (upd f c ((f c).erase a)) := by
  rw [UNLINK_object_objp, cellHead_UNLINK_objp]
  exact Fam_unlink n w.object .loc_link (cellHead w) f hF c a ha

theorem Cells_LINK (n : Nat) (w : World) (f : Int → List Nat) (c : Int) (a : Nat)
    (hF : Fam n w.object .loc_link (cellHead w) f) (ha : ∀ j, a ∉ f j) (han : a < n) :
    Fam n (LINK w (.objp c) a .loc_link).object .loc_link
      (cellHead (LINK w (.objp c) a .loc_link)) (upd f c (a :: f c)) := by
  rw [LINK_object_objp, cellHead_LINK_objp]
  exact Fam_link n w.object .loc_link (cellHead w) f hF c a ha han

theorem Cells_setPiece (n : Nat) (w : World) (f : Int → List Nat) (x : Nat)
    (p : piece_info_t) (hF : Fam n w.object .loc_link (cellHead w) f)
    (h : getL .loc_link p = getL .loc_link (w.object x)) :
    Fam n (setPiece w x p).object .loc_link (cellHead (setPiece w x p)) f :=
  Fam_congr n w.object _ .loc_link (cellHead w) _ f hF
    (fun y => getL_setPiece w x p .loc_link y h) (fun _ => rfl)

theorem Cells_embark (n : Nat) (w : World) (f : Int → List Nat) (sh obj : Nat)
    (hF : Fam n w.object .loc_link (cellHead w) f) :
    Fam n (embark w sh obj).object .loc_link (cellHead (embark w sh obj)) f := by
  refine Fam_congr n w.object _ .loc_link (cellHead w) _ f hF ?_ (fun _ => rfl)
  intro y
  unfold embark
  refine (getL_setPiece _ _ _ .loc_link y ?_).trans ?_
  · rfl
  refine (getL_LINK_w_ne _ _ _ _ _ y (by decide)).trans ?_
  refine getL_setPiece _ _ _ .loc_link y ?_
  rfl

theorem MoveFrame_refl (w : World) : MoveFrame w w :=
  ⟨fun _ => rfl, fun _ => rfl, fun _ => rfl, fun _ => rfl, fun _ => rfl, fun _ => rfl, rfl,
    fun _ => rfl, fun _ => rfl⟩

theorem MoveFrame_trans {w w1 w2 : World} (h1 : MoveFrame w w1) (h2 : MoveFrame w1 w2) :
    MoveFrame w w2 := by
  obtain ⟨a1, a2, a3, a4, a5, a6, a7, a8, a9⟩ := h1
  obtain ⟨b1, b2, b3, b4, b5, b6, b7, b8, b9⟩ := h2
  exact ⟨fun x => (b1 x).trans (a1 x), fun x => (b2 x).trans (a2 x),
    fun x => (b3 x).trans (a3 x), fun x => (b4 x).trans (a4 x), fun x => (b5 x).trans (a5 x),
    fun x => (b6 x).trans (a6 x), b7.trans a7, fun c => (b8 c).trans (a8 c),
    fun c => (b9 c).trans (a9 c)⟩

theorem MoveFrame_setPiece (w : World) (x : Nat) (p : piece_info_t)
    (h1 : p.hits = (w.object x).hits) (h2 : p.owner = (w.object x).owner)
    (h3 : p.type = (w.object x).type) (h4 : p.moved = (w.object x).moved)
    (h5 : p.range = (w.object x).range)
    (h6 : getL .piece_link p = getL .piece_link (w.object x)) :
    MoveFrame w (setPiece w x p) :=
  ⟨fun y => setPiece_field (fun q => q.hits) w x p y h1,
    fun y => setPiece_field (fun q => q.owner) w x p y h2,
    fun y => setPiece_field (fun q => q.type) w x p y h3,
    fun y => setPiece_field (fun q => q.moved) w x p y h4,
    fun y => setPiece_field (fun q => q.range) w x p y h5,
    fun y => getL_setPiece w x p .piece_link y h6,
    by funext j; cases j <;> rfl, fun _ => rfl, fun _ => rfl⟩

theorem MoveFrame_UNLINK_objp (w : World) (c : Int) (a : Nat) :
    MoveFrame w (UNLINK w (.objp c) a .loc_link) :=
  ⟨UNLINK_hits _ _ _ _, UNLINK_owner _ _ _ _, UNLINK_type _ _ _ _, UNLINK_moved _ _ _ _,
    UNLINK_range _ _ _ _, fun x => getL_UNLINK_w_ne _ _ _ _ _ x (by decide),
    pieceHead_UNLINK_objp _ _ _ _, UNLINK_on_board _ _ _ _, UNLINK_cityp _ _ _ _⟩

theorem MoveFrame_LINK_objp (w : World) (c : Int) (a : Nat) :
    MoveFrame w (LINK w (.objp c) a .loc_link) :=
  ⟨LINK_hits _ _ _ _, LINK_owner _ _ _ _, LINK_type _ _ _ _, LINK_moved _ _ _ _,
    LINK_range _ _ _ _, fun x => getL_LINK_w_ne _ _ _ _ _ x (by decide),
    pieceHead_LINK_objp _ _ _ _, LINK_on_board _ _ _ _, LINK_cityp _ _ _ _⟩

theorem MoveFrame_embark (w : World) (sh obj : Nat) : MoveFrame w (embark w sh obj) := by
  refine ⟨embark_hits w sh obj, embark_owner w sh obj, embark_type w sh obj,
    embark_moved w sh obj, embark_range w sh obj, ?_, ?_, fun _ => rfl, fun _ => rfl⟩
  · intro y
    unfold embark
    refine (getL_setPiece _ _ _ .piece_link y ?_).trans ?_
    · rfl
    refine (getL_LINK_w_ne _ _ _ _ _ y (by decide)).trans ?_
    refine getL_setPiece _ _ _ .piece_link y ?_
    rfl
  · funext j; cases j <;> rfl

theorem MoveFrame_of_same {w w1 w2 : World} (h1 : MoveFrame w w1) (h2 : SameButViews w1 w2) :
    MoveFrame w w2 := by
  obtain ⟨b1, _, b3, b4, b5, b6, _⟩ := h2
  have hp : pieceHead w2 = pieceHead w1 := by
    funext i
    cases i with
    | free => exact b3
    | user t => show w2.user_obj t = w1.user_obj t; rw [b4]
    | comp t => show w2.comp_obj t = w1.comp_obj t; rw [b5]
  unfold MoveFrame
  rw [b1, b6, hp]
  exact h1

theorem move_cargo_loop_ok (n : Nat) (A B : Int) (hAB : A ≠ B) :
    ∀ (l : List Nat) (fuel : Nat) (w : World) (f : Int → List Nat) (pv p : Ptr),
      Fam n w.object .loc_link (cellHead w) f → Seg w.object .cargo_link pv p l →
      l.Nodup → (∀ x, x ∈ l → x ∈ f A) → l.length ≤ fuel →
      ∃ w1 f1, move_cargo_loop A B fuel p w = .ok w1 ∧
        Fam n w1.object .loc_link (cellHead w1) f1 ∧
        (∀ c x, x ∈ f1 c ↔ if x ∈ l then c = B else x ∈ f c) ∧
        (∀ x, (w1.object x).loc = if x ∈ l then B else (w.object x).loc) ∧
        MoveFrame w w1 := by
  intro l
  induction l with
  | nil =>
    intro fuel w f pv p hF hs _ _ _
    have hp : p = none := hs
    subst hp
    refine ⟨w, f, ?_, hF, fun _ _ => by simp, fun _ => by simp, MoveFrame_refl w⟩
    cases fuel <;> rfl
  | cons c t ih =>
    intro fuel w f pv p hF hs hnd hmem hlen
    obtain ⟨h1, _, h3⟩ := hs
    subst h1
    have hct : c ∉ t := (List.nodup_cons.mp hnd).1
    have hndt : t.Nodup := (List.nodup_cons.mp hnd).2
    cases fuel with
    | zero => simp at hlen
    | succ fu =>
      have hcA : c ∈ f A := hmem c (List.mem_cons_self c t)
      have hF1 := Cells_setPiece n w f c { w.object c with loc := B } hF rfl
      have hF2 := Cells_UNLINK n _ f A c hF1 hcA
      have hcno : ∀ j, c ∉ upd f A ((f A).erase c) j := by
        intro j hj
        rw [upd_apply] at hj
        split_ifs at hj with e
        · exact List.Nodup.not_mem_erase (hF.nodup _) hj
        · exact e (hF.disj _ _ c hj hcA)
      have hF3 := Cells_LINK n _ _ B c hF2 hcno (hF.bound A c hcA)
      have hcl : ∀ y, getL .cargo_link
          ((LINK (UNLINK (setPiece w c { w.object c with loc := B }) (.objp A) c .loc_link)
            (.objp B) c .loc_link).object y) = getL .cargo_link (w.object y) := by
        intro y
        refine (getL_LINK_w_ne _ _ _ _ _ y (by decide)).trans ?_
        refine (getL_UNLINK_w_ne _ _ _ _ _ y (by decide)).trans ?_
        exact getL_setPiece _ _ _ .cargo_link y rfl
      have hs3 : Seg (LINK (UNLINK (setPiece w c { w.object c with loc := B }) (.objp A) c
          .loc_link) (.objp B) c .loc_link).object .cargo_link (some c)
          ((LINK (UNLINK (setPiece w c { w.object c with loc := B }) (.objp A) c .loc_link)
            (.objp B) c .loc_link).object c).cargo_link.next t := by
        have e : ((LINK (UNLINK (setPiece w c { w.object c with loc := B }) (.objp A) c
            .loc_link) (.objp B) c .loc_link).object c).cargo_link.next
            = (getL .cargo_link (w.object c)).next := congrArg link_t.next (hcl c)
        rw [e]
        exact Seg_congr _ _ _ t _ _ (fun y _ => hcl y) h3
      have hmem3 : ∀ x, x ∈ t → x ∈ upd (upd f A ((f A).erase c)) B
          (c :: upd f A ((f A).erase c) B) A := by
        intro x hx
        rw [upd_ne _ _ _ _ hAB, upd_same]
        have hxc : x ≠ c := fun e => hct (e ▸ hx)
        exact (List.mem_erase_of_ne hxc).mpr (hmem x (List.mem_cons_of_mem c hx))
      obtain ⟨w1, f1, k1, k2, k3, k4, k5⟩ := ih fu _ _ (some c) _ hF3 hs3 hndt hmem3
        (by simpa using hlen)
      have hfr : MoveFrame w (LINK (UNLINK (setPiece w c { w.object c with loc := B })
          (.objp A) c .loc_link) (.objp B) c .loc_link) :=
        MoveFrame_trans (MoveFrame_trans
          (MoveFrame_setPiece w c { w.object c with loc := B } rfl rfl rfl rfl rfl rfl)
          (MoveFrame_UNLINK_objp _ A c)) (MoveFrame_LINK_objp _ B c)
      refine ⟨w1, f1, ?_, k2, ?_, ?_, MoveFrame_trans hfr k5⟩
      · rw [move_cargo_loop]
        exact k1
      · intro d x
        rw [k3 d x]
        by_cases hxt : x ∈ t
        · simp [hxt]
        · rw [if_neg hxt]
          by_cases hxc : x = c
          · subst hxc
            simp only [List.mem_cons, true_or, if_true]
            by_cases hdB : d = B
            · subst hdB; rw [upd_same]; simp
            · rw [upd_ne _ _ _ _ hdB]
              exact ⟨fun h => absurd h (hcno d), fun h => absurd h hdB⟩
          · have hxl : x ∉ c :: t := by
              intro h
              rcases List.mem_cons.mp h with e | e
              · exact hxc e
              · exact hxt e
            rw [if_neg hxl]
            by_cases hdB : d = B
            · subst hdB
              rw [upd_same, upd_ne _ _ _ _ (fun e => hAB e.symm)]
              simp [hxc]
            · rw [upd_ne _ _ _ _ hdB]
              by_cases hdA : d = A
              · subst hdA
                rw [upd_same]
                exact List.mem_erase_of_ne hxc
              · rw [upd_ne _ _ _ _ hdA]
      · intro x
        rw [k4 x]
        by_cases hxt : x ∈ t
        · simp [hxt]
        · rw [if_neg hxt, LINK_loc, UNLINK_loc, setPiece_object]
          by_cases hxc : x = c
          · subst hxc; simp
          · have hxl : x ∉ c :: t := by
              intro h
              rcases List.mem_cons.mp h with e | e
              · exact hxc e
              · exact hxt e
            rw [if_neg hxc, if_neg hxl]

/-! ## `move_obj` -/

theorem move_obj_unfold (E : Env) (fuel : Nat) (w : World) (obj : Nat) (new_loc : Int)
    (h : (w.object obj).hits ≠ 0) :
    move_obj E fuel w obj new_loc =
      match move_cargo_loop (w.object obj).loc new_loc fuel
          ((move_obj_head w obj (w.object obj).loc new_loc).object obj).cargo
          (move_obj_head w obj (w.object obj).loc new_loc) with
      | .error e => .error e
      | .ok w7 =>
        match board_new_ship E fuel w7 obj with
        | .error e => .error e
        | .ok w8 => move_obj_scan E fuel w8 (MAP E (w.object obj).owner) obj := by
  unfold move_obj
  rw [if_neg h]
  rfl

theorem find_nfull_loop_eq (E : Env) (o : Heap) (type : Int) :
    ∀ (l : List Nat) (pv p : Ptr) (fuel : Nat), Seg o .loc_link pv p l → l.length ≤ fuel →
      find_nfull_loop E o type fuel p =
        .ok (l.find? (fun x => decide ((o x).type = type ∧ obj_capacity E (o x) > (o x).count)))
    := by
  intro l
  induction l with
  | nil =>
    intro pv p fuel hs _
    have : p = none := hs
    subst this
    cases fuel <;> rfl
  | cons a t ih =>
    intro pv p fuel hs hlen
    obtain ⟨h1, _, h3⟩ := hs
    subst h1
    cases fuel with
    | zero => simp at hlen
    | succ f =>
      rw [find_nfull_loop, List.find?_cons]
      by_cases hc : (o a).type = type ∧ obj_capacity E (o a) > (o a).count
      · rw [if_pos hc]
        simp [hc]
      · rw [if_neg hc]
        have : decide ((o a).type = type ∧ obj_capacity E (o a) > (o a).count) = false := by
          simpa using hc
        rw [this]
        exact ih _ _ f h3 (by simpa using hlen)

theorem find_nfull_eq (E : Env) (n fuel : Nat) (w : World) (f : Int → List Nat) (type : Int)
    (loc : Int) (hF : Fam n w.object .loc_link (cellHead w) f) (hf : n ≤ fuel) :
    find_nfull E fuel w type loc =
      .ok ((f loc).find? (fun x => decide ((w.object x).type = type ∧
        obj_capacity E (w.object x) > (w.object x).count))) :=
  find_nfull_loop_eq E w.object type (f loc) none _ fuel (hF.seg loc)
    (le_trans (Fam_length_le n _ _ _ _ hF loc) hf)

theorem board_new_ship_cases (E : Env) (n fuel : Nat) (w : World) (f : Int → List Nat)
    (obj : Nat) (hF : Fam n w.object .loc_link (cellHead w) f) (hf : n ≤ fuel) :
    board_new_ship E fuel w obj = .ok w ∨
      ∃ p, board_new_ship E fuel w obj = .ok (embark w p obj) := by
  unfold board_new_ship
  split_ifs
  · rw [find_nfull_eq E n fuel w f _ _ hF hf]
    cases List.find? _ (f (w.object obj).loc) with
    | none => exact Or.inl rfl
    | some p => exact Or.inr ⟨p, rfl⟩
  · exact Or.inl rfl
  · rw [find_nfull_eq E n fuel w f _ _ hF hf]
    cases List.find? _ (f (w.object obj).loc) with
    | none => exact Or.inl rfl
    | some p => exact Or.inr ⟨p, rfl⟩
  · exact Or.inl rfl

theorem board_new_ship_ok (E : Env) (n fuel : Nat) (w : World) (f : Int → List Nat)
    (obj : Nat) (hF : Fam n w.object .loc_link (cellHead w) f) (hf : n ≤ fuel) :
    ∃ w8, board_new_ship E fuel w obj = .ok w8 ∧
      Fam n w8.object .loc_link (cellHead w8) f ∧
      (∀ x, (w8.object x).loc = (w.object x).loc) ∧ MoveFrame w w8 ∧ w8.map = w.map := by
  rcases board_new_ship_cases E n fuel w f obj hF hf with h | ⟨p, h⟩
  · exact ⟨w, h, hF, fun _ => rfl, MoveFrame_refl w, rfl⟩
  · exact ⟨_, h, Cells_embark n w f p obj hF, embark_loc w p obj, MoveFrame_embark w p obj,
      embark_map w p obj⟩

theorem move_obj_scan_ok (E : Env) (fuel : Nat) (w8 : World) (vmap : VMapSel) (obj : Nat)
    (hs : Scannable fuel w8) (hb : (w8.map (w8.object obj).loc).on_board = true) :
    ∃ w9, move_obj_scan E fuel w8 vmap obj = .ok w9 ∧ SameButViews w8 w9 := by
  unfold move_obj_scan
  split_ifs
  · obtain ⟨w9, h1, h2⟩ := scan_sat_ok E fuel w8 vmap _ hs hb
    have hb9 : (w9.map (w9.object obj).loc).on_board = true := by
      rw [h2.1, h2.2.2.2.2.2.1]; exact hb
    obtain ⟨w10, h3, h4⟩ := scan_ok E fuel w9 vmap _ (Scannable_of_same h2 hs) hb9
    refine ⟨w10, ?_, h2.trans h4⟩
    rw [h1]
    exact h3
  · exact scan_ok E fuel w8 vmap _ hs hb

theorem move_obj_head_loc (w : World) (obj : Nat) (A B : Int) (x : Nat) :
    ((move_obj_head w obj A B).object x).loc = if x = obj then B else (w.object x).loc := by
  unfold move_obj_head
  rw [LINK_loc, UNLINK_loc, disembark_loc]
  refine (setPiece_field (fun q => q.loc) _ _ _ x ?_).trans ?_
  · rfl
  rw [setPiece_object]
  split_ifs with h
  · rfl
  · exact setPiece_field (fun q => q.loc) _ _ _ x rfl

theorem move_obj_head_moved (w : World) (obj : Nat) (A B : Int) (x : Nat) :
    ((move_obj_head w obj A B).object x).moved =
      if x = obj then (w.object x).moved + 1 else (w.object x).moved := by
  unfold move_obj_head
  rw [LINK_moved, UNLINK_moved, disembark_moved]
  refine (setPiece_field (fun q => q.moved) _ _ _ x ?_).trans ?_
  · rfl
  refine (setPiece_field (fun q => q.moved) _ _ _ x ?_).trans ?_
  · rfl
  rw [setPiece_object]
  split_ifs with h
  · subst h; rfl
  · rfl

theorem move_obj_head_range (w : World) (obj : Nat) (A B : Int) (x : Nat) :
    ((move_obj_head w obj A B).object x).range =
      if x = obj then (w.object x).range - 1 else (w.object x).range := by
  unfold move_obj_head
  rw [LINK_range, UNLINK_range, disembark_range, setPiece_object]
  split_ifs with h
  · subst h
    show ((setPiece _ _ _).object x).range - 1 = _
    congr 1
    refine (setPiece_field (fun q => q.range) _ _ _ x ?_).trans ?_
    · rfl
    exact setPiece_field (fun q => q.range) _ _ _ x rfl
  · refine (setPiece_field (fun q => q.range) _ _ _ x ?_).trans ?_
    · rfl
    exact setPiece_field (fun q => q.range) _ _ _ x rfl

theorem move_obj_head_on_board (w : World) (obj : Nat) (A B : Int) (c : Int) :
    ((move_obj_head w obj A B).map c).on_board = (w.map c).on_board := by
  unfold move_obj_head
  rw [LINK_on_board, UNLINK_on_board, disembark_map]
  rfl

theorem move_obj_head_hits (w : World) (obj : Nat) (A B : Int) (x : Nat) :
    ((move_obj_head w obj A B).object x).hits = (w.object x).hits := by
  unfold move_obj_head
  rw [LINK_hits, UNLINK_hits, disembark_hits]
  refine (setPiece_field (fun q => q.hits) _ _ _ x ?_).trans ?_
  · rfl
  refine (setPiece_field (fun q => q.hits) _ _ _ x ?_).trans ?_
  · rfl
  exact setPiece_field (fun q => q.hits) _ _ _ x rfl

theorem move_obj_head_owner (w : World) (obj : Nat) (A B : Int) (x : Nat) :
    ((move_obj_head w obj A B).object x).owner = (w.object x).owner := by
  unfold move_obj_head
  rw [LINK_owner, UNLINK_owner, disembark_owner]
  refine (setPiece_field (fun q => q.owner) _ _ _ x ?_).trans ?_
  · rfl
  refine (setPiece_field (fun q => q.owner) _ _ _ x ?_).trans ?_
  · rfl
  exact setPiece_field (fun q => q.owner) _ _ _ x rfl

theorem move_obj_head_type (w : World) (obj : Nat) (A B : Int) (x : Nat) :
    ((move_obj_head w obj A B).object x).type = (w.object x).type := by
  unfold move_obj_head
  rw [LINK_type, UNLINK_type, disembark_type]
  refine (setPiece_field (fun q => q.type) _ _ _ x ?_).trans ?_
  · rfl
  refine (setPiece_field (fun q => q.type) _ _ _ x ?_).trans ?_
  · rfl
  exact setPiece_field (fun q => q.type) _ _ _ x rfl

theorem Str_move_obj_head (E : Env) (w : World) (s : Shape) (obj : Nat) (B : Int)
    (hR : Rep E w s) (hobj : obj < E.LIST_SIZE) (hlive : 0 < (w.object obj).hits) :
    Str E.LIST_SIZE (move_obj_head w obj (w.object obj).loc B)
      { s with
        cargo := fun x => (s.cargo x).erase obj
        cell := upd (upd s.cell (w.object obj).loc ((s.cell (w.object obj).loc).erase obj)) B
          (obj :: upd s.cell (w.object obj).loc ((s.cell (w.object obj).loc).erase obj) B) }
    := by
  have hS := hR.toStr
  have h1 := Str_setPiece _ w s obj { w.object obj with moved := (w.object obj).moved + 1 } hS
    (fun k => by cases k <;> rfl) rfl
  have h2 := Str_setPiece _ _ s obj
    { (setPiece w obj { w.object obj with moved := (w.object obj).moved + 1 }).object obj with
      loc := B } h1 (fun k => by cases k <;> rfl) rfl
  have h3 := Str_setPiece _ _ s obj
    { (setPiece (setPiece w obj { w.object obj with moved := (w.object obj).moved + 1 }) obj
        { (setPiece w obj { w.object obj with moved := (w.object obj).moved + 1 }).object obj
          with loc := B }).object obj with
      range := ((setPiece (setPiece w obj { w.object obj with
        moved := (w.object obj).moved + 1 }) obj
        { (setPiece w obj { w.object obj with moved := (w.object obj).moved + 1 }).object obj
          with loc := B }).object obj).range - 1 } h2 (fun k => by cases k <;> rfl) rfl
  have h4 := Str_disembark _ _ s obj h3 (by
    intro x
    rw [hR.cargo_mem x obj]
    have e : ((setPiece (setPiece (setPiece w obj { w.object obj with
        moved := (w.object obj).moved + 1 }) obj
        { (setPiece w obj { w.object obj with moved := (w.object obj).moved + 1 }).object obj
          with loc := B }) obj
        { (setPiece (setPiece w obj { w.object obj with moved := (w.object obj).moved + 1 }) obj
        { (setPiece w obj { w.object obj with moved := (w.object obj).moved + 1 }).object obj
          with loc := B }).object obj with
      range := ((setPiece (setPiece w obj { w.object obj with
        moved := (w.object obj).moved + 1 }) obj
        { (setPiece w obj { w.object obj with moved := (w.object obj).moved + 1 }).object obj
          with loc := B }).object obj).range - 1 }).object obj).ship = (w.object obj).ship := by
      refine (setPiece_field (fun q => q.ship) _ _ _ obj ?_).trans ?_
      · rfl
      refine (setPiece_field (fun q => q.ship) _ _ _ obj ?_).trans ?_
      · rfl
      exact setPiece_field (fun q => q.ship) _ _ _ obj rfl
    rw [e]
    exact ⟨fun h => h.2.2, fun h => ⟨hobj, hlive, h⟩⟩)
  have hcA : obj ∈ s.cell (w.object obj).loc := (hR.cell_mem _ obj).mpr ⟨hobj, hlive, rfl⟩
  have h5 := Str_UNLINK_objp _ _ _ (w.object obj).loc obj h4 hcA
  have h6 := Str_LINK_objp _ _ _ B obj h5 (by
    intro j hj
    change obj ∈ upd s.cell _ _ j at hj
    rw [upd_apply] at hj
    split_ifs at hj with e
    · exact List.Nodup.not_mem_erase (hS.cells.nodup _) hj
    · exact e (hS.cells.disj _ _ obj hj hcA)) hobj
  exact h6

theorem move_obj_ok (E : Env) (fuel : Nat) (w : World) (s : Shape) (obj : Nat) (B : Int)
    (hR : Rep E w s) (hobj : obj < E.LIST_SIZE) (hlive : 0 < (w.object obj).hits)
    (hB : (w.map B).on_board = true) (hAB : (w.object obj).loc ≠ B)
    (hf : E.LIST_SIZE ≤ fuel) :
    ∃ w9 f9, move_obj E fuel w obj B = .ok w9 ∧
      Fam E.LIST_SIZE w9.object .loc_link (cellHead w9) f9 ∧
      (∀ c x, x ∈ f9 c ↔
        if x = obj ∨ x ∈ s.cargo obj then c = B else x ∈ s.cell c) ∧
      (∀ x, (w9.object x).loc =
        if x = obj ∨ x ∈ s.cargo obj then B else (w.object x).loc) ∧
      (w9.object obj).moved = (w.object obj).moved + 1 ∧
      (w9.object obj).range = (w.object obj).range - 1 ∧
      Fam E.LIST_SIZE w9.object .piece_link (pieceHead w9) s.piece ∧
      (∀ x, (w9.object x).hits = (w.object x).hits) ∧
      (∀ x, (w9.object x).owner = (w.object x).owner) ∧
      (∀ x, (w9.object x).type = (w.object x).type) := by
  have hS := hR.toStr
  have hS6 := Str_move_obj_head E w s obj B hR hobj hlive
  have hseg := hS6.cargos.seg obj
  have hno : obj ∉ s.cargo obj := by
    intro hm
    obtain ⟨q1, q2, q3⟩ := (hR.cargo_mem obj obj).mp hm
    have := (hR.ship_ok obj obj q1 q2 q3).2.2.2.2
    have hnil := hR.cargo_nil obj this
    rw [hnil] at hm
    exact absurd hm (List.not_mem_nil obj)
  have hLeq : (s.cargo obj).erase obj = s.cargo obj := List.erase_of_not_mem hno
  have hseg2 : Seg (move_obj_head w obj (w.object obj).loc B).object .cargo_link none
      (cargoHead (move_obj_head w obj (w.object obj).loc B) obj) (s.cargo obj) := by
    have := hseg
    change Seg _ _ _ _ ((s.cargo obj).erase obj) at this
    rw [hLeq] at this
    exact this
  have hcA : obj ∈ s.cell (w.object obj).loc := (hR.cell_mem _ obj).mpr ⟨hobj, hlive, rfl⟩
  have hmemL : ∀ x, x ∈ s.cargo obj →
      x ∈ upd (upd s.cell (w.object obj).loc ((s.cell (w.object obj).loc).erase obj)) B
        (obj :: upd s.cell (w.object obj).loc ((s.cell (w.object obj).loc).erase obj) B)
        (w.object obj).loc := by
    intro x hxm
    rw [upd_ne _ _ _ _ hAB, upd_same]
    have hxo : x ≠ obj := fun e => hno (e ▸ hxm)
    obtain ⟨q1, q2, q3⟩ := (hR.cargo_mem obj x).mp hxm
    obtain ⟨_, _, q4, _, _⟩ := hR.ship_ok x obj q1 q2 q3
    exact (List.mem_erase_of_ne hxo).mpr ((hR.cell_mem _ x).mpr ⟨q1, q2, q4.symm⟩)
  obtain ⟨w7, f7, k1, k2, k3, k4, k5⟩ := move_cargo_loop_ok E.LIST_SIZE (w.object obj).loc B
    hAB (s.cargo obj) fuel (move_obj_head w obj (w.object obj).loc B)
    (upd (upd s.cell (w.object obj).loc ((s.cell (w.object obj).loc).erase obj)) B
      (obj :: upd s.cell (w.object obj).loc ((s.cell (w.object obj).loc).erase obj) B)) none _
    hS6.cells hseg2 (hR.cargo_nodup obj) hmemL
    (le_trans (Fam_length_le _ _ _ _ _ hS.cargos obj) hf)
  obtain ⟨w8, b1, b2, b3, b4, b7⟩ := board_new_ship_ok E E.LIST_SIZE fuel w7 f7 obj k2 hf
  have hloc8 : ∀ x, (w8.object x).loc =
      if x = obj ∨ x ∈ s.cargo obj then B else (w.object x).loc := by
    intro x
    rw [b3, k4, move_obj_head_loc]
    by_cases h1 : x ∈ s.cargo obj
    · simp [h1]
    · by_cases h2 : x = obj
      · simp [h2]
      · simp [h1, h2]
  have hb8 : (w8.map (w8.object obj).loc).on_board = true := by
    rw [hloc8 obj, if_pos (Or.inl rfl), b7, k5.2.2.2.2.2.2.2.1, move_obj_head_on_board]
    exact hB
  have hsc8 : Scannable fuel w8 := by
    intro c
    exact ⟨f7 c, b2.seg c, le_trans (Fam_length_le _ _ _ _ _ b2 c) hf⟩
  obtain ⟨w9, d1, d2⟩ := move_obj_scan_ok E fuel w8 (MAP E (w.object obj).owner) obj hsc8 hb8
  have hfr : MoveFrame (move_obj_head w obj (w.object obj).loc B) w9 :=
    MoveFrame_of_same (MoveFrame_trans k5 b4) d2
  obtain ⟨g1, g2, g3, g4, g5, g6, g7, _, _⟩ := hfr
  refine ⟨w9, f7, ?_, ?_, ?_, ?_, ?_, ?_, ?_, ?_, ?_, ?_⟩
  · rw [move_obj_unfold E fuel w obj B (ne_of_gt hlive)]
    unfold cargoHead at k1
    rw [k1]
    simp only [b1]
    exact d1
  · have : cellHead w9 = cellHead w8 := by
      funext c; unfold cellHead; rw [d2.1]
    rw [this, d2.2.2.2.2.2.1]
    exact b2
  · intro c x
    rw [k3 c x]
    by_cases h1 : x ∈ s.cargo obj
    · simp [h1]
    · rw [if_neg h1]
      by_cases h2 : x = obj
      · subst h2
        simp only [true_or, if_true]
        by_cases hcB : c = B
        · subst hcB; rw [upd_same]; simp
        · rw [upd_ne _ _ _ _ hcB, upd_apply]
          split_ifs with hcA2
          · exact ⟨fun h => absurd h (List.Nodup.not_mem_erase (hR.cell_nodup _)),
              fun h => absurd h hcB⟩
          · exact ⟨fun h => absurd (hS.cells.disj _ _ x h hcA) hcA2, fun h => absurd h hcB⟩
      · have h3 : ¬ (x = obj ∨ x ∈ s.cargo obj) := by
          rintro (e | e)
          · exact h2 e
          · exact h1 e
        rw [if_neg h3]
        by_cases hcB : c = B
        · subst hcB
          rw [upd_same, upd_ne _ _ _ _ (fun e => hAB e.symm)]
          simp [h2]
        · rw [upd_ne _ _ _ _ hcB, upd_apply]
          split_ifs with hcA2
          · subst hcA2; exact List.mem_erase_of_ne h2
          · exact Iff.rfl
  · intro x
    rw [d2.2.2.2.2.2.1]; exact hloc8 x
  · rw [g4, move_obj_head_moved, if_pos rfl]
  · rw [g5, move_obj_head_range, if_pos rfl]
  · rw [g7]
    exact Fam_of_getL _ _ _ _ _ _ hS6.pieces g6
  · intro x; rw [g1, move_obj_head_hits]
  · intro x; rw [g2, move_obj_head_owner]
  · intro x; rw [g3, move_obj_head_type]

theorem portWorld_rep : Rep gameEnv portWorld portShape where
  piece_seg := by
    intro i
    cases i with
    | free => decide
    | user t =>
      by_cases h5 : t = 5
      · subst h5; decide
      · by_cases h0 : t = 0
        · subst h0; decide
        · simp [pieceHead, portWorld, portShape, h5, h0, Seg]
    | comp t => simp [pieceHead, portWorld, portShape, Seg]
  piece_nodup := by
    intro i
    cases i with
    | free => decide
    | user t => simp only [portShape]; split_ifs <;> decide
    | comp t => simp [portShape]
  cell_seg := by
    intro c
    by_cases h : c = 101
    · subst h; decide
    · simp [cellHead, portWorld, portShape, seaMap, h, Seg]
  cell_nodup := by
    intro c; simp only [portShape]; split_ifs <;> decide
  cargo_seg := by
    intro x
    by_cases h : x = 0
    · subst h; decide
    · simp only [portShape, h, if_false, Seg, cargoHead, portWorld]
      split_ifs <;> rfl
  cargo_nodup := by
    intro x; simp only [portShape]; split_ifs <;> decide
  free_mem := by
    intro x
    simp only [portShape, gameEnv, portWorld]
    constructor
    · intro h
      have : x = 2 ∨ x = 3 := by simpa using h
      rcases this with rfl | rfl <;> decide
    · rintro ⟨h1, h2⟩
      interval_cases x <;> simp_all [freeRec]
  user_mem := by
    intro t x
    simp only [portShape, gameEnv, portWorld]
    constructor
    · intro h
      split_ifs at h with h5 h0
      · subst h5; simp at h; subst h; decide
      · subst h0; simp at h; subst h; decide
      · simp at h
    · rintro ⟨h1, h2, h3, h4⟩
      interval_cases x <;> simp_all [freeRec]
      subst_vars; decide
  comp_mem := by
    intro t x
    simp only [portShape, gameEnv, portWorld]
    constructor
    · intro h; simp at h
    · rintro ⟨h1, h2, h3, h4⟩
      interval_cases x <;> simp_all [freeRec]
  cell_mem := by
    intro c x
    simp only [portShape, gameEnv, portWorld]
    constructor
    · intro h
      split_ifs at h with h5
      · subst h5; simp at h; rcases h with rfl | rfl <;> decide
      · simp at h
    · rintro ⟨h1, h2, h3⟩
      interval_cases x <;> simp_all [freeRec]
  cargo_mem := by
    intro x y
    simp only [portShape, gameEnv, portWorld]
    constructor
    · intro h
      split_ifs at h with h5
      · subst h5; simp at h; subst h; decide
      · simp at h
    · rintro ⟨h1, h2, h3⟩
      interval_cases y <;> simp_all [freeRec]
  hits_nonneg := by
    intro x hx
    simp only [gameEnv] at hx
    interval_cases x <;> decide
  ship_ok := by
    intro y x hy h1 h2
    simp only [gameEnv] at hy
    interval_cases y
    · simp [portWorld] at h2
    · have : x = 0 := by simpa [portWorld] using h2.symm
      subst this; decide
    · simp [portWorld, freeRec] at h1
    · simp [portWorld, freeRec] at h1
  count_ok := by
    intro x hx h1
    simp only [gameEnv] at hx
    interval_cases x <;> simp_all [portWorld, freeRec, portShape]

theorem mixedWorld_rep : Rep gameEnv mixedWorld mixedShape where
  piece_seg := by
    intro i
    cases i with
    | free => decide
    | user t =>
      by_cases h5 : t = 5
      · subst h5; decide
      · by_cases h0 : t = 0
        · subst h0; decide
        · by_cases h8 : t = 8
          · subst h8; decide
          · simp [pieceHead, mixedWorld, mixedShape, h5, h0, h8, Seg]
    | comp t =>
      by_cases h5 : t = 5
      · subst h5; decide
      · simp [pieceHead, mixedWorld, mixedShape, h5, Seg]
  piece_nodup := by
    intro i
    cases i with
    | free => decide
    | user t => simp only [mixedShape]; split_ifs <;> decide
    | comp t => simp only [mixedShape]; split_ifs <;> decide
  cell_seg := by
    intro c
    by_cases h1 : c = 101
    · subst h1; decide
    · by_cases h2 : c = 102
      · subst h2; decide
      · by_cases h3 : c = 203
        · subst h3; decide
        · simp [cellHead, mixedWorld, mixedShape, h1, h2, h3, Seg]
  cell_nodup := by
    intro c; simp only [mixedShape]; split_ifs <;> decide
  cargo_seg := by
    intro x
    simp only [mixedShape, Seg, cargoHead, mixedWorld]
    split_ifs <;> rfl
  cargo_nodup := by
    intro x; simp [mixedShape]
  free_mem := by
    intro x
    simp only [mixedShape, gameEnv, mixedWorld]
    constructor
    · intro h; simp at h
    · rintro ⟨h1, h2⟩
      interval_cases x <;> simp_all
  user_mem := by
    intro t x
    simp only [mixedShape, gameEnv, mixedWorld]
    constructor
    · intro h
      split_ifs at h with h5 h0 h8
      · subst h5; simp at h; subst h; decide
      · subst h0; simp at h; subst h; decide
      · subst h8; simp at h; subst h; decide
      · simp at h
    · rintro ⟨h1, h2, h3, h4⟩
      interval_cases x <;> simp_all <;> subst_vars <;> decide
  comp_mem := by
    intro t x
    simp only [mixedShape, gameEnv, mixedWorld]
    constructor
    · intro h
      split_ifs at h with h5
      · subst h5; simp at h; subst h; decide
      · simp at h
    · rintro ⟨h1, h2, h3, h4⟩
      interval_cases x <;> simp_all
  cell_mem := by
    intro c x
    simp only [mixedShape, gameEnv, mixedWorld]
    constructor
    · intro h
      split_ifs at h with h1 h2 h3
      · subst h1; simp at h; subst h; decide
      · subst h2; simp at h; rcases h with rfl | rfl <;> decide
      · subst h3; simp at h; subst h; decide
      · simp at h
    · rintro ⟨h1, h2, h3⟩
      interval_cases x <;> simp_all <;> subst_vars <;> decide
  cargo_mem := by
    intro x y
    simp only [mixedShape, gameEnv, mixedWorld]
    constructor
    · intro h; simp at h
    · rintro ⟨h1, h2, h3⟩
      interval_cases y <;> simp_all
  hits_nonneg := by
    intro x hx
    simp only [gameEnv] at hx
    interval_cases x <;> decide
  ship_ok := by
    intro y x hy h1 h2
    simp only [gameEnv] at hy
    interval_cases y <;> simp [mixedWorld] at h2
  count_ok := by
    intro x hx h1
    simp only [gameEnv] at hx
    interval_cases x <;> simp_all [mixedWorld, mixedShape]

theorem ok_of_check (r : Except Fault World) (P : World → Bool)
    (h : (match r with
      | .ok w => P w
      | .error _ => false) = true) : ∃ w, r = .ok w ∧ P w = true := by
  cases r with
  | error e => simp at h
  | ok w => exact ⟨w, rfl, h⟩

/-- C1, at the failing input: `portWorld` is a well-formed state, and
`kill_city` on its city returns a state in which the location-index invariant
is broken: the location list of cell 101 is empty although the transport,
record 0, is alive with `loc = 101`. -/
theorem kill_city_breaks_location_index :
    Rep gameEnv portWorld portShape ∧
      ∃ w2, kill_city gameEnv 8 portWorld 0 = .ok w2 ∧ ¬ LocInv gameEnv w2 := by
  refine ⟨portWorld_rep, ?_⟩
  obtain ⟨w2, h1, h2⟩ := ok_of_check (kill_city gameEnv 8 portWorld 0)
    (fun w => decide ((w.map 101).objp = none ∧ (w.object 0).hits = 1 ∧ (w.object 0).loc = 101))
    (by rfl)
  refine ⟨w2, h1, ?_⟩
  have h3 := of_decide_eq_true h2
  rintro ⟨f, hf1, hf2⟩
  have hnil : f 101 = [] := by
    have := (hf1 101).1
    unfold cellHead at this
    rw [h3.1] at this
    exact Seg_nil_of_none _ _ _ _ this
  have hmem : 0 ∈ f 101 := by
    rw [hf2]
    refine ⟨by decide, ?_, h3.2.2⟩
    rw [h3.2.1]; decide
  rw [hnil] at hmem
  exact absurd hmem (List.not_mem_nil 0)

/-- C4, at the failing input: `portWorld` is a well-formed state, and
`kill_city` on its city returns a state in which pool conservation is
broken: the free list starts at record 1, whose `next` link is record 1
again, so that the free list is no list. -/
theorem kill_city_breaks_pool :
    Rep gameEnv portWorld portShape ∧
      ∃ w2, kill_city gameEnv 8 portWorld 0 = .ok w2 ∧ ¬ PoolInv gameEnv w2 := by
  refine ⟨portWorld_rep, ?_⟩
  obtain ⟨w2, h1, h2⟩ := ok_of_check (kill_city gameEnv 8 portWorld 0)
    (fun w => decide (w.free_list = some 1 ∧ (w.object 1).piece_link.next = some 1))
    (by rfl)
  refine ⟨w2, h1, ?_⟩
  have h3 := of_decide_eq_true h2
  rintro ⟨g, hg1, _, _⟩
  obtain ⟨hseg, hnd⟩ := hg1 .free
  have hhead : pieceHead w2 .free = some 1 := h3.1
  rw [hhead] at hseg
  cases hl : g .free with
  | nil => rw [hl] at hseg; exact absurd hseg (by simp [Seg])
  | cons a t =>
    rw [hl] at hseg hnd
    obtain ⟨e1, _, e3⟩ := hseg
    have ha : a = 1 := (Option.some.inj e1).symm
    subst ha
    have hn : (getL .piece_link (w2.object 1)).next = some 1 := h3.2
    rw [hn] at e3
    cases t with
    | nil => exact absurd e3 (by simp [Seg])
    | cons b t2 =>
      obtain ⟨e4, _, _⟩ := e3
      have hb : b = 1 := (Option.some.inj e4).symm
      subst hb
      simp at hnd

theorem tdiv_round_up_eq_ceil (x m : Int) (hx : 0 ≤ x) (hm : 1 ≤ m) :
    Int.tdiv (x + m - 1) m = ⌈(x : ℚ) / (m : ℚ)⌉ := by
  have hm0 : (0 : Int) < m := by omega
  rw [Int.tdiv_eq_ediv (by omega) (by omega)]
  symm
  rw [Int.ceil_eq_iff]
  have hmq : (0 : ℚ) < (m : ℚ) := by exact_mod_cast hm0
  have h1 : (x + m - 1) / m * m ≤ x + m - 1 := Int.ediv_mul_le _ (by omega)
  have h2 : x + m - 1 < ((x + m - 1) / m + 1) * m := Int.lt_ediv_add_one_mul_self _ hm0
  constructor
  · rw [lt_div_iff₀ hmq]
    have : ((x + m - 1) / m - 1) * m < x := by nlinarith
    exact_mod_cast this
  · rw [div_le_iff₀ hmq]
    have : x ≤ (x + m - 1) / m * m := by nlinarith
    exact_mod_cast this

theorem tdiv_round_up_pos (x m : Int) (hx : 1 ≤ x) (hm : 1 ≤ m) :
    1 ≤ Int.tdiv (x + m - 1) m := by
  rw [Int.tdiv_eq_ediv (by omega) (by omega)]
  exact (Int.le_ediv_iff_mul_le (by omega)).mpr (by omega)

theorem tdiv_round_up_full (v m : Int) (hm : 1 ≤ m) (hv : 0 ≤ v) :
    Int.tdiv (v * m + m - 1) m = v := by
  have h0 : 0 ≤ v * m := Int.mul_nonneg hv (by omega)
  rw [Int.tdiv_eq_ediv (by omega) (by omega)]
  have e : v * m + m - 1 = (m - 1) + m * v := by ring
  rw [e, Int.add_mul_ediv_left _ _ (by omega), Int.ediv_eq_zero_of_lt (by omega) (by omega)]
  simp

/-- C5: for a kind with `max_hits >= 1` and non-negative speed and capacity,
and `hits >= 0`, `obj_moves` is the ceiling of `speed * hits / max_hits` and
`obj_capacity` is the ceiling of `capacity * hits / max_hits`. -/
theorem obj_moves_capacity_eq_ceil (E : Env) (obj : piece_info_t)
    (hm : 1 ≤ (E.piece_attr obj.type).max_hits) (hs : 0 ≤ (E.piece_attr obj.type).speed)
    (hc : 0 ≤ (E.piece_attr obj.type).capacity) (hh : 0 ≤ obj.hits) :
    obj_moves E obj =
        ⌈(((E.piece_attr obj.type).speed * obj.hits : Int) : ℚ) /
          ((E.piece_attr obj.type).max_hits : ℚ)⌉ ∧
      obj_capacity E obj =
        ⌈(((E.piece_attr obj.type).capacity * obj.hits : Int) : ℚ) /
          ((E.piece_attr obj.type).max_hits : ℚ)⌉ :=
  ⟨tdiv_round_up_eq_ceil _ _ (Int.mul_nonneg hs hh) hm,
    tdiv_round_up_eq_ceil _ _ (Int.mul_nonneg hc hh) hm⟩

/-- Witness for C5: a destroyer with two of its three hit points. -/
theorem obj_moves_capacity_eq_ceil_witness :
    (1 ≤ (gameEnv.piece_attr hitDestroyer.type).max_hits ∧
      0 ≤ (gameEnv.piece_attr hitDestroyer.type).speed ∧
      0 ≤ (gameEnv.piece_attr hitDestroyer.type).capacity ∧ 0 ≤ hitDestroyer.hits) ∧
    (obj_moves gameEnv hitDestroyer =
        ⌈(((gameEnv.piece_attr hitDestroyer.type).speed * hitDestroyer.hits : Int) : ℚ) /
          ((gameEnv.piece_attr hitDestroyer.type).max_hits : ℚ)⌉ ∧
      obj_capacity gameEnv hitDestroyer =
        ⌈(((gameEnv.piece_attr hitDestroyer.type).capacity * hitDestroyer.hits : Int) : ℚ) /
          ((gameEnv.piece_attr hitDestroyer.type).max_hits : ℚ)⌉) :=
  ⟨⟨by decide, by decide, by decide, by decide⟩,
    obj_moves_capacity_eq_ceil gameEnv hitDestroyer (by decide) (by decide) (by decide)
      (by decide)⟩

/-- C6: a piece with `hits > 0` of a kind with `speed >= 1` and
`max_hits >= 1` (as every kind of the game has) gets at least one move. -/
theorem obj_moves_pos (E : Env) (obj : piece_info_t)
    (hm : 1 ≤ (E.piece_attr obj.type).max_hits) (hs : 1 ≤ (E.piece_attr obj.type).speed)
    (hh : 0 < obj.hits) : 1 ≤ obj_moves E obj := by
  unfold obj_moves
  refine tdiv_round_up_pos _ _ ?_ hm
  have : 1 * 1 ≤ (E.piece_attr obj.type).speed * obj.hits :=
    Int.mul_le_mul hs (by omega) (by omega) (by omega)
  omega

/-- Witness for C6: a carrier with one of its eight hit points. -/
theorem obj_moves_pos_witness :
    (1 ≤ (gameEnv.piece_attr hitCarrier.type).max_hits ∧
      1 ≤ (gameEnv.piece_attr hitCarrier.type).speed ∧ 0 < hitCarrier.hits) ∧
    1 ≤ obj_moves gameEnv hitCarrier :=
  ⟨⟨by decide, by decide, by decide⟩,
    obj_moves_pos gameEnv hitCarrier (by decide) (by decide) (by decide)⟩

/-- With the attribute table of the game, every piece with `hits > 0` gets
at least one move, whatever its kind. -/
theorem obj_moves_pos_game (obj : piece_info_t) (hh : 0 < obj.hits) :
    1 ≤ obj_moves gameEnv obj := by
  have hm : 1 ≤ (gameAttr obj.type).max_hits := by
    unfold gameAttr
    split_ifs <;> decide
  have hs : 1 ≤ (gameAttr obj.type).speed := by
    unfold gameAttr
    split_ifs <;> decide
  unfold obj_moves
  refine tdiv_round_up_pos _ _ ?_ hm
  have : 1 * 1 ≤ (gameAttr obj.type).speed * obj.hits :=
    Int.mul_le_mul hs (by omega) (by omega) (by omega)
  exact this

/-- C7 as stated fails: a fighter with all its hit points (`hits = max_hits`,
speed 8) gets 8 moves, not 1. -/
theorem obj_moves_full_fighter :
    fullFighter.hits = (gameEnv.piece_attr fullFighter.type).max_hits ∧
      1 ≤ (gameEnv.piece_attr fullFighter.type).speed ∧
      obj_moves gameEnv fullFighter = 8 ∧ obj_moves gameEnv fullFighter ≠ 1 := by
  decide

/-- C7, amended: a piece whose `hits` equal its kind's `max_hits`
(`max_hits >= 1`), of a kind with `speed >= 1`, gets exactly `speed` moves,
hence at least one. -/
theorem obj_moves_full (E : Env) (obj : piece_info_t)
    (hm : 1 ≤ (E.piece_attr obj.type).max_hits) (hs : 1 ≤ (E.piece_attr obj.type).speed)
    (hh : obj.hits = (E.piece_attr obj.type).max_hits) :
    obj_moves E obj = (E.piece_attr obj.type).speed ∧ 1 ≤ obj_moves E obj := by
  have h1 : obj_moves E obj = (E.piece_attr obj.type).speed := by
    unfold obj_moves
    rw [hh]
    exact tdiv_round_up_full _ _ hm (by omega)
  exact ⟨h1, by rw [h1]; exact hs⟩

/-- Witness for C7, amended: the fighter with all its hit points. -/
theorem obj_moves_full_witness :
    (1 ≤ (gameEnv.piece_attr fullFighter.type).max_hits ∧
      1 ≤ (gameEnv.piece_attr fullFighter.type).speed ∧
      fullFighter.hits = (gameEnv.piece_attr fullFighter.type).max_hits) ∧
    (obj_moves gameEnv fullFighter = (gameEnv.piece_attr fullFighter.type).speed ∧
      1 ≤ obj_moves gameEnv fullFighter) :=
  ⟨⟨by decide, by decide, by decide⟩,
    obj_moves_full gameEnv fullFighter (by decide) (by decide) (by decide)⟩

/-- C8, amended: like `obj_moves`, `obj_capacity` cannot fall to 0 for a
surviving carrier: for a kind with base capacity at least 1 and a piece with
`0 < hits <= max_hits`, `obj_capacity` is at least 1. -/
theorem obj_capacity_pos (E : Env) (obj : piece_info_t)
    (hc : 1 ≤ (E.piece_attr obj.type).capacity) (hh : 0 < obj.hits)
    (hm : obj.hits ≤ (E.piece_attr obj.type).max_hits) : 1 ≤ obj_capacity E obj := by
  unfold obj_capacity
  refine tdiv_round_up_pos _ _ ?_ (by omega)
  have : 1 * 1 ≤ (E.piece_attr obj.type).capacity * obj.hits :=
    Int.mul_le_mul hc (by omega) (by omega) (by omega)
  omega

/-- Witness for C8, amended: a carrier with one of its eight hit points
still has capacity 1. -/
theorem obj_capacity_pos_witness :
    (1 ≤ (gameEnv.piece_attr hitCarrier.type).capacity ∧ 0 < hitCarrier.hits ∧
      hitCarrier.hits ≤ (gameEnv.piece_attr hitCarrier.type).max_hits) ∧
    1 ≤ obj_capacity gameEnv hitCarrier :=
  ⟨⟨by decide, by decide, by decide⟩,
    obj_capacity_pos gameEnv hitCarrier (by decide) (by decide) (by decide)⟩

/-- C8 as stated fails: there is no table of kinds and no piece with base
capacity at least 1 and `0 < hits <= max_hits` whose `obj_capacity` is 0. -/
theorem obj_capacity_never_zero :
    ¬ ∃ (E : Env) (obj : piece_info_t), 1 ≤ (E.piece_attr obj.type).capacity ∧
      0 < obj.hits ∧ obj.hits ≤ (E.piece_attr obj.type).max_hits ∧ obj_capacity E obj = 0 := by
  rintro ⟨E, obj, hc, hh, hm, h0⟩
  have h1 : 1 ≤ (E.piece_attr obj.type).capacity * obj.hits := by
    have : 1 * 1 ≤ (E.piece_attr obj.type).capacity * obj.hits :=
      Int.mul_le_mul hc (by omega) (by omega) (by omega)
    omega
  have := tdiv_round_up_pos ((E.piece_attr obj.type).capacity * obj.hits)
    (E.piece_attr obj.type).max_hits h1 (by omega)
  unfold obj_capacity at h0
  omega

/-! ## `good_loc` -/

theorem InList_cell_iff {E : Env} {w : World} {s : Shape} (hR : Rep E w s) (loc : Int)
    (x : Nat) : InList w.object .loc_link (w.map loc).objp x ↔ x ∈ s.cell loc :=
  InList_iff_mem _ _ none _ _ x (hR.cell_seg loc)

/-- C9 as stated fails: `mixedWorld` is a well-formed state in which the
on-board cell 102 holds a non-full transport of the user, yet `good_loc`
refuses the cell to the user's army (record 2), because `find_nfull` returns
the computer's non-full transport that stands first in the location list. -/
theorem good_loc_refuses_army :
    Rep gameEnv mixedWorld mixedShape ∧
      (mixedWorld.object 2).type = gameEnv.ARMY ∧ (mixedWorld.map 102).on_board = true ∧
      InList mixedWorld.object .loc_link (mixedWorld.map 102).objp 1 ∧
      (mixedWorld.object 1).type = gameEnv.TRANSPORT ∧
      (mixedWorld.object 1).owner = (mixedWorld.object 2).owner ∧
      obj_capacity gameEnv (mixedWorld.object 1) > (mixedWorld.object 1).count ∧
      good_loc gameEnv 4 mixedWorld 2 102 = .ok false :=
  ⟨mixedWorld_rep, by decide, by decide, ⟨1, by decide⟩, by decide, by decide, by decide,
    by rfl⟩

/-- C9, amended: in a well-formed state, for an army and an on-board cell
whose location list contains a non-full TRANSPORT of the army's owner and no
non-full TRANSPORT of another owner, `good_loc` returns true, whatever the
terrain glyph on the owner's view map. -/
theorem good_loc_army_transport (E : Env) (fuel : Nat) (w : World) (s : Shape)
    (obj : Nat) (loc : Int) (x : Nat) (hR : Rep E w s) (hf : E.LIST_SIZE ≤ fuel)
    (harmy : (w.object obj).type = E.ARMY) (hb : (w.map loc).on_board = true)
    (hx : InList w.object .loc_link (w.map loc).objp x)
    (hxt : (w.object x).type = E.TRANSPORT)
    (_hxo : (w.object x).owner = (w.object obj).owner)
    (hxc : obj_capacity E (w.object x) > (w.object x).count)
    (hall : ∀ q, InList w.object .loc_link (w.map loc).objp q →
      (w.object q).type = E.TRANSPORT → obj_capacity E (w.object q) > (w.object q).count →
      (w.object q).owner = (w.object obj).owner) :
    good_loc E fuel w obj loc = .ok true := by
  unfold good_loc
  rw [if_neg (by simp [hb])]
  dsimp only
  split_ifs with h1
  · rfl
  · rw [find_nfull_eq E E.LIST_SIZE fuel w s.cell _ loc hR.toStr.cells hf]
    have hxm : x ∈ s.cell loc := (InList_cell_iff hR loc x).mp hx
    cases hfind : (s.cell loc).find? (fun y => decide ((w.object y).type = E.TRANSPORT ∧
        obj_capacity E (w.object y) > (w.object y).count)) with
    | none =>
      have := List.find?_eq_none.mp hfind x hxm
      simp [hxt, hxc] at this
    | some p =>
      have hp1 := List.find?_some hfind
      have hp2 := List.mem_of_find?_eq_some hfind
      have hp3 : (w.object p).type = E.TRANSPORT ∧
          obj_capacity E (w.object p) > (w.object p).count := of_decide_eq_true hp1
      have := hall p ((InList_cell_iff hR loc p).mpr hp2) hp3.1 hp3.2
      simp [this]

/-- Witness for C9, amended: the army of `portWorld` and cell 101, where the
user's transport has room. -/
theorem good_loc_army_transport_witness :
    (Rep gameEnv portWorld portShape ∧ gameEnv.LIST_SIZE ≤ 4 ∧
      (portWorld.object 1).type = gameEnv.ARMY ∧ (portWorld.map 101).on_board = true ∧
      InList portWorld.object .loc_link (portWorld.map 101).objp 0 ∧
      (portWorld.object 0).type = gameEnv.TRANSPORT ∧
      (portWorld.object 0).owner = (portWorld.object 1).owner ∧
      obj_capacity gameEnv (portWorld.object 0) > (portWorld.object 0).count ∧
      ∀ q, InList portWorld.object .loc_link (portWorld.map 101).objp q →
        (portWorld.object q).type = gameEnv.TRANSPORT →
        obj_capacity gameEnv (portWorld.object q) > (portWorld.object q).count →
        (portWorld.object q).owner = (portWorld.object 1).owner) ∧
    good_loc gameEnv 4 portWorld 1 101 = .ok true :=
  have hall : ∀ q, InList portWorld.object .loc_link (portWorld.map 101).objp q →
      (portWorld.object q).type = gameEnv.TRANSPORT →
      obj_capacity gameEnv (portWorld.object q) > (portWorld.object q).count →
      (portWorld.object q).owner = (portWorld.object 1).owner := by
    intro q hq _ _
    have hm : q ∈ portShape.cell 101 := (InList_cell_iff portWorld_rep 101 q).mp hq
    have : q = 0 ∨ q = 1 := by simpa [portShape] using hm
    rcases this with rfl | rfl <;> decide
  ⟨⟨portWorld_rep, by decide, by decide, by decide, ⟨0, by decide⟩, by decide, by decide,
      by decide, hall⟩,
    good_loc_army_transport gameEnv 4 portWorld portShape 1 101 0 portWorld_rep (by decide)
      (by decide) (by decide) ⟨0, by decide⟩ (by decide) (by decide) (by decide) hall⟩

theorem find_nfull_some (E : Env) (fuel : Nat) (w : World) (s : Shape) (type : Int)
    (loc : Int) (p : Nat) (hR : Rep E w s) (hf : E.LIST_SIZE ≤ fuel)
    (h : find_nfull E fuel w type loc = .ok (some p)) :
    InList w.object .loc_link (w.map loc).objp p ∧ (w.object p).type = type ∧
      obj_capacity E (w.object p) > (w.object p).count := by
  rw [find_nfull_eq E E.LIST_SIZE fuel w s.cell _ loc hR.toStr.cells hf] at h
  have hfind := Except.ok.inj h
  have hp1 := List.find?_some hfind
  have hp2 := List.mem_of_find?_eq_some hfind
  have hp3 : (w.object p).type = type ∧
      obj_capacity E (w.object p) > (w.object p).count := of_decide_eq_true hp1
  exact ⟨(InList_cell_iff hR loc p).mpr hp2, hp3⟩

/-- C10 as stated fails: in `mixedWorld`, `good_loc` admits the user's
satellite (record 3) to the user's own city at cell 101, although the glyph
the user's view map shows there is not in the satellite's terrain and the
piece is neither an army nor a ship nor a fighter. -/
theorem good_loc_admits_satellite :
    good_loc gameEnv 4 mixedWorld 3 101 = .ok true ∧
      (getView mixedWorld (MAP gameEnv (mixedWorld.object 3).owner) 101).contents ∉
        (gameEnv.piece_attr (mixedWorld.object 3).type).terrain ∧
      (mixedWorld.object 3).type ≠ gameEnv.ARMY ∧
      (mixedWorld.object 3).type = gameEnv.SATELLITE ∧
      (mixedWorld.object 3).type ≠ gameEnv.FIGHTER :=
  ⟨by rfl, by decide, by decide, by decide, by decide⟩

/-- C10, amended: in a well-formed state `good_loc` returns, and it returns
true only if the cell is on-board and (1) the `strchr` test on the kind's
terrain string succeeds for the glyph on the owner's view map, or (2) the
piece is an army and the location list of the cell holds a non-full
TRANSPORT of the piece's owner, or (3) the piece is no army and the cell has
a city of the piece's owner, or (4) the piece is a fighter and the location
list of the cell holds a non-full CARRIER of the piece's owner. -/
theorem good_loc_only_if (E : Env) (fuel : Nat) (w : World) (s : Shape) (obj : Nat)
    (loc : Int) (hR : Rep E w s) (hf : E.LIST_SIZE ≤ fuel) :
    ∃ b, good_loc E fuel w obj loc = .ok b ∧
      (b = true → (w.map loc).on_board = true ∧
        (strchr (E.piece_attr (w.object obj).type).terrain
            (getView w (MAP E (w.object obj).owner) loc).contents = true ∨
          ((w.object obj).type = E.ARMY ∧
            ∃ p, InList w.object .loc_link (w.map loc).objp p ∧
              (w.object p).type = E.TRANSPORT ∧
              (w.object p).owner = (w.object obj).owner ∧
              obj_capacity E (w.object p) > (w.object p).count) ∨
          ((w.object obj).type ≠ E.ARMY ∧
            ∃ c, (w.map loc).cityp = some c ∧ (w.city c).owner = (w.object obj).owner) ∨
          ((w.object obj).type = E.FIGHTER ∧
            ∃ p, InList w.object .loc_link (w.map loc).objp p ∧
              (w.object p).type = E.CARRIER ∧
              (w.object p).owner = (w.object obj).owner ∧
              obj_capacity E (w.object p) > (w.object p).count))) := by
  unfold good_loc
  by_cases hb : (w.map loc).on_board = false
  · rw [if_pos hb]
    exact ⟨false, rfl, fun h => absurd h (by simp)⟩
  · rw [if_neg hb]
    have hb2 : (w.map loc).on_board = true := by simpa using hb
    dsimp only
    split_ifs with h1 h2 h3 h4
    · exact ⟨true, rfl, fun _ => ⟨hb2, Or.inl h1⟩⟩
    · cases hfind : find_nfull E fuel w E.TRANSPORT loc with
      | error e =>
        rw [find_nfull_eq E E.LIST_SIZE fuel w s.cell _ loc hR.toStr.cells hf] at hfind
        exact absurd hfind (by simp)
      | ok r =>
        cases r with
        | none => exact ⟨false, rfl, fun h => absurd h (by simp)⟩
        | some p =>
          refine ⟨_, rfl, ?_⟩
          intro ho
          have hp := find_nfull_some E fuel w s _ loc p hR hf hfind
          exact ⟨hb2, Or.inr (Or.inl ⟨h2, p, hp.1, hp.2.1, of_decide_eq_true ho, hp.2.2⟩)⟩
    · refine ⟨true, rfl, fun _ => ⟨hb2, Or.inr (Or.inr (Or.inl ⟨h2, ?_⟩))⟩⟩
      unfold city_owned_by at h3
      cases hc : (w.map loc).cityp with
      | none => rw [hc] at h3; exact absurd h3 (by simp)
      | some c =>
        rw [hc] at h3
        exact ⟨c, rfl, of_decide_eq_true h3⟩
    · cases hfind : find_nfull E fuel w E.CARRIER loc with
      | error e =>
        rw [find_nfull_eq E E.LIST_SIZE fuel w s.cell _ loc hR.toStr.cells hf] at hfind
        exact absurd hfind (by simp)
      | ok r =>
        cases r with
        | none => exact ⟨false, rfl, fun h => absurd h (by simp)⟩
        | some p =>
          refine ⟨_, rfl, ?_⟩
          intro ho
          have hp := find_nfull_some E fuel w s _ loc p hR hf hfind
          exact ⟨hb2, Or.inr (Or.inr (Or.inr
            ⟨h4, p, hp.1, hp.2.1, of_decide_eq_true ho, hp.2.2⟩))⟩
    · exact ⟨false, rfl, fun h => absurd h (by simp)⟩

/-- Witness for C10, amended: `good_loc` for the army of `portWorld` and
cell 101. -/
theorem good_loc_only_if_witness :
    (Rep gameEnv portWorld portShape ∧ gameEnv.LIST_SIZE ≤ 4) ∧
    ∃ b, good_loc gameEnv 4 portWorld 1 101 = .ok b ∧
      (b = true → (portWorld.map 101).on_board = true ∧
        (strchr (gameEnv.piece_attr (portWorld.object 1).type).terrain
            (getView portWorld (MAP gameEnv (portWorld.object 1).owner) 101).contents = true ∨
          ((portWorld.object 1).type = gameEnv.ARMY ∧
            ∃ p, InList portWorld.object .loc_link (portWorld.map 101).objp p ∧
              (portWorld.object p).type = gameEnv.TRANSPORT ∧
              (portWorld.object p).owner = (portWorld.object 1).owner ∧
              obj_capacity gameEnv (portWorld.object p) > (portWorld.object p).count) ∨
          ((portWorld.object 1).type ≠ gameEnv.ARMY ∧
            ∃ c, (portWorld.map 101).cityp = some c ∧
              (portWorld.city c).owner = (portWorld.object 1).owner) ∨
          ((portWorld.object 1).type = gameEnv.FIGHTER ∧
            ∃ p, InList portWorld.object .loc_link (portWorld.map 101).objp p ∧
              (portWorld.object p).type = gameEnv.CARRIER ∧
              (portWorld.object p).owner = (portWorld.object 1).owner ∧
              obj_capacity gameEnv (portWorld.object p) > (portWorld.object p).count))) :=
  ⟨⟨portWorld_rep, by decide⟩,
    good_loc_only_if gameEnv 4 portWorld portShape 1 101 portWorld_rep (by decide)⟩

/-! ## The invariants where they do hold -/

theorem PoolInv_of_mem (E : Env) (w : World) (g : PIdx → List Nat)
    (hseg : ∀ i, Seg w.object .piece_link none (pieceHead w i) (g i))
    (hnd : ∀ i, (g i).Nodup)
    (hfree : ∀ x, x ∈ g .free ↔ x < E.LIST_SIZE ∧ (w.object x).hits = 0)
    (huser : ∀ t x, x ∈ g (.user t) ↔ x < E.LIST_SIZE ∧ 0 < (w.object x).hits ∧
      (w.object x).owner = E.USER ∧ (w.object x).type = t)
    (hcomp : ∀ t x, x ∈ g (.comp t) ↔ x < E.LIST_SIZE ∧ 0 < (w.object x).hits ∧
      (w.object x).owner ≠ E.USER ∧ (w.object x).type = t)
    (hnn : ∀ x, x < E.LIST_SIZE → 0 ≤ (w.object x).hits) : PoolInv E w := by
  refine ⟨g, fun i => ⟨hseg i, hnd i⟩, ?_, ?_⟩
  · intro i x hx
    cases i with
    | free => exact ((hfree x).mp hx).1
    | user t => exact ((huser t x).mp hx).1
    | comp t => exact ((hcomp t x).mp hx).1
  · intro x hx
    have h0 := hnn x hx
    by_cases hz : (w.object x).hits = 0
    · refine ⟨.free, (hfree x).mpr ⟨hx, hz⟩, ?_⟩
      intro j hj
      cases j with
      | free => rfl
      | user t => have := (huser t x).mp hj; omega
      | comp t => have := (hcomp t x).mp hj; omega
    · have hpos : 0 < (w.object x).hits := by omega
      by_cases hu : (w.object x).owner = E.USER
      · refine ⟨.user (w.object x).type, (huser _ x).mpr ⟨hx, hpos, hu, rfl⟩, ?_⟩
        intro j hj
        cases j with
        | free => have := (hfree x).mp hj; omega
        | user t => rw [((huser t x).mp hj).2.2.2]
        | comp t => exact absurd hu ((hcomp t x).mp hj).2.2.1
      · refine ⟨.comp (w.object x).type, (hcomp _ x).mpr ⟨hx, hpos, hu, rfl⟩, ?_⟩
        intro j hj
        cases j with
        | free => have := (hfree x).mp hj; omega
        | user t => exact absurd ((huser t x).mp hj).2.2.1 hu
        | comp t => rw [((hcomp t x).mp hj).2.2.2]

theorem Rep.locInv {E : Env} {w : World} {s : Shape} (hR : Rep E w s) : LocInv E w :=
  ⟨s.cell, fun c => ⟨hR.cell_seg c, hR.cell_nodup c⟩, hR.cell_mem⟩

theorem Rep.poolInv {E : Env} {w : World} {s : Shape} (hR : Rep E w s) : PoolInv E w :=
  PoolInv_of_mem E w s.piece hR.piece_seg hR.piece_nodup hR.free_mem hR.user_mem hR.comp_mem
    hR.hits_nonneg

/-- In a well-formed state `kill_obj` of a live piece keeps the state well
formed; in particular the location-index invariant and pool conservation
hold afterwards. -/
theorem kill_obj_keeps_invariants (E : Env) (fuel : Nat) (w : World) (s : Shape)
    (obj : Nat) (loc : Int) (hR : Rep E w s) (hobj : obj < E.LIST_SIZE)
    (hlive : 0 < (w.object obj).hits) (hb : (w.map loc).on_board = true)
    (hf : E.LIST_SIZE ≤ fuel) :
    ∃ w2 s2, kill_obj E fuel w obj loc = .ok w2 ∧ Rep E w2 s2 ∧ LocInv E w2 ∧
      PoolInv E w2 := by
  obtain ⟨w2, s2, h1, h2, _⟩ := kill_obj_ok E fuel w s obj loc hR hobj hlive hb hf
  exact ⟨w2, s2, h1, h2, h2.locInv, h2.poolInv⟩

/-- In a well-formed state `kill_one` of a live piece, called with the list
table of the piece's owner, keeps the location-index invariant and pool
conservation, whether or not the piece has cargo. -/
theorem kill_one_keeps_invariants (E : Env) (w : World) (s : Shape) (obj : Nat)
    (hR : Rep E w s) (hobj : obj < E.LIST_SIZE) (hlive : 0 < (w.object obj).hits) :
    LocInv E (kill_one E w (LIST E (w.object obj).owner) obj) ∧
      PoolInv E (kill_one E w (LIST E (w.object obj).owner) obj) := by
  have hS := hR.toStr
  have hmem : ∀ x, obj ∈ s.cargo x ↔ (w.object obj).ship = some x := by
    intro x
    rw [hR.cargo_mem x obj]
    exact ⟨fun h => h.2.2, fun h => ⟨hobj, hlive, h⟩⟩
  have hS2 : Str E.LIST_SIZE (kill_one E w (LIST E (w.object obj).owner) obj)
      (killShape s obj) := by
    refine Str_kill_one E _ w s _ obj hS hobj ?_ (hR.mem_own_list obj hobj hlive)
      ((hR.cell_mem _ obj).mpr ⟨hobj, hlive, rfl⟩) hmem
    cases LIST E (w.object obj).owner
    · exact Or.inl rfl
    · exact Or.inr rfl
  have herase : ∀ (l : List Nat), l.Nodup → ∀ x, x ∈ l.erase obj ↔ x ≠ obj ∧ x ∈ l :=
    fun l hl x => hl.mem_erase_iff
  constructor
  · refine ⟨(killShape s obj).cell, fun c => ⟨hS2.cells.seg c, hS2.cells.nodup c⟩, ?_⟩
    intro c x
    show x ∈ (s.cell c).erase obj ↔ _
    rw [herase _ (hR.cell_nodup _), kill_one_hits, kill_one_loc, hR.cell_mem c x]
    by_cases hx : x = obj
    · subst hx; simp
    · simp [hx]
  · refine PoolInv_of_mem E _ (killShape s obj).piece hS2.pieces.seg hS2.pieces.nodup
      ?_ ?_ ?_ ?_
    · intro x
      show x ∈ obj :: s.piece .free ↔ _
      rw [kill_one_hits, List.mem_cons, hR.free_mem x]
      by_cases hx : x = obj
      · subst hx; simp [hobj]
      · simp [hx]
    · intro t x
      show x ∈ (s.piece (.user t)).erase obj ↔ _
      rw [herase _ (hR.piece_nodup _), kill_one_hits, kill_one_owner, kill_one_type,
        hR.user_mem t x]
      by_cases hx : x = obj
      · subst hx; simp
      · simp [hx]
    · intro t x
      show x ∈ (s.piece (.comp t)).erase obj ↔ _
      rw [herase _ (hR.piece_nodup _), kill_one_hits, kill_one_owner, kill_one_type,
        hR.comp_mem t x]
      by_cases hx : x = obj
      · subst hx; simp
      · simp [hx]
    · intro x hx
      rw [kill_one_hits]
      split_ifs
      · exact le_refl 0
      · exact hR.hits_nonneg x hx

/-- In a well-formed state `move_obj` of a live piece to an on-board cell
other than its own returns a state in which the location-index invariant and
pool conservation hold. -/
theorem move_obj_keeps_invariants (E : Env) (fuel : Nat) (w : World) (s : Shape)
    (obj : Nat) (new_loc : Int) (hR : Rep E w s) (hobj : obj < E.LIST_SIZE)
    (hlive : 0 < (w.object obj).hits) (hB : (w.map new_loc).on_board = true)
    (hAB : (w.object obj).loc ≠ new_loc) (hf : E.LIST_SIZE ≤ fuel) :
    ∃ w2, move_obj E fuel w obj new_loc = .ok w2 ∧ LocInv E w2 ∧ PoolInv E w2 := by
  obtain ⟨w9, f9, h1, h2, h3, h4, _, _, h7, h8, h9, h10⟩ :=
    move_obj_ok E fuel w s obj new_loc hR hobj hlive hB hAB hf
  refine ⟨w9, h1, ⟨f9, fun c => ⟨h2.seg c, h2.nodup c⟩, ?_⟩, ?_⟩
  · intro c x
    rw [h3 c x, h4 x, h8 x]
    by_cases hx : x = obj ∨ x ∈ s.cargo obj
    · rw [if_pos hx, if_pos hx]
      have hxl : x < E.LIST_SIZE ∧ 0 < (w.object x).hits := by
        rcases hx with e | e
        · rw [e]; exact ⟨hobj, hlive⟩
        · have := (hR.cargo_mem obj x).mp e
          exact ⟨this.1, this.2.1⟩
      exact ⟨fun h => ⟨hxl.1, hxl.2, h.symm⟩, fun h => h.2.2.symm⟩
    · rw [if_neg hx, if_neg hx]
      exact hR.cell_mem c x
  · refine PoolInv_of_mem E w9 s.piece h7.seg h7.nodup ?_ ?_ ?_ ?_
    · intro x; rw [h8 x]; exact hR.free_mem x
    · intro t x; rw [h8 x, h9 x, h10 x]; exact hR.user_mem t x
    · intro t x; rw [h8 x, h9 x, h10 x]; exact hR.comp_mem t x
    · intro x hx; rw [h8 x]; exact hR.hits_nonneg x hx

/-! ## `produce` -/

theorem produce_unfold (E : Env) (w : World) (cityp : Nat) (r : Nat) :
    produce E w cityp r =
      match w.free_list with
      | none => .error .assert_failed
      | some x0 =>
        .ok (setPiece (produce_links E w cityp x0) x0
          (produce_record E ((produce_charged E w cityp).city cityp) r
            ((produce_links E w cityp x0).object x0))) := rfl

theorem produce_cty (E : Env) (w : World) (cityp : Nat) :
    (produce_charged E w cityp).city cityp =
      { w.city cityp with
        work := (w.city cityp).work - (E.piece_attr (w.city cityp).prod).build_time } := by
  simp [produce_charged]

theorem produce_record_hits (E : Env) (cty : city_info_t) (r : Nat) (p3 : piece_info_t) :
    (produce_record E cty r p3).hits = (E.piece_attr cty.prod).max_hits := by
  unfold produce_record
  dsimp only
  split_ifs <;> rfl

theorem produce_record_owner (E : Env) (cty : city_info_t) (r : Nat) (p3 : piece_info_t) :
    (produce_record E cty r p3).owner = cty.owner := by
  unfold produce_record
  dsimp only
  split_ifs <;> rfl

theorem produce_record_type (E : Env) (cty : city_info_t) (r : Nat) (p3 : piece_info_t) :
    (produce_record E cty r p3).type = cty.prod := by
  unfold produce_record
  dsimp only
  split_ifs <;> rfl

theorem produce_record_loc (E : Env) (cty : city_info_t) (r : Nat) (p3 : piece_info_t) :
    (produce_record E cty r p3).loc = cty.loc := by
  unfold produce_record
  dsimp only
  split_ifs <;> rfl

theorem produce_record_ship (E : Env) (cty : city_info_t) (r : Nat) (p3 : piece_info_t) :
    (produce_record E cty r p3).ship = none := by
  unfold produce_record
  dsimp only
  split_ifs <;> rfl

theorem produce_record_count (E : Env) (cty : city_info_t) (r : Nat) (p3 : piece_info_t) :
    (produce_record E cty r p3).count = 0 := by
  unfold produce_record
  dsimp only
  split_ifs <;> rfl

theorem produce_record_cargo (E : Env) (cty : city_info_t) (r : Nat) (p3 : piece_info_t) :
    (produce_record E cty r p3).cargo = none := by
  unfold produce_record
  dsimp only
  split_ifs <;> rfl

theorem produce_record_moved (E : Env) (cty : city_info_t) (r : Nat) (p3 : piece_info_t) :
    (produce_record E cty r p3).moved = 0 := by
  unfold produce_record
  dsimp only
  split_ifs <;> rfl

theorem produce_record_range (E : Env) (cty : city_info_t) (r : Nat) (p3 : piece_info_t) :
    (produce_record E cty r p3).range = to_short (E.piece_attr cty.prod).range := by
  unfold produce_record
  dsimp only
  split_ifs <;> rfl

theorem produce_record_piece_link (E : Env) (cty : city_info_t) (r : Nat) (p3 : piece_info_t) :
    (produce_record E cty r p3).piece_link = p3.piece_link := by
  unfold produce_record
  dsimp only
  split_ifs <;> rfl

theorem produce_record_loc_link (E : Env) (cty : city_info_t) (r : Nat) (p3 : piece_info_t) :
    (produce_record E cty r p3).loc_link = p3.loc_link := by
  unfold produce_record
  dsimp only
  split_ifs <;> rfl

theorem Fam_congr_mem {ι : Type} (n : Nat) (o o2 : Heap) (k : LinkSel) (H : ι → Ptr)
    (F : ι → List Nat) (hF : Fam n o k H F)
    (hL : ∀ i x, x ∈ F i → getL k (o2 x) = getL k (o x)) : Fam n o2 k H F where
  seg := fun i => Seg_congr o o2 k (F i) _ _ (hL i) (hF.seg i)
  nodup := hF.nodup
  disj := hF.disj
  bound := hF.bound

theorem Str_setPiece_fresh (n : Nat) (w : World) (s : Shape) (x : Nat) (p : piece_info_t)
    (hS : Str n w s) (hp : getL .piece_link p = getL .piece_link (w.object x))
    (hl : getL .loc_link p = getL .loc_link (w.object x))
    (hc : p.cargo = (w.object x).cargo) (hx : ∀ j, x ∉ s.cargo j) :
    Str n (setPiece w x p) s where
  pieces := by
    refine Fam_congr n w.object _ .piece_link (pieceHead w) _ s.piece hS.pieces ?_ ?_
    · intro y; exact getL_setPiece w x p .piece_link y hp
    · intro j; cases j <;> rfl
  cells := by
    refine Fam_congr n w.object _ .loc_link (cellHead w) _ s.cell hS.cells ?_ ?_
    · intro y; exact getL_setPiece w x p .loc_link y hl
    · intro c; rfl
  cargos := by
    have h1 : Fam n (setPiece w x p).object .cargo_link (cargoHead w) s.cargo := by
      refine Fam_congr_mem n w.object _ .cargo_link _ s.cargo hS.cargos ?_
      intro j y hy
      have hyx : y ≠ x := fun e => hx j (e ▸ hy)
      rw [setPiece_object, if_neg hyx]
    have h2 : cargoHead (setPiece w x p) = cargoHead w := by
      funext y
      unfold cargoHead
      rw [setPiece_object]
      split_ifs with e
      · subst e; exact hc
      · rfl
    rw [h2]
    exact h1

theorem Rep_produce_charged {E : Env} {w : World} {s : Shape} (hR : Rep E w s)
    (cityp : Nat) : Rep E (produce_charged E w cityp) s :=
  { piece_seg := fun i => by
      cases i with
      | free => exact hR.piece_seg .free
      | user t => exact hR.piece_seg (.user t)
      | comp t => exact hR.piece_seg (.comp t)
    piece_nodup := hR.piece_nodup
    cell_seg := hR.cell_seg
    cell_nodup := hR.cell_nodup
    cargo_seg := hR.cargo_seg
    cargo_nodup := hR.cargo_nodup
    free_mem := hR.free_mem
    user_mem := hR.user_mem
    comp_mem := hR.comp_mem
    cell_mem := hR.cell_mem
    cargo_mem := hR.cargo_mem
    hits_nonneg := hR.hits_nonneg
    ship_ok := hR.ship_ok
    count_ok := hR.count_ok }

theorem mem_produce_piece {E : Env} {w : World} {s : Shape} (hR : Rep E w s) (x0 : Nat)
    (hx0 : x0 ∈ s.piece .free) (i0 : PIdx) (hi : i0 ≠ .free) (c : Int) (j : PIdx) (x : Nat) :
    x ∈ (produceShape s x0 i0 c).piece j ↔ (x = x0 ∧ j = i0) ∨ (x ≠ x0 ∧ x ∈ s.piece j) := by
  have hS := hR.toStr
  show x ∈ upd (upd s.piece .free ((s.piece .free).erase x0)) i0
    (x0 :: upd s.piece .free ((s.piece .free).erase x0) i0) j ↔ _
  have hbase : ∀ k, x ∈ upd s.piece .free ((s.piece .free).erase x0) k ↔
      (x ≠ x0 ∧ x ∈ s.piece k) := by
    intro k
    rw [upd_apply]
    split_ifs with hk
    · subst hk; exact (hR.piece_nodup _).mem_erase_iff
    · constructor
      · intro h
        refine ⟨?_, h⟩
        intro e
        subst e
        exact hk (hS.pieces.disj _ _ x h hx0)
      · exact fun h => h.2
  rw [upd_apply]
  split_ifs with hj
  · subst hj
    rw [List.mem_cons, hbase]
    constructor
    · rintro (h | h)
      · exact Or.inl ⟨h, rfl⟩
      · exact Or.inr h
    · rintro (h | h)
      · exact Or.inl h.1
      · exact Or.inr h
  · rw [hbase]
    constructor
    · exact fun h => Or.inr h
    · rintro (h | h)
      · exact absurd h.2 hj
      · exact h

theorem mem_produce_cell (s : Shape) (x0 : Nat) (i0 : PIdx) (c : Int) (d : Int) (x : Nat) :
    x ∈ (produceShape s x0 i0 c).cell d ↔ (x = x0 ∧ d = c) ∨ x ∈ s.cell d := by
  show x ∈ upd s.cell c (x0 :: s.cell c) d ↔ _
  rw [upd_apply]
  split_ifs with hd
  · subst hd
    rw [List.mem_cons]
    constructor
    · rintro (h | h)
      · exact Or.inl ⟨h, rfl⟩
      · exact Or.inr h
    · rintro (h | h)
      · exact Or.inl h.1
      · exact Or.inr h
  · constructor
    · exact fun h => Or.inr h
    · rintro (h | h)
      · exact absurd h.2 hd
      · exact h

theorem pidx_ne_free (list : ListSel) (t : Int) : pidx list t ≠ .free := by
  cases list <;> simp [pidx]

theorem pidx_LIST_user (E : Env) (owner t t2 : Int) :
    pidx (LIST E owner) t = .user t2 ↔ owner = E.USER ∧ t = t2 := by
  unfold LIST
  split_ifs with h <;> simp [pidx, h]

theorem pidx_LIST_comp (E : Env) (owner t t2 : Int) :
    pidx (LIST E owner) t = .comp t2 ↔ owner ≠ E.USER ∧ t = t2 := by
  unfold LIST
  split_ifs with h <;> simp [pidx, h]

theorem produce_links_field {α : Type} (f : piece_info_t → α) (E : Env) (w : World)
    (cityp x0 x : Nat)
    (hU : ∀ (w1 : World) (r : HeadRef) (a : Nat) (k : LinkSel) (y : Nat),
      f ((UNLINK w1 r a k).object y) = f (w1.object y))
    (hL : ∀ (w1 : World) (r : HeadRef) (a : Nat) (k : LinkSel) (y : Nat),
      f ((LINK w1 r a k).object y) = f (w1.object y)) :
    f ((produce_links E w cityp x0).object x) = f (w.object x) := by
  unfold produce_links
  rw [hL, hL, hU]
  rfl

theorem produce_links_cargo (E : Env) (w : World) (cityp x0 x : Nat) :
    ((produce_links E w cityp x0).object x).cargo = (w.object x).cargo := by
  unfold produce_links
  rw [cargo_LINK_objp, cargo_LINK_piece, cargo_UNLINK_piece]
  rfl

theorem produce_ok (E : Env) (w : World) (s : Shape) (cityp : Nat) (r : Nat) (x0 : Nat)
    (hR : Rep E w s) (hfree : w.free_list = some x0)
    (hmh : 1 ≤ (E.piece_attr (w.city cityp).prod).max_hits) :
    ∃ w2, produce E w cityp r = .ok w2 ∧
      Rep E w2 (produceShape s x0 (pidx (LIST E (w.city cityp).owner) (w.city cityp).prod)
        (w.city cityp).loc) ∧
      w2.object x0 = produce_record E ((produce_charged E w cityp).city cityp) r
        ((produce_links E w cityp x0).object x0) ∧
      (∀ x, x ≠ x0 → body (w2.object x) = body (w.object x)) := by
  have hx0 : x0 ∈ s.piece .free :=
    Seg_head_mem _ _ _ _ _ x0 (hR.piece_seg .free) hfree
  obtain ⟨hx0b, hx0h⟩ := (hR.free_mem x0).mp hx0
  have hR0 := Rep_produce_charged hR cityp
  have hS0 := hR0.toStr
  have hS := hR.toStr
  have hprod : ((produce_charged E w cityp).city cityp).prod = (w.city cityp).prod := by
    rw [produce_cty]
  have howner : ((produce_charged E w cityp).city cityp).owner = (w.city cityp).owner := by
    rw [produce_cty]
  have hloc : ((produce_charged E w cityp).city cityp).loc = (w.city cityp).loc := by
    rw [produce_cty]
  have hnocell : ∀ j, x0 ∉ s.cell j := by
    intro j hj
    have := (hR.cell_mem j x0).mp hj
    omega
  have hnocargo : ∀ j, x0 ∉ s.cargo j := by
    intro j hj
    have := (hR.cargo_mem j x0).mp hj
    omega
  have hcargo0 : (w.object x0).cargo = none := by
    have hseg := hR.cargo_seg x0
    cases hl : s.cargo x0 with
    | nil => rw [hl] at hseg; exact hseg
    | cons y t =>
      have hy : y ∈ s.cargo x0 := by rw [hl]; exact List.mem_cons_self y t
      obtain ⟨q1, q2, q3⟩ := (hR.cargo_mem x0 y).mp hy
      have := (hR.ship_ok y x0 q1 q2 q3).2.1
      omega
  have h1 := Str_UNLINK_piece _ _ s .free x0 hS0 hx0
  have h2 := Str_LINK_piece _ _ _
    (pidx (LIST E (w.city cityp).owner) ((produce_charged E w cityp).city cityp).prod) x0 h1
    (by
      intro j hj
      change x0 ∈ upd s.piece _ _ j at hj
      rw [upd_apply] at hj
      split_ifs at hj with e
      · exact List.Nodup.not_mem_erase (hS.pieces.nodup _) hj
      · exact e (hS.pieces.disj _ _ x0 hj hx0)) hx0b
  have h3 := Str_LINK_objp _ _ _ ((produce_charged E w cityp).city cityp).loc x0 h2
    hnocell hx0b
  have h4 := Str_setPiece_fresh _ _ _ x0
    (produce_record E ((produce_charged E w cityp).city cityp) r
      ((produce_links E w cityp x0).object x0)) h3
    (by show (produce_record _ _ _ _).piece_link = _; rw [produce_record_piece_link]; rfl)
    (by show (produce_record _ _ _ _).loc_link = _; rw [produce_record_loc_link]; rfl)
    (by
      rw [produce_record_cargo]
      exact ((produce_links_cargo E w cityp x0 x0).trans hcargo0).symm)
    hnocargo
  have hS4 : Str E.LIST_SIZE (setPiece (produce_links E w cityp x0) x0
      (produce_record E ((produce_charged E w cityp).city cityp) r
        ((produce_links E w cityp x0).object x0)))
      (produceShape s x0 (pidx (LIST E (w.city cityp).owner) (w.city cityp).prod)
        (w.city cityp).loc) := by
    refine Str_shape_eq h4 ?_ ?_ rfl
    · show upd _ _ _ = upd _ _ _
      rw [hprod]
    · show upd _ _ _ = upd _ _ _
      rw [hloc]
  have hobj : ∀ x, (setPiece (produce_links E w cityp x0) x0
      (produce_record E ((produce_charged E w cityp).city cityp) r
        ((produce_links E w cityp x0).object x0))).object x =
      if x = x0 then produce_record E ((produce_charged E w cityp).city cityp) r
        ((produce_links E w cityp x0).object x0)
      else (produce_links E w cityp x0).object x := fun x => setPiece_object _ _ _ x
  have hbody : ∀ x, body ((produce_links E w cityp x0).object x) = body (w.object x) :=
    fun x => produce_links_field body E w cityp x0 x body_UNLINK_w body_LINK_w
  have hi0 := pidx_ne_free (LIST E (w.city cityp).owner) (w.city cityp).prod
  refine ⟨setPiece (produce_links E w cityp x0) x0
    (produce_record E ((produce_charged E w cityp).city cityp) r
      ((produce_links E w cityp x0).object x0)), ?_, ?_, ?_, ?_⟩
  · rw [produce_unfold, hfree]
  · refine
      { piece_seg := hS4.pieces.seg
        piece_nodup := hS4.pieces.nodup
        cell_seg := hS4.cells.seg
        cell_nodup := hS4.cells.nodup
        cargo_seg := hS4.cargos.seg
        cargo_nodup := hS4.cargos.nodup
        free_mem := ?_
        user_mem := ?_
        comp_mem := ?_
        cell_mem := ?_
        cargo_mem := ?_
        hits_nonneg := ?_
        ship_ok := ?_
        count_ok := ?_ }
    · intro x
      rw [mem_produce_piece hR x0 hx0 _ hi0, hobj x]
      by_cases hx : x = x0
      · subst hx
        rw [if_pos rfl, produce_record_hits, hprod]
        constructor
        · rintro (h | h)
          · exact absurd h.2.symm hi0
          · exact absurd rfl h.1
        · intro h; omega
      · rw [if_neg hx, body_hits (hbody x), hR.free_mem x]
        simp [hx]
    · intro t x
      rw [mem_produce_piece hR x0 hx0 _ hi0, hobj x]
      by_cases hx : x = x0
      · subst hx
        rw [if_pos rfl, produce_record_hits, produce_record_owner, produce_record_type, hprod,
          howner]
        constructor
        · rintro (h | h)
          · have := (pidx_LIST_user E _ _ t).mp h.2.symm
            exact ⟨hx0b, by omega, this.1, this.2⟩
          · exact absurd rfl h.1
        · intro h
          exact Or.inl ⟨rfl, ((pidx_LIST_user E _ _ t).mpr ⟨h.2.2.1, h.2.2.2⟩).symm⟩
      · rw [if_neg hx, body_hits (hbody x), body_owner (hbody x), body_type (hbody x),
          hR.user_mem t x]
        simp [hx]
    · intro t x
      rw [mem_produce_piece hR x0 hx0 _ hi0, hobj x]
      by_cases hx : x = x0
      · subst hx
        rw [if_pos rfl, produce_record_hits, produce_record_owner, produce_record_type, hprod,
          howner]
        constructor
        · rintro (h | h)
          · have := (pidx_LIST_comp E _ _ t).mp h.2.symm
            exact ⟨hx0b, by omega, this.1, this.2⟩
          · exact absurd rfl h.1
        · intro h
          exact Or.inl ⟨rfl, ((pidx_LIST_comp E _ _ t).mpr ⟨h.2.2.1, h.2.2.2⟩).symm⟩
      · rw [if_neg hx, body_hits (hbody x), body_owner (hbody x), body_type (hbody x),
          hR.comp_mem t x]
        simp [hx]
    · intro c x
      rw [mem_produce_cell, hobj x]
      by_cases hx : x = x0
      · subst hx
        rw [if_pos rfl, produce_record_hits, produce_record_loc, hprod, hloc]
        constructor
        · rintro (h | h)
          · exact ⟨hx0b, by omega, h.2.symm⟩
          · exact absurd h (hnocell c)
        · intro h
          exact Or.inl ⟨rfl, h.2.2.symm⟩
      · rw [if_neg hx, body_hits (hbody x), body_loc (hbody x), hR.cell_mem c x]
        simp [hx]
    · intro x y
      show y ∈ s.cargo x ↔ _
      rw [hobj y]
      by_cases hy : y = x0
      · subst hy
        rw [if_pos rfl, produce_record_ship]
        constructor
        · intro h; exact absurd h (hnocargo x)
        · intro h; exact absurd h.2.2 (by simp)
      · rw [if_neg hy, body_hits (hbody y), body_ship (hbody y)]
        exact hR.cargo_mem x y
    · intro x hx
      rw [hobj x]
      split_ifs with e
      · rw [produce_record_hits, hprod]; omega
      · rw [body_hits (hbody x)]; exact hR.hits_nonneg x hx
    · intro y x hy hly hsh
      rw [hobj y] at hly hsh
      by_cases hyx : y = x0
      · subst hyx
        rw [if_pos rfl, produce_record_ship] at hsh
        exact absurd hsh (by simp)
      · rw [if_neg hyx, body_hits (hbody y)] at hly
        rw [if_neg hyx, body_ship (hbody y)] at hsh
        obtain ⟨q1, q2, q3, q4, q5⟩ := hR.ship_ok y x hy hly hsh
        have hxx : x ≠ x0 := by
          intro e; rw [e] at q2; omega
        rw [hobj x, hobj y, if_neg hxx, if_neg hyx, body_hits (hbody x), body_loc (hbody x),
          body_loc (hbody y), body_owner (hbody x), body_owner (hbody y),
          produce_links_cargo]
        exact ⟨q1, q2, q3, q4, q5⟩
    · intro x hx hlx
      show _ = ((s.cargo x).length : Int)
      rw [hobj x] at hlx ⊢
      by_cases hxx : x = x0
      · subst hxx
        rw [if_pos rfl, produce_record_count]
        have : s.cargo x = [] := hR.cargo_nil x hcargo0
        rw [this]; rfl
      · rw [if_neg hxx, body_hits (hbody x)] at hlx
        rw [if_neg hxx, body_count (hbody x)]
        exact hR.count_ok x hx hlx
  · rw [hobj x0, if_pos rfl]
  · intro x hx
    rw [hobj x, if_neg hx]
    exact hbody x

/-- In a well-formed state with a non-empty free list, `produce` for a city
whose product has `max_hits >= 1` returns a well-formed state; in particular
the location-index invariant and pool conservation hold afterwards. -/
theorem produce_keeps_invariants (E : Env) (w : World) (s : Shape) (cityp : Nat) (r : Nat)
    (x0 : Nat) (hR : Rep E w s) (hfree : w.free_list = some x0)
    (hmh : 1 ≤ (E.piece_attr (w.city cityp).prod).max_hits) :
    ∃ w2 s2, produce E w cityp r = .ok w2 ∧ Rep E w2 s2 ∧ LocInv E w2 ∧ PoolInv E w2 := by
  obtain ⟨w2, h1, h2, _, _⟩ := produce_ok E w s cityp r x0 hR hfree hmh
  exact ⟨w2, _, h1, h2, h2.locInv, h2.poolInv⟩

theorem harbourWorld_rep : Rep gameEnv harbourWorld harbourShape where
  piece_seg := by
    intro i
    cases i with
    | free => decide
    | user t =>
      by_cases h5 : t = 5
      · subst h5; decide
      · by_cases h0 : t = 0
        · subst h0; decide
        · simp [pieceHead, harbourWorld, harbourShape, h5, h0, Seg]
    | comp t => simp [pieceHead, harbourWorld, harbourShape, Seg]
  piece_nodup := by
    intro i
    cases i with
    | free => decide
    | user t => simp only [harbourShape]; split_ifs <;> decide
    | comp t => simp [harbourShape]
  cell_seg := by
    intro c
    by_cases h : c = 101
    · subst h; decide
    · simp [cellHead, harbourWorld, harbourShape, seaMap, h, Seg]
  cell_nodup := by
    intro c; simp only [harbourShape]; split_ifs <;> decide
  cargo_seg := by
    intro x
    by_cases h : x = 0
    · subst h; decide
    · simp only [harbourShape, h, if_false, Seg, cargoHead, harbourWorld]
      split_ifs <;> rfl
  cargo_nodup := by
    intro x; simp only [harbourShape]; split_ifs <;> decide
  free_mem := by
    intro x
    simp only [harbourShape, gameEnv, harbourWorld]
    constructor
    · intro h
      have : x = 3 := by simpa using h
      subst this; decide
    · rintro ⟨h1, h2⟩
      interval_cases x <;> simp_all [freeRec]
  user_mem := by
    intro t x
    simp only [harbourShape, gameEnv, harbourWorld]
    constructor
    · intro h
      split_ifs at h with h5 h0
      · subst h5; simp at h; subst h; decide
      · subst h0; simp at h; rcases h with rfl | rfl <;> decide
      · simp at h
    · rintro ⟨h1, h2, h3, h4⟩
      interval_cases x <;> simp_all [freeRec]
      all_goals (subst_vars; decide)
  comp_mem := by
    intro t x
    simp only [harbourShape, gameEnv, harbourWorld]
    constructor
    · intro h; simp at h
    · rintro ⟨h1, h2, h3, h4⟩
      interval_cases x <;> simp_all [freeRec]
  cell_mem := by
    intro c x
    simp only [harbourShape, gameEnv, harbourWorld]
    constructor
    · intro h
      split_ifs at h with h5
      · subst h5; simp at h; rcases h with rfl | rfl | rfl <;> decide
      · simp at h
    · rintro ⟨h1, h2, h3⟩
      interval_cases x <;> simp_all [freeRec]
  cargo_mem := by
    intro x y
    simp only [harbourShape, gameEnv, harbourWorld]
    constructor
    · intro h
      split_ifs at h with h5
      · subst h5; simp at h; subst h; decide
      · simp at h
    · rintro ⟨h1, h2, h3⟩
      interval_cases y <;> simp_all [freeRec]
  hits_nonneg := by
    intro x hx
    simp only [gameEnv] at hx
    interval_cases x <;> decide
  ship_ok := by
    intro y x hy h1 h2
    simp only [gameEnv] at hy
    interval_cases y
    · simp [harbourWorld] at h2
    · have : x = 0 := by simpa [harbourWorld] using h2.symm
      subst this; decide
    · simp [harbourWorld] at h2
    · simp [harbourWorld, freeRec] at h1
  count_ok := by
    intro x hx h1
    simp only [gameEnv] at hx
    interval_cases x <;> simp_all [harbourWorld, freeRec, harbourShape]

/-! ## Satellite headings -/

theorem move_sat1_of_heading (E : Env) (fuel : Nat) (w : World) (obj : Nat) (h : Int)
    (hh : sat_heading E w (w.object obj).loc (w.object obj).func = some h) :
    move_sat1 E fuel w obj =
      move_obj E fuel (setPiece w obj { w.object obj with func := h }) obj
        ((w.object obj).loc + E.dir_offset (E.MOVE_DIR h)) := by
  unfold move_sat1
  rw [hh]
  have : ((setPiece w obj { w.object obj with func := h }).object obj).loc
      = (w.object obj).loc := by
    rw [setPiece_object, if_pos rfl]
  simp only [this]

/-- C18: the heading `move_sat1` stores in `obj->func` and follows.  If the
neighbour in the current heading is on-board the heading is kept.  Otherwise
the heading NE becomes the first of NW, SE whose neighbour is on-board, else
SW; NW becomes the first of NE, SW, else SE; SE becomes the first of SW, NE,
else NW; SW becomes the first of SE, NW, else NE.  The step then goes to the
neighbour in the heading chosen. -/
theorem sat_heading_transition (E : Env) (fuel : Nat) (w : World) (obj : Nat)
    (hd : E.MOVE_NE ≠ E.MOVE_NW ∧ E.MOVE_NE ≠ E.MOVE_SE ∧ E.MOVE_NE ≠ E.MOVE_SW ∧
      E.MOVE_NW ≠ E.MOVE_SE ∧ E.MOVE_NW ≠ E.MOVE_SW ∧ E.MOVE_SE ≠ E.MOVE_SW) :
    ((w.map ((w.object obj).loc + E.dir_offset (E.MOVE_DIR (w.object obj).func))).on_board = true →
      sat_heading E w (w.object obj).loc (w.object obj).func = some (w.object obj).func) ∧
    ((w.map ((w.object obj).loc + E.dir_offset (E.MOVE_DIR (w.object obj).func))).on_board = false →
      ((w.object obj).func = E.MOVE_NE →
        sat_heading E w (w.object obj).loc (w.object obj).func = some (
          if (w.map ((w.object obj).loc + E.dir_offset (E.MOVE_DIR E.MOVE_NW))).on_board = true
          then E.MOVE_NW
          else if (w.map ((w.object obj).loc + E.dir_offset (E.MOVE_DIR E.MOVE_SE))).on_board
            = true then E.MOVE_SE
          else E.MOVE_SW)) ∧
      ((w.object obj).func = E.MOVE_NW →
        sat_heading E w (w.object obj).loc (w.object obj).func = some (
          if (w.map ((w.object obj).loc + E.dir_offset (E.MOVE_DIR E.MOVE_NE))).on_board = true
          then E.MOVE_NE
          else if (w.map ((w.object obj).loc + E.dir_offset (E.MOVE_DIR E.MOVE_SW))).on_board
            = true then E.MOVE_SW
          else E.MOVE_SE)) ∧
      ((w.object obj).func = E.MOVE_SE →
        sat_heading E w (w.object obj).loc (w.object obj).func = some (
          if (w.map ((w.object obj).loc + E.dir_offset (E.MOVE_DIR E.MOVE_SW))).on_board = true
          then E.MOVE_SW
          else if (w.map ((w.object obj).loc + E.dir_offset (E.MOVE_DIR E.MOVE_NE))).on_board
            = true then E.MOVE_NE
          else E.MOVE_NW)) ∧
      ((w.object obj).func = E.MOVE_SW →
        sat_heading E w (w.object obj).loc (w.object obj).func = some (
          if (w.map ((w.object obj).loc + E.dir_offset (E.MOVE_DIR E.MOVE_SE))).on_board = true
          then E.MOVE_SE
          else if (w.map ((w.object obj).loc + E.dir_offset (E.MOVE_DIR E.MOVE_NW))).on_board
            = true then E.MOVE_NW
          else E.MOVE_NE))) ∧
    (∀ h, sat_heading E w (w.object obj).loc (w.object obj).func = some h →
      move_sat1 E fuel w obj =
        move_obj E fuel (setPiece w obj { w.object obj with func := h }) obj
          ((w.object obj).loc + E.dir_offset (E.MOVE_DIR h))) := by
  obtain ⟨d1, d2, d3, d4, d5, d6⟩ := hd
  refine ⟨?_, ?_, fun h hh => move_sat1_of_heading E fuel w obj h hh⟩
  · intro hon
    unfold sat_heading
    rw [if_neg (by rw [hon]; decide)]
  · intro hoff
    refine ⟨?_, ?_, ?_, ?_⟩
    · intro hf
      unfold sat_heading bounce
      rw [if_pos hoff, if_pos hf]
    · intro hf
      unfold sat_heading bounce
      rw [if_pos hoff, if_neg (by rw [hf]; exact fun e => d1 e.symm), if_pos hf]
    · intro hf
      unfold sat_heading bounce
      rw [if_pos hoff, if_neg (by rw [hf]; exact fun e => d2 e.symm),
        if_neg (by rw [hf]; exact fun e => d4 e.symm), if_pos hf]
    · intro hf
      unfold sat_heading bounce
      rw [if_pos hoff, if_neg (by rw [hf]; exact fun e => d3 e.symm),
        if_neg (by rw [hf]; exact fun e => d5 e.symm),
        if_neg (by rw [hf]; exact fun e => d6 e.symm), if_pos hf]

/-- Witness for C18: the satellite of `mixedWorld`, at cell 203 heading
NE. -/
theorem sat_heading_transition_witness :
    (gameEnv.MOVE_NE ≠ gameEnv.MOVE_NW ∧ gameEnv.MOVE_NE ≠ gameEnv.MOVE_SE ∧
      gameEnv.MOVE_NE ≠ gameEnv.MOVE_SW ∧ gameEnv.MOVE_NW ≠ gameEnv.MOVE_SE ∧
      gameEnv.MOVE_NW ≠ gameEnv.MOVE_SW ∧ gameEnv.MOVE_SE ≠ gameEnv.MOVE_SW) ∧
    sat_heading gameEnv mixedWorld (mixedWorld.object 3).loc (mixedWorld.object 3).func
      = some (mixedWorld.object 3).func :=
  ⟨by decide,
    (sat_heading_transition gameEnv 4 mixedWorld 3 (by decide)).1 (by decide)⟩

/-- One step from the top-right corner of the board (cell 198) every
diagonal neighbour but the south-western one is off the board: the headings
NE, NW and SE all turn to SW there, and SW is kept. -/
theorem sat_heading_corner :
    sat_heading gameEnv mixedWorld 198 gameEnv.MOVE_NE = some gameEnv.MOVE_SW ∧
      sat_heading gameEnv mixedWorld 198 gameEnv.MOVE_NW = some gameEnv.MOVE_SW ∧
      sat_heading gameEnv mixedWorld 198 gameEnv.MOVE_SE = some gameEnv.MOVE_SW ∧
      sat_heading gameEnv mixedWorld 198 gameEnv.MOVE_SW = some gameEnv.MOVE_SW := by
  decide

/-- C20: for a satellite with a diagonal heading at a cell that has an
on-board diagonal neighbour, `move_sat1` chooses a diagonal heading whose
neighbour is on-board, and that neighbour is the cell it passes to
`move_obj`. -/
theorem move_sat1_stays_on_board (E : Env) (fuel : Nat) (w : World) (obj : Nat)
    (hfunc : (w.object obj).func = E.MOVE_NE ∨ (w.object obj).func = E.MOVE_NW ∨
      (w.object obj).func = E.MOVE_SE ∨ (w.object obj).func = E.MOVE_SW)
    (hnb : (w.map ((w.object obj).loc + E.dir_offset (E.MOVE_DIR E.MOVE_NE))).on_board = true ∨
      (w.map ((w.object obj).loc + E.dir_offset (E.MOVE_DIR E.MOVE_NW))).on_board = true ∨
      (w.map ((w.object obj).loc + E.dir_offset (E.MOVE_DIR E.MOVE_SE))).on_board = true ∨
      (w.map ((w.object obj).loc + E.dir_offset (E.MOVE_DIR E.MOVE_SW))).on_board = true) :
    ∃ h, sat_heading E w (w.object obj).loc (w.object obj).func = some h ∧
      (h = E.MOVE_NE ∨ h = E.MOVE_NW ∨ h = E.MOVE_SE ∨ h = E.MOVE_SW) ∧
      (w.map ((w.object obj).loc + E.dir_offset (E.MOVE_DIR h))).on_board = true ∧
      move_sat1 E fuel w obj =
        move_obj E fuel (setPiece w obj { w.object obj with func := h }) obj
          ((w.object obj).loc + E.dir_offset (E.MOVE_DIR h)) := by
  have key : ∃ h, sat_heading E w (w.object obj).loc (w.object obj).func = some h ∧
      (h = E.MOVE_NE ∨ h = E.MOVE_NW ∨ h = E.MOVE_SE ∨ h = E.MOVE_SW) ∧
      (w.map ((w.object obj).loc + E.dir_offset (E.MOVE_DIR h))).on_board = true := by
    generalize (w.object obj).func = f at hfunc
    generalize (w.object obj).loc = loc at hnb
    by_cases hon : (w.map (loc + E.dir_offset (E.MOVE_DIR f))).on_board = true
    · refine ⟨f, ?_, hfunc, hon⟩
      unfold sat_heading
      rw [if_neg (by rw [hon]; decide)]
    · have hoff : (w.map (loc + E.dir_offset (E.MOVE_DIR f))).on_board = false := by
        simpa using hon
      unfold sat_heading bounce
      rw [if_pos hoff]
      by_cases a1 : (w.map (loc + E.dir_offset (E.MOVE_DIR E.MOVE_NE))).on_board = true <;>
      by_cases a2 : (w.map (loc + E.dir_offset (E.MOVE_DIR E.MOVE_NW))).on_board = true <;>
      by_cases a3 : (w.map (loc + E.dir_offset (E.MOVE_DIR E.MOVE_SE))).on_board = true <;>
      by_cases a4 : (w.map (loc + E.dir_offset (E.MOVE_DIR E.MOVE_SW))).on_board = true <;>
      by_cases b1 : f = E.MOVE_NE <;> by_cases b2 : f = E.MOVE_NW <;>
      by_cases b3 : f = E.MOVE_SE <;> by_cases b4 : f = E.MOVE_SW <;>
      simp_all
  obtain ⟨h, k1, k2, k3⟩ := key
  exact ⟨h, k1, k2, k3, move_sat1_of_heading E fuel w obj h k1⟩

/-- Witness for C20: the satellite of `mixedWorld`, at cell 203 heading
NE. -/
theorem move_sat1_stays_on_board_witness :
    ((mixedWorld.object 3).func = gameEnv.MOVE_NE ∨ (mixedWorld.object 3).func = gameEnv.MOVE_NW ∨
      (mixedWorld.object 3).func = gameEnv.MOVE_SE ∨
      (mixedWorld.object 3).func = gameEnv.MOVE_SW) ∧
    ∃ h, sat_heading gameEnv mixedWorld (mixedWorld.object 3).loc (mixedWorld.object 3).func
        = some h ∧
      (h = gameEnv.MOVE_NE ∨ h = gameEnv.MOVE_NW ∨ h = gameEnv.MOVE_SE ∨ h = gameEnv.MOVE_SW) ∧
      (mixedWorld.map ((mixedWorld.object 3).loc
        + gameEnv.dir_offset (gameEnv.MOVE_DIR h))).on_board = true ∧
      move_sat1 gameEnv 4 mixedWorld 3 =
        move_obj gameEnv 4 (setPiece mixedWorld 3 { mixedWorld.object 3 with func := h }) 3
          ((mixedWorld.object 3).loc + gameEnv.dir_offset (gameEnv.MOVE_DIR h)) :=
  ⟨by decide,
    move_sat1_stays_on_board gameEnv 4 mixedWorld 3 (by decide) (Or.inl (by decide))⟩

/-! ## The piece shown for a cell -/

theorem ok_ptr_of_check (r : Except Fault Ptr) (p : Ptr)
    (h : (match r with
      | .ok q => decide (q = p)
      | .error _ => false) = true) : r = .ok p := by
  cases r with
  | error e => simp at h
  | ok q =>
    have : q = p := of_decide_eq_true h
    rw [this]

/-- C15, at the failing input: in the well-formed state `mixedWorld` the
user's satellite (record 3) moves to the sea cell 102, which holds two
transports and no city.  `LINK` puts the satellite at the head of the
location list, `find_obj_at_loc` starts with the head as `best`, no later
piece has a higher kind, and so it returns the satellite: the scan of
`move_obj` writes the satellite glyph into the user's view of cell 102. -/
theorem find_obj_at_loc_returns_satellite :
    Rep gameEnv mixedWorld mixedShape ∧
      ∃ w2, move_obj gameEnv 4 mixedWorld 3 102 = .ok w2 ∧
        (w2.map 102).cityp = none ∧
        InList w2.object .loc_link (w2.map 102).objp 0 ∧
        (w2.object 0).type = gameEnv.TRANSPORT ∧
        find_obj_at_loc gameEnv 4 w2 102 = .ok (some 3) ∧
        (w2.object 3).type = gameEnv.SATELLITE ∧
        (w2.user_map 102).contents = (gameEnv.piece_attr gameEnv.SATELLITE).sname := by
  refine ⟨mixedWorld_rep, ?_⟩
  obtain ⟨w2, h1, h2⟩ := ok_of_check (move_obj gameEnv 4 mixedWorld 3 102)
    (fun w => decide ((w.map 102).cityp = none ∧
      walk w.object .loc_link 1 (w.map 102).objp = some 0 ∧
      (w.object 0).type = gameEnv.TRANSPORT ∧
      (match find_obj_at_loc gameEnv 4 w 102 with
        | .ok q => decide (q = some 3)
        | .error _ => false) = true ∧
      (w.object 3).type = gameEnv.SATELLITE ∧
      (w.user_map 102).contents = (gameEnv.piece_attr gameEnv.SATELLITE).sname))
    (by rfl)
  obtain ⟨k1, k2, k3, k4, k5, k6⟩ := of_decide_eq_true h2
  exact ⟨w2, h1, k1, ⟨1, k2⟩, k3, ok_ptr_of_check _ _ k4, k5, k6⟩

/-! ## `kill_city` and the armies of the city -/

/-- C13, at the failing input: `harbourWorld` is a well-formed state whose
city cell holds, in this order, a transport, the army riding in it and an
army standing in the city.  `kill_city` returns, and the army that stood in
the city (record 2) is still alive at the city's cell: the loop went from
the transport to the saved successor, the freed cargo army, whose `next`
link had been cleared, and ended there. -/
theorem kill_city_spares_army :
    Rep gameEnv harbourWorld harbourShape ∧
      (harbourWorld.object 2).type = gameEnv.ARMY ∧
      InList harbourWorld.object .loc_link (harbourWorld.map (harbourWorld.city 0).loc).objp 2 ∧
      ∃ w2, kill_city gameEnv 8 harbourWorld 0 = .ok w2 ∧
        (w2.object 2).type = gameEnv.ARMY ∧ 0 < (w2.object 2).hits ∧
        (w2.object 2).loc = (w2.city 0).loc := by
  refine ⟨harbourWorld_rep, by decide, ⟨2, by decide⟩, ?_⟩
  obtain ⟨w2, h1, h2⟩ := ok_of_check (kill_city gameEnv 8 harbourWorld 0)
    (fun w => decide ((w.object 2).type = gameEnv.ARMY ∧ 0 < (w.object 2).hits ∧
      (w.object 2).loc = (w.city 0).loc))
    (by rfl)
  exact ⟨w2, h1, of_decide_eq_true h2⟩

/-! ## Scanning twice -/

theorem getView_setView (w : World) (v : VMapSel) (c d : Int) (x : view_map_t) :
    getView (setView w v c x) v d = if d = c then x else getView w v d := by
  cases v <;> simp [getView, setView, upd]

theorem setView_setView (w : World) (v : VMapSel) (c : Int) (x y : view_map_t) :
    setView (setView w v c x) v c y = setView w v c y := by
  cases v
  · show ({ w with user_map := upd (upd w.user_map c x) c y } : World) =
      { w with user_map := upd w.user_map c y }
    congr 1
    funext j
    simp only [upd]
    split_ifs <;> rfl
  · show ({ w with comp_map := upd (upd w.comp_map c x) c y } : World) =
      { w with comp_map := upd w.comp_map c y }
    congr 1
    funext j
    simp only [upd]
    split_ifs <;> rfl

theorem setView_getView (w : World) (v : VMapSel) (c : Int) (x : view_map_t)
    (h : getView w v c = x) : setView w v c x = w := by
  subst h
  cases v
  · show ({ w with user_map := upd w.user_map c (w.user_map c) } : World) = w
    have : upd w.user_map c (w.user_map c) = w.user_map := by
      funext j
      simp only [upd]
      split_ifs with e
      · rw [e]
      · rfl
    rw [this]
  · show ({ w with comp_map := upd w.comp_map c (w.comp_map c) } : World) = w
    have : upd w.comp_map c (w.comp_map c) = w.comp_map := by
      funext j
      simp only [upd]
      split_ifs with e
      · rw [e]
      · rfl
    rw [this]

theorem setView_map (w : World) (v : VMapSel) (c : Int) (x : view_map_t) :
    (setView w v c x).map = w.map := by cases v <;> rfl

theorem setView_city (w : World) (v : VMapSel) (c : Int) (x : view_map_t) :
    (setView w v c x).city = w.city := by cases v <;> rfl

theorem setView_object (w : World) (v : VMapSel) (c : Int) (x : view_map_t) :
    (setView w v c x).object = w.object := by cases v <;> rfl

theorem setView_date (w : World) (v : VMapSel) (c : Int) (x : view_map_t) :
    (setView w v c x).date = w.date := by cases v <;> rfl

theorem find_obj_at_loc_congr (E : Env) (fuel : Nat) (w w2 : World) (loc : Int)
    (h1 : w2.map = w.map) (h2 : w2.object = w.object) :
    find_obj_at_loc E fuel w2 loc = find_obj_at_loc E fuel w loc := by
  unfold find_obj_at_loc
  rw [h1, h2]

/-- What `update` writes is a function of the ground truth and the date:
there is one value that `update` stores in the cell of the view map in every
state with that ground truth and date. -/
theorem update_value (E : Env) (fuel : Nat) (w : World) (v : VMapSel) (loc : Int)
    (hs : Scannable fuel w) :
    ∃ g : Char, ∀ w2, SameButViews w w2 →
      update E fuel w2 v loc = .ok (setView w2 v loc ⟨g, w.date⟩) := by
  have key : ∀ w2, SameButViews w w2 → update E fuel w2 v loc =
      match (w.map loc).cityp with
      | some c => .ok (setView w2 v loc ⟨city_char E (w.city c).owner, w.date⟩)
      | none =>
        match find_obj_at_loc E fuel w loc with
        | .error e => .error e
        | .ok none => .ok (setView w2 v loc ⟨(w.map loc).contents, w.date⟩)
        | .ok (some p) =>
          if (w.object p).owner = E.USER then
            .ok (setView w2 v loc ⟨(E.piece_attr (w.object p).type).sname, w.date⟩)
          else
            .ok (setView w2 v loc ⟨tolower (E.piece_attr (w.object p).type).sname, w.date⟩) := by
    intro w2 hsame
    obtain ⟨e1, e2, _, _, _, e6, e7⟩ := hsame
    unfold update
    simp only [setView_map, setView_city, setView_object, setView_setView, getView_setView,
      if_true]
    rw [find_obj_at_loc_congr E fuel w _ loc (by rw [setView_map, e1])
      (by rw [setView_object, e6]), e1, e2, e6, e7]
  obtain ⟨r, hr⟩ := find_obj_at_loc_ok E fuel w hs loc
  rw [hr] at key
  cases hc : (w.map loc).cityp with
  | some c =>
    refine ⟨city_char E (w.city c).owner, fun w2 h2 => ?_⟩
    rw [key w2 h2, hc]
  | none =>
    cases r with
    | none =>
      refine ⟨(w.map loc).contents, fun w2 h2 => ?_⟩
      rw [key w2 h2, hc]
    | some p =>
      by_cases ho : (w.object p).owner = E.USER
      · refine ⟨(E.piece_attr (w.object p).type).sname, fun w2 h2 => ?_⟩
        rw [key w2 h2, hc]
        simp only [ho, if_true]
      · refine ⟨tolower (E.piece_attr (w.object p).type).sname, fun w2 h2 => ?_⟩
        rw [key w2 h2, hc]
        simp only [ho, if_false]

theorem update_settled_view (E : Env) (fuel : Nat) (w w1 : World) (v : VMapSel) (d : Int)
    (hs : Scannable fuel w) (h1 : SameButViews w w1) (hd : update E fuel w1 v d = .ok w1) :
    ∃ g : Char, getView w1 v d = ⟨g, w.date⟩ ∧
      ∀ w2, SameButViews w w2 → update E fuel w2 v d = .ok (setView w2 v d ⟨g, w.date⟩) := by
  obtain ⟨g, hg⟩ := update_value E fuel w v d hs
  refine ⟨g, ?_, hg⟩
  have e := hg w1 h1
  rw [hd] at e
  have e2 : w1 = setView w1 v d ⟨g, w.date⟩ := Except.ok.inj e
  have := getView_setView w1 v d d ⟨g, w.date⟩
  rw [if_pos rfl, ← e2] at this
  exact this

theorem update_settles (E : Env) (fuel : Nat) (w w0 : World) (v : VMapSel) (c : Int)
    (hs : Scannable fuel w) (h0 : SameButViews w w0) :
    ∃ w1, update E fuel w0 v c = .ok w1 ∧ SameButViews w w1 ∧
      update E fuel w1 v c = .ok w1 ∧
      ∀ d, update E fuel w0 v d = .ok w0 → update E fuel w1 v d = .ok w1 := by
  obtain ⟨g, hg⟩ := update_value E fuel w v c hs
  have hsame1 : SameButViews w (setView w0 v c ⟨g, w.date⟩) :=
    h0.trans (SameButViews_setView w0 v c _)
  have hfix : update E fuel (setView w0 v c ⟨g, w.date⟩) v c =
      .ok (setView w0 v c ⟨g, w.date⟩) := by
    rw [hg _ hsame1, setView_setView]
  refine ⟨setView w0 v c ⟨g, w.date⟩, hg w0 h0, hsame1, hfix, ?_⟩
  intro d hd
  by_cases hdc : d = c
  · rw [hdc]; exact hfix
  · obtain ⟨gd, k1, k2⟩ := update_settled_view E fuel w w0 v d hs h0 hd
    rw [k2 _ hsame1]
    congr 1
    refine setView_getView _ v d _ ?_
    rw [getView_setView, if_neg hdc]
    exact k1

theorem scan_loop_settles (E : Env) (fuel : Nat) (w : World) (v : VMapSel) (loc : Int)
    (hs : Scannable fuel w) :
    ∀ (n : Nat) (i : Int) (w0 : World), SameButViews w w0 →
      ∃ w1, scan_loop E fuel v loc n i w0 = .ok w1 ∧ SameButViews w w1 ∧
        (∀ d, update E fuel w0 v d = .ok w0 → update E fuel w1 v d = .ok w1) ∧
        ∀ k : Nat, k < n → update E fuel w1 v (loc + E.dir_offset (i + k)) = .ok w1 := by
  intro n
  induction n with
  | zero =>
    intro i w0 h0
    exact ⟨w0, rfl, h0, fun _ h => h, fun k hk => absurd hk (Nat.not_lt_zero k)⟩
  | succ m ih =>
    intro i w0 h0
    obtain ⟨wa, a1, a2, a3, a4⟩ := update_settles E fuel w w0 v (loc + E.dir_offset i) hs h0
    obtain ⟨wb, b1, b2, b3, b4⟩ := ih (i + 1) wa a2
    refine ⟨wb, ?_, b2, fun d hd => b3 d (a4 d hd), ?_⟩
    · simp only [scan_loop, a1]
      exact b1
    · intro k hk
      cases k with
      | zero =>
        have := b3 _ a3
        simpa using this
      | succ j =>
        have := b4 j (by omega)
        have e : i + 1 + (j : Int) = i + ((j + 1 : Nat) : Int) := by push_cast; ring
        rw [e] at this
        exact this

theorem scan_loop_settled (E : Env) (fuel : Nat) (w1 : World) (v : VMapSel) (loc : Int) :
    ∀ (n : Nat) (i : Int),
      (∀ k : Nat, k < n → update E fuel w1 v (loc + E.dir_offset (i + k)) = .ok w1) →
      scan_loop E fuel v loc n i w1 = .ok w1 := by
  intro n
  induction n with
  | zero => intro i _; rfl
  | succ m ih =>
    intro i h
    have h0 := h 0 (by omega)
    simp only [Nat.cast_zero, add_zero] at h0
    simp only [scan_loop, h0]
    refine ih (i + 1) ?_
    intro k hk
    have := h (k + 1) (by omega)
    have e : i + ((k + 1 : Nat) : Int) = i + 1 + (k : Int) := by push_cast; ring
    rw [e] at this
    exact this

/-- C14: for either view map, whatever it holds, and every on-board cell of
a state whose location lists are finite chains, `scan` returns a state `w1`
on which a second `scan` of the same cell returns `w1` again; ground truth
and date are those of the start; and in `w1` the cell and its eight
neighbours are stamped with the date. -/
theorem scan_idempotent (E : Env) (fuel : Nat) (w : World) (vmap : VMapSel) (loc : Int)
    (hs : Scannable fuel w) (hb : (w.map loc).on_board = true) :
    ∃ w1, scan E fuel w vmap loc = .ok w1 ∧ scan E fuel w1 vmap loc = .ok w1 ∧
      SameButViews w w1 ∧
      (getView w1 vmap loc).seen = w.date ∧
      ∀ i : Nat, i < 8 → (getView w1 vmap (loc + E.dir_offset i)).seen = w.date := by
  obtain ⟨wa, a1, a2, _, a4⟩ := scan_loop_settles E fuel w vmap loc hs 8 0 w
    (SameButViews.refl w)
  obtain ⟨wb, b1, b2, b3, b4⟩ := update_settles E fuel w wa vmap loc hs a2
  have hnb : ∀ k : Nat, k < 8 →
      update E fuel wb vmap (loc + E.dir_offset ((0 : Int) + k)) = .ok wb :=
    fun k hk => b4 _ (a4 k hk)
  have hbb : (wb.map loc).on_board = true := by rw [b2.1]; exact hb
  refine ⟨wb, ?_, ?_, b2, ?_, ?_⟩
  · unfold scan
    rw [if_neg (by simp [hb]), a1]
    exact b1
  · unfold scan
    rw [if_neg (by simp [hbb]), scan_loop_settled E fuel wb vmap loc 8 0 hnb]
    exact b3
  · obtain ⟨g, k1, _⟩ := update_settled_view E fuel w wb vmap loc hs b2 b3
    rw [k1]
  · intro i hi
    have := hnb i hi
    simp only [zero_add] at this
    obtain ⟨g, k1, _⟩ := update_settled_view E fuel w wb vmap _ hs b2 this
    rw [k1]

/-- Witness for C14: the user's view of cell 102 of `mixedWorld`. -/
theorem scan_idempotent_witness :
    (Scannable 4 mixedWorld ∧ (mixedWorld.map 102).on_board = true) ∧
    ∃ w1, scan gameEnv 4 mixedWorld .user 102 = .ok w1 ∧
      scan gameEnv 4 w1 .user 102 = .ok w1 ∧ SameButViews mixedWorld w1 ∧
      (getView w1 .user 102).seen = mixedWorld.date ∧
      ∀ i : Nat, i < 8 →
        (getView w1 .user (102 + gameEnv.dir_offset i)).seen = mixedWorld.date :=
  ⟨⟨mixedWorld_rep.toStr.scannable 4 (by decide), by decide⟩,
    scan_idempotent gameEnv 4 mixedWorld .user 102
      (mixedWorld_rep.toStr.scannable 4 (by decide)) (by decide)⟩

/-! ## What `produce` makes -/

theorem setHead_city (w : World) (r : HeadRef) (v : Ptr) : (setHead w r v).city = w.city := by
  cases r with
  | piece i => cases i <;> rfl
  | objp c => rfl
  | cargo x => rfl

theorem UNLINK_city (w : World) (r : HeadRef) (a : Nat) (k : LinkSel) :
    (UNLINK w r a k).city = w.city := by
  unfold UNLINK
  rw [setHead_city]

theorem LINK_city (w : World) (r : HeadRef) (a : Nat) (k : LinkSel) :
    (LINK w r a k).city = w.city := by
  unfold LINK
  rw [setHead_city]

theorem produce_links_city (E : Env) (w : World) (cityp x0 : Nat) :
    (produce_links E w cityp x0).city = (produce_charged E w cityp).city := by
  unfold produce_links
  rw [LINK_city, LINK_city, UNLINK_city]

theorem produce_str (E : Env) (w : World) (s : Shape) (cityp : Nat) (r : Nat) (x0 : Nat)
    (hR : Rep E w s) (hfree : w.free_list = some x0) :
    produce E w cityp r = .ok (setPiece (produce_links E w cityp x0) x0
        (produce_record E ((produce_charged E w cityp).city cityp) r
          ((produce_links E w cityp x0).object x0))) ∧
      Str E.LIST_SIZE (setPiece (produce_links E w cityp x0) x0
        (produce_record E ((produce_charged E w cityp).city cityp) r
          ((produce_links E w cityp x0).object x0)))
        (produceShape s x0 (pidx (LIST E (w.city cityp).owner) (w.city cityp).prod)
          (w.city cityp).loc) := by
  have hx0 : x0 ∈ s.piece .free :=
    Seg_head_mem _ _ _ _ _ x0 (hR.piece_seg .free) hfree
  obtain ⟨hx0b, hx0h⟩ := (hR.free_mem x0).mp hx0
  have hR0 := Rep_produce_charged hR cityp
  have hS0 := hR0.toStr
  have hS := hR.toStr
  have hprod : ((produce_charged E w cityp).city cityp).prod = (w.city cityp).prod := by
    rw [produce_cty]
  have hloc : ((produce_charged E w cityp).city cityp).loc = (w.city cityp).loc := by
    rw [produce_cty]
  have hnocell : ∀ j, x0 ∉ s.cell j := by
    intro j hj
    have := (hR.cell_mem j x0).mp hj
    omega
  have hnocargo : ∀ j, x0 ∉ s.cargo j := by
    intro j hj
    have := (hR.cargo_mem j x0).mp hj
    omega
  have hcargo0 : (w.object x0).cargo = none := by
    have hseg := hR.cargo_seg x0
    cases hl : s.cargo x0 with
    | nil => rw [hl] at hseg; exact hseg
    | cons y t =>
      have hy : y ∈ s.cargo x0 := by rw [hl]; exact List.mem_cons_self y t
      obtain ⟨q1, q2, q3⟩ := (hR.cargo_mem x0 y).mp hy
      have := (hR.ship_ok y x0 q1 q2 q3).2.1
      omega
  have h1 := Str_UNLINK_piece _ _ s .free x0 hS0 hx0
  have h2 := Str_LINK_piece _ _ _
    (pidx (LIST E (w.city cityp).owner) ((produce_charged E w cityp).city cityp).prod) x0 h1
    (by
      intro j hj
      change x0 ∈ upd s.piece _ _ j at hj
      rw [upd_apply] at hj
      split_ifs at hj with e
      · exact List.Nodup.not_mem_erase (hS.pieces.nodup _) hj
      · exact e (hS.pieces.disj _ _ x0 hj hx0)) hx0b
  have h3 := Str_LINK_objp _ _ _ ((produce_charged E w cityp).city cityp).loc x0 h2
    hnocell hx0b
  have h4 := Str_setPiece_fresh _ _ _ x0
    (produce_record E ((produce_charged E w cityp).city cityp) r
      ((produce_links E w cityp x0).object x0)) h3
    (by show (produce_record _ _ _ _).piece_link = _; rw [produce_record_piece_link]; rfl)
    (by show (produce_record _ _ _ _).loc_link = _; rw [produce_record_loc_link]; rfl)
    (by
      rw [produce_record_cargo]
      exact ((produce_links_cargo E w cityp x0 x0).trans hcargo0).symm)
    hnocargo
  refine ⟨by rw [produce_unfold, hfree], ?_⟩
  refine Str_shape_eq h4 ?_ ?_ rfl
  · show upd _ _ _ = upd _ _ _
    rw [hprod]
  · show upd _ _ _ = upd _ _ _
    rw [hloc]

theorem to_short_of_fits (x : Int) (h1 : -32768 ≤ x) (h2 : x ≤ 32767) : to_short x = x := by
  unfold to_short
  omega

/-- C16 as stated fails: in the well-formed state `portWorld` the city,
record 0, is owned by the user and builds armies, a kind whose range in the
table is 10000000; the free list is not empty; `produce` makes record 2 an
army whose `range` is -27008, the table's value narrowed to the 16-bit field,
not the range of the kind. -/
theorem produce_narrows_range :
    Rep gameEnv portWorld portShape ∧ portWorld.free_list = some 2 ∧
      (portWorld.city 0).owner = gameEnv.USER ∧ (portWorld.city 0).prod = gameEnv.ARMY ∧
      (gameEnv.piece_attr (portWorld.city 0).prod).range = 10000000 ∧
      ∃ w2, produce gameEnv portWorld 0 0 = .ok w2 ∧
        (w2.object 2).type = gameEnv.ARMY ∧ (w2.object 2).range = -27008 ∧
        (w2.object 2).range ≠ (gameEnv.piece_attr (portWorld.city 0).prod).range := by
  refine ⟨portWorld_rep, rfl, by decide, by decide, by decide, ?_⟩
  obtain ⟨w2, h1, h2⟩ := ok_of_check (produce gameEnv portWorld 0 0)
    (fun w => decide ((w.object 2).type = gameEnv.ARMY ∧ (w.object 2).range = -27008 ∧
      (w.object 2).range ≠ (gameEnv.piece_attr (portWorld.city 0).prod).range))
    (by rfl)
  obtain ⟨k1, k2, k3⟩ := of_decide_eq_true h2
  exact ⟨w2, h1, k1, k2, k3⟩

/-- C16, amended: in a well-formed state whose free list starts with record
`x0`, `produce` returns; `x0` has left the free list, whose other members are
the same as before; `x0` is a piece of kind `prod` of the city, owned by the
city's owner, at the city's cell, with `hits` the `max_hits` of the kind,
`moved = 0`, `count = 0`, no cargo and no ship; its `range` is the range of
the kind narrowed to the 16-bit field, which is the range of the kind
whenever that lies in `-32768 .. 32767`; it is a member of the list of that
kind of the city's owner and of the location list of the city's cell; and
the `work` of the city is lower by the `build_time` of the kind. -/
theorem produce_makes_piece (E : Env) (w : World) (s : Shape) (cityp : Nat) (r : Nat)
    (x0 : Nat) (hR : Rep E w s) (hfree : w.free_list = some x0) :
    ∃ w2, produce E w cityp r = .ok w2 ∧
      ¬ InList w2.object .piece_link w2.free_list x0 ∧
      (∀ y, y ≠ x0 → (InList w2.object .piece_link w2.free_list y ↔
        InList w.object .piece_link w.free_list y)) ∧
      (w2.object x0).type = (w.city cityp).prod ∧
      (w2.object x0).owner = (w.city cityp).owner ∧
      (w2.object x0).loc = (w.city cityp).loc ∧
      (w2.object x0).hits = (E.piece_attr (w.city cityp).prod).max_hits ∧
      (w2.object x0).moved = 0 ∧ (w2.object x0).count = 0 ∧
      (w2.object x0).cargo = none ∧ (w2.object x0).ship = none ∧
      (w2.object x0).range = to_short (E.piece_attr (w.city cityp).prod).range ∧
      (-32768 ≤ (E.piece_attr (w.city cityp).prod).range →
        (E.piece_attr (w.city cityp).prod).range ≤ 32767 →
        (w2.object x0).range = (E.piece_attr (w.city cityp).prod).range) ∧
      InList w2.object .piece_link
        (if (w.city cityp).owner = E.USER then w2.user_obj (w.city cityp).prod
          else w2.comp_obj (w.city cityp).prod) x0 ∧
      InList w2.object .loc_link (w2.map (w.city cityp).loc).objp x0 ∧
      (w2.city cityp).work =
        (w.city cityp).work - (E.piece_attr (w.city cityp).prod).build_time := by
  obtain ⟨h1, hS⟩ := produce_str E w s cityp r x0 hR hfree
  have hx0 : x0 ∈ s.piece .free :=
    Seg_head_mem _ _ _ _ _ x0 (hR.piece_seg .free) hfree
  have hi0 := pidx_ne_free (LIST E (w.city cityp).owner) (w.city cityp).prod
  have hprod : ((produce_charged E w cityp).city cityp).prod = (w.city cityp).prod := by
    rw [produce_cty]
  have howner : ((produce_charged E w cityp).city cityp).owner = (w.city cityp).owner := by
    rw [produce_cty]
  have hloc : ((produce_charged E w cityp).city cityp).loc = (w.city cityp).loc := by
    rw [produce_cty]
  have hobj : (setPiece (produce_links E w cityp x0) x0
      (produce_record E ((produce_charged E w cityp).city cityp) r
        ((produce_links E w cityp x0).object x0))).object x0 =
      produce_record E ((produce_charged E w cityp).city cityp) r
        ((produce_links E w cityp x0).object x0) := by
    rw [setPiece_object, if_pos rfl]
  have hfreeIff : ∀ y, InList (setPiece (produce_links E w cityp x0) x0
      (produce_record E ((produce_charged E w cityp).city cityp) r
        ((produce_links E w cityp x0).object x0))).object .piece_link
      (setPiece (produce_links E w cityp x0) x0
      (produce_record E ((produce_charged E w cityp).city cityp) r
        ((produce_links E w cityp x0).object x0))).free_list y ↔
      (y = x0 ∧ PIdx.free = pidx (LIST E (w.city cityp).owner) (w.city cityp).prod) ∨
        (y ≠ x0 ∧ y ∈ s.piece .free) := by
    intro y
    rw [← mem_produce_piece hR x0 hx0 _ hi0 (w.city cityp).loc .free y]
    exact InList_iff_mem _ _ none _ _ y (hS.pieces.seg .free)
  refine ⟨_, h1, ?_, ?_, ?_, ?_, ?_, ?_, ?_, ?_, ?_, ?_, ?_, ?_, ?_, ?_, ?_⟩
  · intro h
    rcases (hfreeIff x0).mp h with h2 | h2
    · exact hi0 h2.2.symm
    · exact h2.1 rfl
  · intro y hy
    have hold : InList w.object .piece_link w.free_list y ↔ y ∈ s.piece .free :=
      InList_iff_mem _ _ none _ _ y (hR.piece_seg .free)
    rw [hfreeIff y, hold]
    constructor
    · rintro (h2 | h2)
      · exact absurd h2.1 hy
      · exact h2.2
    · exact fun h2 => Or.inr ⟨hy, h2⟩
  · rw [hobj, produce_record_type, hprod]
  · rw [hobj, produce_record_owner, howner]
  · rw [hobj, produce_record_loc, hloc]
  · rw [hobj, produce_record_hits, hprod]
  · rw [hobj, produce_record_moved]
  · rw [hobj, produce_record_count]
  · rw [hobj, produce_record_cargo]
  · rw [hobj, produce_record_ship]
  · rw [hobj, produce_record_range, hprod]
  · intro q1 q2
    rw [hobj, produce_record_range, hprod]
    exact to_short_of_fits _ q1 q2
  · have hm : x0 ∈ (produceShape s x0 (pidx (LIST E (w.city cityp).owner) (w.city cityp).prod)
        (w.city cityp).loc).piece (pidx (LIST E (w.city cityp).owner) (w.city cityp).prod) :=
      (mem_produce_piece hR x0 hx0 _ hi0 _ _ x0).mpr (Or.inl ⟨rfl, rfl⟩)
    have hin := (InList_iff_mem _ _ none _ _ x0 (hS.pieces.seg
      (pidx (LIST E (w.city cityp).owner) (w.city cityp).prod))).mpr hm
    unfold LIST at hin
    split_ifs with ho
    · rw [if_pos ho] at hin; exact hin
    · rw [if_neg ho] at hin; exact hin
  · exact (InList_iff_mem _ _ none _ _ x0 (hS.cells.seg (w.city cityp).loc)).mpr
      ((mem_produce_cell s x0 _ _ _ x0).mpr (Or.inl ⟨rfl, rfl⟩))
  · show ((produce_links E w cityp x0).city cityp).work = _
    rw [produce_links_city, produce_cty]

theorem airfieldWorld_rep : Rep gameEnv airfieldWorld portShape where
  piece_seg := portWorld_rep.piece_seg
  piece_nodup := portWorld_rep.piece_nodup
  cell_seg := portWorld_rep.cell_seg
  cell_nodup := portWorld_rep.cell_nodup
  cargo_seg := portWorld_rep.cargo_seg
  cargo_nodup := portWorld_rep.cargo_nodup
  free_mem := portWorld_rep.free_mem
  user_mem := portWorld_rep.user_mem
  comp_mem := portWorld_rep.comp_mem
  cell_mem := portWorld_rep.cell_mem
  cargo_mem := portWorld_rep.cargo_mem
  hits_nonneg := portWorld_rep.hits_nonneg
  ship_ok := portWorld_rep.ship_ok
  count_ok := portWorld_rep.count_ok

/-- Witness for C16: the city of `airfieldWorld` produces a fighter in record
2, the head of the free list; the range 32 of the kind fits the field. -/
theorem produce_makes_piece_witness :
    (Rep gameEnv airfieldWorld portShape ∧ airfieldWorld.free_list = some 2) ∧
    ∃ w2, produce gameEnv airfieldWorld 0 0 = .ok w2 ∧
      ¬ InList w2.object .piece_link w2.free_list 2 ∧
      (∀ y, y ≠ 2 → (InList w2.object .piece_link w2.free_list y ↔
        InList airfieldWorld.object .piece_link airfieldWorld.free_list y)) ∧
      (w2.object 2).type = (airfieldWorld.city 0).prod ∧
      (w2.object 2).owner = (airfieldWorld.city 0).owner ∧
      (w2.object 2).loc = (airfieldWorld.city 0).loc ∧
      (w2.object 2).hits = (gameEnv.piece_attr (airfieldWorld.city 0).prod).max_hits ∧
      (w2.object 2).moved = 0 ∧ (w2.object 2).count = 0 ∧
      (w2.object 2).cargo = none ∧ (w2.object 2).ship = none ∧
      (w2.object 2).range = to_short (gameEnv.piece_attr (airfieldWorld.city 0).prod).range ∧
      (-32768 ≤ (gameEnv.piece_attr (airfieldWorld.city 0).prod).range →
        (gameEnv.piece_attr (airfieldWorld.city 0).prod).range ≤ 32767 →
        (w2.object 2).range = (gameEnv.piece_attr (airfieldWorld.city 0).prod).range) ∧
      InList w2.object .piece_link
        (if (airfieldWorld.city 0).owner = gameEnv.USER
          then w2.user_obj (airfieldWorld.city 0).prod
          else w2.comp_obj (airfieldWorld.city 0).prod) 2 ∧
      InList w2.object .loc_link (w2.map (airfieldWorld.city 0).loc).objp 2 ∧
      (w2.city 0).work =
        (airfieldWorld.city 0).work -
          (gameEnv.piece_attr (airfieldWorld.city 0).prod).build_time :=
  ⟨⟨airfieldWorld_rep, rfl⟩,
    produce_makes_piece gameEnv airfieldWorld portShape 0 0 2 airfieldWorld_rep rfl⟩

theorem ferryWorld_rep : Rep ferryEnv ferryWorld ferryShape where
  piece_seg := by
    intro i
    cases i with
    | free => decide
    | user t =>
      by_cases h5 : t = 5
      · subst h5; decide
      · by_cases h0 : t = 0
        · subst h0; decide
        · simp [pieceHead, ferryWorld, ferryShape, h5, h0, Seg]
    | comp t => simp [pieceHead, ferryWorld, ferryShape, Seg]
  piece_nodup := by
    intro i
    cases i with
    | free => decide
    | user t => simp only [ferryShape]; split_ifs <;> decide
    | comp t => simp [ferryShape]
  cell_seg := by
    intro c
    by_cases h1 : c = 101
    · subst h1; decide
    · by_cases h2 : c = 102
      · subst h2; decide
      · by_cases h3 : c = 103
        · subst h3; decide
        · simp [cellHead, ferryWorld, ferryShape, h1, h2, h3, Seg]
  cell_nodup := by
    intro c; simp only [ferryShape]; split_ifs <;> decide
  cargo_seg := by
    intro x
    simp only [ferryShape, Seg, cargoHead, ferryWorld]
    split_ifs <;> rfl
  cargo_nodup := by
    intro x; simp [ferryShape]
  free_mem := by
    intro x
    simp only [ferryShape, ferryEnv, gameEnv, ferryWorld]
    constructor
    · intro h
      have : x = 3 := by simpa using h
      subst this; decide
    · rintro ⟨h1, h2⟩
      interval_cases x <;> simp_all [freeRec]
  user_mem := by
    intro t x
    simp only [ferryShape, ferryEnv, gameEnv, ferryWorld]
    constructor
    · intro h
      split_ifs at h with h5 h0
      · subst h5; simp at h; subst h; decide
      · subst h0; simp at h; rcases h with rfl | rfl <;> decide
      · simp at h
    · rintro ⟨h1, h2, h3, h4⟩
      interval_cases x <;> simp_all [freeRec]
      all_goals (subst_vars; decide)
  comp_mem := by
    intro t x
    simp only [ferryShape, ferryEnv, gameEnv, ferryWorld]
    constructor
    · intro h; simp at h
    · rintro ⟨h1, h2, h3, h4⟩
      interval_cases x <;> simp_all [freeRec]
  cell_mem := by
    intro c x
    simp only [ferryShape, ferryEnv, gameEnv, ferryWorld]
    constructor
    · intro h
      split_ifs at h with h1 h2 h3
      · subst h1; simp at h; subst h; decide
      · subst h2; simp at h; subst h; decide
      · subst h3; simp at h; subst h; decide
      · simp at h
    · rintro ⟨h1, h2, h3⟩
      interval_cases x <;> simp_all [freeRec] <;> subst_vars <;> decide
  cargo_mem := by
    intro x y
    simp only [ferryShape, ferryEnv, gameEnv, ferryWorld]
    constructor
    · intro h; simp at h
    · rintro ⟨h1, h2, h3⟩
      interval_cases y <;> simp_all [freeRec]
  hits_nonneg := by
    intro x hx
    simp only [ferryEnv, gameEnv] at hx
    interval_cases x <;> decide
  ship_ok := by
    intro y x hy h1 h2
    simp only [ferryEnv, gameEnv] at hy
    interval_cases y <;> simp [ferryWorld, freeRec] at h2
  count_ok := by
    intro x hx h1
    simp only [ferryEnv, gameEnv] at hx
    interval_cases x <;> simp_all [ferryWorld, ferryShape, freeRec]

/-! ## Cargo lists, ships and counters under the steps of `move_obj` -/

theorem RideFrame_refl (w : World) : RideFrame w w :=
  ⟨fun _ => rfl, fun _ => rfl, fun _ => rfl, fun _ => rfl, fun _ => rfl⟩

theorem RideFrame_trans {w w1 w2 : World} (h1 : RideFrame w w1) (h2 : RideFrame w1 w2) :
    RideFrame w w2 := by
  obtain ⟨a1, a2, a3, a4, a5⟩ := h1
  obtain ⟨b1, b2, b3, b4, b5⟩ := h2
  exact ⟨fun x => (b1 x).trans (a1 x), fun x => (b2 x).trans (a2 x),
    fun x => (b3 x).trans (a3 x), fun x => (b4 x).trans (a4 x), fun x => (b5 x).trans (a5 x)⟩

theorem RideFrame_setPiece (w : World) (x : Nat) (p : piece_info_t)
    (h1 : getL .cargo_link p = getL .cargo_link (w.object x))
    (h2 : p.cargo = (w.object x).cargo) (h3 : p.ship = (w.object x).ship)
    (h4 : p.count = (w.object x).count) (h5 : p.func = (w.object x).func) :
    RideFrame w (setPiece w x p) :=
  ⟨fun y => getL_setPiece w x p .cargo_link y h1,
    fun y => setPiece_field (fun q => q.cargo) w x p y h2,
    fun y => setPiece_field (fun q => q.ship) w x p y h3,
    fun y => setPiece_field (fun q => q.count) w x p y h4,
    fun y => setPiece_field (fun q => q.func) w x p y h5⟩

theorem RideFrame_UNLINK_objp (w : World) (c : Int) (a : Nat) :
    RideFrame w (UNLINK w (.objp c) a .loc_link) :=
  ⟨fun y => getL_UNLINK_w_ne _ _ _ _ _ y (by decide), cargo_UNLINK_objp _ _ _ _,
    UNLINK_ship _ _ _ _, UNLINK_count _ _ _ _, UNLINK_func _ _ _ _⟩

theorem RideFrame_LINK_objp (w : World) (c : Int) (a : Nat) :
    RideFrame w (LINK w (.objp c) a .loc_link) :=
  ⟨fun y => getL_LINK_w_ne _ _ _ _ _ y (by decide), cargo_LINK_objp _ _ _ _,
    LINK_ship _ _ _ _, LINK_count _ _ _ _, LINK_func _ _ _ _⟩

theorem RideFrame_of_same {w w1 w2 : World} (h1 : RideFrame w w1) (h2 : SameButViews w1 w2) :
    RideFrame w w2 := by
  obtain ⟨_, _, _, _, _, b6, _⟩ := h2
  unfold RideFrame
  rw [b6]
  exact h1

theorem move_cargo_loop_ride (A B : Int) :
    ∀ (fuel : Nat) (p : Ptr) (w w1 : World),
      move_cargo_loop A B fuel p w = .ok w1 → RideFrame w w1 := by
  intro fuel
  induction fuel with
  | zero =>
    intro p w w1 h
    cases p with
    | none =>
      have : w = w1 := Except.ok.inj h
      rw [this]; exact RideFrame_refl w1
    | some c => exact absurd h (by simp [move_cargo_loop])
  | succ fu ih =>
    intro p w w1 h
    cases p with
    | none =>
      have : w = w1 := Except.ok.inj h
      rw [this]; exact RideFrame_refl w1
    | some c =>
      rw [move_cargo_loop] at h
      have h2 := ih _ _ _ h
      refine RideFrame_trans (RideFrame_trans (RideFrame_trans ?_
        (RideFrame_UNLINK_objp _ A c)) (RideFrame_LINK_objp _ B c)) h2
      exact RideFrame_setPiece w c { w.object c with loc := B } rfl rfl rfl rfl rfl

theorem embark_ship (w : World) (sh obj x : Nat) :
    ((embark w sh obj).object x).ship = if x = obj then some sh else (w.object x).ship := by
  unfold embark
  refine (setPiece_field (fun p => p.ship) _ _ _ x ?_).trans ?_
  · rfl
  refine (LINK_ship _ _ _ _ x).trans ?_
  rw [setPiece_object]
  split_ifs <;> rfl

theorem embark_count (w : World) (sh obj x : Nat) :
    ((embark w sh obj).object x).count =
      if x = sh then (w.object x).count + 1 else (w.object x).count := by
  unfold embark
  rw [setPiece_object]
  split_ifs with h
  · subst h
    show ((LINK _ _ _ _).object x).count + 1 = _
    rw [LINK_count]
    congr 1
    exact setPiece_field (fun p => p.count) _ _ _ x rfl
  · rw [LINK_count]
    exact setPiece_field (fun p => p.count) _ _ _ x rfl

theorem Str_embark (n : Nat) (w : World) (s : Shape) (sh obj : Nat) (hS : Str n w s)
    (hno : ∀ j, obj ∉ s.cargo j) (hn : obj < n) :
    Str n (embark w sh obj) { s with cargo := upd s.cargo sh (obj :: s.cargo sh) } := by
  have h1 := Str_setPiece n w s obj { w.object obj with ship := some sh } hS
    (fun k => by cases k <;> rfl) rfl
  have h2 := Str_LINK_cargo n _ s sh obj h1 hno hn
  exact Str_setPiece n _ _ sh _ h2 (fun k => by cases k <;> rfl) rfl

theorem board_new_ship_spec (E : Env) (n fuel : Nat) (w : World) (f : Int → List Nat)
    (obj : Nat) (hF : Fam n w.object .loc_link (cellHead w) f) (hf : n ≤ fuel) :
    ∃ b : Option Nat,
      board_new_ship E fuel w obj = .ok (b.elim w (fun p => embark w p obj)) ∧
      (∀ t, b = some t → t ∈ f (w.object obj).loc ∧
        obj_capacity E (w.object t) > (w.object t).count ∧
        (((w.object obj).type = E.FIGHTER ∧ (w.map (w.object obj).loc).cityp = none ∧
            (w.object t).type = E.CARRIER) ∨
          ((w.object obj).type ≠ E.FIGHTER ∧ (w.object obj).type = E.ARMY ∧
            (w.object t).type = E.TRANSPORT))) ∧
      (b = none → (w.object obj).type ≠ E.FIGHTER → (w.object obj).type = E.ARMY →
        ∀ t, t ∈ f (w.object obj).loc →
          ¬ ((w.object t).type = E.TRANSPORT ∧
            obj_capacity E (w.object t) > (w.object t).count)) ∧
      ((w.object obj).type ≠ E.FIGHTER → (w.object obj).type ≠ E.ARMY → b = none) := by
  unfold board_new_ship
  by_cases h1 : (w.object obj).type = E.FIGHTER
  · rw [if_pos h1]
    by_cases h2 : (w.map (w.object obj).loc).cityp = none
    · rw [if_pos h2, find_nfull_eq E n fuel w f _ _ hF hf]
      cases hfind : List.find? (fun x => decide ((w.object x).type = E.CARRIER ∧
          obj_capacity E (w.object x) > (w.object x).count)) (f (w.object obj).loc) with
      | none =>
        exact ⟨none, rfl, fun t ht => absurd ht (by simp), fun _ hn => absurd h1 hn,
          fun hn => absurd h1 hn⟩
      | some p =>
        refine ⟨some p, rfl, ?_, fun hn => absurd hn (by simp), fun hn => absurd h1 hn⟩
        intro t ht
        have : p = t := Option.some.inj ht
        subst this
        have hp0 := List.find?_some hfind
        have hp1 : (w.object p).type = E.CARRIER ∧
            obj_capacity E (w.object p) > (w.object p).count := of_decide_eq_true hp0
        exact ⟨List.mem_of_find?_eq_some hfind, hp1.2, Or.inl ⟨h1, h2, hp1.1⟩⟩
    · rw [if_neg h2]
      exact ⟨none, rfl, fun t ht => absurd ht (by simp), fun _ hn => absurd h1 hn,
        fun hn => absurd h1 hn⟩
  · rw [if_neg h1]
    by_cases h3 : (w.object obj).type = E.ARMY
    · rw [if_pos h3, find_nfull_eq E n fuel w f _ _ hF hf]
      cases hfind : List.find? (fun x => decide ((w.object x).type = E.TRANSPORT ∧
          obj_capacity E (w.object x) > (w.object x).count)) (f (w.object obj).loc) with
      | none =>
        refine ⟨none, rfl, fun t ht => absurd ht (by simp), ?_, fun _ _ => rfl⟩
        intro _ _ _ t ht
        have := List.find?_eq_none.mp hfind t ht
        simpa using this
      | some p =>
        refine ⟨some p, rfl, ?_, fun hn => absurd hn (by simp), fun _ hn => absurd h3 hn⟩
        intro t ht
        have : p = t := Option.some.inj ht
        subst this
        have hp0 := List.find?_some hfind
        have hp1 : (w.object p).type = E.TRANSPORT ∧
            obj_capacity E (w.object p) > (w.object p).count := of_decide_eq_true hp0
        exact ⟨List.mem_of_find?_eq_some hfind, hp1.2, Or.inr ⟨h1, h3, hp1.1⟩⟩
    · rw [if_neg h3]
      exact ⟨none, rfl, fun t ht => absurd ht (by simp), fun _ _ hn => absurd hn h3,
        fun _ _ => rfl⟩

theorem obj_capacity_congr (E : Env) (p q : piece_info_t) (h1 : q.type = p.type)
    (h2 : q.hits = p.hits) : obj_capacity E q = obj_capacity E p := by
  unfold obj_capacity
  rw [h1, h2]

theorem obj_moves_congr (E : Env) (p q : piece_info_t) (h1 : q.type = p.type)
    (h2 : q.hits = p.hits) : obj_moves E q = obj_moves E p := by
  unfold obj_moves
  rw [h1, h2]

theorem move_obj_head_func (w : World) (obj : Nat) (A B : Int) (x : Nat) :
    ((move_obj_head w obj A B).object x).func = (w.object x).func := by
  unfold move_obj_head
  rw [LINK_func, UNLINK_func, disembark_func]
  refine (setPiece_field (fun q => q.func) _ _ _ x ?_).trans ?_
  · rfl
  refine (setPiece_field (fun q => q.func) _ _ _ x ?_).trans ?_
  · rfl
  exact setPiece_field (fun q => q.func) _ _ _ x rfl

theorem move_obj_head_ship (w : World) (obj : Nat) (A B : Int) (x : Nat) :
    ((move_obj_head w obj A B).object x).ship = if x = obj then none else (w.object x).ship := by
  unfold move_obj_head
  rw [LINK_ship, UNLINK_ship, disembark_ship]
  split_ifs with h
  · rfl
  · refine (setPiece_field (fun q => q.ship) _ _ _ x ?_).trans ?_
    · rfl
    refine (setPiece_field (fun q => q.ship) _ _ _ x ?_).trans ?_
    · rfl
    exact setPiece_field (fun q => q.ship) _ _ _ x rfl

theorem move_obj_head_count (w : World) (obj : Nat) (A B : Int) (x : Nat) :
    ((move_obj_head w obj A B).object x).count =
      if (w.object obj).ship = some x then (w.object x).count - 1 else (w.object x).count := by
  unfold move_obj_head
  rw [LINK_count, UNLINK_count, disembark_count]
  have e1 : ∀ y, ((setPiece (setPiece (setPiece w obj { w.object obj with
      moved := (w.object obj).moved + 1 }) obj
      { (setPiece w obj { w.object obj with moved := (w.object obj).moved + 1 }).object obj
        with loc := B }) obj
      { (setPiece (setPiece w obj { w.object obj with moved := (w.object obj).moved + 1 }) obj
      { (setPiece w obj { w.object obj with moved := (w.object obj).moved + 1 }).object obj
        with loc := B }).object obj with
    range := ((setPiece (setPiece w obj { w.object obj with
      moved := (w.object obj).moved + 1 }) obj
      { (setPiece w obj { w.object obj with moved := (w.object obj).moved + 1 }).object obj
        with loc := B }).object obj).range - 1 }).object y).ship = (w.object y).ship := by
    intro y
    refine (setPiece_field (fun q => q.ship) _ _ _ y ?_).trans ?_
    · rfl
    refine (setPiece_field (fun q => q.ship) _ _ _ y ?_).trans ?_
    · rfl
    exact setPiece_field (fun q => q.ship) _ _ _ y rfl
  have e2 : ∀ y, ((setPiece (setPiece (setPiece w obj { w.object obj with
      moved := (w.object obj).moved + 1 }) obj
      { (setPiece w obj { w.object obj with moved := (w.object obj).moved + 1 }).object obj
        with loc := B }) obj
      { (setPiece (setPiece w obj { w.object obj with moved := (w.object obj).moved + 1 }) obj
      { (setPiece w obj { w.object obj with moved := (w.object obj).moved + 1 }).object obj
        with loc := B }).object obj with
    range := ((setPiece (setPiece w obj { w.object obj with
      moved := (w.object obj).moved + 1 }) obj
      { (setPiece w obj { w.object obj with moved := (w.object obj).moved + 1 }).object obj
        with loc := B }).object obj).range - 1 }).object y).count = (w.object y).count := by
    intro y
    refine (setPiece_field (fun q => q.count) _ _ _ y ?_).trans ?_
    · rfl
    refine (setPiece_field (fun q => q.count) _ _ _ y ?_).trans ?_
    · rfl
    exact setPiece_field (fun q => q.count) _ _ _ y rfl
  rw [e1 obj, e2 x]

theorem move_obj_head_cityp (w : World) (obj : Nat) (A B : Int) (c : Int) :
    ((move_obj_head w obj A B).map c).cityp = (w.map c).cityp := by
  unfold move_obj_head
  rw [LINK_cityp, UNLINK_cityp, disembark_map]
  rfl

theorem Str_of_same {n : Nat} {w w2 : World} {s : Shape} (h : SameButViews w w2)
    (hS : Str n w s) : Str n w2 s := by
  obtain ⟨b1, _, b3, b4, b5, b6, _⟩ := h
  have hp : pieceHead w2 = pieceHead w := by
    funext i
    cases i with
    | free => exact b3
    | user t => show w2.user_obj t = w.user_obj t; rw [b4]
    | comp t => show w2.comp_obj t = w.comp_obj t; rw [b5]
  have hc : cellHead w2 = cellHead w := by
    funext c; unfold cellHead; rw [b1]
  have hg : cargoHead w2 = cargoHead w := by
    funext x; unfold cargoHead; rw [b6]
  exact ⟨by rw [hp, b6]; exact hS.pieces, by rw [hc, b6]; exact hS.cells,
    by rw [hg, b6]; exact hS.cargos⟩

theorem move_obj_full (E : Env) (fuel : Nat) (w : World) (s : Shape) (obj : Nat) (B : Int)
    (hR : Rep E w s) (hobj : obj < E.LIST_SIZE) (hlive : 0 < (w.object obj).hits)
    (hB : (w.map B).on_board = true) (hAB : (w.object obj).loc ≠ B)
    (hf : E.LIST_SIZE ≤ fuel) :
    ∃ w9 s9 b, move_obj E fuel w obj B = .ok w9 ∧ Moved E w s obj B w9 s9 b := by
  have hS := hR.toStr
  have hS6 := Str_move_obj_head E w s obj B hR hobj hlive
  have hseg := hS6.cargos.seg obj
  have hno : obj ∉ s.cargo obj := by
    intro hm
    obtain ⟨q1, q2, q3⟩ := (hR.cargo_mem obj obj).mp hm
    have := (hR.ship_ok obj obj q1 q2 q3).2.2.2.2
    have hnil := hR.cargo_nil obj this
    rw [hnil] at hm
    exact absurd hm (List.not_mem_nil obj)
  have hLeq : (s.cargo obj).erase obj = s.cargo obj := List.erase_of_not_mem hno
  have hseg2 : Seg (move_obj_head w obj (w.object obj).loc B).object .cargo_link none
      (cargoHead (move_obj_head w obj (w.object obj).loc B) obj) (s.cargo obj) := by
    have := hseg
    change Seg _ _ _ _ ((s.cargo obj).erase obj) at this
    rw [hLeq] at this
    exact this
  have hcA : obj ∈ s.cell (w.object obj).loc := (hR.cell_mem _ obj).mpr ⟨hobj, hlive, rfl⟩
  have hmemL : ∀ x, x ∈ s.cargo obj →
      x ∈ upd (upd s.cell (w.object obj).loc ((s.cell (w.object obj).loc).erase obj)) B
        (obj :: upd s.cell (w.object obj).loc ((s.cell (w.object obj).loc).erase obj) B)
        (w.object obj).loc := by
    intro x hxm
    rw [upd_ne _ _ _ _ hAB, upd_same]
    have hxo : x ≠ obj := fun e => hno (e ▸ hxm)
    obtain ⟨q1, q2, q3⟩ := (hR.cargo_mem obj x).mp hxm
    obtain ⟨_, _, q4, _, _⟩ := hR.ship_ok x obj q1 q2 q3
    exact (List.mem_erase_of_ne hxo).mpr ((hR.cell_mem _ x).mpr ⟨q1, q2, q4.symm⟩)
  obtain ⟨w7, f7, k1, k2, k3, k4, k5⟩ := move_cargo_loop_ok E.LIST_SIZE (w.object obj).loc B
    hAB (s.cargo obj) fuel (move_obj_head w obj (w.object obj).loc B)
    (upd (upd s.cell (w.object obj).loc ((s.cell (w.object obj).loc).erase obj)) B
      (obj :: upd s.cell (w.object obj).loc ((s.cell (w.object obj).loc).erase obj) B)) none _
    hS6.cells hseg2 (hR.cargo_nodup obj) hmemL
    (le_trans (Fam_length_le _ _ _ _ _ hS.cargos obj) hf)
  have hride := move_cargo_loop_ride _ _ _ _ _ _ k1
  obtain ⟨r1, r2, r3, r4, r5⟩ := hride
  obtain ⟨g1, g2, g3, g4, g5, g6, g7, g8, g9⟩ := k5
  -- membership in the cells after the cargo loop
  have hcell : ∀ c x, x ∈ f7 c ↔
      if x = obj ∨ x ∈ s.cargo obj then c = B else x ∈ s.cell c := by
    intro c x
    rw [k3 c x]
    by_cases h1 : x ∈ s.cargo obj
    · simp [h1]
    · rw [if_neg h1]
      by_cases h2 : x = obj
      · subst h2
        simp only [true_or, if_true]
        by_cases hcB : c = B
        · subst hcB; rw [upd_same]; simp
        · rw [upd_ne _ _ _ _ hcB, upd_apply]
          split_ifs with hcA2
          · exact ⟨fun h => absurd h (List.Nodup.not_mem_erase (hR.cell_nodup _)),
              fun h => absurd h hcB⟩
          · exact ⟨fun h => absurd (hS.cells.disj _ _ x h hcA) hcA2, fun h => absurd h hcB⟩
      · have h3 : ¬ (x = obj ∨ x ∈ s.cargo obj) := by
          rintro (e | e)
          · exact h2 e
          · exact h1 e
        rw [if_neg h3]
        by_cases hcB : c = B
        · subst hcB
          rw [upd_same, upd_ne _ _ _ _ (fun e => hAB e.symm)]
          simp [h2]
        · rw [upd_ne _ _ _ _ hcB, upd_apply]
          split_ifs with hcA2
          · subst hcA2; exact List.mem_erase_of_ne h2
          · exact Iff.rfl
  have hloc7 : ∀ x, (w7.object x).loc =
      if x = obj ∨ x ∈ s.cargo obj then B else (w.object x).loc := by
    intro x
    rw [k4, move_obj_head_loc]
    by_cases h1 : x ∈ s.cargo obj
    · simp [h1]
    · by_cases h2 : x = obj
      · simp [h2]
      · simp [h1, h2]
  -- the lists after the cargo loop
  have hS7 : Str E.LIST_SIZE w7
      { piece := s.piece, cell := f7, cargo := fun x => (s.cargo x).erase obj } := by
    refine ⟨?_, k2, ?_⟩
    · show Fam _ _ _ (pieceHead w7) s.piece
      rw [g7]
      exact Fam_of_getL _ _ _ _ _ _ hS6.pieces g6
    · exact Fam_congr _ _ _ _ _ (cargoHead w7) _ hS6.cargos r1 r2
  -- boarding
  obtain ⟨b, c1, c2, c3, c4⟩ := board_new_ship_spec E E.LIST_SIZE fuel w7 f7 obj k2 hf
  have hnoc : ∀ j, obj ∉ (s.cargo j).erase obj :=
    fun j => List.Nodup.not_mem_erase (hR.cargo_nodup j)
  have hS8 : Str E.LIST_SIZE (b.elim w7 (fun p => embark w7 p obj))
      { piece := s.piece, cell := f7,
        cargo := fun x =>
          if b = some x then obj :: (s.cargo x).erase obj else (s.cargo x).erase obj } := by
    cases b with
    | none =>
      refine Str_shape_eq hS7 rfl rfl ?_
      funext x
      simp
    | some t =>
      have := Str_embark _ w7 _ t obj hS7 hnoc hobj
      refine Str_shape_eq this rfl rfl ?_
      funext x
      show (if some t = some x then obj :: (s.cargo x).erase obj else (s.cargo x).erase obj)
        = upd (fun x => (s.cargo x).erase obj) t (obj :: (s.cargo t).erase obj) x
      rw [upd_apply]
      by_cases e : x = t
      · subst e; simp
      · rw [if_neg e, if_neg (fun h => e (Option.some.inj h).symm)]
  have e8hits : ∀ x, ((b.elim w7 (fun p => embark w7 p obj)).object x).hits
      = (w7.object x).hits := by
    intro x; cases b with
    | none => rfl
    | some t => exact embark_hits _ _ _ _
  have e8owner : ∀ x, ((b.elim w7 (fun p => embark w7 p obj)).object x).owner
      = (w7.object x).owner := by
    intro x; cases b with
    | none => rfl
    | some t => exact embark_owner _ _ _ _
  have e8type : ∀ x, ((b.elim w7 (fun p => embark w7 p obj)).object x).type
      = (w7.object x).type := by
    intro x; cases b with
    | none => rfl
    | some t => exact embark_type _ _ _ _
  have e8func : ∀ x, ((b.elim w7 (fun p => embark w7 p obj)).object x).func
      = (w7.object x).func := by
    intro x; cases b with
    | none => rfl
    | some t => exact embark_func _ _ _ _
  have e8loc : ∀ x, ((b.elim w7 (fun p => embark w7 p obj)).object x).loc
      = (w7.object x).loc := by
    intro x; cases b with
    | none => rfl
    | some t => exact embark_loc _ _ _ _
  have e8moved : ∀ x, ((b.elim w7 (fun p => embark w7 p obj)).object x).moved
      = (w7.object x).moved := by
    intro x; cases b with
    | none => rfl
    | some t => exact embark_moved _ _ _ _
  have e8range : ∀ x, ((b.elim w7 (fun p => embark w7 p obj)).object x).range
      = (w7.object x).range := by
    intro x; cases b with
    | none => rfl
    | some t => exact embark_range _ _ _ _
  have e8map : (b.elim w7 (fun p => embark w7 p obj)).map = w7.map := by
    cases b with
    | none => rfl
    | some t => exact embark_map _ _ _
  have e8ship : ∀ x, ((b.elim w7 (fun p => embark w7 p obj)).object x).ship
      = if x = obj then b else (w.object x).ship := by
    intro x
    cases b with
    | none =>
      show (w7.object x).ship = _
      rw [r3, move_obj_head_ship]
    | some t =>
      show ((embark w7 t obj).object x).ship = _
      rw [embark_ship, r3, move_obj_head_ship]
      split_ifs <;> rfl
  have e8count : ∀ x, ((b.elim w7 (fun p => embark w7 p obj)).object x).count
      = (if (w.object obj).ship = some x then (w.object x).count - 1 else (w.object x).count) +
        (if b = some x then 1 else 0) := by
    intro x
    cases b with
    | none =>
      show (w7.object x).count = _
      rw [r4, move_obj_head_count]
      simp
    | some t =>
      show ((embark w7 t obj).object x).count = _
      rw [embark_count, r4, move_obj_head_count]
      by_cases e : x = t
      · subst e; simp
      · rw [if_neg e, if_neg (fun h => e (Option.some.inj h).symm)]
        simp
  -- the scans
  have hb8 : ((b.elim w7 (fun p => embark w7 p obj)).map
      ((b.elim w7 (fun p => embark w7 p obj)).object obj).loc).on_board = true := by
    rw [e8loc, hloc7 obj, if_pos (Or.inl rfl), e8map, g8, move_obj_head_on_board]
    exact hB
  have hsc8 : Scannable fuel (b.elim w7 (fun p => embark w7 p obj)) :=
    hS8.scannable fuel hf
  obtain ⟨w9, d1, d2⟩ := move_obj_scan_ok E fuel _ (MAP E (w.object obj).owner) obj hsc8 hb8
  have hobj9 : w9.object = (b.elim w7 (fun p => embark w7 p obj)).object := d2.2.2.2.2.2.1
  have hmap9 : w9.map = w7.map := d2.1.trans e8map
  have hcap : ∀ t, obj_capacity E (w7.object t) = obj_capacity E (w.object t) := by
    intro t
    refine obj_capacity_congr E _ _ ?_ ?_
    · rw [g3, move_obj_head_type]
    · rw [g1, move_obj_head_hits]
  have hcount7 : ∀ t, (w7.object t).count =
      if (w.object obj).ship = some t then (w.object t).count - 1 else (w.object t).count := by
    intro t; rw [r4, move_obj_head_count]
  have htype7 : ∀ t, (w7.object t).type = (w.object t).type := by
    intro t; rw [g3, move_obj_head_type]
  refine ⟨w9, Shape.mk s.piece f7 (fun x =>
    if b = some x then obj :: (s.cargo x).erase obj else (s.cargo x).erase obj), b, ?_, ?_⟩
  · rw [move_obj_unfold E fuel w obj B (ne_of_gt hlive)]
    unfold cargoHead at k1
    rw [k1]
    simp only [c1]
    exact d1
  · refine
      { str := Str_of_same d2 hS8
        piece_eq := rfl
        cell_mem := hcell
        cargo_eq := fun _ => rfl
        loc := ?_
        hits := ?_
        owner := ?_
        type := ?_
        func := ?_
        moved := ?_
        range := ?_
        ship := ?_
        count := ?_
        on_board := ?_
        cityp := ?_
        boarded := ?_
        ashore := ?_
        other := ?_ }
    · intro x; rw [hobj9, e8loc]; exact hloc7 x
    · intro x; rw [hobj9, e8hits, g1, move_obj_head_hits]
    · intro x; rw [hobj9, e8owner, g2, move_obj_head_owner]
    · intro x; rw [hobj9, e8type, g3, move_obj_head_type]
    · intro x; rw [hobj9, e8func, r5, move_obj_head_func]
    · intro x; rw [hobj9, e8moved, g4, move_obj_head_moved]
    · intro x; rw [hobj9, e8range, g5, move_obj_head_range]
    · intro x; rw [hobj9]; exact e8ship x
    · intro x; rw [hobj9]; exact e8count x
    · intro c; rw [hmap9, g8, move_obj_head_on_board]
    · intro c; rw [hmap9, g9, move_obj_head_cityp]
    · intro t ht
      obtain ⟨q1, q2, q3⟩ := c2 t ht
      rw [hloc7 obj, if_pos (Or.inl rfl)] at q1 q3
      rw [hcap, hcount7] at q2
      rw [htype7, htype7, g9, move_obj_head_cityp] at q3
      exact ⟨q1, q2, q3⟩
    · intro hb h1 h2 t ht
      have := c3 hb (by rw [htype7]; exact h1) (by rw [htype7]; exact h2) t
        (by rw [hloc7 obj, if_pos (Or.inl rfl)]; exact ht)
      rw [htype7, hcap, hcount7] at this
      exact this
    · intro h1 h2
      exact c4 (by rw [htype7]; exact h1) (by rw [htype7]; exact h2)

/-! ## `move_obj` keeps the state well formed -/

theorem Moved_cell_mem {E : Env} {w : World} {s : Shape} {obj : Nat} {B : Int} {w9 : World}
    {s9 : Shape} {b : Option Nat} (hR : Rep E w s) (hM : Moved E w s obj B w9 s9 b)
    (hobj : obj < E.LIST_SIZE) (hlive : 0 < (w.object obj).hits) (c : Int) (x : Nat) :
    x ∈ s9.cell c ↔ x < E.LIST_SIZE ∧ 0 < (w9.object x).hits ∧ (w9.object x).loc = c := by
  rw [hM.cell_mem, hM.hits, hM.loc]
  by_cases hx : x = obj ∨ x ∈ s.cargo obj
  · rw [if_pos hx, if_pos hx]
    have hxl : x < E.LIST_SIZE ∧ 0 < (w.object x).hits := by
      rcases hx with e | e
      · rw [e]; exact ⟨hobj, hlive⟩
      · have := (hR.cargo_mem obj x).mp e
        exact ⟨this.1, this.2.1⟩
    exact ⟨fun h => ⟨hxl.1, hxl.2, h.symm⟩, fun h => h.2.2.symm⟩
  · rw [if_neg hx, if_neg hx]
    exact hR.cell_mem c x

theorem Moved_cargo_mem {E : Env} {w : World} {s : Shape} {obj : Nat} {B : Int} {w9 : World}
    {s9 : Shape} {b : Option Nat} (hR : Rep E w s) (hM : Moved E w s obj B w9 s9 b)
    (hobj : obj < E.LIST_SIZE) (hlive : 0 < (w.object obj).hits) (x y : Nat) :
    y ∈ s9.cargo x ↔
      y < E.LIST_SIZE ∧ 0 < (w9.object y).hits ∧ (w9.object y).ship = some x := by
  rw [hM.cargo_eq, hM.hits, hM.ship]
  have hne : obj ∉ (s.cargo x).erase obj := List.Nodup.not_mem_erase (hR.cargo_nodup x)
  by_cases hy : y = obj
  · subst hy
    rw [if_pos rfl]
    by_cases hb : b = some x
    · rw [if_pos hb]
      exact ⟨fun _ => ⟨hobj, hlive, hb⟩, fun _ => List.mem_cons_self _ _⟩
    · rw [if_neg hb]
      exact ⟨fun h => absurd h hne, fun h => absurd h.2.2 hb⟩
  · rw [if_neg hy]
    have : y ∈ (if b = some x then obj :: (s.cargo x).erase obj else (s.cargo x).erase obj) ↔
        y ∈ s.cargo x := by
      split_ifs
      · rw [List.mem_cons]
        constructor
        · rintro (h | h)
          · exact absurd h hy
          · exact List.mem_of_mem_erase h
        · exact fun h => Or.inr ((List.mem_erase_of_ne hy).mpr h)
      · exact List.mem_erase_of_ne hy
    rw [this]
    exact hR.cargo_mem x y

theorem Moved_rep {E : Env} {w : World} {s : Shape} {obj : Nat} {B : Int} {w9 : World}
    {s9 : Shape} {b : Option Nat} (hR : Rep E w s) (hM : Moved E w s obj B w9 s9 b)
    (hobj : obj < E.LIST_SIZE) (hlive : 0 < (w.object obj).hits)
    (hb : ∀ t, b = some t → t ≠ obj ∧ (w.object t).owner = (w.object obj).owner ∧
      (w.object t).ship = none ∧ (w.object obj).cargo = none) :
    Rep E w9 s9 := by
  have hcm := Moved_cell_mem hR hM hobj hlive
  have hgm := Moved_cargo_mem hR hM hobj hlive
  have hcargo9 : ∀ y, s9.cargo y = [] → (w9.object y).cargo = none := by
    intro y hy
    have := hM.str.cargos.seg y
    rw [hy] at this
    exact this
  refine
    { piece_seg := hM.str.pieces.seg
      piece_nodup := hM.str.pieces.nodup
      cell_seg := hM.str.cells.seg
      cell_nodup := hM.str.cells.nodup
      cargo_seg := hM.str.cargos.seg
      cargo_nodup := hM.str.cargos.nodup
      free_mem := ?_
      user_mem := ?_
      comp_mem := ?_
      cell_mem := hcm
      cargo_mem := hgm
      hits_nonneg := ?_
      ship_ok := ?_
      count_ok := ?_ }
  · intro x
    rw [hM.piece_eq, hM.hits]
    exact hR.free_mem x
  · intro t x
    rw [hM.piece_eq, hM.hits, hM.owner, hM.type]
    exact hR.user_mem t x
  · intro t x
    rw [hM.piece_eq, hM.hits, hM.owner, hM.type]
    exact hR.comp_mem t x
  · intro x hx
    rw [hM.hits]
    exact hR.hits_nonneg x hx
  · intro y x hy hly hsh
    rw [hM.hits] at hly
    rw [hM.ship] at hsh
    by_cases hyo : y = obj
    · subst hyo
      rw [if_pos rfl] at hsh
      obtain ⟨q1, q2, q3, q4⟩ := hb x hsh
      obtain ⟨p1, _, _⟩ := hM.boarded x hsh
      obtain ⟨a1, a2, a3⟩ := (hcm B x).mp p1
      have hlo : (w9.object y).loc = B := by rw [hM.loc, if_pos (Or.inl rfl)]
      refine ⟨a1, a2, a3.trans hlo.symm, ?_, ?_⟩
      · rw [hM.owner, hM.owner]; exact q2
      · refine hcargo9 y ?_
        rw [hM.cargo_eq, if_neg (by rw [hsh]; exact fun e => q1 (Option.some.inj e)),
          hR.cargo_nil y q4]
        rfl
    · rw [if_neg hyo] at hsh
      obtain ⟨p1, p2, p3, p4, p5⟩ := hR.ship_ok y x hy hly hsh
      have hyx : y ∈ s.cargo x := (hR.cargo_mem x y).mpr ⟨hy, hly, hsh⟩
      have hlocs : (w9.object x).loc = (w9.object y).loc := by
        rw [hM.loc, hM.loc]
        by_cases hxo : x = obj
        · subst hxo
          rw [if_pos (Or.inl rfl), if_pos (Or.inr hyx)]
        · have hx1 : x ∉ s.cargo obj := by
            intro hm
            obtain ⟨r1, r2, r3⟩ := (hR.cargo_mem obj x).mp hm
            have := (hR.ship_ok x obj r1 r2 r3).2.2.2.2
            rw [hR.cargo_nil x this] at hyx
            exact absurd hyx (List.not_mem_nil y)
          have hy1 : y ∉ s.cargo obj := by
            intro hm
            have := ((hR.cargo_mem obj y).mp hm).2.2
            rw [hsh] at this
            exact hxo (Option.some.inj this)
          rw [if_neg (by rintro (e | e); exact hxo e; exact hx1 e),
            if_neg (by rintro (e | e); exact hyo e; exact hy1 e)]
          exact p3
      refine ⟨p1, by rw [hM.hits]; exact p2, hlocs, by rw [hM.owner, hM.owner]; exact p4, ?_⟩
      refine hcargo9 y ?_
      have hby : b ≠ some y := by
        intro e
        have := (hb y e).2.2.1
        rw [hsh] at this
        exact absurd this (by simp)
      rw [hM.cargo_eq, if_neg hby, hR.cargo_nil y p5]
      rfl
  · intro x hx hlx
    rw [hM.hits] at hlx
    rw [hM.count, hM.cargo_eq, hR.count_ok x hx hlx]
    have hmem : obj ∈ s.cargo x ↔ (w.object obj).ship = some x := by
      rw [hR.cargo_mem x obj]
      exact ⟨fun h => h.2.2, fun h => ⟨hobj, hlive, h⟩⟩
    have hlen : (((s.cargo x).erase obj).length : Int) =
        if (w.object obj).ship = some x then ((s.cargo x).length : Int) - 1
        else ((s.cargo x).length : Int) := by
      by_cases hm : obj ∈ s.cargo x
      · rw [if_pos (hmem.mp hm), List.length_erase_of_mem hm]
        have := List.length_pos_of_mem hm
        omega
      · rw [if_neg (fun e => hm (hmem.mpr e)), List.erase_of_not_mem hm]
    by_cases hbx : b = some x
    · rw [if_pos hbx, if_pos hbx, List.length_cons]
      push_cast
      rw [hlen]
    · rw [if_neg hbx, if_neg hbx, hlen]
      simp

/-! ## Cargo travels with its carrier -/

theorem Moved_ship_loc {E : Env} {w : World} {s : Shape} {obj : Nat} {B : Int} {w9 : World}
    {s9 : Shape} {b : Option Nat} (hR : Rep E w s) (hM : Moved E w s obj B w9 s9 b)
    (hobj : obj < E.LIST_SIZE) (hlive : 0 < (w.object obj).hits) (y x : Nat)
    (hy : y < E.LIST_SIZE) (hly : 0 < (w9.object y).hits)
    (hsh : (w9.object y).ship = some x) : (w9.object y).loc = (w9.object x).loc := by
  rw [hM.hits] at hly
  rw [hM.ship] at hsh
  by_cases hyo : y = obj
  · subst hyo
    rw [if_pos rfl] at hsh
    obtain ⟨p1, _, _⟩ := hM.boarded x hsh
    obtain ⟨_, _, a3⟩ := (Moved_cell_mem hR hM hobj hlive B x).mp p1
    rw [a3, hM.loc, if_pos (Or.inl rfl)]
  · rw [if_neg hyo] at hsh
    obtain ⟨_, _, p3, _, _⟩ := hR.ship_ok y x hy hly hsh
    have hyx : y ∈ s.cargo x := (hR.cargo_mem x y).mpr ⟨hy, hly, hsh⟩
    rw [hM.loc, hM.loc]
    by_cases hxo : x = obj
    · subst hxo
      rw [if_pos (Or.inl rfl), if_pos (Or.inr hyx)]
    · have hx1 : x ∉ s.cargo obj := by
        intro hm
        obtain ⟨r1, r2, r3⟩ := (hR.cargo_mem obj x).mp hm
        have := (hR.ship_ok x obj r1 r2 r3).2.2.2.2
        rw [hR.cargo_nil x this] at hyx
        exact absurd hyx (List.not_mem_nil y)
      have hy1 : y ∉ s.cargo obj := by
        intro hm
        have := ((hR.cargo_mem obj y).mp hm).2.2
        rw [hsh] at this
        exact hxo (Option.some.inj this)
      rw [if_neg (by rintro (e | e); exact hyo e; exact hy1 e),
        if_neg (by rintro (e | e); exact hxo e; exact hx1 e)]
      exact p3.symm

/-- C17: in a well-formed state, `move_obj` of a live piece of the pool to
an on-board cell other than its own returns, and afterwards every member of
the cargo list of the piece still has the piece as its `ship` and is a member
of its cargo list, has the new cell as its `loc`, is a member of the location
list of the new cell and not of the old one, and has its `moved` and `range`
unchanged; and every embarked live piece of the pool has the `loc` of its
ship. -/
theorem move_obj_carries_cargo (E : Env) (fuel : Nat) (w : World) (s : Shape) (obj : Nat)
    (new_loc : Int) (hR : Rep E w s) (hobj : obj < E.LIST_SIZE)
    (hlive : 0 < (w.object obj).hits) (hB : (w.map new_loc).on_board = true)
    (hAB : (w.object obj).loc ≠ new_loc) (hf : E.LIST_SIZE ≤ fuel) :
    ∃ w2, move_obj E fuel w obj new_loc = .ok w2 ∧
      (∀ y, InList w.object .cargo_link (w.object obj).cargo y →
        (w2.object y).ship = some obj ∧
        InList w2.object .cargo_link (w2.object obj).cargo y ∧
        (w2.object y).loc = new_loc ∧
        InList w2.object .loc_link (w2.map new_loc).objp y ∧
        ¬ InList w2.object .loc_link (w2.map (w.object obj).loc).objp y ∧
        (w2.object y).moved = (w.object y).moved ∧
        (w2.object y).range = (w.object y).range) ∧
      ∀ y x, y < E.LIST_SIZE → 0 < (w2.object y).hits → (w2.object y).ship = some x →
        (w2.object y).loc = (w2.object x).loc := by
  obtain ⟨w9, s9, b, h1, hM⟩ := move_obj_full E fuel w s obj new_loc hR hobj hlive hB hAB hf
  refine ⟨w9, h1, ?_, fun y x => Moved_ship_loc hR hM hobj hlive y x⟩
  intro y hy
  have hym : y ∈ s.cargo obj := (InList_iff_mem _ _ none _ _ y (hR.cargo_seg obj)).mp hy
  obtain ⟨q1, q2, q3⟩ := (hR.cargo_mem obj y).mp hym
  have hyo : y ≠ obj := by
    intro e
    rw [e] at hym q3
    have := (hR.ship_ok obj obj hobj hlive q3).2.2.2.2
    rw [hR.cargo_nil obj this] at hym
    exact absurd hym (List.not_mem_nil obj)
  refine ⟨?_, ?_, ?_, ?_, ?_, ?_, ?_⟩
  · rw [hM.ship, if_neg hyo]; exact q3
  · refine (InList_iff_mem _ _ none _ _ y (hM.str.cargos.seg obj)).mpr ?_
    rw [hM.cargo_eq]
    have : y ∈ (s.cargo obj).erase obj := (List.mem_erase_of_ne hyo).mpr hym
    split_ifs
    · exact List.mem_cons_of_mem _ this
    · exact this
  · rw [hM.loc, if_pos (Or.inr hym)]
  · refine (InList_iff_mem _ _ none _ _ y (hM.str.cells.seg new_loc)).mpr ?_
    rw [hM.cell_mem, if_pos (Or.inr hym)]
  · intro h
    have := (InList_iff_mem _ _ none _ _ y (hM.str.cells.seg (w.object obj).loc)).mp h
    rw [hM.cell_mem, if_pos (Or.inr hym)] at this
    exact hAB this
  · rw [hM.moved, if_neg hyo]
  · rw [hM.range, if_neg hyo]

/-- Witness for C17: the transport of `portWorld`, with its army aboard,
sails from cell 101 to cell 102. -/
theorem move_obj_carries_cargo_witness :
    (Rep gameEnv portWorld portShape ∧ 0 < gameEnv.LIST_SIZE ∧
      0 < (portWorld.object 0).hits ∧ (portWorld.map 102).on_board = true ∧
      (portWorld.object 0).loc ≠ 102 ∧ gameEnv.LIST_SIZE ≤ 4) ∧
    ∃ w2, move_obj gameEnv 4 portWorld 0 102 = .ok w2 ∧
      (∀ y, InList portWorld.object .cargo_link (portWorld.object 0).cargo y →
        (w2.object y).ship = some 0 ∧
        InList w2.object .cargo_link (w2.object 0).cargo y ∧
        (w2.object y).loc = 102 ∧
        InList w2.object .loc_link (w2.map 102).objp y ∧
        ¬ InList w2.object .loc_link (w2.map (portWorld.object 0).loc).objp y ∧
        (w2.object y).moved = (portWorld.object y).moved ∧
        (w2.object y).range = (portWorld.object y).range) ∧
      ∀ y x, y < gameEnv.LIST_SIZE → 0 < (w2.object y).hits → (w2.object y).ship = some x →
        (w2.object y).loc = (w2.object x).loc :=
  ⟨⟨portWorld_rep, by decide, by decide, by decide, by decide, by decide⟩,
    move_obj_carries_cargo gameEnv 4 portWorld portShape 0 102 portWorld_rep (by decide)
      (by decide) (by decide) (by decide) (by decide)⟩

/-! ## Boarding on arrival -/

/-- C11 as stated fails: in the well-formed state `mixedWorld` the user's
army (record 2) moves to cell 102, whose location list starts with a
non-full transport of the computer (record 0); `move_obj` embarks the army
on that transport, whose owner is not the army's. -/
theorem move_obj_boards_enemy_transport :
    Rep gameEnv mixedWorld mixedShape ∧
      (mixedWorld.object 2).type = gameEnv.ARMY ∧ 0 < (mixedWorld.object 2).hits ∧
      ∃ w2, move_obj gameEnv 4 mixedWorld 2 102 = .ok w2 ∧
        (w2.object 2).ship = some 0 ∧
        InList w2.object .cargo_link (w2.object 0).cargo 2 ∧
        (w2.object 0).owner ≠ (w2.object 2).owner := by
  refine ⟨mixedWorld_rep, by decide, by decide, ?_⟩
  obtain ⟨w2, h1, h2⟩ := ok_of_check (move_obj gameEnv 4 mixedWorld 2 102)
    (fun w => decide ((w.object 2).ship = some 0 ∧
      walk w.object .cargo_link 0 (w.object 0).cargo = some 2 ∧
      (w.object 0).owner ≠ (w.object 2).owner))
    (by rfl)
  obtain ⟨k1, k2, k3⟩ := of_decide_eq_true h2
  exact ⟨w2, h1, k1, ⟨0, k2⟩, k3⟩

/-- The facts about an army that arrives at `B`: the ship boarded is a
non-full transport of the location list of `B` in the state before, and one
is boarded whenever there is one. -/
theorem Moved_army {E : Env} {w : World} {s : Shape} {obj : Nat} {B : Int} {w9 : World}
    {s9 : Shape} {b : Option Nat} (hR : Rep E w s) (hM : Moved E w s obj B w9 s9 b)
    (hobj : obj < E.LIST_SIZE) (hlive : 0 < (w.object obj).hits)
    (harmy : (w.object obj).type = E.ARMY) (hAF : E.ARMY ≠ E.FIGHTER)
    (hAT : E.ARMY ≠ E.TRANSPORT) (hcargo : (w.object obj).cargo = none)
    (hAB : (w.object obj).loc ≠ B) :
    (∀ t, b = some t → t ∈ s.cell B ∧ t ≠ obj ∧ (w.object t).type = E.TRANSPORT ∧
      obj_capacity E (w.object t) > (w.object t).count ∧
      (w.object obj).ship ≠ some t) ∧
    ((∃ t, t ∈ s.cell B ∧ (w.object t).type = E.TRANSPORT ∧
      obj_capacity E (w.object t) > (w.object t).count) → ∃ t, b = some t) := by
  have hnil : s.cargo obj = [] := hR.cargo_nil obj hcargo
  have hnF : (w.object obj).type ≠ E.FIGHTER := by rw [harmy]; exact hAF
  have hnotship : ∀ t, t ∈ s.cell B → (w.object obj).ship ≠ some t := by
    intro t ht e
    have h1 := ((hR.cell_mem B t).mp ht).2.2
    have h2 := (hR.ship_ok obj t hobj hlive e).2.2.1
    exact hAB (h2.symm.trans h1)
  have hcell : ∀ t, (w.object t).type = E.TRANSPORT → (t ∈ s9.cell B ↔ t ∈ s.cell B) := by
    intro t ht
    rw [hM.cell_mem, hnil]
    have hto : t ≠ obj := by
      intro e
      rw [e, harmy] at ht
      exact hAT ht
    rw [if_neg (by rintro (e | e); exact hto e; exact absurd e (List.not_mem_nil t))]
  constructor
  · intro t ht
    obtain ⟨q1, q2, q3⟩ := hM.boarded t ht
    have htt : (w.object t).type = E.TRANSPORT := by
      rcases q3 with q | q
      · exact absurd q.1 hnF
      · exact q.2.2
    have hts : t ∈ s.cell B := (hcell t htt).mp q1
    have hns := hnotship t hts
    rw [if_neg hns] at q2
    refine ⟨hts, ?_, htt, q2, hns⟩
    intro e
    rw [e, harmy] at htt
    exact hAT htt
  · rintro ⟨t, ht1, ht2, ht3⟩
    cases hb : b with
    | some t2 => exact ⟨t2, rfl⟩
    | none =>
      have := hM.ashore hb hnF harmy t ((hcell t ht2).mpr ht1)
      rw [if_neg (hnotship t ht1)] at this
      exact absurd ⟨ht2, ht3⟩ this

/-- C11, amended: in a well-formed state, let a live army that carries
nothing move to an on-board cell `B` other than its own.  `move_obj` returns,
and afterwards the army is embarked (its `ship` is set and it is a member of
the cargo list of that ship) if and only if the location list of `B` held a
non-full TRANSPORT, of whichever owner; the ship is such a transport; and
it has the owner of the army provided every non-full TRANSPORT at `B`
has. -/
theorem move_obj_boards_transport (E : Env) (fuel : Nat) (w : World) (s : Shape) (obj : Nat)
    (B : Int) (hR : Rep E w s) (hobj : obj < E.LIST_SIZE) (hlive : 0 < (w.object obj).hits)
    (harmy : (w.object obj).type = E.ARMY) (hAF : E.ARMY ≠ E.FIGHTER)
    (hAT : E.ARMY ≠ E.TRANSPORT) (hcargo : (w.object obj).cargo = none)
    (hB : (w.map B).on_board = true) (hAB : (w.object obj).loc ≠ B)
    (hf : E.LIST_SIZE ≤ fuel) :
    ∃ w2, move_obj E fuel w obj B = .ok w2 ∧
      ((∃ t, (w2.object obj).ship = some t ∧
          InList w2.object .cargo_link (w2.object t).cargo obj) ↔
        ∃ t, InList w.object .loc_link (w.map B).objp t ∧ (w.object t).type = E.TRANSPORT ∧
          obj_capacity E (w.object t) > (w.object t).count) ∧
      (∀ t, (w2.object obj).ship = some t →
        InList w.object .loc_link (w.map B).objp t ∧ (w.object t).type = E.TRANSPORT ∧
          obj_capacity E (w.object t) > (w.object t).count ∧
          InList w2.object .cargo_link (w2.object t).cargo obj) ∧
      ((∀ t, InList w.object .loc_link (w.map B).objp t → (w.object t).type = E.TRANSPORT →
          obj_capacity E (w.object t) > (w.object t).count →
          (w.object t).owner = (w.object obj).owner) →
        ∀ t, (w2.object obj).ship = some t →
          (w2.object t).owner = (w2.object obj).owner) := by
  obtain ⟨w9, s9, b, h1, hM⟩ := move_obj_full E fuel w s obj B hR hobj hlive hB hAB hf
  obtain ⟨a1, a2⟩ := Moved_army hR hM hobj hlive harmy hAF hAT hcargo hAB
  have hship : (w9.object obj).ship = b := by rw [hM.ship, if_pos rfl]
  have hin : ∀ t, b = some t → InList w9.object .cargo_link (w9.object t).cargo obj := by
    intro t ht
    refine (InList_iff_mem _ _ none _ _ obj (hM.str.cargos.seg t)).mpr ?_
    rw [hM.cargo_eq, if_pos ht]
    exact List.mem_cons_self _ _
  have hall : ∀ t, (w9.object obj).ship = some t →
      InList w.object .loc_link (w.map B).objp t ∧ (w.object t).type = E.TRANSPORT ∧
        obj_capacity E (w.object t) > (w.object t).count ∧
        InList w9.object .cargo_link (w9.object t).cargo obj := by
    intro t ht
    rw [hship] at ht
    obtain ⟨q1, _, q3, q4, _⟩ := a1 t ht
    exact ⟨(InList_cell_iff hR B t).mpr q1, q3, q4, hin t ht⟩
  refine ⟨w9, h1, ⟨?_, ?_⟩, hall, ?_⟩
  · rintro ⟨t, ht, _⟩
    obtain ⟨q1, q2, q3, _⟩ := hall t ht
    exact ⟨t, q1, q2, q3⟩
  · rintro ⟨t, q1, q2, q3⟩
    obtain ⟨t2, ht2⟩ := a2 ⟨t, (InList_cell_iff hR B t).mp q1, q2, q3⟩
    exact ⟨t2, by rw [hship, ht2], hin t2 ht2⟩
  · intro hfr t ht
    obtain ⟨q1, q2, q3, _⟩ := hall t ht
    rw [hM.owner, hM.owner]
    exact hfr t q1 q2 q3

/-- Witness for C11: in `ferryWorld` the army of record 1 moves from the
city to cell 102, where the user's transport lies. -/
theorem move_obj_boards_transport_witness :
    (Rep ferryEnv ferryWorld ferryShape ∧ 1 < ferryEnv.LIST_SIZE ∧
      0 < (ferryWorld.object 1).hits ∧ (ferryWorld.object 1).type = ferryEnv.ARMY ∧
      ferryEnv.ARMY ≠ ferryEnv.FIGHTER ∧ ferryEnv.ARMY ≠ ferryEnv.TRANSPORT ∧
      (ferryWorld.object 1).cargo = none ∧ (ferryWorld.map 102).on_board = true ∧
      (ferryWorld.object 1).loc ≠ 102 ∧ ferryEnv.LIST_SIZE ≤ 4) ∧
    ∃ w2, move_obj ferryEnv 4 ferryWorld 1 102 = .ok w2 ∧
      ((∃ t, (w2.object 1).ship = some t ∧
          InList w2.object .cargo_link (w2.object t).cargo 1) ↔
        ∃ t, InList ferryWorld.object .loc_link (ferryWorld.map 102).objp t ∧
          (ferryWorld.object t).type = ferryEnv.TRANSPORT ∧
          obj_capacity ferryEnv (ferryWorld.object t) > (ferryWorld.object t).count) ∧
      (∀ t, (w2.object 1).ship = some t →
        InList ferryWorld.object .loc_link (ferryWorld.map 102).objp t ∧
          (ferryWorld.object t).type = ferryEnv.TRANSPORT ∧
          obj_capacity ferryEnv (ferryWorld.object t) > (ferryWorld.object t).count ∧
          InList w2.object .cargo_link (w2.object t).cargo 1) ∧
      ((∀ t, InList ferryWorld.object .loc_link (ferryWorld.map 102).objp t →
          (ferryWorld.object t).type = ferryEnv.TRANSPORT →
          obj_capacity ferryEnv (ferryWorld.object t) > (ferryWorld.object t).count →
          (ferryWorld.object t).owner = (ferryWorld.object 1).owner) →
        ∀ t, (w2.object 1).ship = some t →
          (w2.object t).owner = (w2.object 1).owner) :=
  ⟨⟨ferryWorld_rep, by decide, by decide, by decide, by decide, by decide, by decide,
      by decide, by decide, by decide⟩,
    move_obj_boards_transport ferryEnv 4 ferryWorld ferryShape 1 102 ferryWorld_rep
      (by decide) (by decide) (by decide) (by decide) (by decide) (by decide) (by decide)
      (by decide) (by decide)⟩

/-! ## Boarding and capacity -/

theorem Moved_capacity {E : Env} {w : World} {s : Shape} {obj : Nat} {B : Int} {w9 : World}
    {s9 : Shape} {b : Option Nat} (hM : Moved E w s obj B w9 s9 b) (x : Nat)
    (hx : (w.object x).count ≤ obj_capacity E (w.object x)) :
    (w9.object x).count ≤ obj_capacity E (w9.object x) := by
  rw [obj_capacity_congr E (w.object x) (w9.object x) (hM.type x) (hM.hits x), hM.count]
  by_cases hb : b = some x
  · rw [if_pos hb]
    have := (hM.boarded x hb).2.1
    omega
  · rw [if_neg hb]
    split_ifs <;> omega

theorem Moved_not_in_cargo {E : Env} {w : World} {s : Shape} {obj : Nat} {B : Int}
    {w9 : World} {s9 : Shape} {b : Option Nat} (hR : Rep E w s)
    (hM : Moved E w s obj B w9 s9 b) (hb : b = none) (x : Nat) :
    ¬ InList w9.object .cargo_link (w9.object x).cargo obj := by
  intro h
  have := (InList_iff_mem _ _ none _ _ obj (hM.str.cargos.seg x)).mp h
  rw [hM.cargo_eq, hb, if_neg (by simp)] at this
  exact List.Nodup.not_mem_erase (hR.cargo_nodup x) this

theorem Moved_army_ashore {E : Env} {w : World} {s : Shape} {obj : Nat} {B : Int}
    {w9 : World} {s9 : Shape} {b : Option Nat} (hR : Rep E w s)
    (hM : Moved E w s obj B w9 s9 b) (hobj : obj < E.LIST_SIZE)
    (hlive : 0 < (w.object obj).hits) (harmy : (w.object obj).type = E.ARMY)
    (hAF : E.ARMY ≠ E.FIGHTER) (hAT : E.ARMY ≠ E.TRANSPORT)
    (hcargo : (w.object obj).cargo = none) (hAB : (w.object obj).loc ≠ B)
    (hfull : ∀ t, t ∈ s.cell B → (w.object t).type = E.TRANSPORT →
      (w.object t).count ≥ obj_capacity E (w.object t)) : b = none := by
  cases hb : b with
  | none => rfl
  | some t =>
    obtain ⟨q1, _, q3, q4, _⟩ :=
      (Moved_army hR hM hobj hlive harmy hAF hAT hcargo hAB).1 t hb
    have := hfull t q1 q3
    omega

/-- C12: in a well-formed state, let a live piece of the pool move to an
on-board cell `B` other than its own.  `move_obj` returns, and
(1) every record with `count <= obj_capacity` before has `count <=
obj_capacity` after;
(2) if the piece is an army that carries nothing and every TRANSPORT in the
location list of `B` has `count >= obj_capacity`, the army is left
unembarked: its `ship` is `NULL` and it is on no cargo list;
(3) if the piece is an army that carries nothing and `t` is a TRANSPORT of
the army's owner at `B`, not itself embarked, with `obj_capacity = 1` and
`count = 0`, and every other TRANSPORT at `B` is full, then the army is
embarked on `t` and the count of `t` is 1; and when a second live army `a2`
that carries nothing then moves to `B` from another cell, `move_obj` returns,
`a2` is not embarked, the count of `t` is still 1 and the first army is still
aboard. -/
theorem move_obj_respects_capacity (E : Env) (fuel : Nat) (w : World) (s : Shape) (obj : Nat)
    (B : Int) (hR : Rep E w s) (hobj : obj < E.LIST_SIZE) (hlive : 0 < (w.object obj).hits)
    (hB : (w.map B).on_board = true) (hAB : (w.object obj).loc ≠ B)
    (hf : E.LIST_SIZE ≤ fuel) :
    ∃ w2, move_obj E fuel w obj B = .ok w2 ∧
      (∀ x, (w.object x).count ≤ obj_capacity E (w.object x) →
        (w2.object x).count ≤ obj_capacity E (w2.object x)) ∧
      ((w.object obj).type = E.ARMY → E.ARMY ≠ E.FIGHTER → E.ARMY ≠ E.TRANSPORT →
        (w.object obj).cargo = none →
        ((∀ t, InList w.object .loc_link (w.map B).objp t → (w.object t).type = E.TRANSPORT →
            (w.object t).count ≥ obj_capacity E (w.object t)) →
          (w2.object obj).ship = none ∧
          ∀ x, ¬ InList w2.object .cargo_link (w2.object x).cargo obj) ∧
        ∀ t a2, InList w.object .loc_link (w.map B).objp t →
          (w.object t).type = E.TRANSPORT →
          (w.object t).owner = (w.object obj).owner → (w.object t).ship = none →
          obj_capacity E (w.object t) = 1 → (w.object t).count = 0 →
          (∀ u, InList w.object .loc_link (w.map B).objp u → (w.object u).type = E.TRANSPORT →
            u ≠ t → (w.object u).count ≥ obj_capacity E (w.object u)) →
          a2 < E.LIST_SIZE → 0 < (w.object a2).hits → (w.object a2).type = E.ARMY →
          (w.object a2).cargo = none → a2 ≠ obj → (w.object a2).loc ≠ B →
          (w2.object obj).ship = some t ∧ (w2.object t).count = 1 ∧
          ∃ w3, move_obj E fuel w2 a2 B = .ok w3 ∧
            (w3.object a2).ship = none ∧
            (∀ x, ¬ InList w3.object .cargo_link (w3.object x).cargo a2) ∧
            (w3.object t).count = 1 ∧ (w3.object obj).ship = some t) := by
  obtain ⟨w9, s9, b, h1, hM⟩ := move_obj_full E fuel w s obj B hR hobj hlive hB hAB hf
  refine ⟨w9, h1, fun x hx => Moved_capacity hM x hx, ?_⟩
  intro harmy hAF hAT hcargo
  have hnil : s.cargo obj = [] := hR.cargo_nil obj hcargo
  obtain ⟨a1, a2⟩ := Moved_army hR hM hobj hlive harmy hAF hAT hcargo hAB
  constructor
  · intro hfull
    have hb : b = none := Moved_army_ashore hR hM hobj hlive harmy hAF hAT hcargo hAB
      (fun t ht => hfull t ((InList_cell_iff hR B t).mpr ht))
    refine ⟨by rw [hM.ship, if_pos rfl]; exact hb, fun x => Moved_not_in_cargo hR hM hb x⟩
  · intro t y ht htt hto hts htc htn hothers hy hyl hya hyc hyo hyB
    have htm : t ∈ s.cell B := (InList_cell_iff hR B t).mp ht
    -- the first army boards `t`
    obtain ⟨t2, hb⟩ := a2 ⟨t, htm, htt, by omega⟩
    obtain ⟨q1, q2, q3, q4, q5⟩ := a1 t2 hb
    have ht2 : t2 = t := by
      by_contra hne
      have := hothers t2 ((InList_cell_iff hR B t2).mpr q1) q3 hne
      omega
    subst ht2
    have hship1 : (w9.object obj).ship = some t2 := by rw [hM.ship, if_pos rfl]; exact hb
    have hcount1 : (w9.object t2).count = 1 := by
      rw [hM.count, if_neg q5, if_pos hb, htn]
      rfl
    -- the state after the first move is well formed
    have hR9 : Rep E w9 s9 := Moved_rep hR hM hobj hlive (by
      intro u hu
      have : t2 = u := Option.some.inj (hb.symm.trans hu)
      subst this
      exact ⟨q2, hto, hts, hcargo⟩)
    have hty : t2 ≠ y := by
      intro e
      rw [e, hya] at q3
      exact hAT q3
    have hy9l : 0 < (w9.object y).hits := by rw [hM.hits]; exact hyl
    have hy9a : (w9.object y).type = E.ARMY := by rw [hM.type]; exact hya
    have hy9c : (w9.object y).cargo = none := by
      have := hM.str.cargos.seg y
      rw [hM.cargo_eq, if_neg (by rw [hb]; exact fun e => hty (Option.some.inj e)),
        hR.cargo_nil y hyc] at this
      exact this
    have hynot : ¬ (y = obj ∨ y ∈ s.cargo obj) := by
      rw [hnil]
      rintro (e | e)
      · exact hyo e
      · exact absurd e (List.not_mem_nil y)
    have hy9B : (w9.object y).loc ≠ B := by
      rw [hM.loc, if_neg hynot]
      exact hyB
    have hB9 : (w9.map B).on_board = true := by rw [hM.on_board]; exact hB
    obtain ⟨w3, s3, b3, h3, hM3⟩ := move_obj_full E fuel w9 s9 y B hR9 hy hy9l hB9 hy9B hf
    have hfull9 : ∀ u, u ∈ s9.cell B → (w9.object u).type = E.TRANSPORT →
        (w9.object u).count ≥ obj_capacity E (w9.object u) := by
      intro u hu hut
      rw [hM.type] at hut
      rw [obj_capacity_congr E (w.object u) (w9.object u) (hM.type u) (hM.hits u)]
      have huo : ¬ (u = obj ∨ u ∈ s.cargo obj) := by
        rw [hnil]
        rintro (e | e)
        · rw [e, harmy] at hut; exact hAT hut
        · exact absurd e (List.not_mem_nil u)
      have hus : u ∈ s.cell B := by
        have := (hM.cell_mem B u).mp hu
        rw [if_neg huo] at this
        exact this
      by_cases hut2 : u = t2
      · rw [hut2, hcount1, htc]
      · have hns : (w.object obj).ship ≠ some u := by
          intro e
          have k1 := ((hR.cell_mem B u).mp hus).2.2
          have k2 := (hR.ship_ok obj u hobj hlive e).2.2.1
          exact hAB (k2.symm.trans k1)
        rw [hM.count, if_neg hns, if_neg (by rw [hb]; exact fun e => hut2 (Option.some.inj e).symm)]
        have := hothers u ((InList_cell_iff hR B u).mpr hus) hut hut2
        omega
    have hb3 : b3 = none :=
      Moved_army_ashore hR9 hM3 hy hy9l hy9a hAF hAT hy9c hy9B hfull9
    have hys : (w9.object y).ship ≠ some t2 := by
      intro e
      have k1 := (hR9.ship_ok y t2 hy hy9l e).2.2.1
      have k2 : (w9.object t2).loc = B := by
        rw [hM.loc]
        have : ¬ (t2 = obj ∨ t2 ∈ s.cargo obj) := by
          rw [hnil]
          rintro (e2 | e2)
          · exact q2 e2
          · exact absurd e2 (List.not_mem_nil t2)
        rw [if_neg this]
        exact ((hR.cell_mem B t2).mp htm).2.2
      exact hy9B (k1.symm.trans k2)
    refine ⟨hship1, hcount1, w3, h3, ?_, fun x => Moved_not_in_cargo hR9 hM3 hb3 x, ?_, ?_⟩
    · rw [hM3.ship, if_pos rfl]; exact hb3
    · rw [hM3.count, if_neg hys, hb3, if_neg (by simp), hcount1]
      rfl
    · rw [hM3.ship, if_neg (fun e => hyo e.symm)]
      exact hship1

/-- Witness for C12: in `ferryWorld`, whose transport (record 0, at cell 102)
holds one army, the army of record 1 moves to cell 102 and boards; the army
of record 2 follows and stays ashore. -/
theorem move_obj_respects_capacity_witness :
    (Rep ferryEnv ferryWorld ferryShape ∧ 1 < ferryEnv.LIST_SIZE ∧
      0 < (ferryWorld.object 1).hits ∧ (ferryWorld.map 102).on_board = true ∧
      (ferryWorld.object 1).loc ≠ 102 ∧ ferryEnv.LIST_SIZE ≤ 4) ∧
    obj_capacity ferryEnv (ferryWorld.object 0) = 1 ∧ (ferryWorld.object 0).count = 0 ∧
    ∃ w2, move_obj ferryEnv 4 ferryWorld 1 102 = .ok w2 ∧
      (w2.object 1).ship = some 0 ∧ (w2.object 0).count = 1 ∧
      ∃ w3, move_obj ferryEnv 4 w2 2 102 = .ok w3 ∧
        (w3.object 2).ship = none ∧ (w3.object 0).count = 1 ∧
        (w3.object 1).ship = some 0 := by
  refine ⟨⟨ferryWorld_rep, by decide, by decide, by decide, by decide, by decide⟩,
    by decide, by decide, ?_⟩
  obtain ⟨w2, h1, _, h3⟩ := move_obj_respects_capacity ferryEnv 4 ferryWorld ferryShape 1 102
    ferryWorld_rep (by decide) (by decide) (by decide) (by decide) (by decide)
  obtain ⟨_, h4⟩ := h3 (by decide) (by decide) (by decide) (by decide)
  obtain ⟨k1, k2, w3, k3, k4, _, k6, k7⟩ := h4 0 2 ⟨0, by decide⟩ (by decide) (by decide)
    (by decide) (by decide) (by decide)
    (by
      intro u hu _ hne
      have : u ∈ ferryShape.cell 102 := (InList_cell_iff ferryWorld_rep 102 u).mp hu
      have : u = 0 := by simpa [ferryShape] using this
      exact absurd this hne)
    (by decide) (by decide) (by decide) (by decide) (by decide) (by decide)
  exact ⟨w2, h1, k1, k2, w3, k3, k4, k6, k7⟩

/-! ## What `kill_obj` leaves alone -/

theorem update_same (E : Env) (fuel : Nat) (w w2 : World) (v : VMapSel) (loc : Int)
    (h : update E fuel w v loc = .ok w2) : SameButViews w w2 := by
  have hv1 := SameButViews_setView w v loc { getView w v loc with seen := w.date }
  unfold update at h
  dsimp only at h
  split at h
  · have := Except.ok.inj h
    rw [← this]
    exact hv1.trans (SameButViews_setView _ _ _ _)
  · split at h
    · exact absurd h (by simp)
    · have := Except.ok.inj h
      rw [← this]
      exact hv1.trans (SameButViews_setView _ _ _ _)
    · split at h
      · have := Except.ok.inj h
        rw [← this]
        exact hv1.trans (SameButViews_setView _ _ _ _)
      · have := Except.ok.inj h
        rw [← this]
        exact hv1.trans (SameButViews_setView _ _ _ _)

theorem scan_loop_same (E : Env) (fuel : Nat) (v : VMapSel) (loc : Int) :
    ∀ (n : Nat) (i : Int) (w w2 : World),
      scan_loop E fuel v loc n i w = .ok w2 → SameButViews w w2 := by
  intro n
  induction n with
  | zero =>
    intro i w w2 h
    have : w = w2 := Except.ok.inj h
    rw [this]; exact SameButViews.refl w2
  | succ m ih =>
    intro i w w2 h
    rw [scan_loop] at h
    cases hu : update E fuel w v (loc + E.dir_offset i) with
    | error e => rw [hu] at h; exact absurd h (by simp)
    | ok w1 =>
      rw [hu] at h
      exact (update_same E fuel w w1 v _ hu).trans (ih _ _ _ h)

theorem scan_same (E : Env) (fuel : Nat) (w w2 : World) (v : VMapSel) (loc : Int)
    (h : scan E fuel w v loc = .ok w2) : SameButViews w w2 := by
  unfold scan at h
  split_ifs at h
  cases hl : scan_loop E fuel v loc 8 0 w with
  | error e => rw [hl] at h; exact absurd h (by simp)
  | ok w1 =>
    rw [hl] at h
    exact (scan_loop_same E fuel v loc 8 0 w w1 hl).trans (update_same E fuel w1 w2 v loc h)

theorem kill_one_moved (E : Env) (w : World) (list : ListSel) (obj x : Nat) :
    ((kill_one E w list obj).object x).moved =
      if x = obj then (E.piece_attr (w.object obj).type).speed else (w.object x).moved := by
  unfold kill_one
  rw [setPiece_object]
  split_ifs with h
  · subst h
    show (E.piece_attr ((setPiece _ _ _).object x).type).speed = _
    congr 2
    refine (setPiece_field (fun p => p.type) _ _ _ x ?_).trans ?_
    · rfl
    refine (LINK_type _ _ _ _ x).trans ?_
    refine (disembark_type _ _ x).trans ?_
    refine (UNLINK_type _ _ _ _ x).trans ?_
    exact UNLINK_type _ _ _ _ x
  · refine (setPiece_field (fun p => p.moved) _ _ _ x ?_).trans ?_
    · rfl
    refine (LINK_moved _ _ _ _ x).trans ?_
    refine (disembark_moved _ _ x).trans ?_
    refine (UNLINK_moved _ _ _ _ x).trans ?_
    exact UNLINK_moved _ _ _ _ x

theorem kill_cargo_loop_inert (E : Env) (list : ListSel) (obj : Nat) :
    ∀ (fuel : Nat) (w w1 : World), kill_cargo_loop E list obj fuel w = .ok w1 →
      ∀ x, (w1.object x).func = (w.object x).func ∧ (w1.object x).range = (w.object x).range ∧
        (w1.object x).type = (w.object x).type := by
  intro fuel
  induction fuel with
  | zero =>
    intro w w1 h x
    rw [kill_cargo_loop] at h
    cases hc : (w.object obj).cargo with
    | none =>
      rw [hc] at h
      have : w = w1 := Except.ok.inj h
      rw [this]; exact ⟨rfl, rfl, rfl⟩
    | some c => rw [hc] at h; exact absurd h (by simp)
  | succ fu ih =>
    intro w w1 h x
    rw [kill_cargo_loop] at h
    cases hc : (w.object obj).cargo with
    | none =>
      rw [hc] at h
      have : w = w1 := Except.ok.inj h
      rw [this]; exact ⟨rfl, rfl, rfl⟩
    | some c =>
      rw [hc] at h
      obtain ⟨a1, a2, a3⟩ := ih _ _ h x
      exact ⟨a1.trans (kill_one_func E w list c x), a2.trans (kill_one_range E w list c x),
        a3.trans (kill_one_type E w list c x)⟩

theorem kill_obj_inert (E : Env) (fuel : Nat) (w w2 : World) (obj : Nat) (loc : Int)
    (h : kill_obj E fuel w obj loc = .ok w2) :
    (∀ x, (w2.object x).func = (w.object x).func ∧ (w2.object x).range = (w.object x).range) ∧
      (w2.object obj).moved = (E.piece_attr (w.object obj).type).speed := by
  unfold kill_obj at h
  dsimp only at h
  cases hl : kill_cargo_loop E (LIST E (w.object obj).owner) obj fuel w with
  | error e => rw [hl] at h; exact absurd h (by simp)
  | ok w1 =>
    rw [hl] at h
    have hs := scan_same E fuel _ w2 _ loc h
    have hin := kill_cargo_loop_inert E _ obj fuel w w1 hl
    have ho : w2.object = (kill_one E w1 (LIST E (w.object obj).owner) obj).object :=
      hs.2.2.2.2.2.1
    refine ⟨fun x => ⟨?_, ?_⟩, ?_⟩
    · rw [ho, kill_one_func]; exact (hin x).1
    · rw [ho, kill_one_range]; exact (hin x).2.1
    · rw [ho, kill_one_moved, if_pos rfl, (hin obj).2.2]

/-! ## Stores that the invariants do not see -/

theorem Rep_setPiece_inert {E : Env} {w : World} {s : Shape} (hR : Rep E w s) (x : Nat)
    (p : piece_info_t) (hL : ∀ k, getL k p = getL k (w.object x))
    (hc : p.cargo = (w.object x).cargo) (h1 : p.hits = (w.object x).hits)
    (h2 : p.owner = (w.object x).owner) (h3 : p.type = (w.object x).type)
    (h4 : p.loc = (w.object x).loc) (h5 : p.ship = (w.object x).ship)
    (h6 : p.count = (w.object x).count) : Rep E (setPiece w x p) s := by
  have hS := Str_setPiece E.LIST_SIZE w s x p hR.toStr hL hc
  have ehits : ∀ y, ((setPiece w x p).object y).hits = (w.object y).hits :=
    fun y => setPiece_field (fun q => q.hits) w x p y h1
  have eowner : ∀ y, ((setPiece w x p).object y).owner = (w.object y).owner :=
    fun y => setPiece_field (fun q => q.owner) w x p y h2
  have etype : ∀ y, ((setPiece w x p).object y).type = (w.object y).type :=
    fun y => setPiece_field (fun q => q.type) w x p y h3
  have eloc : ∀ y, ((setPiece w x p).object y).loc = (w.object y).loc :=
    fun y => setPiece_field (fun q => q.loc) w x p y h4
  have eship : ∀ y, ((setPiece w x p).object y).ship = (w.object y).ship :=
    fun y => setPiece_field (fun q => q.ship) w x p y h5
  have ecount : ∀ y, ((setPiece w x p).object y).count = (w.object y).count :=
    fun y => setPiece_field (fun q => q.count) w x p y h6
  have ecargo : ∀ y, ((setPiece w x p).object y).cargo = (w.object y).cargo :=
    fun y => setPiece_field (fun q => q.cargo) w x p y hc
  refine
    { piece_seg := hS.pieces.seg
      piece_nodup := hS.pieces.nodup
      cell_seg := hS.cells.seg
      cell_nodup := hS.cells.nodup
      cargo_seg := hS.cargos.seg
      cargo_nodup := hS.cargos.nodup
      free_mem := ?_
      user_mem := ?_
      comp_mem := ?_
      cell_mem := ?_
      cargo_mem := ?_
      hits_nonneg := ?_
      ship_ok := ?_
      count_ok := ?_ }
  · intro y; rw [ehits]; exact hR.free_mem y
  · intro t y; rw [ehits, eowner, etype]; exact hR.user_mem t y
  · intro t y; rw [ehits, eowner, etype]; exact hR.comp_mem t y
  · intro c y; rw [ehits, eloc]; exact hR.cell_mem c y
  · intro y z; rw [ehits, eship]; exact hR.cargo_mem y z
  · intro y hy; rw [ehits]; exact hR.hits_nonneg y hy
  · intro y z hy hl hsz
    rw [ehits] at hl
    rw [eship] at hsz
    rw [ehits, eloc, eloc, eowner, eowner, ecargo]
    exact hR.ship_ok y z hy hl hsz
  · intro y hy hl
    rw [ehits] at hl
    rw [ecount]
    exact hR.count_ok y hy hl

/-! ## The track of a satellite -/

theorem sat_heading_congr (E : Env) (w w2 : World)
    (h : ∀ c, (w2.map c).on_board = (w.map c).on_board) (loc func : Int) :
    sat_heading E w2 loc func = sat_heading E w loc func := by
  unfold sat_heading bounce
  simp only [h]

theorem sat_track_congr (E : Env) (w w2 : World)
    (h : ∀ c, (w2.map c).on_board = (w.map c).on_board) :
    ∀ (k : Nat) (loc func : Int), sat_track E w2 k loc func = sat_track E w k loc func := by
  intro k
  induction k with
  | zero => intro loc func; rfl
  | succ j ih =>
    intro loc func
    rw [sat_track, sat_track, sat_heading_congr E w w2 h]
    cases sat_heading E w loc func with
    | none => rfl
    | some hd => exact ih _ _

theorem tdiv_le_zero_of_lt (n d : Int) (hd : 0 < d) (hn : n < d) : Int.tdiv n d ≤ 0 := by
  by_cases h0 : 0 ≤ n
  · rw [Int.tdiv_eq_zero_of_lt h0 hn]
  · have h1 : 0 ≤ (-n).tdiv d := Int.tdiv_nonneg (by omega) (by omega)
    have h2 : (- -n).tdiv d = -((-n).tdiv d) := Int.neg_tdiv (-n) d
    rw [neg_neg] at h2
    omega

theorem obj_moves_dead (E : Env) (p : piece_info_t) (hm : 1 ≤ (E.piece_attr p.type).max_hits)
    (hh : p.hits = 0) : obj_moves E p = 0 := by
  unfold obj_moves
  rw [hh, mul_zero, zero_add]
  exact Int.tdiv_eq_zero_of_lt (by omega) (by omega)

theorem speed_pos_of_moves (E : Env) (p : piece_info_t)
    (hm : 1 ≤ (E.piece_attr p.type).max_hits) (hh : 0 < p.hits) (h : 1 ≤ obj_moves E p) :
    1 ≤ (E.piece_attr p.type).speed := by
  by_contra hs
  have hs0 : (E.piece_attr p.type).speed ≤ 0 := by omega
  have hprod : (E.piece_attr p.type).speed * p.hits ≤ 0 :=
    Int.mul_nonpos_of_nonpos_of_nonneg hs0 (by omega)
  have := tdiv_le_zero_of_lt
    ((E.piece_attr p.type).speed * p.hits + (E.piece_attr p.type).max_hits - 1)
    (E.piece_attr p.type).max_hits (by omega) (by omega)
  unfold obj_moves at h
  omega

/-! ## `move_sat` -/

/-- In a well-formed state, a step of a live satellite whose heading leads
to an on-board cell returns (the assertions of `move_obj` and of the scans
hold), keeps the state well formed and moves the satellite one cell. -/
theorem move_sat1_step (E : Env) (fuel : Nat) (w : World) (s : Shape) (obj : Nat) (h : Int)
    (hR : Rep E w s) (hobj : obj < E.LIST_SIZE) (hlive : 0 < (w.object obj).hits)
    (hsat : (w.object obj).type = E.SATELLITE) (hSA : E.SATELLITE ≠ E.ARMY)
    (hSF : E.SATELLITE ≠ E.FIGHTER) (hoff : ∀ i, E.dir_offset i ≠ 0)
    (hf : E.LIST_SIZE ≤ fuel)
    (hh : sat_heading E w (w.object obj).loc (w.object obj).func = some h)
    (hon : (w.map ((w.object obj).loc + E.dir_offset (E.MOVE_DIR h))).on_board = true) :
    ∃ w9 s9, move_sat1 E fuel w obj = .ok w9 ∧ Rep E w9 s9 ∧
      (∀ x, (w9.object x).hits = (w.object x).hits) ∧
      (∀ x, (w9.object x).type = (w.object x).type) ∧
      (w9.object obj).moved = (w.object obj).moved + 1 ∧
      (w9.object obj).range = (w.object obj).range - 1 ∧
      (w9.object obj).loc = (w.object obj).loc + E.dir_offset (E.MOVE_DIR h) ∧
      (w9.object obj).func = h ∧
      (∀ c, (w9.map c).on_board = (w.map c).on_board) := by
  have hR1 : Rep E (setPiece w obj { w.object obj with func := h }) s :=
    Rep_setPiece_inert hR obj _ (fun k => by cases k <;> rfl) rfl rfl rfl rfl rfl rfl rfl
  have e1 : (setPiece w obj { w.object obj with func := h }).object obj
      = { w.object obj with func := h } := by rw [setPiece_object, if_pos rfl]
  have ehits : ∀ x, ((setPiece w obj { w.object obj with func := h }).object x).hits
      = (w.object x).hits := fun x => setPiece_field (fun q => q.hits) _ _ _ x rfl
  have etype : ∀ x, ((setPiece w obj { w.object obj with func := h }).object x).type
      = (w.object x).type := fun x => setPiece_field (fun q => q.type) _ _ _ x rfl
  have hlive1 : 0 < ((setPiece w obj { w.object obj with func := h }).object obj).hits := by
    rw [ehits]; exact hlive
  have hAB : ((setPiece w obj { w.object obj with func := h }).object obj).loc
      ≠ (w.object obj).loc + E.dir_offset (E.MOVE_DIR h) := by
    rw [e1]
    show (w.object obj).loc ≠ _
    have := hoff (E.MOVE_DIR h)
    omega
  obtain ⟨w9, s9, b, k1, hM⟩ := move_obj_full E fuel _ s obj
    ((w.object obj).loc + E.dir_offset (E.MOVE_DIR h)) hR1 hobj hlive1 hon hAB hf
  have hb : b = none := hM.other (by rw [etype, hsat]; exact hSF) (by rw [etype, hsat]; exact hSA)
  have hR9 : Rep E w9 s9 := Moved_rep hR1 hM hobj hlive1 (by
    intro t ht
    rw [hb] at ht
    exact absurd ht (by simp))
  refine ⟨w9, s9, ?_, hR9, ?_, ?_, ?_, ?_, ?_, ?_, ?_⟩
  · rw [move_sat1_of_heading E fuel w obj h hh]
    exact k1
  · intro x; rw [hM.hits, ehits]
  · intro x; rw [hM.type, etype]
  · rw [hM.moved, if_pos rfl, e1]
  · rw [hM.range, if_pos rfl, e1]
  · rw [hM.loc, if_pos (Or.inl rfl)]
  · rw [hM.func, e1]
  · intro c; rw [hM.on_board]; rfl

theorem sat_track_one (E : Env) (w : World) (loc func l h : Int)
    (ht : sat_track E w 1 loc func = some (l, h)) :
    sat_heading E w loc func = some h ∧ l = loc + E.dir_offset (E.MOVE_DIR h) := by
  rw [sat_track] at ht
  cases hs : sat_heading E w loc func with
  | none => rw [hs] at ht; exact absurd ht (by simp)
  | some h2 =>
    rw [hs] at ht
    have e : (loc + E.dir_offset (E.MOVE_DIR h2), h2) = (l, h) := Option.some.inj ht
    have e1 : loc + E.dir_offset (E.MOVE_DIR h2) = l := congrArg Prod.fst e
    have e2 : h2 = h := congrArg Prod.snd e
    rw [← e2]
    exact ⟨rfl, e1.symm⟩

theorem sat_track_succ (E : Env) (w : World) (k : Nat) (loc func h : Int)
    (hs : sat_heading E w loc func = some h) :
    sat_track E w (k + 1) loc func =
      sat_track E w k (loc + E.dir_offset (E.MOVE_DIR h)) h := by
  rw [sat_track, hs]

theorem move_sat_loop_done (E : Env) (obj fuel : Nat) (w : World)
    (h : ¬ (w.object obj).moved < obj_moves E (w.object obj)) :
    move_sat_loop E obj fuel w = .ok w := by
  rw [move_sat_loop.eq_def]
  dsimp only
  rw [if_neg h]

theorem move_sat_loop_step (E : Env) (obj fu : Nat) (w w1 : World)
    (h : (w.object obj).moved < obj_moves E (w.object obj))
    (h1 : move_sat1 E (fu + 1) w obj = .ok w1) :
    move_sat_loop E obj (fu + 1) w =
      if (w1.object obj).range = 0 then
        match kill_obj E (fu + 1) w1 obj (w1.object obj).loc with
        | .error e => .error e
        | .ok w2 => move_sat_loop E obj fu w2
      else move_sat_loop E obj fu w1 := by
  conv_lhs => rw [move_sat_loop.eq_def]
  dsimp only
  rw [if_pos h]
  simp only [h1]

theorem move_sat_loop_run (E : Env) (obj : Nat) (hSA : E.SATELLITE ≠ E.ARMY)
    (hSF : E.SATELLITE ≠ E.FIGHTER) (hoff : ∀ i, E.dir_offset i ≠ 0)
    (hmh : 1 ≤ (E.piece_attr E.SATELLITE).max_hits) (m : Nat) :
    ∀ (n r fuel : Nat) (w : World) (s : Shape), Rep E w s → obj < E.LIST_SIZE →
      0 < (w.object obj).hits → (w.object obj).type = E.SATELLITE →
      obj_moves E (w.object obj) = (m : Int) → 0 ≤ (w.object obj).moved →
      (w.object obj).moved + (n : Int) = (m : Int) →
      (w.object obj).range = (r : Int) → 1 ≤ r → E.LIST_SIZE + n ≤ fuel →
      (∀ k, k < min n r → ∃ l h,
        sat_track E w (k + 1) (w.object obj).loc (w.object obj).func = some (l, h) ∧
        (w.map l).on_board = true) →
      ∃ w2, move_sat_loop E obj fuel w = .ok w2 ∧
        sat_track E w (min n r) (w.object obj).loc (w.object obj).func =
          some ((w2.object obj).loc, (w2.object obj).func) ∧
        (w2.object obj).range = ((r - min n r : Nat) : Int) ∧
        (r ≤ n → (w2.object obj).hits = 0 ∧
          InList w2.object .piece_link w2.free_list obj) ∧
        (n < r → (w2.object obj).hits = (w.object obj).hits ∧
          (w2.object obj).moved = (m : Int)) := by
  intro n
  induction n with
  | zero =>
    intro r fuel w s _ _ _ _ hm _ hmv hr hr1 _ _
    refine ⟨w, ?_, ?_, ?_, ?_, ?_⟩
    · exact move_sat_loop_done E obj fuel w (by rw [hm]; omega)
    · simp [sat_track]
    · simp [hr]
    · intro h; omega
    · intro _
      exact ⟨rfl, by omega⟩
  | succ j ih =>
    intro r fuel w s hR hobj hlive hsat hm hmv0 hmv hr hr1 hf htrack
    obtain ⟨l, h, t1, t2⟩ := htrack 0 (by omega)
    obtain ⟨hh, hl⟩ := sat_track_one E w _ _ l h t1
    rw [hl] at t2
    cases fuel with
    | zero => omega
    | succ fu =>
      obtain ⟨w9, s9, k1, hR9, k3, k4, k5, k6, k7, k8, k9⟩ := move_sat1_step E (fu + 1) w s obj h
        hR hobj hlive hsat hSA hSF hoff (by omega) hh t2
      have hlive9 : 0 < (w9.object obj).hits := by rw [k3]; exact hlive
      have hsat9 : (w9.object obj).type = E.SATELLITE := by rw [k4]; exact hsat
      have hm9 : obj_moves E (w9.object obj) = (m : Int) := by
        rw [obj_moves_congr E (w.object obj) (w9.object obj) (k4 obj) (k3 obj)]
        exact hm
      rw [move_sat_loop_step E obj fu w w9 (by rw [hm]; omega) k1]
      by_cases hr0 : (w9.object obj).range = 0
      · -- the range is used up: the satellite is killed
        rw [if_pos hr0]
        have hr1' : r = 1 := by rw [k6, hr] at hr0; omega
        have hb9 : (w9.map (w9.object obj).loc).on_board = true := by
          rw [k9, k7]; exact t2
        obtain ⟨w10, s10, c1, c2, c3⟩ := kill_obj_ok E (fu + 1) w9 s9 obj _ hR9 hobj hlive9
          hb9 (by omega)
        obtain ⟨d1, d2⟩ := kill_obj_inert E (fu + 1) w9 w10 obj _ c1
        have hh10 : (w10.object obj).hits = 0 := by
          rw [c3.1, if_pos (by simp)]
        have ht10 : (w10.object obj).type = E.SATELLITE := by
          rw [c3.2.2.1]; exact hsat9
        have hmoves10 : obj_moves E (w10.object obj) = 0 :=
          obj_moves_dead E _ (by rw [ht10]; exact hmh) hh10
        have hspeed : 1 ≤ (E.piece_attr (w9.object obj).type).speed :=
          speed_pos_of_moves E (w9.object obj) (by rw [hsat9]; exact hmh) hlive9
            (by rw [hm9]; omega)
        refine ⟨w10, ?_, ?_, ?_, ?_, ?_⟩
        · rw [c1]
          exact move_sat_loop_done E obj fu w10 (by rw [hmoves10, d2]; omega)
        · have hmin : min (j + 1) r = 0 + 1 := by omega
          rw [hmin, sat_track_succ E w 0 _ _ h hh]
          rw [c3.2.2.2.1 obj, (d1 obj).1, k7, k8]
          rfl
        · rw [(d1 obj).2, hr0]
          have : r - min (j + 1) r = 0 := by omega
          rw [this]; rfl
        · intro _
          exact ⟨hh10, (InList_iff_mem _ _ none _ _ obj (c2.piece_seg .free)).mpr
            ((c2.free_mem obj).mpr ⟨hobj, hh10⟩)⟩
        · intro hlt; omega
      · -- the satellite flies on
        rw [if_neg hr0]
        have hr2 : 2 ≤ r := by rw [k6, hr] at hr0; omega
        have hr9 : (w9.object obj).range = ((r - 1 : Nat) : Int) := by
          rw [k6, hr]; omega
        have htr9 : ∀ k, k < min j (r - 1) → ∃ l2 h2,
            sat_track E w9 (k + 1) (w9.object obj).loc (w9.object obj).func = some (l2, h2) ∧
            (w9.map l2).on_board = true := by
          intro k hk
          obtain ⟨l2, h2, u1, u2⟩ := htrack (k + 1) (by omega)
          refine ⟨l2, h2, ?_, by rw [k9]; exact u2⟩
          rw [sat_track_congr E w w9 k9, k7, k8, ← sat_track_succ E w (k + 1) _ _ h hh]
          exact u1
        obtain ⟨w2, a1, a2, a3, a4, a5⟩ := ih (r - 1) fu w9 s9 hR9 hobj hlive9 hsat9 hm9
          (by rw [k5]; omega) (by rw [k5]; omega) hr9 (by omega) (by omega) htr9
        refine ⟨w2, a1, ?_, ?_, ?_, ?_⟩
        · have hmin : min (j + 1) r = min j (r - 1) + 1 := by omega
          rw [hmin, sat_track_succ E w _ _ _ h hh, ← k7, ← k8, ← sat_track_congr E w w9 k9]
          exact a2
        · rw [a3]
          have : r - 1 - min j (r - 1) = r - min (j + 1) r := by omega
          rw [this]
        · intro hle
          exact a4 (by omega)
        · intro hlt
          obtain ⟨b1, b2⟩ := a5 (by omega)
          exact ⟨b1.trans (k3 obj), b2⟩

/-- C19: in a well-formed state, let a live satellite of the pool have
per-turn budget `obj_moves = m` and `range = r >= 1`, and let the first
`min m r` steps of its track all land on-board.  Then `move_sat` returns;
the satellite ends at the cell and with the heading that its track has after
exactly `min m r` steps, its `range` being lower by `min m r`; if `r <= m` it
is dead (`hits = 0`) and a member of the free list; if `r > m` it has its hit
points, `moved = m` and `range = r - m`. -/
theorem move_sat_runs (E : Env) (fuel : Nat) (w : World) (s : Shape) (obj : Nat) (m r : Nat)
    (hR : Rep E w s) (hobj : obj < E.LIST_SIZE) (hlive : 0 < (w.object obj).hits)
    (hsat : (w.object obj).type = E.SATELLITE) (hSA : E.SATELLITE ≠ E.ARMY)
    (hSF : E.SATELLITE ≠ E.FIGHTER) (hoff : ∀ i, E.dir_offset i ≠ 0)
    (hmh : 1 ≤ (E.piece_attr E.SATELLITE).max_hits)
    (hm : obj_moves E (w.object obj) = (m : Int)) (hr : (w.object obj).range = (r : Int))
    (hr1 : 1 ≤ r) (hf : E.LIST_SIZE + m ≤ fuel)
    (htrack : ∀ k, k < min m r → ∃ l h,
      sat_track E w (k + 1) (w.object obj).loc (w.object obj).func = some (l, h) ∧
      (w.map l).on_board = true) :
    ∃ w2, move_sat E fuel w obj = .ok w2 ∧
      sat_track E w (min m r) (w.object obj).loc (w.object obj).func =
        some ((w2.object obj).loc, (w2.object obj).func) ∧
      (w2.object obj).range = (r : Int) - ((min m r : Nat) : Int) ∧
      (r ≤ m → (w2.object obj).hits = 0 ∧
        InList w2.object .piece_link w2.free_list obj) ∧
      (m < r → (w2.object obj).hits = (w.object obj).hits ∧
        (w2.object obj).moved = (m : Int) ∧
        (w2.object obj).range = (r : Int) - (m : Int)) := by
  have hR0 : Rep E (setPiece w obj { w.object obj with moved := 0 }) s :=
    Rep_setPiece_inert hR obj _ (fun k => by cases k <;> rfl) rfl rfl rfl rfl rfl rfl rfl
  have e0 : (setPiece w obj { w.object obj with moved := 0 }).object obj
      = { w.object obj with moved := 0 } := by rw [setPiece_object, if_pos rfl]
  have hmap : ∀ c, ((setPiece w obj { w.object obj with moved := 0 }).map c).on_board
      = (w.map c).on_board := fun _ => rfl
  have htr0 : ∀ k, k < min m r → ∃ l h,
      sat_track E (setPiece w obj { w.object obj with moved := 0 }) (k + 1)
        ((setPiece w obj { w.object obj with moved := 0 }).object obj).loc
        ((setPiece w obj { w.object obj with moved := 0 }).object obj).func = some (l, h) ∧
      ((setPiece w obj { w.object obj with moved := 0 }).map l).on_board = true := by
    intro k hk
    obtain ⟨l, h, u1, u2⟩ := htrack k hk
    refine ⟨l, h, ?_, u2⟩
    rw [sat_track_congr E w _ hmap, e0]
    exact u1
  obtain ⟨w2, a1, a2, a3, a4, a5⟩ := move_sat_loop_run E obj hSA hSF hoff hmh m m r fuel
    (setPiece w obj { w.object obj with moved := 0 }) s hR0 hobj
    (by rw [e0]; exact hlive) (by rw [e0]; exact hsat)
    (by rw [e0]; exact hm) (by rw [e0])
    (by rw [e0]; show (0 : Int) + (m : Int) = (m : Int); omega)
    (by rw [e0]; exact hr) hr1 hf htr0
  rw [sat_track_congr E w _ hmap, e0] at a2
  have hrange : (w2.object obj).range = (r : Int) - ((min m r : Nat) : Int) := by
    rw [a3]
    omega
  refine ⟨w2, a1, a2, hrange, a4, ?_⟩
  intro hlt
  obtain ⟨b1, b2⟩ := a5 hlt
  rw [e0] at b1
  refine ⟨b1, b2, ?_⟩
  rw [hrange]
  have : min m r = m := by omega
  rw [this]

/-- Witness for C19: the satellite of `mixedWorld` (budget 10, range 500)
flies its ten steps, bouncing off the upper edge after the first. -/
theorem move_sat_runs_witness :
    (Rep gameEnv mixedWorld mixedShape ∧ 3 < gameEnv.LIST_SIZE ∧
      0 < (mixedWorld.object 3).hits ∧ (mixedWorld.object 3).type = gameEnv.SATELLITE ∧
      gameEnv.SATELLITE ≠ gameEnv.ARMY ∧ gameEnv.SATELLITE ≠ gameEnv.FIGHTER ∧
      1 ≤ (gameEnv.piece_attr gameEnv.SATELLITE).max_hits ∧
      obj_moves gameEnv (mixedWorld.object 3) = ((10 : Nat) : Int) ∧
      (mixedWorld.object 3).range = ((500 : Nat) : Int)) ∧
    ∃ w2, move_sat gameEnv 14 mixedWorld 3 = .ok w2 ∧
      sat_track gameEnv mixedWorld (min 10 500) (mixedWorld.object 3).loc
        (mixedWorld.object 3).func = some ((w2.object 3).loc, (w2.object 3).func) ∧
      (w2.object 3).range = ((500 : Nat) : Int) - ((min 10 500 : Nat) : Int) ∧
      (500 ≤ 10 → (w2.object 3).hits = 0 ∧
        InList w2.object .piece_link w2.free_list 3) ∧
      (10 < 500 → (w2.object 3).hits = (mixedWorld.object 3).hits ∧
        (w2.object 3).moved = ((10 : Nat) : Int) ∧
        (w2.object 3).range = ((500 : Nat) : Int) - ((10 : Nat) : Int)) :=
  ⟨⟨mixedWorld_rep, by decide, by decide, by decide, by decide, by decide, by decide,
      by decide, by decide⟩,
    move_sat_runs gameEnv 14 mixedWorld mixedShape 3 10 500 mixedWorld_rep (by decide)
      (by decide) (by decide) (by decide) (by decide)
      (by
        intro i
        unfold gameEnv gameDirOffset
        dsimp only
        split_ifs <;> decide)
      (by decide) (by decide) (by decide) (by decide) (by decide)
      (by
        intro k hk
        have hk10 : k < 10 := by omega
        interval_cases k <;> exact ⟨_, _, rfl, by decide⟩)⟩


/-- A satellite with two squares of range left: `move_sat` moves the
satellite of `mixedWorld`, its range set to 2, two squares, from cell 203 by
cell 104 to cell 205, and kills it there. -/
theorem move_sat_burns :
    ∃ w2, move_sat gameEnv 14
        (setPiece mixedWorld 3 { mixedWorld.object 3 with range := 2 }) 3 = .ok w2 ∧
      (w2.object 3).hits = 0 ∧ (w2.object 3).loc = 205 ∧ (w2.object 3).range = 0 ∧
      InList w2.object .piece_link w2.free_list 3 := by
  have hR1 : Rep gameEnv (setPiece mixedWorld 3 { mixedWorld.object 3 with range := 2 })
      mixedShape :=
    Rep_setPiece_inert mixedWorld_rep 3 _ (fun k => by cases k <;> rfl) rfl rfl rfl rfl rfl
      rfl rfl
  have hR2 : Rep gameEnv (setPiece (setPiece mixedWorld 3
      { mixedWorld.object 3 with range := 2 }) 3
      { (setPiece mixedWorld 3 { mixedWorld.object 3 with range := 2 }).object 3 with
        moved := 0 }) mixedShape :=
    Rep_setPiece_inert hR1 3 _ (fun k => by cases k <;> rfl) rfl rfl rfl rfl rfl rfl rfl
  obtain ⟨w2, a1, a2, a3, a4, _⟩ := move_sat_loop_run gameEnv 3 (by decide) (by decide)
    (by
      intro i
      unfold gameEnv gameDirOffset
      dsimp only
      split_ifs <;> decide)
    (by decide) 10 10 2 14 _ mixedShape hR2 (by decide) (by decide) (by decide) (by decide)
    (by decide) (by decide) (by decide) (by decide) (by decide)
    (by
      intro k hk
      have hk2 : k < 2 := by omega
      interval_cases k <;> exact ⟨_, _, rfl, by decide⟩)
  have e : sat_track gameEnv (setPiece (setPiece mixedWorld 3
      { mixedWorld.object 3 with range := 2 }) 3
      { (setPiece mixedWorld 3 { mixedWorld.object 3 with range := 2 }).object 3 with
        moved := 0 }) (min 10 2) 203 (-13) = some (205, -15) := by decide
  have e2 : some ((205 : Int), (-15 : Int)) = some ((w2.object 3).loc, (w2.object 3).func) :=
    e.symm.trans a2
  have e3 : (205 : Int) = (w2.object 3).loc := congrArg Prod.fst (Option.some.inj e2)
  obtain ⟨b1, b2⟩ := a4 (by decide)
  exact ⟨w2, a1, b1, e3.symm, a3, b2⟩

/-! ## The piece shown when the head of the list is no satellite -/

theorem find_obj_at_loc_loop_best (E : Env) (o : Heap) :
    ∀ (l : List Nat) (pv p : Ptr) (fuel best : Nat), Seg o .loc_link pv p l →
      l.length ≤ fuel → (o best).type ≠ E.SATELLITE →
      ∃ r, find_obj_at_loc_loop E o fuel p best = .ok (some r) ∧ (r = best ∨ r ∈ l) ∧
        (o r).type ≠ E.SATELLITE ∧ (o best).type ≤ (o r).type ∧
        ∀ x, x ∈ l → (o x).type ≠ E.SATELLITE → (o x).type ≤ (o r).type := by
  intro l
  induction l with
  | nil =>
    intro pv p fuel best hs _ hb
    have : p = none := hs
    subst this
    refine ⟨best, by cases fuel <;> rfl, Or.inl rfl, hb, le_refl _, ?_⟩
    intro x hx
    exact absurd hx (List.not_mem_nil x)
  | cons a t ih =>
    intro pv p fuel best hs hlen hb
    obtain ⟨h1, _, h3⟩ := hs
    subst h1
    cases fuel with
    | zero => simp at hlen
    | succ f =>
      have hlen2 : t.length ≤ f := by simpa using hlen
      by_cases hc : (o a).type > (o best).type ∧ (o a).type ≠ E.SATELLITE
      · obtain ⟨r, k1, k2, k3, k4, k5⟩ := ih (some a) (getL .loc_link (o a)).next f a h3 hlen2
          hc.2
        refine ⟨r, ?_, ?_, k3, ?_, ?_⟩
        · rw [find_obj_at_loc_loop, if_pos hc]
          exact k1
        · rcases k2 with e | e
          · exact Or.inr (e ▸ List.mem_cons_self a t)
          · exact Or.inr (List.mem_cons_of_mem a e)
        · have := hc.1
          omega
        · intro x hx hxs
          rcases List.mem_cons.mp hx with e | e
          · rw [e]; exact k4
          · exact k5 x e hxs
      · obtain ⟨r, k1, k2, k3, k4, k5⟩ := ih (some a) (getL .loc_link (o a)).next f best h3
          hlen2 hb
        refine ⟨r, ?_, ?_, k3, k4, ?_⟩
        · rw [find_obj_at_loc_loop, if_neg hc]
          exact k1
        · rcases k2 with e | e
          · exact Or.inl e
          · exact Or.inr (List.mem_cons_of_mem a e)
        · intro x hx hxs
          rcases List.mem_cons.mp hx with e | e
          · rw [e]
            have : ¬ (o a).type > (o best).type := fun h => hc ⟨h, by rw [← e]; exact hxs⟩
            omega
          · exact k5 x e hxs

/-- In a well-formed state, when the first piece of the location list of a
cell is not a satellite, `find_obj_at_loc` returns a member of the list that
is not a satellite and whose kind is the highest among the members that are
not satellites. -/
theorem find_obj_at_loc_prefers (E : Env) (fuel : Nat) (w : World) (s : Shape) (loc : Int)
    (a : Nat) (hR : Rep E w s) (hf : E.LIST_SIZE ≤ fuel) (hhead : (w.map loc).objp = some a)
    (hna : (w.object a).type ≠ E.SATELLITE) :
    ∃ r, find_obj_at_loc E fuel w loc = .ok (some r) ∧
      InList w.object .loc_link (w.map loc).objp r ∧
      (w.object r).type ≠ E.SATELLITE ∧
      ∀ x, InList w.object .loc_link (w.map loc).objp x →
        (w.object x).type ≠ E.SATELLITE → (w.object x).type ≤ (w.object r).type := by
  have hseg := hR.cell_seg loc
  have hlen : (s.cell loc).length ≤ fuel :=
    le_trans (Fam_length_le _ _ _ _ _ hR.toStr.cells loc) hf
  cases hl : s.cell loc with
  | nil =>
    rw [hl] at hseg
    have : (w.map loc).objp = none := hseg
    rw [this] at hhead
    exact absurd hhead (by simp)
  | cons a2 t =>
    rw [hl] at hseg hlen
    obtain ⟨h1, _, h3⟩ := hseg
    have he : some a2 = some a := h1.symm.trans hhead
    have : a2 = a := Option.some.inj he
    subst this
    have hlen2 : t.length ≤ fuel := by
      have : t.length + 1 ≤ fuel := by simpa using hlen
      omega
    obtain ⟨r, k1, k2, k3, k4, k5⟩ := find_obj_at_loc_loop_best E w.object t (some a2) _ fuel a2
      h3 hlen2 hna
    have hmem : ∀ x, InList w.object .loc_link (w.map loc).objp x ↔ x ∈ a2 :: t := by
      intro x
      rw [InList_cell_iff hR loc x, hl]
    refine ⟨r, ?_, ?_, k3, ?_⟩
    · unfold find_obj_at_loc
      rw [hhead]
      exact k1
    · rw [hmem]
      rcases k2 with e | e
      · rw [e]; exact List.mem_cons_self _ _
      · exact List.mem_cons_of_mem _ e
    · intro x hx hxs
      rcases List.mem_cons.mp ((hmem x).mp hx) with e | e
      · rw [e]; exact k4
      · exact k5 x e hxs

/-! ## Well-formed states with cargo of any owner -/

theorem Rep.toWf {E : Env} {w : World} {s : Shape} (h : Rep E w s) : Wf E w s where
  piece_seg := h.piece_seg
  piece_nodup := h.piece_nodup
  cell_seg := h.cell_seg
  cell_nodup := h.cell_nodup
  cargo_seg := h.cargo_seg
  cargo_nodup := h.cargo_nodup
  free_mem := h.free_mem
  user_mem := h.user_mem
  comp_mem := h.comp_mem
  cell_mem := h.cell_mem
  cargo_mem := h.cargo_mem
  hits_nonneg := h.hits_nonneg
  ship_ok := fun y x hy hl hs =>
    ⟨(h.ship_ok y x hy hl hs).1, (h.ship_ok y x hy hl hs).2.1, (h.ship_ok y x hy hl hs).2.2.1,
      (h.ship_ok y x hy hl hs).2.2.2.2⟩
  count_ok := h.count_ok

theorem Wf.str {E : Env} {w : World} {s : Shape} (h : Wf E w s) :
    Str E.LIST_SIZE w s where
  pieces :=
    { seg := h.piece_seg
      nodup := h.piece_nodup
      disj := by
        intro i j x hi hj
        cases i with
        | free =>
          have h1 := (h.free_mem x).mp hi
          cases j with
          | free => rfl
          | user t => have h2 := (h.user_mem t x).mp hj; omega
          | comp t => have h2 := (h.comp_mem t x).mp hj; omega
        | user t =>
          have h1 := (h.user_mem t x).mp hi
          cases j with
          | free => have h2 := (h.free_mem x).mp hj; omega
          | user t2 =>
            have h2 := (h.user_mem t2 x).mp hj
            rw [← h1.2.2.2, ← h2.2.2.2]
          | comp t2 =>
            have h2 := (h.comp_mem t2 x).mp hj
            exact absurd h1.2.2.1 h2.2.2.1
        | comp t =>
          have h1 := (h.comp_mem t x).mp hi
          cases j with
          | free => have h2 := (h.free_mem x).mp hj; omega
          | user t2 =>
            have h2 := (h.user_mem t2 x).mp hj
            exact absurd h2.2.2.1 h1.2.2.1
          | comp t2 =>
            have h2 := (h.comp_mem t2 x).mp hj
            rw [← h1.2.2.2, ← h2.2.2.2]
      bound := by
        intro i x hi
        cases i with
        | free => exact ((h.free_mem x).mp hi).1
        | user t => exact ((h.user_mem t x).mp hi).1
        | comp t => exact ((h.comp_mem t x).mp hi).1 }
  cells :=
    { seg := h.cell_seg
      nodup := h.cell_nodup
      disj := by
        intro i j x hi hj
        rw [← ((h.cell_mem i x).mp hi).2.2, ← ((h.cell_mem j x).mp hj).2.2]
      bound := fun i x hi => ((h.cell_mem i x).mp hi).1 }
  cargos :=
    { seg := h.cargo_seg
      nodup := h.cargo_nodup
      disj := by
        intro i j x hi hj
        have h1 := ((h.cargo_mem i x).mp hi).2.2
        have h2 := ((h.cargo_mem j x).mp hj).2.2
        rw [h1] at h2
        exact Option.some.inj h2
      bound := fun i x hi => ((h.cargo_mem i x).mp hi).1 }

theorem Wf.no_cargo {E : Env} {w : World} {s : Shape} (hR : Wf E w s) (x : Nat)
    (h : (w.object x).cargo = none) : s.cargo x = [] := by
  have := hR.cargo_seg x
  unfold cargoHead at this
  rw [h] at this
  exact Seg_nil_of_none _ _ _ _ this

theorem Wf.on_own_list {E : Env} {w : World} {s : Shape} (hR : Wf E w s) (obj : Nat)
    (hobj : obj < E.LIST_SIZE) (hlive : 0 < (w.object obj).hits) :
    obj ∈ s.piece (pidx (LIST E (w.object obj).owner) (w.object obj).type) := by
  unfold LIST
  split_ifs with h
  · exact (hR.user_mem _ obj).mpr ⟨hobj, hlive, h, rfl⟩
  · exact (hR.comp_mem _ obj).mpr ⟨hobj, hlive, h, rfl⟩

theorem Wf_kill_one (E : Env) (w : World) (s : Shape) (list : ListSel) (obj : Nat)
    (hR : Wf E w s) (hobj : obj < E.LIST_SIZE) (hlive : 0 < (w.object obj).hits)
    (hcargo : (w.object obj).cargo = none) (hlist : list = LIST E (w.object obj).owner) :
    Wf E (kill_one E w list obj) (killShape s obj) := by
  have hS := hR.str
  have hmem : ∀ x, obj ∈ s.cargo x ↔ (w.object obj).ship = some x := by
    intro x
    rw [hR.cargo_mem x obj]
    exact ⟨fun h => h.2.2, fun h => ⟨hobj, hlive, h⟩⟩
  have hS2 : Str E.LIST_SIZE (kill_one E w list obj) (killShape s obj) := by
    refine Str_kill_one E _ w s list obj hS hobj ?_ ?_ ?_ hmem
    · cases list
      · exact Or.inl rfl
      · exact Or.inr rfl
    · rw [hlist]; exact hR.on_own_list obj hobj hlive
    · exact (hR.cell_mem _ obj).mpr ⟨hobj, hlive, rfl⟩
  have hnil : s.cargo obj = [] := hR.no_cargo obj hcargo
  have herase : ∀ (l : List Nat), l.Nodup → ∀ x, x ∈ l.erase obj ↔ x ≠ obj ∧ x ∈ l :=
    fun l hl x => hl.mem_erase_iff
  refine
    { piece_seg := hS2.pieces.seg
      piece_nodup := hS2.pieces.nodup
      cell_seg := hS2.cells.seg
      cell_nodup := hS2.cells.nodup
      cargo_seg := hS2.cargos.seg
      cargo_nodup := hS2.cargos.nodup
      free_mem := ?_
      user_mem := ?_
      comp_mem := ?_
      cell_mem := ?_
      cargo_mem := ?_
      hits_nonneg := ?_
      ship_ok := ?_
      count_ok := ?_ }
  · intro x
    show x ∈ obj :: s.piece .free ↔ _
    rw [kill_one_hits, List.mem_cons, hR.free_mem x]
    by_cases hx : x = obj
    · subst hx; simp [hobj]
    · simp [hx]
  · intro t x
    show x ∈ (s.piece (.user t)).erase obj ↔ _
    rw [herase _ (hR.piece_nodup _), kill_one_hits, kill_one_owner, kill_one_type,
      hR.user_mem t x]
    by_cases hx : x = obj
    · subst hx; simp
    · simp [hx]
  · intro t x
    show x ∈ (s.piece (.comp t)).erase obj ↔ _
    rw [herase _ (hR.piece_nodup _), kill_one_hits, kill_one_owner, kill_one_type,
      hR.comp_mem t x]
    by_cases hx : x = obj
    · subst hx; simp
    · simp [hx]
  · intro c x
    show x ∈ (s.cell c).erase obj ↔ _
    rw [herase _ (hR.cell_nodup _), kill_one_hits, kill_one_loc, hR.cell_mem c x]
    by_cases hx : x = obj
    · subst hx; simp
    · simp [hx]
  · intro x y
    show y ∈ (s.cargo x).erase obj ↔ _
    rw [herase _ (hR.cargo_nodup _), kill_one_hits, kill_one_ship, hR.cargo_mem x y]
    by_cases hy : y = obj
    · subst hy; simp
    · simp [hy]
  · intro x hx
    rw [kill_one_hits]
    split_ifs
    · exact le_refl 0
    · exact hR.hits_nonneg x hx
  · intro y x hy hly hsh
    rw [kill_one_hits] at hly
    have hyo : y ≠ obj := by
      intro e; rw [if_pos e] at hly; exact absurd hly (lt_irrefl 0)
    rw [if_neg hyo] at hly
    rw [kill_one_ship, if_neg hyo] at hsh
    obtain ⟨h1, h2, h3, h5⟩ := hR.ship_ok y x hy hly hsh
    have hxo : x ≠ obj := by
      intro e
      have : y ∈ s.cargo x := (hR.cargo_mem x y).mpr ⟨hy, hly, hsh⟩
      rw [e, hnil] at this
      exact absurd this (List.not_mem_nil y)
    refine ⟨h1, ?_, ?_, ?_⟩
    · rw [kill_one_hits, if_neg hxo]; exact h2
    · rw [kill_one_loc, kill_one_loc]; exact h3
    · have hseg := hS2.cargos.seg y
      have hy0 : s.cargo y = [] := hR.no_cargo y h5
      have : (killShape s obj).cargo y = [] := by
        show (s.cargo y).erase obj = []
        rw [hy0]; rfl
      rw [this] at hseg
      exact hseg
  · intro x hx hlx
    rw [kill_one_hits] at hlx
    have hxo : x ≠ obj := by
      intro e; rw [if_pos e] at hlx; exact absurd hlx (lt_irrefl 0)
    rw [if_neg hxo] at hlx
    rw [kill_one_count]
    show _ = (((s.cargo x).erase obj).length : Int)
    have hc := hR.count_ok x hx hlx
    split_ifs with hsh
    · have hin : obj ∈ s.cargo x := (hmem x).mpr hsh
      rw [List.length_erase_of_mem hin, hc]
      have : 0 < (s.cargo x).length := List.length_pos_of_mem hin
      omega
    · have hin : obj ∉ s.cargo x := fun h => hsh ((hmem x).mp h)
      rw [List.erase_of_not_mem hin, hc]

theorem Wf_of_same {E : Env} {w w2 : World} {s : Shape} (h : SameButViews w w2)
    (hR : Wf E w s) : Wf E w2 s := by
  obtain ⟨h1, _, h3, h4, h5, h6, _⟩ := h
  have hp : pieceHead w2 = pieceHead w := by
    funext i
    cases i with
    | free => exact h3
    | user t => show w2.user_obj t = w.user_obj t; rw [h4]
    | comp t => show w2.comp_obj t = w.comp_obj t; rw [h5]
  have hc : cellHead w2 = cellHead w := by
    funext c; unfold cellHead; rw [h1]
  have hg : cargoHead w2 = cargoHead w := by
    funext c; unfold cargoHead; rw [h6]
  exact
    { piece_seg := by rw [h6, hp]; exact hR.piece_seg
      piece_nodup := hR.piece_nodup
      cell_seg := by rw [h6, hc]; exact hR.cell_seg
      cell_nodup := hR.cell_nodup
      cargo_seg := by rw [h6, hg]; exact hR.cargo_seg
      cargo_nodup := hR.cargo_nodup
      free_mem := by rw [h6]; exact hR.free_mem
      user_mem := by rw [h6]; exact hR.user_mem
      comp_mem := by rw [h6]; exact hR.comp_mem
      cell_mem := by rw [h6]; exact hR.cell_mem
      cargo_mem := by rw [h6]; exact hR.cargo_mem
      hits_nonneg := by rw [h6]; exact hR.hits_nonneg
      ship_ok := by rw [h6]; exact hR.ship_ok
      count_ok := by rw [h6]; exact hR.count_ok }

/-! ## `kill_obj` on a piece whose cargo has its owner -/

theorem kill_cargo_loop_wf (E : Env) (list : ListSel) (obj : Nat) :
    ∀ (l : List Nat) (fuel : Nat) (w : World) (s : Shape), Wf E w s → s.cargo obj = l →
      obj < E.LIST_SIZE → 0 < (w.object obj).hits → list = LIST E (w.object obj).owner →
      (∀ y, y ∈ l → (w.object y).owner = (w.object obj).owner) →
      l.length ≤ fuel →
      ∃ w1 s1, kill_cargo_loop E list obj fuel w = .ok w1 ∧ Wf E w1 s1 ∧
        (w1.object obj).cargo = none ∧ KillFrame w w1 l := by
  intro l
  induction l with
  | nil =>
    intro fuel w s hR hl hobj hlive hlist hown hlen
    have hseg := hR.cargo_seg obj
    rw [hl] at hseg
    have hc : (w.object obj).cargo = none := hseg
    refine ⟨w, s, ?_, hR, hc, ?_⟩
    · unfold kill_cargo_loop
      rw [hc]
    · exact ⟨fun x => by simp, fun _ => rfl, fun _ => rfl, fun _ => rfl, fun _ => rfl,
        fun _ => rfl⟩
  | cons c t ih =>
    intro fuel w s hR hl hobj hlive hlist hown hlen
    have hseg := hR.cargo_seg obj
    rw [hl] at hseg
    have hc : (w.object obj).cargo = some c := hseg.1
    have hcm : c ∈ s.cargo obj := by rw [hl]; exact List.mem_cons_self c t
    obtain ⟨hc1, hc2, hc3⟩ := (hR.cargo_mem obj c).mp hcm
    obtain ⟨_, _, _, hcc⟩ := hR.ship_ok c obj hc1 hc2 hc3
    have hoc : (w.object c).owner = (w.object obj).owner := hown c (List.mem_cons_self c t)
    have hne : obj ≠ c := by
      intro e
      rw [← e] at hcc
      rw [hcc] at hc
      exact absurd hc (by simp)
    cases fuel with
    | zero => simp at hlen
    | succ f =>
      have hR1 := Wf_kill_one E w s list c hR hc1 hc2 hcc (by rw [hlist, hoc])
      have hl1 : (killShape s c).cargo obj = t := by
        show (s.cargo obj).erase c = t
        rw [hl]; simp
      have hlive1 : 0 < ((kill_one E w list c).object obj).hits := by
        rw [kill_one_hits, if_neg hne]; exact hlive
      have hlist1 : list = LIST E ((kill_one E w list c).object obj).owner := by
        rw [kill_one_owner]; exact hlist
      have hown1 : ∀ y, y ∈ t → ((kill_one E w list c).object y).owner =
          ((kill_one E w list c).object obj).owner := by
        intro y hy
        rw [kill_one_owner, kill_one_owner]
        exact hown y (List.mem_cons_of_mem c hy)
      obtain ⟨w1, s1, h1, h2, h3, h4⟩ := ih f _ _ hR1 hl1 hobj hlive1 hlist1 hown1
        (by simpa using hlen)
      refine ⟨w1, s1, ?_, h2, h3, ?_⟩
      · unfold kill_cargo_loop
        rw [hc]
        exact h1
      · exact KillFrame_trans (KillFrame_kill_one E w list c) h4

theorem kill_obj_wf (E : Env) (fuel : Nat) (w : World) (s : Shape) (obj : Nat) (loc : Int)
    (hR : Wf E w s) (hobj : obj < E.LIST_SIZE) (hlive : 0 < (w.object obj).hits)
    (hown : ∀ y, y ∈ s.cargo obj → (w.object y).owner = (w.object obj).owner)
    (hb : (w.map loc).on_board = true) (hf : E.LIST_SIZE ≤ fuel) :
    ∃ w2 s2, kill_obj E fuel w obj loc = .ok w2 ∧ Wf E w2 s2 ∧
      KillFrame w w2 (s.cargo obj ++ [obj]) := by
  have hlen : (s.cargo obj).length ≤ fuel :=
    le_trans (Fam_length_le _ _ _ _ _ hR.str.cargos obj) hf
  obtain ⟨w1, s1, h1, h2, h3, h4⟩ :=
    kill_cargo_loop_wf E (LIST E (w.object obj).owner) obj (s.cargo obj) fuel w s hR rfl hobj
      hlive rfl hown hlen
  have hno : obj ∉ s.cargo obj := by
    intro hm
    obtain ⟨q1, q2, q3⟩ := (hR.cargo_mem obj obj).mp hm
    have := (hR.ship_ok obj obj q1 q2 q3).2.2.2
    have hnil := hR.no_cargo obj this
    rw [hnil] at hm
    exact absurd hm (List.not_mem_nil obj)
  have hlive1 : 0 < (w1.object obj).hits := by
    rw [h4.1, if_neg hno]; exact hlive
  have hR2 := Wf_kill_one E w1 s1 (LIST E (w.object obj).owner) obj h2 hobj hlive1 h3
    (by rw [h4.2.1])
  have hk2 := KillFrame_trans h4 (KillFrame_kill_one E w1 (LIST E (w.object obj).owner) obj)
  have hb2 : ((kill_one E w1 (LIST E (w.object obj).owner) obj).map loc).on_board = true := by
    rw [hk2.2.2.2.2.1]; exact hb
  obtain ⟨w3, h5, h6⟩ := scan_ok E fuel _ (MAP E (w.object obj).owner) loc
    (hR2.str.scannable fuel hf) hb2
  refine ⟨w3, killShape s1 obj, ?_, Wf_of_same h6 hR2, KillFrame_of_same hk2 h6⟩
  unfold kill_obj
  simp only [h1]
  exact h5

/-! ## Killing a carrier -/

theorem Moved_wf {E : Env} {w : World} {s : Shape} {obj : Nat} {B : Int} {w9 : World}
    {s9 : Shape} {b : Option Nat} (hR : Rep E w s) (hM : Moved E w s obj B w9 s9 b)
    (hobj : obj < E.LIST_SIZE) (hlive : 0 < (w.object obj).hits)
    (hb : ∀ t, b = some t → t ≠ obj ∧ (w.object t).ship = none ∧
      (w.object obj).cargo = none) :
    Wf E w9 s9 := by
  have hcm := Moved_cell_mem hR hM hobj hlive
  have hgm := Moved_cargo_mem hR hM hobj hlive
  have hcargo9 : ∀ y, s9.cargo y = [] → (w9.object y).cargo = none := by
    intro y hy
    have := hM.str.cargos.seg y
    rw [hy] at this
    exact this
  refine
    { piece_seg := hM.str.pieces.seg
      piece_nodup := hM.str.pieces.nodup
      cell_seg := hM.str.cells.seg
      cell_nodup := hM.str.cells.nodup
      cargo_seg := hM.str.cargos.seg
      cargo_nodup := hM.str.cargos.nodup
      free_mem := ?_
      user_mem := ?_
      comp_mem := ?_
      cell_mem := hcm
      cargo_mem := hgm
      hits_nonneg := ?_
      ship_ok := ?_
      count_ok := ?_ }
  · intro x
    rw [hM.piece_eq, hM.hits]
    exact hR.free_mem x
  · intro t x
    rw [hM.piece_eq, hM.hits, hM.owner, hM.type]
    exact hR.user_mem t x
  · intro t x
    rw [hM.piece_eq, hM.hits, hM.owner, hM.type]
    exact hR.comp_mem t x
  · intro x hx
    rw [hM.hits]
    exact hR.hits_nonneg x hx
  · intro y x hy hly hsh
    rw [hM.hits] at hly
    rw [hM.ship] at hsh
    by_cases hyo : y = obj
    · subst hyo
      rw [if_pos rfl] at hsh
      obtain ⟨q1, q3, q4⟩ := hb x hsh
      obtain ⟨p1, _, _⟩ := hM.boarded x hsh
      obtain ⟨a1, a2, a3⟩ := (hcm B x).mp p1
      have hlo : (w9.object y).loc = B := by rw [hM.loc, if_pos (Or.inl rfl)]
      refine ⟨a1, a2, a3.trans hlo.symm, ?_⟩
      · refine hcargo9 y ?_
        rw [hM.cargo_eq, if_neg (by rw [hsh]; exact fun e => q1 (Option.some.inj e)),
          hR.cargo_nil y q4]
        rfl
    · rw [if_neg hyo] at hsh
      obtain ⟨p1, p2, p3, p4, p5⟩ := hR.ship_ok y x hy hly hsh
      have hyx : y ∈ s.cargo x := (hR.cargo_mem x y).mpr ⟨hy, hly, hsh⟩
      have hlocs : (w9.object x).loc = (w9.object y).loc := by
        rw [hM.loc, hM.loc]
        by_cases hxo : x = obj
        · subst hxo
          rw [if_pos (Or.inl rfl), if_pos (Or.inr hyx)]
        · have hx1 : x ∉ s.cargo obj := by
            intro hm
            obtain ⟨r1, r2, r3⟩ := (hR.cargo_mem obj x).mp hm
            have := (hR.ship_ok x obj r1 r2 r3).2.2.2.2
            rw [hR.cargo_nil x this] at hyx
            exact absurd hyx (List.not_mem_nil y)
          have hy1 : y ∉ s.cargo obj := by
            intro hm
            have := ((hR.cargo_mem obj y).mp hm).2.2
            rw [hsh] at this
            exact hxo (Option.some.inj this)
          rw [if_neg (by rintro (e | e); exact hxo e; exact hx1 e),
            if_neg (by rintro (e | e); exact hyo e; exact hy1 e)]
          exact p3
      refine ⟨p1, by rw [hM.hits]; exact p2, hlocs, ?_⟩
      refine hcargo9 y ?_
      have hby : b ≠ some y := by
        intro e
        have := (hb y e).2.1
        rw [hsh] at this
        exact absurd this (by simp)
      rw [hM.cargo_eq, if_neg hby, hR.cargo_nil y p5]
      rfl
  · intro x hx hlx
    rw [hM.hits] at hlx
    rw [hM.count, hM.cargo_eq, hR.count_ok x hx hlx]
    have hmem : obj ∈ s.cargo x ↔ (w.object obj).ship = some x := by
      rw [hR.cargo_mem x obj]
      exact ⟨fun h => h.2.2, fun h => ⟨hobj, hlive, h⟩⟩
    have hlen : (((s.cargo x).erase obj).length : Int) =
        if (w.object obj).ship = some x then ((s.cargo x).length : Int) - 1
        else ((s.cargo x).length : Int) := by
      by_cases hm : obj ∈ s.cargo x
      · rw [if_pos (hmem.mp hm), List.length_erase_of_mem hm]
        have := List.length_pos_of_mem hm
        omega
      · rw [if_neg (fun e => hm (hmem.mpr e)), List.erase_of_not_mem hm]
    by_cases hbx : b = some x
    · rw [if_pos hbx, if_pos hbx, List.length_cons]
      push_cast
      rw [hlen]
    · rw [if_neg hbx, if_neg hbx, hlen]
      simp


/-- C3 as stated fails: in the well-formed state `mixedWorld` the user's army
(record 2) moves to cell 102 and boards the computer's transport (record 0)
there, which leaves every list well formed and every membership as the
invariants demand.  `kill_obj` of that transport then unlinks the army from
the computer's list of armies, of which it is no member: the army is dead
and on the free list, and it is still a member of `user_obj[ARMY]`. -/
theorem kill_obj_leaves_foreign_cargo :
    ∃ w1 s1, move_obj gameEnv 4 mixedWorld 2 102 = .ok w1 ∧ Wf gameEnv w1 s1 ∧
      0 < (w1.object 0).hits ∧ InList w1.object .cargo_link (w1.object 0).cargo 2 ∧
      (w1.map 102).on_board = true ∧
      ∃ w2, kill_obj gameEnv 4 w1 0 102 = .ok w2 ∧ (w2.object 2).hits = 0 ∧
        InList w2.object .piece_link w2.free_list 2 ∧
        InList w2.object .piece_link (w2.user_obj gameEnv.ARMY) 2 := by
  obtain ⟨w9, s9, b, h1, hM⟩ := move_obj_full gameEnv 4 mixedWorld mixedShape 2 102
    mixedWorld_rep (by decide) (by decide) (by decide) (by decide) (by decide)
  have hA := (Moved_army mixedWorld_rep hM (by decide) (by decide) (by decide) (by decide)
    (by decide) (by decide) (by decide)).1
  have hcell : ∀ t, t ∈ mixedShape.cell 102 → (mixedWorld.object t).ship = none := by decide
  have hW : Wf gameEnv w9 s9 := Moved_wf mixedWorld_rep hM (by decide) (by decide)
    (fun t ht => ⟨(hA t ht).2.1, hcell t (hA t ht).1, by decide⟩)
  obtain ⟨w1, k1, k2⟩ := ok_of_check (move_obj gameEnv 4 mixedWorld 2 102)
    (fun w => decide (0 < (w.object 0).hits ∧
        walk w.object .cargo_link 0 (w.object 0).cargo = some 2 ∧
        (w.map 102).on_board = true) &&
      (match kill_obj gameEnv 4 w 0 102 with
        | .ok w2 => decide ((w2.object 2).hits = 0 ∧
            walk w2.object .piece_link 1 w2.free_list = some 2 ∧
            walk w2.object .piece_link 0 (w2.user_obj gameEnv.ARMY) = some 2)
        | .error _ => false))
    (by rfl)
  have e : w9 = w1 := by
    rw [h1] at k1
    exact Except.ok.inj k1
  rw [e] at hW
  rw [Bool.and_eq_true] at k2
  obtain ⟨k3, k4⟩ := k2
  obtain ⟨a1, a2, a3⟩ := of_decide_eq_true k3
  obtain ⟨w2, k5, k6⟩ := ok_of_check (kill_obj gameEnv 4 w1 0 102)
    (fun w2 => decide ((w2.object 2).hits = 0 ∧
      walk w2.object .piece_link 1 w2.free_list = some 2 ∧
      walk w2.object .piece_link 0 (w2.user_obj gameEnv.ARMY) = some 2)) k4
  obtain ⟨b1, b2, b3⟩ := of_decide_eq_true k6
  exact ⟨w1, s9, k1, hW, a1, ⟨0, a2⟩, a3, w2, k5, b1, ⟨1, b2⟩, ⟨0, b3⟩⟩

/-- C3, amended: in a well-formed state, let a live piece of the pool be
such that every member of its cargo list has its owner.  `kill_obj` of the
piece, with an on-board cell to scan, returns, and afterwards the piece and
every member of its cargo list are dead (`hits = 0`), are members of the free
list, and are members of no list `user_obj[t]` or `comp_obj[t]` and of no
location list. -/
theorem kill_obj_frees_piece_and_cargo (E : Env) (fuel : Nat) (w : World) (s : Shape)
    (obj : Nat) (loc : Int) (hW : Wf E w s) (hobj : obj < E.LIST_SIZE)
    (hlive : 0 < (w.object obj).hits)
    (hown : ∀ y, InList w.object .cargo_link (w.object obj).cargo y →
      (w.object y).owner = (w.object obj).owner)
    (hb : (w.map loc).on_board = true) (hf : E.LIST_SIZE ≤ fuel) :
    ∃ w2, kill_obj E fuel w obj loc = .ok w2 ∧
      ∀ x, x = obj ∨ InList w.object .cargo_link (w.object obj).cargo x →
        (w2.object x).hits = 0 ∧
        InList w2.object .piece_link w2.free_list x ∧
        (∀ t, ¬ InList w2.object .piece_link (w2.user_obj t) x) ∧
        (∀ t, ¬ InList w2.object .piece_link (w2.comp_obj t) x) ∧
        ∀ c, ¬ InList w2.object .loc_link (w2.map c).objp x := by
  have hown2 : ∀ y, y ∈ s.cargo obj → (w.object y).owner = (w.object obj).owner :=
    fun y hy => hown y ((InList_iff_mem _ _ none _ _ y (hW.cargo_seg obj)).mpr hy)
  obtain ⟨w2, s2, h1, h2, h3⟩ := kill_obj_wf E fuel w s obj loc hW hobj hlive hown2 hb hf
  refine ⟨w2, h1, ?_⟩
  intro x hx
  have hxm : x ∈ s.cargo obj ++ [obj] := by
    rcases hx with e | e
    · rw [e]; simp
    · have := (InList_iff_mem _ _ none _ _ x (hW.cargo_seg obj)).mp e
      exact List.mem_append_left _ this
  have hxb : x < E.LIST_SIZE := by
    rcases List.mem_append.mp hxm with e | e
    · exact ((hW.cargo_mem obj x).mp e).1
    · have : x = obj := by simpa using e
      rw [this]; exact hobj
  have hh : (w2.object x).hits = 0 := by
    rw [h3.1, if_pos hxm]
  refine ⟨hh, ?_, ?_, ?_, ?_⟩
  · exact (InList_iff_mem _ _ none _ _ x (h2.piece_seg .free)).mpr
      ((h2.free_mem x).mpr ⟨hxb, hh⟩)
  · intro t h
    have := (h2.user_mem t x).mp ((InList_iff_mem _ _ none _ _ x (h2.piece_seg (.user t))).mp h)
    omega
  · intro t h
    have := (h2.comp_mem t x).mp ((InList_iff_mem _ _ none _ _ x (h2.piece_seg (.comp t))).mp h)
    omega
  · intro c h
    have := (h2.cell_mem c x).mp ((InList_iff_mem _ _ none _ _ x (h2.cell_seg c)).mp h)
    omega

/-- Witness for C3: the transport of `portWorld`, with its army aboard, is
killed at cell 101. -/
theorem kill_obj_frees_piece_and_cargo_witness :
    (Wf gameEnv portWorld portShape ∧ 0 < gameEnv.LIST_SIZE ∧
      0 < (portWorld.object 0).hits ∧
      (∀ y, InList portWorld.object .cargo_link (portWorld.object 0).cargo y →
        (portWorld.object y).owner = (portWorld.object 0).owner) ∧
      (portWorld.map 101).on_board = true ∧ gameEnv.LIST_SIZE ≤ 4) ∧
    ∃ w2, kill_obj gameEnv 4 portWorld 0 101 = .ok w2 ∧
      ∀ x, x = 0 ∨ InList portWorld.object .cargo_link (portWorld.object 0).cargo x →
        (w2.object x).hits = 0 ∧
        InList w2.object .piece_link w2.free_list x ∧
        (∀ t, ¬ InList w2.object .piece_link (w2.user_obj t) x) ∧
        (∀ t, ¬ InList w2.object .piece_link (w2.comp_obj t) x) ∧
        ∀ c, ¬ InList w2.object .loc_link (w2.map c).objp x :=
  have hown : ∀ y, InList portWorld.object .cargo_link (portWorld.object 0).cargo y →
      (portWorld.object y).owner = (portWorld.object 0).owner := fun y hy =>
    have hm := (portWorld_rep.cargo_mem 0 y).mp
      ((InList_iff_mem _ _ none _ _ y (portWorld_rep.cargo_seg 0)).mp hy)
    (portWorld_rep.ship_ok y 0 hm.1 hm.2.1 hm.2.2).2.2.2.1.symm
  ⟨⟨portWorld_rep.toWf, by decide, by decide, hown, by decide, by decide⟩,
    kill_obj_frees_piece_and_cargo gameEnv 4 portWorld portShape 0 101 portWorld_rep.toWf
      (by decide) (by decide) hown (by decide) (by decide)⟩

end Empire
